import Mathlib

/-!
Voxel-hash broad phase of ipc-toolkit: a shallow embedding.

Source: `src/spatial_hash/spatial_hash.cpp` (class `SpatialHash`).

Conventions of the embedding.

* `double` is the field `ℚ` with exact arithmetic. A floating division by zero
  leaves the finite numbers and is the error `Err.divByZero`.
* `int` is `Int`, vertex / edge / face indices and primitive IDs are `Nat`.
  In the definitions without suffix the cast `double → int` and the `int`
  arithmetic are exact (values are assumed to fit 32 bits). The definitions
  with the suffix `32` (`sizeGrid32`, `build32`, `buildSwept32`, `cellLoop32`,
  `voxelAxisIndex2VoxelIndex32`, `lookups32`) keep the width of `int`: a cast
  of a value that does not fit gives `INT_MIN`, products and sums are reduced
  to 32 bits by `wrap32`, the voxel size zero gives the infinite quotient whose
  cast is `INT_MIN`, and a loop whose upper bound is `INT_MAX` is the error
  `Err.nonTermination`. Grid sizing, the single-cell fallback, the linear voxel
  index and the coverage of the swept build are stated for them.
* The mesh is three-dimensional: a row of `V` is a `Vec3`, an
  `Eigen::ArrayMax3i` is an `Idx3`. Only the definitions of the namespace `Dyn`
  keep the run-time size of the vectors.
* `std::unordered_map<int, std::vector<int>>` is an association list,
  `std::unordered_set<int>` a duplicate-free list in first-insertion order.
* A failing `assert`, a read past the end of a vector or matrix and the
  dereference of `end()` are errors: every operation that can hit one returns
  `Except Err _`.
* `tbb::parallel_for` over a `blocked_range` is run as one chunk on one worker,
  in index order; there is one thread-local `Candidates`. The definitions whose
  name ends in `Par` take a schedule instead: chunks of the range assigned to
  workers, merged in worker order.
-/

namespace ipc

/-- The ways an operation of the embedding can fail. -/
inductive Err where
  | divByZero
  | outOfBounds
  | assertion
  | nonTermination
  deriving DecidableEq, Repr

deriving instance DecidableEq for Except

/-- A row of a vertex matrix (`Eigen::VectorX3d`, `dim = 3`). -/
structure Vec3 where
  x : ℚ
  y : ℚ
  z : ℚ
  deriving DecidableEq

/-- An integer triple (`Eigen::ArrayMax3i`, `dim = 3`). -/
structure Idx3 where
  x : Int
  y : Int
  z : Int
  deriving DecidableEq

namespace Vec3

/-- Coefficient-wise `a.array().min(b.array())`. -/
def cmin (a b : Vec3) : Vec3 := ⟨min a.x b.x, min a.y b.y, min a.z b.z⟩

/-- Coefficient-wise `a.array().max(b.array())`. -/
def cmax (a b : Vec3) : Vec3 := ⟨max a.x b.x, max a.y b.y, max a.z b.z⟩

/-- Vector difference `a - b`. -/
def sub (a b : Vec3) : Vec3 := ⟨a.x - b.x, a.y - b.y, a.z - b.z⟩

/-- Product with a scalar, `a * s`. -/
def scale (a : Vec3) (s : ℚ) : Vec3 := ⟨a.x * s, a.y * s, a.z * s⟩

/-- Shift of every coefficient, `a.array() + s`. -/
def addScalar (a : Vec3) (s : ℚ) : Vec3 := ⟨a.x + s, a.y + s, a.z + s⟩

/-- Largest coefficient, `a.maxCoeff()`. -/
def maxCoeff (a : Vec3) : ℚ := max (max a.x a.y) a.z

/-- Coefficient-wise `floor` followed by the cast to `int`. -/
def floor (a : Vec3) : Idx3 := ⟨⌊a.x⌋, ⌊a.y⌋, ⌊a.z⌋⟩

/-- Coefficient-wise `ceil` followed by the cast to `int`. -/
def ceil (a : Vec3) : Idx3 := ⟨⌈a.x⌉, ⌈a.y⌉, ⌈a.z⌉⟩

end Vec3

namespace Idx3

/-- Coefficient-wise minimum of two index triples. -/
def cmin (a b : Idx3) : Idx3 := ⟨min a.x b.x, min a.y b.y, min a.z b.z⟩

/-- Coefficient-wise maximum of two index triples. -/
def cmax (a b : Idx3) : Idx3 := ⟨max a.x b.x, max a.y b.y, max a.z b.z⟩

/-- Smallest coefficient, `a.minCoeff()`. -/
def minCoeff (a : Idx3) : Int := min (min a.x a.y) a.z

end Idx3

/-- Floating division `a / b`; the divisor zero is an error. -/
def fdiv (a b : ℚ) : Except Err ℚ :=
  if b = 0 then .error .divByZero else .ok (a / b)

/-- Bounds-checked read `xs[i]`. -/
def getE {α : Type} (xs : List α) (i : Nat) : Except Err α :=
  match xs[i]? with
  | some a => .ok a
  | none => .error .outOfBounds

/-- `V.colwise().minCoeff()`; a matrix without rows has no coefficient to read. -/
def colwiseMinCoeff : List Vec3 → Except Err Vec3
  | [] => .error .outOfBounds
  | v :: vs => .ok (vs.foldl Vec3.cmin v)

/-- `V.colwise().maxCoeff()`; a matrix without rows has no coefficient to read. -/
def colwiseMaxCoeff : List Vec3 → Except Err Vec3
  | [] => .error .outOfBounds
  | v :: vs => .ok (vs.foldl Vec3.cmax v)

/-- The collaborators declared outside `spatial_hash.cpp`: the two length
helpers used for auto-sizing and the six AABB predicates of
`ipc/ccd/broadphase.hpp`. They are parameters of the embedding. -/
structure External where
  average_edge_length : List Vec3 → List Vec3 → List (Nat × Nat) → ℚ
  average_displacement_length : List Vec3 → ℚ
  point_edge_aabb_cd : Vec3 → Vec3 → Vec3 → ℚ → Bool
  edge_edge_aabb_cd : Vec3 → Vec3 → Vec3 → Vec3 → ℚ → Bool
  point_triangle_aabb_cd : Vec3 → Vec3 → Vec3 → Vec3 → ℚ → Bool
  point_edge_aabb_ccd : Vec3 → Vec3 → Vec3 → Vec3 → Vec3 → Vec3 → ℚ → Bool
  edge_edge_aabb_ccd :
    Vec3 → Vec3 → Vec3 → Vec3 → Vec3 → Vec3 → Vec3 → Vec3 → ℚ → Bool
  point_triangle_aabb_ccd :
    Vec3 → Vec3 → Vec3 → Vec3 → Vec3 → Vec3 → Vec3 → Vec3 → ℚ → Bool

/-- Static `suggestGoodVoxelSize(V, E, F, inflation_radius)`. -/
def suggestGoodVoxelSize (ext : External) (V : List Vec3) (E : List (Nat × Nat))
    (_F : List (Nat × Nat × Nat)) (inflation_radius : ℚ) : ℚ :=
  let edge_len := ext.average_edge_length V V E
  2 * edge_len + inflation_radius

/-- Swept `suggestGoodVoxelSize(V0, V1, E, F, inflation_radius)`. -/
def suggestGoodVoxelSizeSwept (ext : External) (V0 V1 : List Vec3)
    (E : List (Nat × Nat)) (_F : List (Nat × Nat × Nat)) (inflation_radius : ℚ) : ℚ :=
  let edge_len := ext.average_edge_length V0 V1 E
  let disp_len := ext.average_displacement_length (List.zipWith Vec3.sub V1 V0)
  2 * max edge_len disp_len + inflation_radius

/-- The `voxel` map, keyed by linear voxel index. -/
abbrev VoxelMap := List (Int × List Nat)

/-- The lookup `voxel.find(k)`; `none` stands for `voxel.end()`. -/
def voxelFind : VoxelMap → Int → Option (List Nat)
  | [], _ => none
  | (k', l) :: rest, k => if k' = k then some l else voxelFind rest k

/-- The update `voxel[k].emplace_back(id)`: a missing key is created. -/
def voxelEmplace : VoxelMap → Int → Nat → VoxelMap
  | [], k, id => [(k, [id])]
  | (k', l) :: rest, k, id =>
    if k' = k then (k', l ++ [id]) :: rest else (k', l) :: voxelEmplace rest k id

/-- The insertion `s.insert(x)` of an `unordered_set`. -/
def setInsert (s : List Nat) (x : Nat) : List Nat :=
  if x ∈ s then s else s ++ [x]

/-- The state of a `SpatialHash` object. -/
structure SpatialHash where
  leftBottomCorner : Vec3
  rightTopCorner : Vec3
  one_div_voxelSize : ℚ
  voxelCount : Idx3
  voxelCount0x1 : Int
  edgeStartInd : Nat
  triStartInd : Nat
  voxel : VoxelMap
  pointAndEdgeOccupancy : List (List Int)
  deriving DecidableEq

/-- The three candidate lists. -/
structure Candidates where
  ev_candidates : List (Nat × Nat)
  ee_candidates : List (Nat × Nat)
  fv_candidates : List (Nat × Nat)
  deriving DecidableEq

/-- The integers `lo, lo+1, …, hi` of a loop `for (i = lo; i <= hi; i++)`. -/
def rangeIncl (lo hi : Int) : List Int :=
  (List.range (hi + 1 - lo).toNat).map (fun i => lo + (i : Int))

/-- The triple loop over the index box `mins..maxs` shared by `build` and the
queries, listing `ix + yzOffset` in the order the loop visits the cells. -/
def cellLoop (voxelCount : Idx3) (voxelCount0x1 : Int) (mins maxs : Idx3) : List Int :=
  (rangeIncl mins.z maxs.z).flatMap fun iz =>
    let zOffset := iz * voxelCount0x1
    (rangeIncl mins.y maxs.y).flatMap fun iy =>
      let yzOffset := iy * voxelCount.x + zOffset
      (rangeIncl mins.x maxs.x).map fun ix => ix + yzOffset

/-- Modelled from the spec: `clear()` is declared in the header
`spatial_hash.hpp`, which is not among the sources. The data model calls
`point_and_edge_occupancy` "swept build only" and creates all state anew per
build, so `clear()` leaves the occupancy table (like `voxel`) empty. -/
def clearedOccupancy : List (List Int) := []

/-- The collective steps both `build` overloads run on the bounding corners:
`one_div_voxelSize = 1.0 / voxelSize`, `voxelCount = ceil(range * one_div_voxelSize)`,
the single-cell fallback when `voxelCount.minCoeff() <= 0`, `voxelCount0x1`, and
the two ID offsets. `voxel` and `pointAndEdgeOccupancy` are as `clear()` left
them. -/
def sizeGrid (leftBottomCorner rightTopCorner : Vec3) (voxelSize : ℚ)
    (nV nE : Nat) : Except Err SpatialHash :=
  match fdiv 1 voxelSize with
  | .error e => .error e
  | .ok one_div_voxelSize =>
    let range := rightTopCorner.sub leftBottomCorner
    let voxelCount := (range.scale one_div_voxelSize).ceil
    if voxelCount.minCoeff ≤ 0 then
      match fdiv 1 (range.maxCoeff * (101 / 100)) with
      | .error e => .error e
      | .ok inv =>
        .ok { leftBottomCorner := leftBottomCorner
              rightTopCorner := rightTopCorner
              one_div_voxelSize := inv
              voxelCount := ⟨1, 1, 1⟩
              voxelCount0x1 := 1 * 1
              edgeStartInd := nV
              triStartInd := nV + nE
              voxel := []
              pointAndEdgeOccupancy := clearedOccupancy }
    else
      .ok { leftBottomCorner := leftBottomCorner
            rightTopCorner := rightTopCorner
            one_div_voxelSize := one_div_voxelSize
            voxelCount := voxelCount
            voxelCount0x1 := voxelCount.x * voxelCount.y
            edgeStartInd := nV
            triStartInd := nV + nE
            voxel := []
            pointAndEdgeOccupancy := clearedOccupancy }

namespace SpatialHash

/-- `locateVoxelAxisIndex(p, voxelAxisIndex)`. -/
def locateVoxelAxisIndex (sh : SpatialHash) (p : Vec3) : Idx3 :=
  ((p.sub sh.leftBottomCorner).scale sh.one_div_voxelSize).floor

/-- The condition asserted by `voxelAxisIndex2VoxelIndex`. -/
def inGrid (sh : SpatialHash) (ix iy iz : Int) : Prop :=
  0 ≤ ix ∧ 0 ≤ iy ∧ 0 ≤ iz ∧
    ix < sh.voxelCount.x ∧ iy < sh.voxelCount.y ∧ iz < sh.voxelCount.z

instance (sh : SpatialHash) (ix iy iz : Int) : Decidable (sh.inGrid ix iy iz) := by
  unfold inGrid; infer_instance

/-- `voxelAxisIndex2VoxelIndex(ix, iy, iz)`, with its bounds assertion. -/
def voxelAxisIndex2VoxelIndex (sh : SpatialHash) (ix iy iz : Int) : Except Err Int :=
  if sh.inGrid ix iy iz then
    .ok (ix + iy * sh.voxelCount.x + iz * sh.voxelCount0x1)
  else .error .assertion

/-- `locateVoxelIndex(p)`. -/
def locateVoxelIndex (sh : SpatialHash) (p : Vec3) : Except Err Int :=
  let voxelAxisIndex := sh.locateVoxelAxisIndex p
  sh.voxelAxisIndex2VoxelIndex voxelAxisIndex.x voxelAxisIndex.y voxelAxisIndex.z

end SpatialHash

/-- The serial loop `for (vi...) voxel[locateVoxelIndex(V.row(vi))].emplace_back(vi)`
of the static build, from vertex index `vi` on. -/
def insertVertices (sh : SpatialHash) : VoxelMap → List Vec3 → Nat → Except Err VoxelMap
  | voxel, [], _ => .ok voxel
  | voxel, p :: ps, vi =>
    match sh.locateVoxelIndex p with
    | .error e => .error e
    | .ok k => insertVertices sh (voxelEmplace voxel k vi) ps (vi + 1)

/-- The serial loops `for (i...) for (voxelI : loc[i]) voxel[voxelI].emplace_back(i + start)`,
from the ID `id` on. -/
def insertLocs : VoxelMap → List (List Int) → Nat → VoxelMap
  | voxel, [], _ => voxel
  | voxel, loc :: rest, id =>
    insertLocs (loc.foldl (fun m voxelI => voxelEmplace m voxelI id) voxel) rest (id + 1)

/-- Runs `f` on every element, in order, stopping at the first error. -/
def forEachM {α β : Type} (f : α → Except Err β) : List α → Except Err (List β)
  | [] => .ok []
  | a :: as =>
    match f a with
    | .error e => .error e
    | .ok b =>
      match forEachM f as with
      | .error e => .error e
      | .ok bs => .ok (b :: bs)

/-- The cell list `voxelLoc_e[ei]` of the static build. -/
def staticEdgeCells (sh : SpatialHash) (vertexVoxelAxisIndex : List Idx3)
    (e : Nat × Nat) : Except Err (List Int) :=
  match getE vertexVoxelAxisIndex e.1 with
  | .error err => .error err
  | .ok voxelAxisIndex0 =>
    match getE vertexVoxelAxisIndex e.2 with
    | .error err => .error err
    | .ok voxelAxisIndex1 =>
      let mins := voxelAxisIndex0.cmin voxelAxisIndex1
      let maxs := voxelAxisIndex0.cmax voxelAxisIndex1
      .ok (cellLoop sh.voxelCount sh.voxelCount0x1 mins maxs)

/-- The cell list `voxelLoc_f[fi]` of the static build; as in the source,
`voxelAxisIndex2` is read at `F(fi, 1)`. -/
def staticFaceCells (sh : SpatialHash) (vertexVoxelAxisIndex : List Idx3)
    (f : Nat × Nat × Nat) : Except Err (List Int) :=
  match getE vertexVoxelAxisIndex f.1 with
  | .error err => .error err
  | .ok voxelAxisIndex0 =>
    match getE vertexVoxelAxisIndex f.2.1 with
    | .error err => .error err
    | .ok voxelAxisIndex1 =>
      match getE vertexVoxelAxisIndex f.2.1 with
      | .error err => .error err
      | .ok voxelAxisIndex2 =>
        let mins := (voxelAxisIndex0.cmin voxelAxisIndex1).cmin voxelAxisIndex2
        let maxs := (voxelAxisIndex0.cmax voxelAxisIndex1).cmax voxelAxisIndex2
        .ok (cellLoop sh.voxelCount sh.voxelCount0x1 mins maxs)

/-- Static `SpatialHash::build(V, E, F, voxelSize)` (serial construction). -/
def build (ext : External) (V : List Vec3) (E : List (Nat × Nat))
    (F : List (Nat × Nat × Nat)) (voxelSize : ℚ) : Except Err SpatialHash :=
  let voxelSize := if voxelSize ≤ 0 then suggestGoodVoxelSize ext V E F 0 else voxelSize
  match colwiseMinCoeff V with
  | .error e => .error e
  | .ok leftBottomCorner =>
  match colwiseMaxCoeff V with
  | .error e => .error e
  | .ok rightTopCorner =>
    match sizeGrid leftBottomCorner rightTopCorner voxelSize V.length E.length with
    | .error e => .error e
    | .ok sh =>
      let vertexVoxelAxisIndex := V.map sh.locateVoxelAxisIndex
      match insertVertices sh [] V 0 with
      | .error e => .error e
      | .ok voxel0 =>
        match forEachM (staticEdgeCells sh vertexVoxelAxisIndex) E with
        | .error e => .error e
        | .ok voxelLoc_e =>
          match forEachM (staticFaceCells sh vertexVoxelAxisIndex) F with
          | .error e => .error e
          | .ok voxelLoc_f =>
            let voxel1 := insertLocs voxel0 voxelLoc_e sh.edgeStartInd
            let voxel2 := insertLocs voxel1 voxelLoc_f sh.triStartInd
            .ok { sh with voxel := voxel2 }

/-- The pair `(vertexMinVAI[i], vertexMaxVAI[i])`, read with bounds checks. -/
def getVAI (vertexMinVAI vertexMaxVAI : List Idx3) (i : Nat) : Except Err (Idx3 × Idx3) :=
  match getE vertexMinVAI i with
  | .error err => .error err
  | .ok mn =>
    match getE vertexMaxVAI i with
    | .error err => .error err
    | .ok mx => .ok (mn, mx)

/-- The cell list `pointAndEdgeOccupancy[ei + edgeStartInd]` of the swept build. -/
def sweptEdgeCells (sh : SpatialHash) (vertexMinVAI vertexMaxVAI : List Idx3)
    (e : Nat × Nat) : Except Err (List Int) :=
  match getVAI vertexMinVAI vertexMaxVAI e.1 with
  | .error err => .error err
  | .ok a0 =>
    match getVAI vertexMinVAI vertexMaxVAI e.2 with
    | .error err => .error err
    | .ok a1 =>
      let mins := a0.1.cmin a1.1
      let maxs := a0.2.cmax a1.2
      .ok (cellLoop sh.voxelCount sh.voxelCount0x1 mins maxs)

/-- The cell list `voxelLoc_f[fi]` of the swept build. -/
def sweptFaceCells (sh : SpatialHash) (vertexMinVAI vertexMaxVAI : List Idx3)
    (f : Nat × Nat × Nat) : Except Err (List Int) :=
  match getVAI vertexMinVAI vertexMaxVAI f.1 with
  | .error err => .error err
  | .ok a0 =>
    match getVAI vertexMinVAI vertexMaxVAI f.2.1 with
    | .error err => .error err
    | .ok a1 =>
      match getVAI vertexMinVAI vertexMaxVAI f.2.2 with
      | .error err => .error err
      | .ok a2 =>
        let mins := (a0.1.cmin a1.1).cmin a2.1
        let maxs := (a0.2.cmax a1.2).cmax a2.2
        .ok (cellLoop sh.voxelCount sh.voxelCount0x1 mins maxs)

/-- Swept `SpatialHash::build(V0, V1, E, F, voxelSize)`. -/
def buildSwept (ext : External) (V0 V1 : List Vec3) (E : List (Nat × Nat))
    (F : List (Nat × Nat × Nat)) (voxelSize : ℚ) : Except Err SpatialHash :=
  if V0.length ≠ V1.length then .error .assertion else
  let voxelSize :=
    if voxelSize ≤ 0 then suggestGoodVoxelSizeSwept ext V0 V1 E F 0 else voxelSize
  match colwiseMinCoeff V0 with
  | .error e => .error e
  | .ok min0 =>
  match colwiseMinCoeff V1 with
  | .error e => .error e
  | .ok min1 =>
  match colwiseMaxCoeff V0 with
  | .error e => .error e
  | .ok max0 =>
  match colwiseMaxCoeff V1 with
  | .error e => .error e
  | .ok max1 =>
    match sizeGrid (min0.cmin min1) (max0.cmax max1) voxelSize V0.length E.length with
    | .error e => .error e
    | .ok sh =>
      let vertexMinVAI := List.zipWith
        (fun p0 p1 => (sh.locateVoxelAxisIndex p0).cmin (sh.locateVoxelAxisIndex p1)) V0 V1
      let vertexMaxVAI := List.zipWith
        (fun p0 p1 => (sh.locateVoxelAxisIndex p0).cmax (sh.locateVoxelAxisIndex p1)) V0 V1
      let occupancyV := List.zipWith
        (fun mins maxs => cellLoop sh.voxelCount sh.voxelCount0x1 mins maxs)
        vertexMinVAI vertexMaxVAI
      match forEachM (sweptEdgeCells sh vertexMinVAI vertexMaxVAI) E with
      | .error e => .error e
      | .ok occupancyE =>
        match forEachM (sweptFaceCells sh vertexMinVAI vertexMaxVAI) F with
        | .error e => .error e
        | .ok voxelLoc_f =>
          let pointAndEdgeOccupancy := occupancyV ++ occupancyE
          let voxel1 := insertLocs [] pointAndEdgeOccupancy 0
          let voxel2 := insertLocs voxel1 voxelLoc_f sh.triStartInd
          .ok { sh with voxel := voxel2, pointAndEdgeOccupancy := pointAndEdgeOccupancy }

namespace SpatialHash

/-- The loop shared by the index-keyed queries: for every cell of
`pointAndEdgeOccupancy[i]` look the cell up (asserting it is present) and insert
`keep indI` for every stored ID `indI` the query's class test keeps. -/
def scanOccupancy (sh : SpatialHash) (keep : Nat → Option Nat) :
    List Int → List Nat → Except Err (List Nat)
  | [], inds => .ok inds
  | voxelInd :: rest, inds =>
    match voxelFind sh.voxel voxelInd with
    | none => .error .assertion
    | some l =>
      scanOccupancy sh keep rest
        (l.foldl (fun s indI =>
          match keep indI with
          | some j => setInsert s j
          | none => s) inds)

/-- Index-keyed `queryPointForEdges(vi, edgeInds)`. -/
def queryPointForEdges (sh : SpatialHash) (vi : Nat) : Except Err (List Nat) :=
  match getE sh.pointAndEdgeOccupancy vi with
  | .error e => .error e
  | .ok occ =>
    sh.scanOccupancy
      (fun indI =>
        if sh.edgeStartInd ≤ indI ∧ indI < sh.triStartInd
        then some (indI - sh.edgeStartInd) else none)
      occ []

/-- Index-keyed `queryPointForTriangles(vi, triInds)`. -/
def queryPointForTriangles (sh : SpatialHash) (vi : Nat) : Except Err (List Nat) :=
  match getE sh.pointAndEdgeOccupancy vi with
  | .error e => .error e
  | .ok occ =>
    sh.scanOccupancy
      (fun indI => if sh.triStartInd ≤ indI then some (indI - sh.triStartInd) else none)
      occ []

/-- Index-keyed `queryEdgeForEdges(eai, edgeInds)`. -/
def queryEdgeForEdges (sh : SpatialHash) (eai : Nat) : Except Err (List Nat) :=
  match getE sh.pointAndEdgeOccupancy (eai + sh.edgeStartInd) with
  | .error e => .error e
  | .ok occ =>
    sh.scanOccupancy
      (fun indI =>
        if sh.edgeStartInd ≤ indI ∧ indI < sh.triStartInd ∧ indI - sh.edgeStartInd > eai
        then some (indI - sh.edgeStartInd) else none)
      occ []

end SpatialHash

/-- `merge_local_candidates(storages, candidates)`: every per-worker list is
appended, in buffer order, to the corresponding output list. -/
def merge_local_candidates (storages : List Candidates) (candidates : Candidates) :
    Candidates :=
  storages.foldl
    (fun acc local_candidates =>
      { ev_candidates := acc.ev_candidates ++ local_candidates.ev_candidates
        ee_candidates := acc.ee_candidates ++ local_candidates.ee_candidates
        fv_candidates := acc.fv_candidates ++ local_candidates.fv_candidates })
    candidates

/-- Runs the body `f` of an inner `for (x : xs)` loop that may `emplace_back`
one pair per element, stopping at the first error. -/
def collectM {α β : Type} (f : α → Except Err (Option β)) : List α → Except Err (List β)
  | [] => .ok []
  | a :: as =>
    match f a with
    | .error e => .error e
    | .ok r =>
      match collectM f as with
      | .error e => .error e
      | .ok bs =>
        match r with
        | some b => .ok (b :: bs)
        | none => .ok bs

/-- Runs the body `f` of an outer loop over primitives and concatenates what
each iteration appended, stopping at the first error. -/
def concatM {α β : Type} (f : α → Except Err (List β)) : List α → Except Err (List β)
  | [] => .ok []
  | a :: as =>
    match f a with
    | .error e => .error e
    | .ok bs =>
      match concatM f as with
      | .error e => .error e
      | .ok cs => .ok (bs ++ cs)

/-- Three bounds-checked rows `V.row(i)`, `V.row(j)`, `V.row(k)`. -/
def rows3 (V : List Vec3) (i j k : Nat) : Except Err (Vec3 × Vec3 × Vec3) :=
  match getE V i with
  | .error e => .error e
  | .ok a =>
    match getE V j with
    | .error e => .error e
    | .ok b =>
      match getE V k with
      | .error e => .error e
      | .ok c => .ok (a, b, c)

/-- Four bounds-checked rows of `V`. -/
def rows4 (V : List Vec3) (i j k l : Nat) : Except Err (Vec3 × Vec3 × Vec3 × Vec3) :=
  match getE V i with
  | .error e => .error e
  | .ok a =>
    match rows3 V j k l with
    | .error e => .error e
    | .ok r => .ok (a, r)

namespace SpatialHash

/-- Static edge-vertex pass, the iteration for vertex `vi`. -/
def evRow (sh : SpatialHash) (ext : External) (V : List Vec3) (E : List (Nat × Nat))
    (radius : ℚ) (vi : Nat) : Except Err (List (Nat × Nat)) :=
  match sh.queryPointForEdges vi with
  | .error e => .error e
  | .ok edgeInds =>
    collectM (fun ei =>
      match getE E ei with
      | .error e => .error e
      | .ok e =>
        if vi = e.1 ∧ vi ≠ e.2 then
          match rows3 V vi e.1 e.2 with
          | .error err => .error err
          | .ok (p, e0, e1) =>
            if ext.point_edge_aabb_cd p e0 e1 radius then .ok (some (ei, vi)) else .ok none
        else .ok none) edgeInds

/-- Static edge-edge pass, the iteration for edge `eai`. -/
def eeRow (sh : SpatialHash) (ext : External) (V : List Vec3) (E : List (Nat × Nat))
    (radius : ℚ) (eai : Nat) : Except Err (List (Nat × Nat)) :=
  match sh.queryEdgeForEdges eai with
  | .error e => .error e
  | .ok edgeInds =>
    collectM (fun ebi =>
      match getE E eai with
      | .error e => .error e
      | .ok ea =>
        match getE E ebi with
        | .error e => .error e
        | .ok eb =>
          if ea.1 ≠ eb.1 ∧ ea.1 = eb.2 ∧ ea.2 = eb.1 ∧ ea.2 = eb.2 ∧ eai < ebi then
            match rows4 V ea.1 ea.2 eb.1 eb.2 with
            | .error err => .error err
            | .ok (a0, a1, b0, b1) =>
              if ext.edge_edge_aabb_cd a0 a1 b0 b1 radius
              then .ok (some (eai, ebi)) else .ok none
          else .ok none) edgeInds

/-- Static face-vertex pass, the iteration for vertex `vi`. -/
def fvRow (sh : SpatialHash) (ext : External) (V : List Vec3)
    (F : List (Nat × Nat × Nat)) (radius : ℚ) (vi : Nat) : Except Err (List (Nat × Nat)) :=
  match sh.queryPointForTriangles vi with
  | .error e => .error e
  | .ok triInds =>
    collectM (fun fi =>
      match getE F fi with
      | .error e => .error e
      | .ok f =>
        if vi = f.1 ∧ vi ≠ f.2.1 ∧ vi ≠ f.2.1 then
          match rows4 V vi f.1 f.2.1 f.2.2 with
          | .error err => .error err
          | .ok (p, t0, t1, t2) =>
            if ext.point_triangle_aabb_cd p t0 t1 t2 radius
            then .ok (some (fi, vi)) else .ok none
        else .ok none) triInds

/-- Static `queryMeshForCandidates(V, E, F, candidates, radius, queryEV, queryEE, queryFV)`. -/
def queryMeshForCandidates (sh : SpatialHash) (ext : External) (V : List Vec3)
    (E : List (Nat × Nat)) (F : List (Nat × Nat × Nat)) (candidates : Candidates)
    (radius : ℚ) (queryEV queryEE queryFV : Bool) : Except Err Candidates :=
  match (if queryEV then concatM (sh.evRow ext V E radius) (List.range V.length)
         else .ok []) with
  | .error e => .error e
  | .ok ev =>
    match (if queryEE then concatM (sh.eeRow ext V E radius) (List.range E.length)
           else .ok []) with
    | .error e => .error e
    | .ok ee =>
      match (if queryFV then concatM (sh.fvRow ext V F radius) (List.range V.length)
             else .ok []) with
      | .error e => .error e
      | .ok fv => .ok (merge_local_candidates [⟨ev, ee, fv⟩] candidates)

/-- Swept edge-vertex pass, the iteration for vertex `vi`. -/
def evRowSwept (sh : SpatialHash) (ext : External) (V0 V1 : List Vec3)
    (E : List (Nat × Nat)) (radius : ℚ) (vi : Nat) : Except Err (List (Nat × Nat)) :=
  match sh.queryPointForEdges vi with
  | .error e => .error e
  | .ok edgeInds =>
    collectM (fun ei =>
      match getE E ei with
      | .error e => .error e
      | .ok e =>
        if vi ≠ e.1 ∧ vi ≠ e.2 then
          match rows3 V0 vi e.1 e.2 with
          | .error err => .error err
          | .ok (p0, e00, e10) =>
            match rows3 V1 vi e.1 e.2 with
            | .error err => .error err
            | .ok (p1, e01, e11) =>
              if ext.point_edge_aabb_ccd p0 e00 e10 p1 e01 e11 radius
              then .ok (some (ei, vi)) else .ok none
        else .ok none) edgeInds

/-- Swept edge-edge pass, the iteration for edge `eai`. -/
def eeRowSwept (sh : SpatialHash) (ext : External) (V0 V1 : List Vec3)
    (E : List (Nat × Nat)) (radius : ℚ) (eai : Nat) : Except Err (List (Nat × Nat)) :=
  match sh.queryEdgeForEdges eai with
  | .error e => .error e
  | .ok edgeInds =>
    collectM (fun ebi =>
      match getE E eai with
      | .error e => .error e
      | .ok ea =>
        match getE E ebi with
        | .error e => .error e
        | .ok eb =>
          if ea.1 ≠ eb.1 ∧ ea.1 ≠ eb.2 ∧ ea.2 ≠ eb.1 ∧ ea.2 ≠ eb.2 ∧ eai < ebi then
            match rows4 V0 ea.1 ea.2 eb.1 eb.2 with
            | .error err => .error err
            | .ok (a00, a10, b00, b10) =>
              match rows4 V1 ea.1 ea.2 eb.1 eb.2 with
              | .error err => .error err
              | .ok (a01, a11, b01, b11) =>
                if ext.edge_edge_aabb_ccd a00 a10 b00 b10 a01 a11 b01 b11 radius
                then .ok (some (eai, ebi)) else .ok none
          else .ok none) edgeInds

/-- Swept face-vertex pass, the iteration for vertex `vi`. -/
def fvRowSwept (sh : SpatialHash) (ext : External) (V0 V1 : List Vec3)
    (F : List (Nat × Nat × Nat)) (radius : ℚ) (vi : Nat) : Except Err (List (Nat × Nat)) :=
  match sh.queryPointForTriangles vi with
  | .error e => .error e
  | .ok triInds =>
    collectM (fun fi =>
      match getE F fi with
      | .error e => .error e
      | .ok f =>
        if vi ≠ f.1 ∧ vi ≠ f.2.1 ∧ vi ≠ f.2.2 then
          match rows4 V0 vi f.1 f.2.1 f.2.2 with
          | .error err => .error err
          | .ok (p0, t00, t10, t20) =>
            match rows4 V1 vi f.1 f.2.1 f.2.2 with
            | .error err => .error err
            | .ok (p1, t01, t11, t21) =>
              if ext.point_triangle_aabb_ccd p0 t00 t10 t20 p1 t01 t11 t21 radius
              then .ok (some (fi, vi)) else .ok none
        else .ok none) triInds

/-- Swept `queryMeshForCandidates(V0, V1, E, F, candidates, radius, queryEV, queryEE, queryFV)`. -/
def queryMeshForCandidatesSwept (sh : SpatialHash) (ext : External) (V0 V1 : List Vec3)
    (E : List (Nat × Nat)) (F : List (Nat × Nat × Nat)) (candidates : Candidates)
    (radius : ℚ) (queryEV queryEE queryFV : Bool) : Except Err Candidates :=
  if V0.length ≠ V1.length then .error .assertion else
  match (if queryEV then concatM (sh.evRowSwept ext V0 V1 E radius) (List.range V0.length)
         else .ok []) with
  | .error e => .error e
  | .ok ev =>
    match (if queryEE then concatM (sh.eeRowSwept ext V0 V1 E radius) (List.range E.length)
           else .ok []) with
    | .error e => .error e
    | .ok ee =>
      match (if queryFV then concatM (sh.fvRowSwept ext V0 V1 F radius) (List.range V0.length)
             else .ok []) with
      | .error e => .error e
      | .ok fv => .ok (merge_local_candidates [⟨ev, ee, fv⟩] candidates)

end SpatialHash

/-- An axis-aligned bounding box with its two corners. -/
structure AABB where
  min : Vec3
  max : Vec3
  deriving DecidableEq

namespace AABB

/-- Modelled from the spec: `from_point(p, r)` of the missing `aabb.hpp`,
"box = [p − r, p + r]". -/
def from_point (p : Vec3) (r : ℚ) : AABB := ⟨p.addScalar (-r), p.addScalar r⟩

/-- Modelled from the spec: swept `from_point(p₀, p₁, r)` of the missing
`aabb.hpp`, "box = [min(p₀,p₁) − r, max(p₀,p₁) + r]". -/
def from_point_swept (p0 p1 : Vec3) (r : ℚ) : AABB :=
  ⟨(p0.cmin p1).addScalar (-r), (p0.cmax p1).addScalar r⟩

/-- Modelled from the spec: `union(a, b)` of the missing `aabb.hpp`,
"componentwise min/max". -/
def union (a b : AABB) : AABB := ⟨a.min.cmin b.min, a.max.cmax b.max⟩

/-- Modelled from the spec: `intersects` of the missing `aabb.hpp`,
"∀i: A.min[i] ≤ B.max[i] ∧ B.min[i] ≤ A.max[i]". -/
def intersects (a b : AABB) : Bool :=
  decide ((a.min.x ≤ b.max.x ∧ b.min.x ≤ a.max.x) ∧
    (a.min.y ≤ b.max.y ∧ b.min.y ≤ a.max.y) ∧
    (a.min.z ≤ b.max.z ∧ b.min.z ≤ a.max.z))

end AABB

/-- Modelled from the spec: the collaborators of the missing headers. The six
AABB predicates decide "whether the world-space AABBs of the two primitives
overlap under the given radius": each primitive's box is the union of its
vertices' boxes (swept over `[t₀, t₁]` for the `_ccd` forms) inflated by `r`, and
the test is `intersects`. The two length helpers are pure numeric functions the
spec leaves external; here they return the given values `edge_len`, `disp_len`. -/
def specExternal (edge_len disp_len : ℚ) : External where
  average_edge_length := fun _ _ _ => edge_len
  average_displacement_length := fun _ => disp_len
  point_edge_aabb_cd := fun p e0 e1 r =>
    (AABB.from_point p r).intersects ((AABB.from_point e0 r).union (AABB.from_point e1 r))
  edge_edge_aabb_cd := fun a0 a1 b0 b1 r =>
    ((AABB.from_point a0 r).union (AABB.from_point a1 r)).intersects
      ((AABB.from_point b0 r).union (AABB.from_point b1 r))
  point_triangle_aabb_cd := fun p t0 t1 t2 r =>
    (AABB.from_point p r).intersects
      (((AABB.from_point t0 r).union (AABB.from_point t1 r)).union (AABB.from_point t2 r))
  point_edge_aabb_ccd := fun p0 e00 e10 p1 e01 e11 r =>
    (AABB.from_point_swept p0 p1 r).intersects
      ((AABB.from_point_swept e00 e01 r).union (AABB.from_point_swept e10 e11 r))
  edge_edge_aabb_ccd := fun a00 a10 b00 b10 a01 a11 b01 b11 r =>
    ((AABB.from_point_swept a00 a01 r).union (AABB.from_point_swept a10 a11 r)).intersects
      ((AABB.from_point_swept b00 b01 r).union (AABB.from_point_swept b10 b11 r))
  point_triangle_aabb_ccd := fun p0 t00 t10 t20 p1 t01 t11 t21 r =>
    (AABB.from_point_swept p0 p1 r).intersects
      (((AABB.from_point_swept t00 t01 r).union (AABB.from_point_swept t10 t11 r)).union
        (AABB.from_point_swept t20 t21 r))

/-- The vertices of the two-segment mesh of scenarios 1 and 2. -/
def twoSegV : List Vec3 := [⟨-1, -1, 0⟩, ⟨1, -1, 0⟩, ⟨0, 1, 1⟩, ⟨0, 1, -1⟩]

/-- The edges of the two-segment mesh of scenarios 1 and 2. -/
def twoSegE : List (Nat × Nat) := [(0, 1), (2, 3)]

/-- The static pipeline: static `build`, then static `queryMeshForCandidates`
into empty `Candidates`. -/
def staticPipeline (ext : External) (V : List Vec3) (E : List (Nat × Nat))
    (F : List (Nat × Nat × Nat)) (voxelSize radius : ℚ)
    (queryEV queryEE queryFV : Bool) : Except Err Candidates :=
  match build ext V E F voxelSize with
  | .error e => .error e
  | .ok sh => sh.queryMeshForCandidates ext V E F ⟨[], [], []⟩ radius queryEV queryEE queryFV

/-- The swept pipeline: swept `build`, then swept `queryMeshForCandidates`
into empty `Candidates`. -/
def sweptPipeline (ext : External) (V0 V1 : List Vec3) (E : List (Nat × Nat))
    (F : List (Nat × Nat × Nat)) (voxelSize radius : ℚ)
    (queryEV queryEE queryFV : Bool) : Except Err Candidates :=
  match buildSwept ext V0 V1 E F voxelSize with
  | .error e => .error e
  | .ok sh =>
    sh.queryMeshForCandidatesSwept ext V0 V1 E F ⟨[], [], []⟩ radius queryEV queryEE queryFV

/-- Two separated segments on the diagonal, used with voxel size 4. -/
def farSegV : List Vec3 := [⟨0, 0, 0⟩, ⟨3, 3, 3⟩, ⟨5, 5, 5⟩, ⟨7, 7, 7⟩]

/-- The three edges of a triangle `(0, 1, 2)`. -/
def triE : List (Nat × Nat) := [(0, 1), (1, 2), (0, 2)]

/-- The single face `(0, 1, 2)`. -/
def triF : List (Nat × Nat × Nat) := [(0, 1, 2)]

/-- A triangle in the plane `z = 0`, a vertex just above it and one below it. -/
def pierceV : List Vec3 :=
  [⟨0, 0, 0⟩, ⟨1, 0, 0⟩, ⟨0, 1, 0⟩, ⟨1 / 4, 1 / 4, 1 / 16⟩, ⟨1 / 2, 1 / 2, -1⟩]

/-- The three triangle edges and the segment `(3, 4)` that pierces the triangle. -/
def pierceE : List (Nat × Nat) := [(0, 1), (1, 2), (0, 2), (3, 4)]

/-- The index the swept build makes of the pierced triangle (`V1 = V0`, voxel size 2). -/
def pierceIndex : SpatialHash where
  leftBottomCorner := ⟨0, 0, -1⟩
  rightTopCorner := ⟨1, 1, 1 / 16⟩
  one_div_voxelSize := 1 / 2
  voxelCount := ⟨1, 1, 1⟩
  voxelCount0x1 := 1
  edgeStartInd := 5
  triStartInd := 9
  voxel := [(0, [0, 1, 2, 3, 4, 5, 6, 7, 8, 9])]
  pointAndEdgeOccupancy := [[0], [0], [0], [0], [0], [0], [0], [0], [0]]

/-- The index the swept build makes of the two-segment mesh with `V1 = V0`
and the auto-sized voxel (average edge length 2, voxel size 4). -/
def twoSegIndex : SpatialHash where
  leftBottomCorner := ⟨-1, -1, -1⟩
  rightTopCorner := ⟨1, 1, 1⟩
  one_div_voxelSize := 1 / 4
  voxelCount := ⟨1, 1, 1⟩
  voxelCount0x1 := 1
  edgeStartInd := 4
  triStartInd := 6
  voxel := [(0, [0, 1, 2, 3, 4, 5])]
  pointAndEdgeOccupancy := [[0], [0], [0], [0], [0], [0]]

/-- The index the swept build makes of the unit diagonal with voxel size 1. -/
def diagIndex : SpatialHash where
  leftBottomCorner := ⟨0, 0, 0⟩
  rightTopCorner := ⟨1, 1, 1⟩
  one_div_voxelSize := 1
  voxelCount := ⟨1, 1, 1⟩
  voxelCount0x1 := 1
  edgeStartInd := 2
  triStartInd := 3
  voxel := [(0, [0, 2]), (3, [1, 2]), (1, [2, 2, 2]), (2, [2, 2, 2])]
  pointAndEdgeOccupancy := [[0], [3], [0, 1, 1, 2, 1, 2, 2, 3]]

/-- The corners `lb`, `rt` are the componentwise extremes of the points `P`:
they bound every point and each coordinate is attained. -/
def IsExtremes (lb rt : Vec3) (P : List Vec3) : Prop :=
  (∀ v ∈ P, (lb.x ≤ v.x ∧ lb.y ≤ v.y ∧ lb.z ≤ v.z) ∧ (v.x ≤ rt.x ∧ v.y ≤ rt.y ∧ v.z ≤ rt.z)) ∧
  ((∃ v ∈ P, v.x = lb.x) ∧ (∃ v ∈ P, v.y = lb.y) ∧ (∃ v ∈ P, v.z = lb.z)) ∧
  ((∃ v ∈ P, v.x = rt.x) ∧ (∃ v ∈ P, v.y = rt.y) ∧ (∃ v ∈ P, v.z = rt.z))

/-- The grid sizing rule, read off a built index for the voxel size `s`: with
`count = ceil((right_top - left_bottom) * (1/s))`, the index holds `count` and
`1/s`, unless some component of `count` is `<= 0`, in which case it holds the
single cell and `1 / (max(range) * 1.01)`; `nx_ny` is the product of the first
two counts. -/
def GridRule (sh : SpatialHash) (s : ℚ) : Prop :=
  let range := sh.rightTopCorner.sub sh.leftBottomCorner
  let count := (range.scale (1 / s)).ceil
  ((count.x ≤ 0 ∨ count.y ≤ 0 ∨ count.z ≤ 0) →
    sh.voxelCount = ⟨1, 1, 1⟩ ∧
    sh.one_div_voxelSize = 1 / (range.maxCoeff * (101 / 100))) ∧
  (¬ (count.x ≤ 0 ∨ count.y ≤ 0 ∨ count.z ≤ 0) →
    sh.voxelCount = count ∧ sh.one_div_voxelSize = 1 / s) ∧
  sh.voxelCount0x1 = sh.voxelCount.x * sh.voxelCount.y

/-- The index the static build makes of the two-segment mesh with the
auto-sized voxel (average edge length 2, voxel size 4). -/
def twoSegStaticIndex : SpatialHash where
  leftBottomCorner := ⟨-1, -1, -1⟩
  rightTopCorner := ⟨1, 1, 1⟩
  one_div_voxelSize := 1 / 4
  voxelCount := ⟨1, 1, 1⟩
  voxelCount0x1 := 1
  edgeStartInd := 4
  triStartInd := 6
  voxel := [(0, [0, 1, 2, 3, 4, 5])]
  pointAndEdgeOccupancy := []

/-- The point `p` lies in the box `[left_bottom, right_top]` of the index. -/
def InBox (sh : SpatialHash) (p : Vec3) : Prop :=
  (sh.leftBottomCorner.x ≤ p.x ∧ p.x ≤ sh.rightTopCorner.x) ∧
  (sh.leftBottomCorner.y ≤ p.y ∧ p.y ≤ sh.rightTopCorner.y) ∧
  (sh.leftBottomCorner.z ≤ p.z ∧ p.z ≤ sh.rightTopCorner.z)

/-- The fallback of the grid sizing triggers for the corners `lb`, `rt` and the
voxel size `s`: some component of `ceil(range * (1/s))` is `<= 0`. -/
def FallbackTriggers (lb rt : Vec3) (s : ℚ) : Prop :=
  let count := ((rt.sub lb).scale (1 / s)).ceil
  count.x ≤ 0 ∨ count.y ≤ 0 ∨ count.z ≤ 0

/-- The index the swept build makes of the flat segment `(0,0,0)-(2,0,0)` at
rest with voxel size 1: the fallback grid. -/
def flatIndex : SpatialHash where
  leftBottomCorner := ⟨0, 0, 0⟩
  rightTopCorner := ⟨2, 0, 0⟩
  one_div_voxelSize := 50 / 101
  voxelCount := ⟨1, 1, 1⟩
  voxelCount0x1 := 1
  edgeStartInd := 2
  triStartInd := 3
  voxel := [(0, [0, 1, 2])]
  pointAndEdgeOccupancy := [[0], [0], [0]]

/-- The mesh is well-formed for `n` vertices: every index in `E` and `F` is
below `n`. -/
def MeshInRange (n : Nat) (E : List (Nat × Nat)) (F : List (Nat × Nat × Nat)) : Prop :=
  (∀ e ∈ E, e.1 < n ∧ e.2 < n) ∧ (∀ f ∈ F, f.1 < n ∧ f.2.1 < n ∧ f.2.2 < n)

instance (n : Nat) (E : List (Nat × Nat)) (F : List (Nat × Nat × Nat)) :
    Decidable (MeshInRange n E F) := by
  unfold MeshInRange; infer_instance

instance (lb rt : Vec3) (s : ℚ) : Decidable (FallbackTriggers lb rt s) := by
  unfold FallbackTriggers; infer_instance

/-- A flat triangle in the plane `z = 0`. -/
def flatTriV : List Vec3 := [⟨0, 0, 0⟩, ⟨2, 0, 0⟩, ⟨0, 2, 0⟩]

/-- The index the swept build makes of the flat triangle at rest with voxel
size 1: the fallback grid. -/
def flatTriIndex : SpatialHash where
  leftBottomCorner := ⟨0, 0, 0⟩
  rightTopCorner := ⟨2, 2, 0⟩
  one_div_voxelSize := 50 / 101
  voxelCount := ⟨1, 1, 1⟩
  voxelCount0x1 := 1
  edgeStartInd := 3
  triStartInd := 6
  voxel := [(0, [0, 1, 2, 3, 4, 5, 6])]
  pointAndEdgeOccupancy := [[0], [0], [0], [0], [0], [0]]

/-- The list stored for the cell `c`; empty when `c` is not a key of the map. -/
def voxelGet (voxel : VoxelMap) (c : Int) : List Nat :=
  match voxelFind voxel c with
  | some l => l
  | none => []

/-- What the serial insertion loops append to the list of cell `c`: for the
`i`-th cell list `loc`, the ID `id + i` once per occurrence of `c` in `loc`. -/
def idsFor : List (List Int) → Nat → Int → List Nat
  | [], _, _ => []
  | loc :: rest, id, c => List.replicate (loc.count c) id ++ idsFor rest (id + 1) c

/-- The table `vertexMinVAI` of the swept build. -/
def vertexMinVAI (sh : SpatialHash) (V0 V1 : List Vec3) : List Idx3 :=
  List.zipWith
    (fun p0 p1 => (sh.locateVoxelAxisIndex p0).cmin (sh.locateVoxelAxisIndex p1)) V0 V1

/-- The table `vertexMaxVAI` of the swept build. -/
def vertexMaxVAI (sh : SpatialHash) (V0 V1 : List Vec3) : List Idx3 :=
  List.zipWith
    (fun p0 p1 => (sh.locateVoxelAxisIndex p0).cmax (sh.locateVoxelAxisIndex p1)) V0 V1

namespace SpatialHash

/-- The three-way class test of `queryPointForPrimitives`: the ID `indI` goes
to `vertInds`, `edgeInds` or `triInds` according to the two offsets. -/
def classify (sh : SpatialHash) (acc : List Nat × List Nat × List Nat) (indI : Nat) :
    List Nat × List Nat × List Nat :=
  if indI < sh.edgeStartInd then (setInsert acc.1 indI, acc.2.1, acc.2.2)
  else if indI < sh.triStartInd then
    (acc.1, setInsert acc.2.1 (indI - sh.edgeStartInd), acc.2.2)
  else (acc.1, acc.2.1, setInsert acc.2.2 (indI - sh.triStartInd))

/-- The loop of the index-keyed `queryPointForPrimitives` over the cells of an
occupancy list, asserting that each cell is present. -/
def scanPrimitives (sh : SpatialHash) :
    List Int → List Nat × List Nat × List Nat → Except Err (List Nat × List Nat × List Nat)
  | [], acc => .ok acc
  | voxelInd :: rest, acc =>
    match voxelFind sh.voxel voxelInd with
    | none => .error .assertion
    | some l => scanPrimitives sh rest (l.foldl sh.classify acc)

/-- Index-keyed `queryPointForPrimitives(vi, vertInds, edgeInds, triInds)`. -/
def queryPointForPrimitives (sh : SpatialHash) (vi : Nat) :
    Except Err (List Nat × List Nat × List Nat) :=
  match getE sh.pointAndEdgeOccupancy vi with
  | .error e => .error e
  | .ok occ => sh.scanPrimitives occ ([], [], [])

end SpatialHash

/-- The positions at `t = 1` of the two-segment mesh in the repository's test:
the first edge moved by `+2` and the second by `-2` along `y`. -/
def crossV1 : List Vec3 := [⟨-1, 1, 0⟩, ⟨1, 1, 0⟩, ⟨0, -1, 1⟩, ⟨0, -1, -1⟩]

/-- The index the swept build makes of the two crossing segments with voxel
size 3/2. -/
def crossIndex : SpatialHash where
  leftBottomCorner := ⟨-1, -1, -1⟩
  rightTopCorner := ⟨1, 1, 1⟩
  one_div_voxelSize := 2 / 3
  voxelCount := ⟨2, 2, 2⟩
  voxelCount0x1 := 4
  edgeStartInd := 4
  triStartInd := 6
  voxel := [(0, [0, 3, 4, 5]), (2, [0, 3, 4, 5]), (1, [1, 4]), (3, [1, 4]), (4, [2, 5]),
    (6, [2, 5])]
  pointAndEdgeOccupancy := [[0, 2], [1, 3], [4, 6], [0, 2], [0, 1, 2, 3], [0, 2, 4, 6]]

/-- The cell `(ix, iy, iz)` lies in the index box from `mins` to `maxs`. -/
def InIdxBox (mins maxs : Idx3) (ix iy iz : Int) : Prop :=
  (mins.x ≤ ix ∧ ix ≤ maxs.x) ∧ (mins.y ≤ iy ∧ iy ≤ maxs.y) ∧ (mins.z ≤ iz ∧ iz ≤ maxs.z)

/-- A triangle with two vertices in the first cell of a `2 × 2 × 2` grid and the
third in the opposite corner cell. -/
def stretchV : List Vec3 := [⟨0, 0, 0⟩, ⟨1, 1, 1⟩, ⟨3, 3, 3⟩]

/-- The index the static build makes of the stretched triangle with voxel size 2. -/
def stretchIndex : SpatialHash where
  leftBottomCorner := ⟨0, 0, 0⟩
  rightTopCorner := ⟨3, 3, 3⟩
  one_div_voxelSize := 1 / 2
  voxelCount := ⟨2, 2, 2⟩
  voxelCount0x1 := 4
  edgeStartInd := 3
  triStartInd := 6
  voxel := [(0, [0, 1, 3, 4, 5, 6]), (7, [2, 4, 5]), (1, [4, 5]), (2, [4, 5]),
    (3, [4, 5]), (4, [4, 5]), (5, [4, 5]), (6, [4, 5])]
  pointAndEdgeOccupancy := []

namespace Vec3

/-- The array expression `a.array() - s`. -/
def subScalar (a : Vec3) (s : ℚ) : Vec3 := ⟨a.x - s, a.y - s, a.z - s⟩

/-- The array test `(a > 0.0).any()`. -/
def anyPos (a : Vec3) : Prop := 0 < a.x ∨ 0 < a.y ∨ 0 < a.z

instance (a : Vec3) : Decidable a.anyPos := by
  unfold anyPos; infer_instance

end Vec3

/-- The call `std::sort(v.begin(), v.end())` on a vector of `int`. -/
def stdSort (v : List Nat) : List Nat := v.insertionSort (· ≤ ·)

/-- The call `v.erase(std::unique(v.begin(), v.end()), v.end())`: of every run of
equal neighbours one element is kept. -/
def stdUnique : List Nat → List Nat
  | [] => []
  | [a] => [a]
  | a :: b :: rest => if a = b then stdUnique (b :: rest) else a :: stdUnique (b :: rest)

/-- The call `v.clear()` on an output container. -/
def stdClear (_v : List Nat) : List Nat := []

/-- A fold over the IDs of one voxel list whose body can fail. -/
def foldE {σ : Type} (step : σ → Nat → Except Err σ) : List Nat → σ → Except Err σ
  | [], acc => .ok acc
  | indI :: rest, acc =>
    match step acc indI with
    | .error e => .error e
    | .ok acc' => foldE step rest acc'

namespace SpatialHash

/-- The keys passed to `voxel.find` by a position-based query whose world-space
interval is `[leftBottom, rightTop]`: the two corners are located, `mins` is
clamped by `mins.max(Zero)` and `maxs` by `maxs.min(voxelCount - 1)`, and the
triple loop enumerates `ix + yzOffset`. -/
def lookups (sh : SpatialHash) (leftBottom rightTop : Vec3) : List Int :=
  let mins := sh.locateVoxelAxisIndex leftBottom
  let maxs := sh.locateVoxelAxisIndex rightTop
  let mins := mins.cmax ⟨0, 0, 0⟩
  let maxs := maxs.cmin ⟨sh.voxelCount.x - 1, sh.voxelCount.y - 1, sh.voxelCount.z - 1⟩
  cellLoop sh.voxelCount sh.voxelCount0x1 mins maxs

/-- The body shared by the position-based queries: every cell is looked up, a
missing cell is skipped (`if (voxelI != voxel.end())`), and `step` runs on every
ID stored in a cell that is present. -/
def scanCells {σ : Type} (sh : SpatialHash) (step : σ → Nat → σ) (cells : List Int)
    (init : σ) : σ :=
  cells.foldl
    (fun acc c =>
      match voxelFind sh.voxel c with
      | none => acc
      | some l => l.foldl step acc)
    init

/-- Swept position-based `queryPointForTriangles(p_t0, p_t1, triInds, radius)`. -/
def queryPointForTrianglesSwept (sh : SpatialHash) (p_t0 p_t1 : Vec3) (radius : ℚ) :
    List Nat :=
  sh.scanCells
    (fun triInds indI =>
      if indI ≥ sh.triStartInd then setInsert triInds (indI - sh.triStartInd) else triInds)
    (sh.lookups ((p_t0.cmin p_t1).subScalar radius) ((p_t0.cmax p_t1).addScalar radius)) []

/-- The call `queryEdgeForPE(e0, e1, vertInds, edgeInds)`: both output vectors are
cleared, filled by `emplace_back`, then sorted and de-duplicated. -/
def queryEdgeForPE (sh : SpatialHash) (e0 e1 : Vec3) (vertInds edgeInds : List Nat) :
    List Nat × List Nat :=
  let leftBottom := e0.cmin e1
  let rightTop := e0.cmax e1
  let r := sh.scanCells
    (fun (acc : List Nat × List Nat) indI =>
      if indI < sh.edgeStartInd then (acc.1 ++ [indI], acc.2)
      else if indI < sh.triStartInd then (acc.1, acc.2 ++ [indI - sh.edgeStartInd])
      else acc)
    (sh.lookups leftBottom rightTop) (stdClear vertInds, stdClear edgeInds)
  (stdUnique (stdSort r.1), stdUnique (stdSort r.2))

/-- Static position-based `queryEdgeForEdges(e0, e1, edgeInds, radius, eai)`. -/
def queryEdgeForEdgesStatic (sh : SpatialHash) (e0 e1 : Vec3) (edgeInds : List Nat)
    (radius : ℚ) (eai : Int) : List Nat :=
  let leftBottom := (e0.cmin e1).subScalar radius
  let rightTop := (e0.cmax e1).addScalar radius
  let edgeInds := sh.scanCells
    (fun edgeInds indI =>
      if indI ≥ sh.edgeStartInd ∧ indI < sh.triStartInd ∧
          (indI : Int) - (sh.edgeStartInd : Int) > eai
      then edgeInds ++ [indI - sh.edgeStartInd] else edgeInds)
    (sh.lookups leftBottom rightTop) (stdClear edgeInds)
  stdUnique (stdSort edgeInds)

/-- The inner test of the static `queryEdgeForEdgesWithBBoxCheck` on the edge
`ebi`: its two rows of `V` are read and its box is compared with
`[leftBottom, rightTop]`. -/
def bboxCheckStatic (V : List Vec3) (E : List (Nat × Nat)) (leftBottom rightTop : Vec3)
    (ebi : Nat) : Except Err Bool :=
  match getE E ebi with
  | .error e => .error e
  | .ok eb =>
    match getE V eb.1 with
    | .error e => .error e
    | .ok eb0 =>
      match getE V eb.2 with
      | .error e => .error e
      | .ok eb1 =>
        let bboxEBTopRight := eb0.cmax eb1
        let bboxEBBottomLeft := eb0.cmin eb1
        .ok (decide (¬ ((bboxEBBottomLeft.sub rightTop).anyPos ∨
          (leftBottom.sub bboxEBTopRight).anyPos)))

/-- The body `scanCells` for a `step` that reads mesh rows and can fail. -/
def scanCellsE {σ : Type} (sh : SpatialHash) (step : σ → Nat → Except Err σ) :
    List Int → σ → Except Err σ
  | [], acc => .ok acc
  | c :: rest, acc =>
    match voxelFind sh.voxel c with
    | none => scanCellsE sh step rest acc
    | some l =>
      match foldE step l acc with
      | .error e => .error e
      | .ok acc' => scanCellsE sh step rest acc'

/-- Static `queryEdgeForEdgesWithBBoxCheck(V, E, F, ea0, ea1, edgeInds, radius,
eai)`; the argument `F` is never read. -/
def queryEdgeForEdgesWithBBoxCheckStatic (sh : SpatialHash) (V : List Vec3)
    (E : List (Nat × Nat)) (ea0 ea1 : Vec3) (edgeInds : List Nat) (radius : ℚ)
    (eai : Int) : Except Err (List Nat) :=
  let leftBottom := (ea0.cmin ea1).subScalar radius
  let rightTop := (ea0.cmax ea1).addScalar radius
  match sh.scanCellsE
    (fun edgeInds indI =>
      if indI ≥ sh.edgeStartInd ∧ indI < sh.triStartInd ∧
          (indI : Int) - (sh.edgeStartInd : Int) > eai
      then
        let ebi := indI - sh.edgeStartInd
        match bboxCheckStatic V E leftBottom rightTop ebi with
        | .error e => .error e
        | .ok b => if b then .ok (edgeInds ++ [indI - sh.edgeStartInd]) else .ok edgeInds
      else .ok edgeInds)
    (sh.lookups leftBottom rightTop) (stdClear edgeInds) with
  | .error e => .error e
  | .ok edgeInds => .ok (stdUnique (stdSort edgeInds))

/-- Swept position-based `queryEdgeForEdges(ea0_t0, ea1_t0, ea0_t1, ea1_t1,
edgeInds, radius, eai)`. -/
def queryEdgeForEdgesSwept (sh : SpatialHash) (ea0_t0 ea1_t0 ea0_t1 ea1_t1 : Vec3)
    (edgeInds : List Nat) (radius : ℚ) (eai : Int) : List Nat :=
  let leftBottom := ((ea0_t0.cmin ea1_t0).cmin ea0_t1).cmin ea1_t1
  let rightTop := ((ea0_t0.cmax ea1_t0).cmax ea0_t1).cmax ea1_t1
  let edgeInds := sh.scanCells
    (fun edgeInds indI =>
      if indI ≥ sh.edgeStartInd ∧ indI < sh.triStartInd ∧
          (indI : Int) - (sh.edgeStartInd : Int) > eai
      then edgeInds ++ [indI - sh.edgeStartInd] else edgeInds)
    (sh.lookups (leftBottom.subScalar radius) (rightTop.addScalar radius))
    (stdClear edgeInds)
  stdUnique (stdSort edgeInds)

/-- The inner test of the index-keyed `queryEdgeForEdgesWithBBoxCheck` on the
edge `ebi`: its four rows of `V0`, `V1` are read and its swept box is compared
with the swept box of the query edge. -/
def bboxCheckSwept (V0 V1 : List Vec3) (E : List (Nat × Nat))
    (bboxEABottomLeft bboxEATopRight : Vec3) (ebi : Nat) : Except Err Bool :=
  match getE E ebi with
  | .error e => .error e
  | .ok eb =>
    match getE V0 eb.1 with
    | .error e => .error e
    | .ok eb0_t0 =>
      match getE V0 eb.2 with
      | .error e => .error e
      | .ok eb1_t0 =>
        match getE V1 eb.1 with
        | .error e => .error e
        | .ok eb0_t1 =>
          match getE V1 eb.2 with
          | .error e => .error e
          | .ok eb1_t1 =>
            let bboxEBTopRight := ((eb0_t0.cmax eb1_t0).cmax eb0_t1).cmax eb1_t1
            let bboxEBBottomLeft := ((eb0_t0.cmin eb1_t0).cmin eb0_t1).cmin eb1_t1
            .ok (decide (¬ ((bboxEBBottomLeft.sub bboxEATopRight).anyPos ∨
              (bboxEABottomLeft.sub bboxEBTopRight).anyPos)))

/-- The loop of the index-keyed queries for a `step` that reads mesh rows and can
fail; a cell missing from `voxel` fails the assertion. -/
def scanOccupancyE (sh : SpatialHash) (step : List Nat → Nat → Except Err (List Nat)) :
    List Int → List Nat → Except Err (List Nat)
  | [], inds => .ok inds
  | voxelInd :: rest, inds =>
    match voxelFind sh.voxel voxelInd with
    | none => .error .assertion
    | some l =>
      match foldE step l inds with
      | .error e => .error e
      | .ok inds' => scanOccupancyE sh step rest inds'

/-- Index-keyed swept `queryEdgeForEdgesWithBBoxCheck(V0, V1, E, F, eai,
edgeInds)`; the argument `F` is never read. -/
def queryEdgeForEdgesWithBBoxCheck (sh : SpatialHash) (V0 V1 : List Vec3)
    (E : List (Nat × Nat)) (eai : Nat) : Except Err (List Nat) :=
  match getE E eai with
  | .error e => .error e
  | .ok ea =>
    match getE V0 ea.1 with
    | .error e => .error e
    | .ok ea0_t0 =>
      match getE V0 ea.2 with
      | .error e => .error e
      | .ok ea1_t0 =>
        match getE V1 ea.1 with
        | .error e => .error e
        | .ok ea0_t1 =>
          match getE V1 ea.2 with
          | .error e => .error e
          | .ok ea1_t1 =>
            let bboxEATopRight := ((ea0_t0.cmax ea1_t0).cmax ea0_t1).cmax ea1_t1
            let bboxEABottomLeft := ((ea0_t0.cmin ea1_t0).cmin ea0_t1).cmin ea1_t1
            match getE sh.pointAndEdgeOccupancy (eai + sh.edgeStartInd) with
            | .error e => .error e
            | .ok occ =>
              sh.scanOccupancyE
                (fun edgeInds indI =>
                  if sh.edgeStartInd ≤ indI ∧ indI < sh.triStartInd ∧
                      indI - sh.edgeStartInd > eai
                  then
                    let ebi := indI - sh.edgeStartInd
                    match bboxCheckSwept V0 V1 E bboxEABottomLeft bboxEATopRight ebi with
                    | .error e => .error e
                    | .ok b =>
                      if b then .ok (setInsert edgeInds (indI - sh.edgeStartInd))
                      else .ok edgeInds
                  else .ok edgeInds)
                occ []

end SpatialHash

/-- The ID `indI` is stored in a cell `(ix, iy, iz)` of the clamped index box of
the world-space interval `[lo, hi]` inflated by `r`: on every axis the cell index
lies between `max(0, floor((lo - r - left_bottom) * inv_voxel_size))` and
`min(voxel_count - 1, floor((hi + r - left_bottom) * inv_voxel_size))`. -/
def StoredInBox (sh : SpatialHash) (lo hi : Vec3) (r : ℚ) (indI : Nat) : Prop :=
  ∃ ix iy iz : Int,
    (max 0 ⌊(lo.x - r - sh.leftBottomCorner.x) * sh.one_div_voxelSize⌋ ≤ ix ∧
      ix ≤ min (sh.voxelCount.x - 1)
        ⌊(hi.x + r - sh.leftBottomCorner.x) * sh.one_div_voxelSize⌋) ∧
    (max 0 ⌊(lo.y - r - sh.leftBottomCorner.y) * sh.one_div_voxelSize⌋ ≤ iy ∧
      iy ≤ min (sh.voxelCount.y - 1)
        ⌊(hi.y + r - sh.leftBottomCorner.y) * sh.one_div_voxelSize⌋) ∧
    (max 0 ⌊(lo.z - r - sh.leftBottomCorner.z) * sh.one_div_voxelSize⌋ ≤ iz ∧
      iz ≤ min (sh.voxelCount.z - 1)
        ⌊(hi.z + r - sh.leftBottomCorner.z) * sh.one_div_voxelSize⌋) ∧
    ∃ l, voxelFind sh.voxel (ix + iy * sh.voxelCount.x + iz * sh.voxelCount0x1) = some l ∧
      indI ∈ l

/-- A triangle with one vertex at each end of the unit diagonal and one on the
`x` axis; with voxel size 1 two of its vertices lie on the upper boundary. -/
def cornerV : List Vec3 := [⟨0, 0, 0⟩, ⟨1, 1, 1⟩, ⟨1, 0, 0⟩]

/-- The index the swept build makes of the corner triangle at rest with voxel
size 1. -/
def cornerIndex : SpatialHash where
  leftBottomCorner := ⟨0, 0, 0⟩
  rightTopCorner := ⟨1, 1, 1⟩
  one_div_voxelSize := 1
  voxelCount := ⟨1, 1, 1⟩
  voxelCount0x1 := 1
  edgeStartInd := 3
  triStartInd := 6
  voxel := [(0, [0, 3, 5, 6]), (3, [1, 3, 4, 6]), (1, [2, 3, 3, 3, 4, 5, 6, 6, 6]),
    (2, [3, 3, 3, 4, 4, 6, 6, 6])]
  pointAndEdgeOccupancy := [[0], [3], [1], [0, 1, 1, 2, 1, 2, 2, 3], [1, 2, 2, 3], [0, 1]]

/-- One task of a `tbb::parallel_for` over a `blocked_range`: the subrange
`[first, last)` handed to the lambda, run by the thread whose local buffer
`storages.local()` is number `worker`. -/
structure Chunk where
  worker : Nat
  first : Nat
  last : Nat
  deriving DecidableEq

/-- The iterations `for (i = range.begin(); i != range.end(); i++)` of a chunk. -/
def Chunk.indices (c : Chunk) : List Nat := List.range' c.first (c.last - c.first)

/-- The chunks are a splitting of `blocked_range(0, n)` whose tasks run on the
threads owning the buffers `workers` (listed in the iteration order of
`storages`): the buffers are distinct, every chunk runs on one of them, and
every index of `[0, n)` is visited by exactly one chunk. -/
def IsSchedule (n : Nat) (workers : List Nat) (chunks : List Chunk) : Prop :=
  workers.Nodup ∧ (∀ c ∈ chunks, c.worker ∈ workers) ∧
    (chunks.flatMap Chunk.indices).Perm (List.range n)

/-- A `tbb::parallel_for` whose body runs `row` for every index of its chunk and
appends what the iterations emplace to the local buffer of the running thread:
the result lists, per chunk in the order the chunks ran, the buffer and what was
appended to it. -/
def parallelFor (row : Nat → Except Err (List (Nat × Nat))) (chunks : List Chunk) :
    Except Err (List (Nat × List (Nat × Nat))) :=
  forEachM
    (fun c =>
      match concatM row c.indices with
      | .error e => .error e
      | .ok l => .ok (c.worker, l))
    chunks

/-- The content of the local buffer `w` after the chunks of one pass ran. -/
def localBuffer (outs : List (Nat × List (Nat × Nat))) (w : Nat) : List (Nat × Nat) :=
  (outs.filter (fun o => o.1 = w)).flatMap Prod.snd

/-- The object `storages` after the three passes: one `Candidates` per thread. -/
def localStorages (workers : List Nat) (ev ee fv : List (Nat × List (Nat × Nat))) :
    List Candidates :=
  workers.map (fun w => ⟨localBuffer ev w, localBuffer ee w, localBuffer fv w⟩)

/-- The body common to both `queryMeshForCandidates` overloads under a
schedule: the enabled passes run as parallel loops over their chunks, then
`merge_local_candidates(storages, candidates)`. -/
def threePasses (evRow eeRow fvRow : Nat → Except Err (List (Nat × Nat)))
    (candidates : Candidates) (queryEV queryEE queryFV : Bool) (workers : List Nat)
    (evChunks eeChunks fvChunks : List Chunk) : Except Err Candidates :=
  match (if queryEV then parallelFor evRow evChunks else .ok []) with
  | .error e => .error e
  | .ok ev =>
    match (if queryEE then parallelFor eeRow eeChunks else .ok []) with
    | .error e => .error e
    | .ok ee =>
      match (if queryFV then parallelFor fvRow fvChunks else .ok []) with
      | .error e => .error e
      | .ok fv => .ok (merge_local_candidates (localStorages workers ev ee fv) candidates)

namespace SpatialHash

/-- Static `queryMeshForCandidates` under a schedule of its three parallel
loops. -/
def queryMeshForCandidatesPar (sh : SpatialHash) (ext : External) (V : List Vec3)
    (E : List (Nat × Nat)) (F : List (Nat × Nat × Nat)) (candidates : Candidates)
    (radius : ℚ) (queryEV queryEE queryFV : Bool) (workers : List Nat)
    (evChunks eeChunks fvChunks : List Chunk) : Except Err Candidates :=
  threePasses (sh.evRow ext V E radius) (sh.eeRow ext V E radius) (sh.fvRow ext V F radius)
    candidates queryEV queryEE queryFV workers evChunks eeChunks fvChunks

/-- Swept `queryMeshForCandidates` under a schedule of its three parallel
loops. -/
def queryMeshForCandidatesSweptPar (sh : SpatialHash) (ext : External)
    (V0 V1 : List Vec3) (E : List (Nat × Nat)) (F : List (Nat × Nat × Nat))
    (candidates : Candidates) (radius : ℚ) (queryEV queryEE queryFV : Bool)
    (workers : List Nat) (evChunks eeChunks fvChunks : List Chunk) :
    Except Err Candidates :=
  if V0.length ≠ V1.length then .error .assertion else
  threePasses (sh.evRowSwept ext V0 V1 E radius) (sh.eeRowSwept ext V0 V1 E radius)
    (sh.fvRowSwept ext V0 V1 F radius)
    candidates queryEV queryEE queryFV workers evChunks eeChunks fvChunks

end SpatialHash

instance (n : Nat) (workers : List Nat) (chunks : List Chunk) :
    Decidable (IsSchedule n workers chunks) := by
  unfold IsSchedule; infer_instance

/-- A box of the two-dimensional overlap test, `[x0, x1] × [y0, y1]`, placed in
the plane `z = 0`. -/
def box2 (x0 y0 x1 y1 : ℚ) : AABB := ⟨⟨x0, y0, 0⟩, ⟨x1, y1, 0⟩⟩

/-- The index the swept build makes of the two crossing segments with the
auto-sized voxel, for average edge length 1 and average displacement length 3
(voxel size 6). -/
def crossAutoIndex : SpatialHash where
  leftBottomCorner := ⟨-1, -1, -1⟩
  rightTopCorner := ⟨1, 1, 1⟩
  one_div_voxelSize := 1 / 6
  voxelCount := ⟨1, 1, 1⟩
  voxelCount0x1 := 1
  edgeStartInd := 4
  triStartInd := 6
  voxel := [(0, [0, 1, 2, 3, 4, 5])]
  pointAndEdgeOccupancy := [[0], [0], [0], [0], [0], [0]]

/-! ### The static build and a query for a run-time dimension

The definitions above fix three components per vector. In the source the
vectors have the run-time size `dim = V.cols()`; the definitions of `Dyn` keep
that size, so that a read of a coefficient the vector does not have shows up as
`Err.outOfBounds`. -/

namespace Dyn

/-- An Eigen vector of run-time size (`VectorX3d`, `ArrayMax3d`): the list of its
coefficients. -/
abbrev ArrayMax3d := List ℚ

/-- An Eigen integer array of run-time size (`ArrayMax3i`). -/
abbrev ArrayMax3i := List Int

/-- `V.colwise().minCoeff()` for rows of run-time size. -/
def colwiseMinCoeff : List ArrayMax3d → Except Err ArrayMax3d
  | [] => .error .outOfBounds
  | v :: vs => .ok (vs.foldl (List.zipWith min) v)

/-- `V.colwise().maxCoeff()` for rows of run-time size. -/
def colwiseMaxCoeff : List ArrayMax3d → Except Err ArrayMax3d
  | [] => .error .outOfBounds
  | v :: vs => .ok (vs.foldl (List.zipWith max) v)

/-- `a.minCoeff()` of an integer array. -/
def minCoeff : ArrayMax3i → Except Err Int
  | [] => .error .outOfBounds
  | a :: as => .ok (as.foldl min a)

/-- `a.maxCoeff()` of an array. -/
def maxCoeff : ArrayMax3d → Except Err ℚ
  | [] => .error .outOfBounds
  | a :: as => .ok (as.foldl max a)

/-- The state of a `SpatialHash` object whose vectors have `dim` coefficients. -/
structure SpatialHash where
  dim : Nat
  leftBottomCorner : ArrayMax3d
  rightTopCorner : ArrayMax3d
  one_div_voxelSize : ℚ
  voxelCount : ArrayMax3i
  voxelCount0x1 : Int
  edgeStartInd : Nat
  triStartInd : Nat
  voxel : VoxelMap
  deriving DecidableEq

/-- The triple loop `for (iz = mins[2]; iz <= maxs[2]; iz++) … for (ix = mins[0];
…)` with its reads of `mins`, `maxs` and `voxelCount[0]`. -/
def cellLoop (voxelCount : ArrayMax3i) (voxelCount0x1 : Int) (mins maxs : ArrayMax3i) :
    Except Err (List Int) :=
  match getE mins 2 with
  | .error e => .error e
  | .ok minz =>
    match getE maxs 2 with
    | .error e => .error e
    | .ok maxz =>
      concatM (fun iz =>
        let zOffset := iz * voxelCount0x1
        match getE mins 1 with
        | .error e => .error e
        | .ok miny =>
          match getE maxs 1 with
          | .error e => .error e
          | .ok maxy =>
            concatM (fun iy =>
              match getE voxelCount 0 with
              | .error e => .error e
              | .ok nx =>
                let yzOffset := iy * nx + zOffset
                match getE mins 0 with
                | .error e => .error e
                | .ok minx =>
                  match getE maxs 0 with
                  | .error e => .error e
                  | .ok maxx => .ok ((rangeIncl minx maxx).map fun ix => ix + yzOffset))
              (rangeIncl miny maxy))
        (rangeIncl minz maxz)

/-- The sizing steps of `build` on the bounding corners. -/
def sizeGrid (dim : Nat) (leftBottomCorner rightTopCorner : ArrayMax3d) (voxelSize : ℚ)
    (nV nE : Nat) : Except Err SpatialHash :=
  match fdiv 1 voxelSize with
  | .error e => .error e
  | .ok one_div_voxelSize =>
    let range := List.zipWith (fun a b => a - b) rightTopCorner leftBottomCorner
    let voxelCount : ArrayMax3i := range.map (fun x => ⌈x * one_div_voxelSize⌉)
    match minCoeff voxelCount with
    | .error e => .error e
    | .ok m =>
      if m ≤ 0 then
        match maxCoeff range with
        | .error e => .error e
        | .ok mx =>
          match fdiv 1 (mx * (101 / 100)) with
          | .error e => .error e
          | .ok inv =>
            .ok { dim := dim
                  leftBottomCorner := leftBottomCorner
                  rightTopCorner := rightTopCorner
                  one_div_voxelSize := inv
                  voxelCount := voxelCount.map (fun _ => 1)
                  voxelCount0x1 := 1 * 1
                  edgeStartInd := nV
                  triStartInd := nV + nE
                  voxel := [] }
      else
        match getE voxelCount 0 with
        | .error e => .error e
        | .ok nx =>
          match getE voxelCount 1 with
          | .error e => .error e
          | .ok ny =>
            .ok { dim := dim
                  leftBottomCorner := leftBottomCorner
                  rightTopCorner := rightTopCorner
                  one_div_voxelSize := one_div_voxelSize
                  voxelCount := voxelCount
                  voxelCount0x1 := nx * ny
                  edgeStartInd := nV
                  triStartInd := nV + nE
                  voxel := [] }

namespace SpatialHash

/-- `locateVoxelAxisIndex(p, voxelAxisIndex)`. -/
def locateVoxelAxisIndex (sh : SpatialHash) (p : ArrayMax3d) : ArrayMax3i :=
  (List.zipWith (fun a b => (a - b) * sh.one_div_voxelSize) p sh.leftBottomCorner).map
    (fun x => ⌊x⌋)

/-- `voxelAxisIndex2VoxelIndex(ix, iy, iz)`: the assertion reads all three
coefficients of `voxelCount`. -/
def voxelAxisIndex2VoxelIndex3 (sh : SpatialHash) (ix iy iz : Int) : Except Err Int :=
  match getE sh.voxelCount 0 with
  | .error e => .error e
  | .ok nx =>
    match getE sh.voxelCount 1 with
    | .error e => .error e
    | .ok ny =>
      match getE sh.voxelCount 2 with
      | .error e => .error e
      | .ok nz =>
        if 0 ≤ ix ∧ 0 ≤ iy ∧ 0 ≤ iz ∧ ix < nx ∧ iy < ny ∧ iz < nz then
          .ok (ix + iy * nx + iz * sh.voxelCount0x1)
        else .error .assertion

/-- `voxelAxisIndex2VoxelIndex(const int voxelAxisIndex[3])`: reads the
coefficients 0, 1 and 2 of the array it is given. -/
def voxelAxisIndex2VoxelIndex (sh : SpatialHash) (voxelAxisIndex : ArrayMax3i) :
    Except Err Int :=
  match getE voxelAxisIndex 0 with
  | .error e => .error e
  | .ok ix =>
    match getE voxelAxisIndex 1 with
    | .error e => .error e
    | .ok iy =>
      match getE voxelAxisIndex 2 with
      | .error e => .error e
      | .ok iz => sh.voxelAxisIndex2VoxelIndex3 ix iy iz

/-- `locateVoxelIndex(p)`. -/
def locateVoxelIndex (sh : SpatialHash) (p : ArrayMax3d) : Except Err Int :=
  sh.voxelAxisIndex2VoxelIndex (sh.locateVoxelAxisIndex p)

/-- Static position-based `queryPointForTriangles(p, triInds, radius)`. -/
def queryPointForTriangles (sh : SpatialHash) (p : ArrayMax3d) (radius : ℚ) :
    Except Err (List Nat) :=
  let mins := sh.locateVoxelAxisIndex (p.map (fun x => x - radius))
  let maxs := sh.locateVoxelAxisIndex (p.map (fun x => x + radius))
  let mins := List.zipWith max mins (List.replicate sh.dim 0)
  let maxs := List.zipWith min maxs (sh.voxelCount.map (fun n => n - 1))
  match cellLoop sh.voxelCount sh.voxelCount0x1 mins maxs with
  | .error e => .error e
  | .ok cells =>
    .ok (cells.foldl
      (fun triInds c =>
        match voxelFind sh.voxel c with
        | none => triInds
        | some l =>
          l.foldl (fun triInds indI =>
            if indI ≥ sh.triStartInd then setInsert triInds (indI - sh.triStartInd)
            else triInds) triInds)
      [])

end SpatialHash

/-- The vertex loop `voxel[locateVoxelIndex(V.row(vi))].emplace_back(vi)`. -/
def insertVertices (sh : SpatialHash) : VoxelMap → List ArrayMax3d → Nat → Except Err VoxelMap
  | voxel, [], _ => .ok voxel
  | voxel, p :: ps, vi =>
    match sh.locateVoxelIndex p with
    | .error e => .error e
    | .ok k => insertVertices sh (voxelEmplace voxel k vi) ps (vi + 1)

/-- The cell list `voxelLoc_e[ei]` of the static build. -/
def staticEdgeCells (sh : SpatialHash) (vertexVoxelAxisIndex : List ArrayMax3i)
    (e : Nat × Nat) : Except Err (List Int) :=
  match getE vertexVoxelAxisIndex e.1 with
  | .error err => .error err
  | .ok voxelAxisIndex0 =>
    match getE vertexVoxelAxisIndex e.2 with
    | .error err => .error err
    | .ok voxelAxisIndex1 =>
      let mins := List.zipWith min voxelAxisIndex0 voxelAxisIndex1
      let maxs := List.zipWith max voxelAxisIndex0 voxelAxisIndex1
      cellLoop sh.voxelCount sh.voxelCount0x1 mins maxs

/-- The cell list `voxelLoc_f[fi]` of the static build; as in the source,
`voxelAxisIndex2` is read at `F(fi, 1)`. -/
def staticFaceCells (sh : SpatialHash) (vertexVoxelAxisIndex : List ArrayMax3i)
    (f : Nat × Nat × Nat) : Except Err (List Int) :=
  match getE vertexVoxelAxisIndex f.1 with
  | .error err => .error err
  | .ok voxelAxisIndex0 =>
    match getE vertexVoxelAxisIndex f.2.1 with
    | .error err => .error err
    | .ok voxelAxisIndex1 =>
      match getE vertexVoxelAxisIndex f.2.1 with
      | .error err => .error err
      | .ok voxelAxisIndex2 =>
        let mins := List.zipWith min (List.zipWith min voxelAxisIndex0 voxelAxisIndex1)
          voxelAxisIndex2
        let maxs := List.zipWith max (List.zipWith max voxelAxisIndex0 voxelAxisIndex1)
          voxelAxisIndex2
        cellLoop sh.voxelCount sh.voxelCount0x1 mins maxs

/-- Static `suggestGoodVoxelSize(V, E, F, inflation_radius)`; the length helper is
the parameter `average_edge_length`. -/
def suggestGoodVoxelSize
    (average_edge_length : List ArrayMax3d → List ArrayMax3d → List (Nat × Nat) → ℚ)
    (V : List ArrayMax3d) (E : List (Nat × Nat)) (_F : List (Nat × Nat × Nat))
    (inflation_radius : ℚ) : ℚ :=
  let edge_len := average_edge_length V V E
  2 * edge_len + inflation_radius

/-- Static `SpatialHash::build(V, E, F, voxelSize)` for `dim` columns. -/
def build (average_edge_length : List ArrayMax3d → List ArrayMax3d → List (Nat × Nat) → ℚ)
    (dim : Nat) (V : List ArrayMax3d) (E : List (Nat × Nat)) (F : List (Nat × Nat × Nat))
    (voxelSize : ℚ) : Except Err SpatialHash :=
  let voxelSize :=
    if voxelSize ≤ 0 then suggestGoodVoxelSize average_edge_length V E F 0 else voxelSize
  match colwiseMinCoeff V with
  | .error e => .error e
  | .ok leftBottomCorner =>
  match colwiseMaxCoeff V with
  | .error e => .error e
  | .ok rightTopCorner =>
    match sizeGrid dim leftBottomCorner rightTopCorner voxelSize V.length E.length with
    | .error e => .error e
    | .ok sh =>
      let vertexVoxelAxisIndex := V.map sh.locateVoxelAxisIndex
      match insertVertices sh [] V 0 with
      | .error e => .error e
      | .ok voxel0 =>
        match forEachM (staticEdgeCells sh vertexVoxelAxisIndex) E with
        | .error e => .error e
        | .ok voxelLoc_e =>
          match forEachM (staticFaceCells sh vertexVoxelAxisIndex) F with
          | .error e => .error e
          | .ok voxelLoc_f =>
            let voxel1 := insertLocs voxel0 voxelLoc_e sh.edgeStartInd
            let voxel2 := insertLocs voxel1 voxelLoc_f sh.triStartInd
            .ok { sh with voxel := voxel2 }

end Dyn

/-- The stretched triangle projected to the plane: three rows of two columns. -/
def planarV : List Dyn.ArrayMax3d := [[0, 0], [1, 1], [3, 3]]

/-- The grid the sizing steps make of `planarV` with voxel size 2. -/
def planarGrid : Dyn.SpatialHash where
  dim := 2
  leftBottomCorner := [0, 0]
  rightTopCorner := [3, 3]
  one_div_voxelSize := 1 / 2
  voxelCount := [2, 2]
  voxelCount0x1 := 4
  edgeStartInd := 3
  triStartInd := 6
  voxel := []

/-- The stretched triangle as three rows of three columns. -/
def spaceV : List Dyn.ArrayMax3d := [[0, 0, 0], [1, 1, 1], [3, 3, 3]]

/-- The index the static build makes of `spaceV` with voxel size 2. -/
def spaceIndex : Dyn.SpatialHash where
  dim := 3
  leftBottomCorner := [0, 0, 0]
  rightTopCorner := [3, 3, 3]
  one_div_voxelSize := 1 / 2
  voxelCount := [2, 2, 2]
  voxelCount0x1 := 4
  edgeStartInd := 3
  triStartInd := 6
  voxel := [(0, [0, 1, 3, 4, 5, 6]), (7, [2, 4, 5]), (1, [4, 5]), (2, [4, 5]),
    (3, [4, 5]), (4, [4, 5]), (5, [4, 5]), (6, [4, 5])]


/-- The points `P` have zero extent along some axis. -/
def FlatAlongAxis (P : List Vec3) : Prop :=
  (∀ p ∈ P, ∀ q ∈ P, p.x = q.x) ∨ (∀ p ∈ P, ∀ q ∈ P, p.y = q.y) ∨
    (∀ p ∈ P, ∀ q ∈ P, p.z = q.z)

instance (P : List Vec3) : Decidable (FlatAlongAxis P) := by
  unfold FlatAlongAxis; infer_instance

/-- The index the static build makes of the flat triangle with voxel size 1: the
fallback grid, with the occupancy table as `clear()` left it. -/
def flatTriStaticIndex : SpatialHash :=
  { flatTriIndex with pointAndEdgeOccupancy := [] }

/-- The exhaustive scan for edge-vertex pairs that the spec compares with: the
pair `(ei, vi)` is kept when `vi` is not an endpoint of edge `ei` and
`point_edge_aabb_ccd` accepts the positions at `radius`. -/
def ExhaustiveEV (ext : External) (V0 V1 : List Vec3) (E : List (Nat × Nat)) (radius : ℚ)
    (p : Nat × Nat) : Prop :=
  ∃ e p0 e00 e10 p1 e01 e11, E[p.1]? = some e ∧ (p.2 ≠ e.1 ∧ p.2 ≠ e.2) ∧
    (V0[p.2]? = some p0 ∧ V0[e.1]? = some e00 ∧ V0[e.2]? = some e10) ∧
    (V1[p.2]? = some p1 ∧ V1[e.1]? = some e01 ∧ V1[e.2]? = some e11) ∧
    ext.point_edge_aabb_ccd p0 e00 e10 p1 e01 e11 radius = true

/-- The exhaustive scan for edge-edge pairs that the spec compares with: the pair
`(eai, ebi)` with `eai < ebi` is kept when the edges share no vertex and
`edge_edge_aabb_ccd` accepts the positions at `radius`. -/
def ExhaustiveEE (ext : External) (V0 V1 : List Vec3) (E : List (Nat × Nat)) (radius : ℚ)
    (p : Nat × Nat) : Prop :=
  p.1 < p.2 ∧ ∃ ea eb a00 a10 b00 b10 a01 a11 b01 b11,
    (E[p.1]? = some ea ∧ E[p.2]? = some eb) ∧
    (ea.1 ≠ eb.1 ∧ ea.1 ≠ eb.2 ∧ ea.2 ≠ eb.1 ∧ ea.2 ≠ eb.2) ∧
    (V0[ea.1]? = some a00 ∧ V0[ea.2]? = some a10 ∧ V0[eb.1]? = some b00 ∧
      V0[eb.2]? = some b10) ∧
    (V1[ea.1]? = some a01 ∧ V1[ea.2]? = some a11 ∧ V1[eb.1]? = some b01 ∧
      V1[eb.2]? = some b11) ∧
    ext.edge_edge_aabb_ccd a00 a10 b00 b10 a01 a11 b01 b11 radius = true

/-- The exhaustive scan for face-vertex pairs that the spec compares with: the
pair `(fi, vi)` is kept when `vi` is not a vertex of face `fi` and
`point_triangle_aabb_ccd` accepts the positions at `radius`. -/
def ExhaustiveFV (ext : External) (V0 V1 : List Vec3) (F : List (Nat × Nat × Nat))
    (radius : ℚ) (p : Nat × Nat) : Prop :=
  ∃ f p0 t00 t10 t20 p1 t01 t11 t21, F[p.1]? = some f ∧
    (p.2 ≠ f.1 ∧ p.2 ≠ f.2.1 ∧ p.2 ≠ f.2.2) ∧
    (V0[p.2]? = some p0 ∧ V0[f.1]? = some t00 ∧ V0[f.2.1]? = some t10 ∧
      V0[f.2.2]? = some t20) ∧
    (V1[p.2]? = some p1 ∧ V1[f.1]? = some t01 ∧ V1[f.2.1]? = some t11 ∧
      V1[f.2.2]? = some t21) ∧
    ext.point_triangle_aabb_ccd p0 t00 t10 t20 p1 t01 t11 t21 radius = true

/-- The primitives with the IDs `a` and `b` share a voxel cell of the index: some
voxel list holds both IDs. -/
def SharesCell (sh : SpatialHash) (a b : Nat) : Prop :=
  ∃ c l, voxelFind sh.voxel c = some l ∧ a ∈ l ∧ b ∈ l

/-- The swept AABB predicates of `ext` accept at `radius` only pairs whose
uninflated swept boxes (componentwise min/max of the positions at `t0` and
`t1`) intersect. -/
def PredicatesWithinBoxes (ext : External) (radius : ℚ) : Prop :=
  (∀ p0 e00 e10 p1 e01 e11, ext.point_edge_aabb_ccd p0 e00 e10 p1 e01 e11 radius = true →
    (AABB.from_point_swept p0 p1 0).intersects
      ((AABB.from_point_swept e00 e01 0).union (AABB.from_point_swept e10 e11 0)) = true) ∧
  (∀ a00 a10 b00 b10 a01 a11 b01 b11,
    ext.edge_edge_aabb_ccd a00 a10 b00 b10 a01 a11 b01 b11 radius = true →
    ((AABB.from_point_swept a00 a01 0).union (AABB.from_point_swept a10 a11 0)).intersects
      ((AABB.from_point_swept b00 b01 0).union (AABB.from_point_swept b10 b11 0)) = true) ∧
  (∀ p0 t00 t10 t20 p1 t01 t11 t21,
    ext.point_triangle_aabb_ccd p0 t00 t10 t20 p1 t01 t11 t21 radius = true →
    (AABB.from_point_swept p0 p1 0).intersects
      (((AABB.from_point_swept t00 t01 0).union (AABB.from_point_swept t10 t11 0)).union
        (AABB.from_point_swept t20 t21 0)) = true)

/-- The least `int`, `-2^31`. -/
def INT_MIN : Int := -2147483648

/-- The greatest `int`, `2^31 - 1`. -/
def INT_MAX : Int := 2147483647

/-- The `int` an `int` operation leaves when its exact result is `z`: the
two's-complement reduction of `z` to 32 bits. (Signed overflow is undefined in
C++; this is the value the machine instruction produces.) -/
def wrap32 (z : Int) : Int := (z + 2147483648) % 4294967296 - 2147483648

/-- The cast `.template cast<int>()` of a `double` whose value is the integer
`z`: exact when `z` fits, and otherwise the value `INT_MIN` the conversion
instruction returns. It is the non-positive count that the fallback of
`build` tests for ("cast overflow due to huge search direction"). -/
def castInt (z : Int) : Int := if INT_MIN ≤ z ∧ z ≤ INT_MAX then z else INT_MIN

/-- Coefficient-wise cast to `int`. -/
def Idx3.castInt (a : Idx3) : Idx3 := ⟨ipc.castInt a.x, ipc.castInt a.y, ipc.castInt a.z⟩

/-- The vector `(range * one_div_voxelSize).ceil().template cast<int>()` for
`one_div_voxelSize = 1.0 / voxelSize`. For `voxelSize = 0` the quotient is
`inf`, every product `range[k] * inf` is `inf` or NaN, and every cast gives
`INT_MIN`. -/
def castCeilCount (range : Vec3) (voxelSize : ℚ) : Idx3 :=
  if voxelSize = 0 then ⟨INT_MIN, INT_MIN, INT_MIN⟩
  else ((range.scale (1 / voxelSize)).ceil).castInt

/-- The collective steps of `build` on the bounding corners, in `int`
arithmetic: `voxelCount` is the cast count, replaced by ones (together with
`one_div_voxelSize`) when `voxelCount.minCoeff() <= 0`, and `voxelCount0x1` is
the `int` product. A zero `range.maxCoeff()` in the fallback is an error, as in
`sizeGrid`. -/
def sizeGrid32 (leftBottomCorner rightTopCorner : Vec3) (voxelSize : ℚ)
    (nV nE : Nat) : Except Err SpatialHash :=
  let range := rightTopCorner.sub leftBottomCorner
  let voxelCount := castCeilCount range voxelSize
  if voxelCount.minCoeff ≤ 0 then
    match fdiv 1 (range.maxCoeff * (101 / 100)) with
    | .error e => .error e
    | .ok inv =>
      .ok { leftBottomCorner := leftBottomCorner
            rightTopCorner := rightTopCorner
            one_div_voxelSize := inv
            voxelCount := ⟨1, 1, 1⟩
            voxelCount0x1 := wrap32 (1 * 1)
            edgeStartInd := nV
            triStartInd := nV + nE
            voxel := []
            pointAndEdgeOccupancy := clearedOccupancy }
  else
    .ok { leftBottomCorner := leftBottomCorner
          rightTopCorner := rightTopCorner
          one_div_voxelSize := 1 / voxelSize
          voxelCount := voxelCount
          voxelCount0x1 := wrap32 (voxelCount.x * voxelCount.y)
          edgeStartInd := nV
          triStartInd := nV + nE
          voxel := []
          pointAndEdgeOccupancy := clearedOccupancy }

namespace SpatialHash

/-- `locateVoxelAxisIndex(p, voxelAxisIndex)` with the cast to `int`. -/
def locateVoxelAxisIndex32 (sh : SpatialHash) (p : Vec3) : Idx3 :=
  (((p.sub sh.leftBottomCorner).scale sh.one_div_voxelSize).floor).castInt

/-- The `int` expression `ix + iy * voxelCount[0] + iz * voxelCount0x1` that
`voxelAxisIndex2VoxelIndex` returns. -/
def linearIndex32 (sh : SpatialHash) (ix iy iz : Int) : Int :=
  wrap32 (wrap32 (ix + wrap32 (iy * sh.voxelCount.x)) + wrap32 (iz * sh.voxelCount0x1))

/-- `voxelAxisIndex2VoxelIndex(ix, iy, iz)` in `int` arithmetic, with its
bounds assertion. -/
def voxelAxisIndex2VoxelIndex32 (sh : SpatialHash) (ix iy iz : Int) : Except Err Int :=
  if sh.inGrid ix iy iz then .ok (sh.linearIndex32 ix iy iz) else .error .assertion

/-- `locateVoxelIndex(p)` in `int` arithmetic. -/
def locateVoxelIndex32 (sh : SpatialHash) (p : Vec3) : Except Err Int :=
  let voxelAxisIndex := sh.locateVoxelAxisIndex32 p
  sh.voxelAxisIndex2VoxelIndex32 voxelAxisIndex.x voxelAxisIndex.y voxelAxisIndex.z

end SpatialHash

/-- The `int` the cell loops compute for the cell `(ix, iy, iz)`:
`zOffset = iz * voxelCount0x1`, `yzOffset = iy * voxelCount[0] + zOffset`, and
the key `ix + yzOffset`. -/
def inlineIndex32 (voxelCount : Idx3) (voxelCount0x1 : Int) (ix iy iz : Int) : Int :=
  let zOffset := wrap32 (iz * voxelCount0x1)
  let yzOffset := wrap32 (wrap32 (iy * voxelCount.x) + zOffset)
  wrap32 (ix + yzOffset)

/-- The triple loop over the index box `mins..maxs` with `int` counters and
keys. A loop `for (int i = lo; i <= hi; i++)` whose bound `hi` is `INT_MAX`
has no last iteration; entering one is the error `Err.nonTermination`. -/
def cellLoop32 (voxelCount : Idx3) (voxelCount0x1 : Int) (mins maxs : Idx3) :
    Except Err (List Int) :=
  if maxs.z = INT_MAX then .error .nonTermination else
  concatM (fun iz =>
    if maxs.y = INT_MAX then .error .nonTermination else
    concatM (fun iy =>
      if maxs.x = INT_MAX then .error .nonTermination else
      .ok ((rangeIncl mins.x maxs.x).map fun ix =>
        inlineIndex32 voxelCount voxelCount0x1 ix iy iz))
      (rangeIncl mins.y maxs.y))
    (rangeIncl mins.z maxs.z)

/-- The serial vertex loop of the static build with `locateVoxelIndex` in `int`
arithmetic, from vertex index `vi` on. -/
def insertVertices32 (sh : SpatialHash) : VoxelMap → List Vec3 → Nat → Except Err VoxelMap
  | voxel, [], _ => .ok voxel
  | voxel, p :: ps, vi =>
    match sh.locateVoxelIndex32 p with
    | .error e => .error e
    | .ok k => insertVertices32 sh (voxelEmplace voxel k vi) ps (vi + 1)

/-- The cell list `voxelLoc_e[ei]` of the static build, in `int` arithmetic. -/
def staticEdgeCells32 (sh : SpatialHash) (vertexVoxelAxisIndex : List Idx3)
    (e : Nat × Nat) : Except Err (List Int) :=
  match getE vertexVoxelAxisIndex e.1 with
  | .error err => .error err
  | .ok voxelAxisIndex0 =>
    match getE vertexVoxelAxisIndex e.2 with
    | .error err => .error err
    | .ok voxelAxisIndex1 =>
      let mins := voxelAxisIndex0.cmin voxelAxisIndex1
      let maxs := voxelAxisIndex0.cmax voxelAxisIndex1
      cellLoop32 sh.voxelCount sh.voxelCount0x1 mins maxs

/-- The cell list `voxelLoc_f[fi]` of the static build, in `int` arithmetic; as
in the source, `voxelAxisIndex2` is read at `F(fi, 1)`. -/
def staticFaceCells32 (sh : SpatialHash) (vertexVoxelAxisIndex : List Idx3)
    (f : Nat × Nat × Nat) : Except Err (List Int) :=
  match getE vertexVoxelAxisIndex f.1 with
  | .error err => .error err
  | .ok voxelAxisIndex0 =>
    match getE vertexVoxelAxisIndex f.2.1 with
    | .error err => .error err
    | .ok voxelAxisIndex1 =>
      match getE vertexVoxelAxisIndex f.2.1 with
      | .error err => .error err
      | .ok voxelAxisIndex2 =>
        let mins := (voxelAxisIndex0.cmin voxelAxisIndex1).cmin voxelAxisIndex2
        let maxs := (voxelAxisIndex0.cmax voxelAxisIndex1).cmax voxelAxisIndex2
        cellLoop32 sh.voxelCount sh.voxelCount0x1 mins maxs

/-- Static `SpatialHash::build(V, E, F, voxelSize)` in `int` arithmetic. -/
def build32 (ext : External) (V : List Vec3) (E : List (Nat × Nat))
    (F : List (Nat × Nat × Nat)) (voxelSize : ℚ) : Except Err SpatialHash :=
  let voxelSize := if voxelSize ≤ 0 then suggestGoodVoxelSize ext V E F 0 else voxelSize
  match colwiseMinCoeff V with
  | .error e => .error e
  | .ok leftBottomCorner =>
  match colwiseMaxCoeff V with
  | .error e => .error e
  | .ok rightTopCorner =>
    match sizeGrid32 leftBottomCorner rightTopCorner voxelSize V.length E.length with
    | .error e => .error e
    | .ok sh =>
      let vertexVoxelAxisIndex := V.map sh.locateVoxelAxisIndex32
      match insertVertices32 sh [] V 0 with
      | .error e => .error e
      | .ok voxel0 =>
        match forEachM (staticEdgeCells32 sh vertexVoxelAxisIndex) E with
        | .error e => .error e
        | .ok voxelLoc_e =>
          match forEachM (staticFaceCells32 sh vertexVoxelAxisIndex) F with
          | .error e => .error e
          | .ok voxelLoc_f =>
            let voxel1 := insertLocs voxel0 voxelLoc_e sh.edgeStartInd
            let voxel2 := insertLocs voxel1 voxelLoc_f sh.triStartInd
            .ok { sh with voxel := voxel2 }

/-- The cell list `pointAndEdgeOccupancy[vi]` of the swept build, in `int`
arithmetic. -/
def sweptVertexCells32 (sh : SpatialHash) (a : Idx3 × Idx3) : Except Err (List Int) :=
  cellLoop32 sh.voxelCount sh.voxelCount0x1 a.1 a.2

/-- The cell list `pointAndEdgeOccupancy[ei + edgeStartInd]` of the swept build,
in `int` arithmetic. -/
def sweptEdgeCells32 (sh : SpatialHash) (vertexMinVAI vertexMaxVAI : List Idx3)
    (e : Nat × Nat) : Except Err (List Int) :=
  match getVAI vertexMinVAI vertexMaxVAI e.1 with
  | .error err => .error err
  | .ok a0 =>
    match getVAI vertexMinVAI vertexMaxVAI e.2 with
    | .error err => .error err
    | .ok a1 =>
      let mins := a0.1.cmin a1.1
      let maxs := a0.2.cmax a1.2
      cellLoop32 sh.voxelCount sh.voxelCount0x1 mins maxs

/-- The cell list `voxelLoc_f[fi]` of the swept build, in `int` arithmetic. -/
def sweptFaceCells32 (sh : SpatialHash) (vertexMinVAI vertexMaxVAI : List Idx3)
    (f : Nat × Nat × Nat) : Except Err (List Int) :=
  match getVAI vertexMinVAI vertexMaxVAI f.1 with
  | .error err => .error err
  | .ok a0 =>
    match getVAI vertexMinVAI vertexMaxVAI f.2.1 with
    | .error err => .error err
    | .ok a1 =>
      match getVAI vertexMinVAI vertexMaxVAI f.2.2 with
      | .error err => .error err
      | .ok a2 =>
        let mins := (a0.1.cmin a1.1).cmin a2.1
        let maxs := (a0.2.cmax a1.2).cmax a2.2
        cellLoop32 sh.voxelCount sh.voxelCount0x1 mins maxs

/-- Swept `SpatialHash::build(V0, V1, E, F, voxelSize)` in `int` arithmetic. -/
def buildSwept32 (ext : External) (V0 V1 : List Vec3) (E : List (Nat × Nat))
    (F : List (Nat × Nat × Nat)) (voxelSize : ℚ) : Except Err SpatialHash :=
  if V0.length ≠ V1.length then .error .assertion else
  let voxelSize :=
    if voxelSize ≤ 0 then suggestGoodVoxelSizeSwept ext V0 V1 E F 0 else voxelSize
  match colwiseMinCoeff V0 with
  | .error e => .error e
  | .ok min0 =>
  match colwiseMinCoeff V1 with
  | .error e => .error e
  | .ok min1 =>
  match colwiseMaxCoeff V0 with
  | .error e => .error e
  | .ok max0 =>
  match colwiseMaxCoeff V1 with
  | .error e => .error e
  | .ok max1 =>
    match sizeGrid32 (min0.cmin min1) (max0.cmax max1) voxelSize V0.length E.length with
    | .error e => .error e
    | .ok sh =>
      let vertexMinVAI := List.zipWith
        (fun p0 p1 => (sh.locateVoxelAxisIndex32 p0).cmin (sh.locateVoxelAxisIndex32 p1)) V0 V1
      let vertexMaxVAI := List.zipWith
        (fun p0 p1 => (sh.locateVoxelAxisIndex32 p0).cmax (sh.locateVoxelAxisIndex32 p1)) V0 V1
      match forEachM (sweptVertexCells32 sh) (List.zip vertexMinVAI vertexMaxVAI) with
      | .error e => .error e
      | .ok occupancyV =>
        match forEachM (sweptEdgeCells32 sh vertexMinVAI vertexMaxVAI) E with
        | .error e => .error e
        | .ok occupancyE =>
          match forEachM (sweptFaceCells32 sh vertexMinVAI vertexMaxVAI) F with
          | .error e => .error e
          | .ok voxelLoc_f =>
            let pointAndEdgeOccupancy := occupancyV ++ occupancyE
            let voxel1 := insertLocs [] pointAndEdgeOccupancy 0
            let voxel2 := insertLocs voxel1 voxelLoc_f sh.triStartInd
            .ok { sh with voxel := voxel2, pointAndEdgeOccupancy := pointAndEdgeOccupancy }

/-- The fallback of the grid sizing triggers in `int` arithmetic for the
corners `lb`, `rt` and the voxel size `s`: `s` is zero, or some component of
`ceil(range * (1/s))` is `<= 0` or exceeds `INT_MAX` (its cast overflows). -/
def FallbackTriggers32 (lb rt : Vec3) (s : ℚ) : Prop :=
  let count := ((rt.sub lb).scale (1 / s)).ceil
  s = 0 ∨ (count.x ≤ 0 ∨ INT_MAX < count.x) ∨ (count.y ≤ 0 ∨ INT_MAX < count.y) ∨
    (count.z ≤ 0 ∨ INT_MAX < count.z)

instance (lb rt : Vec3) (s : ℚ) : Decidable (FallbackTriggers32 lb rt s) := by
  unfold FallbackTriggers32; infer_instance

/-- The grid sizing rule in `int` arithmetic, read off a built index for the
voxel size `s`: unless the fallback triggers the index holds
`count = ceil((right_top - left_bottom) * (1/s))` and `1/s`; when it triggers it
holds the single cell and `1 / (max(range) * 1.01)`; `nx_ny` is the `int`
product of the first two counts. -/
def GridRule32 (sh : SpatialHash) (s : ℚ) : Prop :=
  let range := sh.rightTopCorner.sub sh.leftBottomCorner
  let count := (range.scale (1 / s)).ceil
  (FallbackTriggers32 sh.leftBottomCorner sh.rightTopCorner s →
    sh.voxelCount = ⟨1, 1, 1⟩ ∧
    sh.one_div_voxelSize = 1 / (range.maxCoeff * (101 / 100))) ∧
  (¬ FallbackTriggers32 sh.leftBottomCorner sh.rightTopCorner s →
    sh.voxelCount = count ∧ sh.one_div_voxelSize = 1 / s) ∧
  sh.voxelCount0x1 = wrap32 (sh.voxelCount.x * sh.voxelCount.y)

/-- The list the loop `cellLoop32` leaves when it ends: cell by cell in loop
order, the linear formula reduced to an `int`. -/
def cellList32 (voxelCount : Idx3) (voxelCount0x1 : Int) (mins maxs : Idx3) : List Int :=
  (rangeIncl mins.z maxs.z).flatMap fun iz =>
    (rangeIncl mins.y maxs.y).flatMap fun iy =>
      (rangeIncl mins.x maxs.x).map fun ix =>
        wrap32 (ix + iy * voxelCount.x + iz * voxelCount0x1)

/-- The loops `for (int i = ...; i <= maxs[k]; i++)` up to `maxs` end: no bound
is `INT_MAX`. -/
def LoopEnds (maxs : Idx3) : Prop :=
  maxs.x ≠ INT_MAX ∧ maxs.y ≠ INT_MAX ∧ maxs.z ≠ INT_MAX

instance (maxs : Idx3) : Decidable (LoopEnds maxs) := by
  unfold LoopEnds; infer_instance


namespace SpatialHash

/-- The keys passed to `voxel.find` by a position-based query whose world-space
interval is `[leftBottom, rightTop]`, in `int` arithmetic: the two corners are
located and cast, `mins` is clamped by `mins.max(Zero)` and `maxs` by
`maxs.min(voxelCount - 1)`, and the triple loop enumerates `ix + yzOffset`. -/
def lookups32 (sh : SpatialHash) (leftBottom rightTop : Vec3) : Except Err (List Int) :=
  let mins := sh.locateVoxelAxisIndex32 leftBottom
  let maxs := sh.locateVoxelAxisIndex32 rightTop
  let mins := mins.cmax ⟨0, 0, 0⟩
  let maxs := maxs.cmin
    ⟨wrap32 (sh.voxelCount.x - 1), wrap32 (sh.voxelCount.y - 1), wrap32 (sh.voxelCount.z - 1)⟩
  cellLoop32 sh.voxelCount sh.voxelCount0x1 mins maxs

end SpatialHash

/-- Two vertices spanning a grid of `65536 x 65536 x 2` cells of size 1. -/
def wideV : List Vec3 := [⟨0, 0, 0⟩, ⟨131071 / 2, 131071 / 2, 3 / 2⟩]

/-- The index the static build makes of `wideV` with voxel size 1: the product
`65536 * 65536` is `0` as an `int`, and the far vertex, in the cell
`(65535, 65535, 1)`, is stored under the key `-1`. -/
def wideIndex : SpatialHash where
  leftBottomCorner := ⟨0, 0, 0⟩
  rightTopCorner := ⟨131071 / 2, 131071 / 2, 3 / 2⟩
  one_div_voxelSize := 1
  voxelCount := ⟨65536, 65536, 2⟩
  voxelCount0x1 := 0
  edgeStartInd := 2
  triStartInd := 2
  voxel := [(0, [0]), (-1, [1])]
  pointAndEdgeOccupancy := []

/-- One edge across a box of extent `10^10` on every axis. -/
def hugeV : List Vec3 := [⟨0, 0, 0⟩, ⟨10000000000, 10000000000, 10000000000⟩]

/-- The index the static build makes of the edge `hugeV` with voxel size 1: the
count `10^10` of every axis does not fit an `int`, and the fallback leaves one
cell. -/
def hugeIndex : SpatialHash where
  leftBottomCorner := ⟨0, 0, 0⟩
  rightTopCorner := ⟨10000000000, 10000000000, 10000000000⟩
  one_div_voxelSize := 1 / 10100000000
  voxelCount := ⟨1, 1, 1⟩
  voxelCount0x1 := 1
  edgeStartInd := 2
  triStartInd := 3
  voxel := [(0, [0, 1, 2])]
  pointAndEdgeOccupancy := []

/-- The index the swept build makes of `wideV` at rest with voxel size 1: the far
vertex occupies the one cell `(65535, 65535, 1)`, listed under the key `-1`. -/
def wideSweptIndex : SpatialHash where
  leftBottomCorner := ⟨0, 0, 0⟩
  rightTopCorner := ⟨131071 / 2, 131071 / 2, 3 / 2⟩
  one_div_voxelSize := 1
  voxelCount := ⟨65536, 65536, 2⟩
  voxelCount0x1 := 0
  edgeStartInd := 2
  triStartInd := 2
  voxel := [(0, [0]), (-1, [1])]
  pointAndEdgeOccupancy := [[0], [-1]]

/-! ## Loops that collect pairs -/

theorem collectM_mem {α β : Type} {f : α → Except Err (Option β)} :
    ∀ {xs : List α} {ys : List β}, collectM f xs = .ok ys →
      ∀ y ∈ ys, ∃ x ∈ xs, f x = .ok (some y) := by
  intro xs
  induction xs with
  | nil =>
    intro ys h y hy
    simp [collectM] at h
    subst h
    simp at hy
  | cons a as ih =>
    intro ys h y hy
    simp only [collectM] at h
    cases hfa : f a with
    | error e => simp [hfa] at h
    | ok r =>
      cases hrest : collectM f as with
      | error e => simp [hfa, hrest] at h
      | ok bs =>
        cases r with
        | none =>
          simp [hfa, hrest] at h
          subst h
          obtain ⟨x, hx, hfx⟩ := ih hrest y hy
          exact ⟨x, List.mem_cons_of_mem _ hx, hfx⟩
        | some b =>
          simp [hfa, hrest] at h
          subst h
          rcases List.mem_cons.mp hy with hyb | hyb
          · subst hyb
            exact ⟨a, List.mem_cons_self _ _, hfa⟩
          · obtain ⟨x, hx, hfx⟩ := ih hrest y hyb
            exact ⟨x, List.mem_cons_of_mem _ hx, hfx⟩

theorem concatM_mem {α β : Type} {f : α → Except Err (List β)} :
    ∀ {xs : List α} {ys : List β}, concatM f xs = .ok ys →
      ∀ y ∈ ys, ∃ x ∈ xs, ∃ bs, f x = .ok bs ∧ y ∈ bs := by
  intro xs
  induction xs with
  | nil =>
    intro ys h y hy
    simp [concatM] at h
    subst h
    simp at hy
  | cons a as ih =>
    intro ys h y hy
    simp only [concatM] at h
    cases hfa : f a with
    | error e => simp [hfa] at h
    | ok bs =>
      cases hrest : concatM f as with
      | error e => simp [hfa, hrest] at h
      | ok cs =>
        simp [hfa, hrest] at h
        subst h
        rcases List.mem_append.mp hy with hyb | hyb
        · exact ⟨a, List.mem_cons_self _ _, bs, hfa, hyb⟩
        · obtain ⟨x, hx, bs', hfx, hy'⟩ := ih hrest y hyb
          exact ⟨x, List.mem_cons_of_mem _ hx, bs', hfx, hy'⟩

theorem merge_local_candidates_single (l c : Candidates) :
    merge_local_candidates [l] c =
      ⟨c.ev_candidates ++ l.ev_candidates, c.ee_candidates ++ l.ee_candidates,
        c.fv_candidates ++ l.fv_candidates⟩ := rfl

theorem getE_ok {α : Type} {xs : List α} {i : Nat} {a : α} (h : getE xs i = .ok a) :
    xs[i]? = some a := by
  unfold getE at h
  cases hx : xs[i]? with
  | none => simp [hx] at h
  | some b =>
    simp [hx] at h
    simp [h]

namespace SpatialHash

/-- What one iteration of the swept edge-edge pass can append. -/
theorem eeRowSwept_mem {sh : SpatialHash} {ext : External} {V0 V1 : List Vec3}
    {E : List (Nat × Nat)} {radius : ℚ} {eai : Nat} {l : List (Nat × Nat)}
    (h : sh.eeRowSwept ext V0 V1 E radius eai = .ok l) :
    ∀ p ∈ l, p.1 = eai ∧ p.1 < p.2 ∧ ∃ ea eb, E[p.1]? = some ea ∧ E[p.2]? = some eb ∧
      ea.1 ≠ eb.1 ∧ ea.1 ≠ eb.2 ∧ ea.2 ≠ eb.1 ∧ ea.2 ≠ eb.2 := by
  intro p hp
  unfold eeRowSwept at h
  cases hq : sh.queryEdgeForEdges eai with
  | error e => simp [hq] at h
  | ok edgeInds =>
    simp only [hq] at h
    obtain ⟨ebi, _, hf⟩ := collectM_mem h p hp
    cases hea : getE E eai with
    | error e => simp [hea] at hf
    | ok ea =>
      cases heb : getE E ebi with
      | error e => simp [hea, heb] at hf
      | ok eb =>
        simp only [hea, heb] at hf
        split at hf
        · rename_i hc
          cases h0 : rows4 V0 ea.1 ea.2 eb.1 eb.2 with
          | error e => simp [h0] at hf
          | ok r0 =>
            cases h1 : rows4 V1 ea.1 ea.2 eb.1 eb.2 with
            | error e => simp [h0, h1] at hf
            | ok r1 =>
              simp only [h0, h1] at hf
              split at hf
              · simp at hf
                subst hf
                exact ⟨rfl, hc.2.2.2.2, ea, eb, getE_ok hea, getE_ok heb,
                  hc.1, hc.2.1, hc.2.2.1, hc.2.2.2.1⟩
              · simp at hf
        · simp at hf

/-- What one iteration of the swept edge-vertex pass can append. -/
theorem evRowSwept_mem {sh : SpatialHash} {ext : External} {V0 V1 : List Vec3}
    {E : List (Nat × Nat)} {radius : ℚ} {vi : Nat} {l : List (Nat × Nat)}
    (h : sh.evRowSwept ext V0 V1 E radius vi = .ok l) :
    ∀ p ∈ l, p.2 = vi ∧ ∃ e, E[p.1]? = some e ∧ p.2 ≠ e.1 ∧ p.2 ≠ e.2 := by
  intro p hp
  unfold evRowSwept at h
  cases hq : sh.queryPointForEdges vi with
  | error e => simp [hq] at h
  | ok edgeInds =>
    simp only [hq] at h
    obtain ⟨ei, _, hf⟩ := collectM_mem h p hp
    cases he : getE E ei with
    | error e => simp [he] at hf
    | ok e =>
      simp only [he] at hf
      split at hf
      · rename_i hc
        cases h0 : rows3 V0 vi e.1 e.2 with
        | error e => simp [h0] at hf
        | ok r0 =>
          cases h1 : rows3 V1 vi e.1 e.2 with
          | error e => simp [h0, h1] at hf
          | ok r1 =>
            simp only [h0, h1] at hf
            split at hf
            · simp at hf
              subst hf
              exact ⟨rfl, e, getE_ok he, hc.1, hc.2⟩
            · simp at hf
      · simp at hf

/-- What one iteration of the swept face-vertex pass can append. -/
theorem fvRowSwept_mem {sh : SpatialHash} {ext : External} {V0 V1 : List Vec3}
    {F : List (Nat × Nat × Nat)} {radius : ℚ} {vi : Nat} {l : List (Nat × Nat)}
    (h : sh.fvRowSwept ext V0 V1 F radius vi = .ok l) :
    ∀ p ∈ l, p.2 = vi ∧ ∃ f, F[p.1]? = some f ∧ p.2 ≠ f.1 ∧ p.2 ≠ f.2.1 ∧ p.2 ≠ f.2.2 := by
  intro p hp
  unfold fvRowSwept at h
  cases hq : sh.queryPointForTriangles vi with
  | error e => simp [hq] at h
  | ok triInds =>
    simp only [hq] at h
    obtain ⟨fi, _, hf⟩ := collectM_mem h p hp
    cases he : getE F fi with
    | error e => simp [he] at hf
    | ok f =>
      simp only [he] at hf
      split at hf
      · rename_i hc
        cases h0 : rows4 V0 vi f.1 f.2.1 f.2.2 with
        | error e => simp [h0] at hf
        | ok r0 =>
          cases h1 : rows4 V1 vi f.1 f.2.1 f.2.2 with
          | error e => simp [h0, h1] at hf
          | ok r1 =>
            simp only [h0, h1] at hf
            split at hf
            · simp at hf
              subst hf
              exact ⟨rfl, f, getE_ok he, hc.1, hc.2.1, hc.2.2⟩
            · simp at hf
      · simp at hf

end SpatialHash

namespace SpatialHash

/-- The admission test of the static edge-edge pass cannot be met: an iteration
appends nothing. -/
theorem eeRow_nil {sh : SpatialHash} {ext : External} {V : List Vec3}
    {E : List (Nat × Nat)} {radius : ℚ} {eai : Nat} {l : List (Nat × Nat)}
    (h : sh.eeRow ext V E radius eai = .ok l) : l = [] := by
  cases l with
  | nil => rfl
  | cons p ps =>
    exfalso
    unfold eeRow at h
    cases hq : sh.queryEdgeForEdges eai with
    | error e => simp [hq] at h
    | ok edgeInds =>
      simp only [hq] at h
      obtain ⟨ebi, _, hf⟩ := collectM_mem h p (List.mem_cons_self _ _)
      cases hea : getE E eai with
      | error e => simp [hea] at hf
      | ok ea =>
        cases heb : getE E ebi with
        | error e => simp [hea, heb] at hf
        | ok eb =>
          simp only [hea, heb] at hf
          split at hf
          · rename_i hc
            exact hc.1 (hc.2.1.trans (hc.2.2.2.1.symm.trans hc.2.2.1))
          · simp at hf

theorem queryMeshForCandidatesSwept_ok {sh : SpatialHash} {ext : External}
    {V0 V1 : List Vec3} {E : List (Nat × Nat)} {F : List (Nat × Nat × Nat)}
    {cands c : Candidates} {radius : ℚ} {queryEV queryEE queryFV : Bool}
    (h : sh.queryMeshForCandidatesSwept ext V0 V1 E F cands radius queryEV queryEE queryFV
      = .ok c) :
    ∃ ev ee fv,
      c = ⟨cands.ev_candidates ++ ev, cands.ee_candidates ++ ee, cands.fv_candidates ++ fv⟩ ∧
      (if queryEV then concatM (sh.evRowSwept ext V0 V1 E radius) (List.range V0.length)
        else .ok []) = .ok ev ∧
      (if queryEE then concatM (sh.eeRowSwept ext V0 V1 E radius) (List.range E.length)
        else .ok []) = .ok ee ∧
      (if queryFV then concatM (sh.fvRowSwept ext V0 V1 F radius) (List.range V0.length)
        else .ok []) = .ok fv := by
  unfold queryMeshForCandidatesSwept at h
  split at h
  · simp at h
  · split at h
    · simp at h
    · rename_i ev hev
      split at h
      · simp at h
      · rename_i ee hee
        split at h
        · simp at h
        · rename_i fv hfv
          simp only [merge_local_candidates_single, Except.ok.injEq] at h
          exact ⟨ev, ee, fv, h.symm, hev, hee, hfv⟩

theorem queryMeshForCandidates_ok {sh : SpatialHash} {ext : External}
    {V : List Vec3} {E : List (Nat × Nat)} {F : List (Nat × Nat × Nat)}
    {cands c : Candidates} {radius : ℚ} {queryEV queryEE queryFV : Bool}
    (h : sh.queryMeshForCandidates ext V E F cands radius queryEV queryEE queryFV = .ok c) :
    ∃ ev ee fv,
      c = ⟨cands.ev_candidates ++ ev, cands.ee_candidates ++ ee, cands.fv_candidates ++ fv⟩ ∧
      (if queryEV then concatM (sh.evRow ext V E radius) (List.range V.length)
        else .ok []) = .ok ev ∧
      (if queryEE then concatM (sh.eeRow ext V E radius) (List.range E.length)
        else .ok []) = .ok ee ∧
      (if queryFV then concatM (sh.fvRow ext V F radius) (List.range V.length)
        else .ok []) = .ok fv := by
  unfold queryMeshForCandidates at h
  split at h
  · simp at h
  · rename_i ev hev
    split at h
    · simp at h
    · rename_i ee hee
      split at h
      · simp at h
      · rename_i fv hfv
        simp only [merge_local_candidates_single, Except.ok.injEq] at h
        exact ⟨ev, ee, fv, h.symm, hev, hee, hfv⟩

/-- The static edge-edge pass appends nothing, whatever the index holds. -/
theorem static_ee_pass_nil {sh : SpatialHash} {ext : External} {V : List Vec3}
    {E : List (Nat × Nat)} {radius : ℚ} {queryEE : Bool} {ee : List (Nat × Nat)}
    (h : (if queryEE then concatM (sh.eeRow ext V E radius) (List.range E.length)
      else .ok []) = .ok ee) : ee = [] := by
  cases queryEE with
  | false =>
    simp at h
    exact h
  | true =>
    simp only [if_true] at h
    cases ee with
    | nil => rfl
    | cons p ps =>
      obtain ⟨x, _, bs, hx, hp⟩ := concatM_mem h p (List.mem_cons_self _ _)
      rw [eeRow_nil hx] at hp
      simp at hp

/-- Every pair the swept edge-edge pass appends is ordered and shares no vertex. -/
theorem swept_ee_pass_mem {sh : SpatialHash} {ext : External} {V0 V1 : List Vec3}
    {E : List (Nat × Nat)} {radius : ℚ} {queryEE : Bool} {ee : List (Nat × Nat)}
    (h : (if queryEE then concatM (sh.eeRowSwept ext V0 V1 E radius) (List.range E.length)
      else .ok []) = .ok ee) :
    ∀ p ∈ ee, p.1 < p.2 ∧ ∃ ea eb, E[p.1]? = some ea ∧ E[p.2]? = some eb ∧
      ea.1 ≠ eb.1 ∧ ea.1 ≠ eb.2 ∧ ea.2 ≠ eb.1 ∧ ea.2 ≠ eb.2 := by
  intro p hp
  cases queryEE with
  | false =>
    simp at h
    subst h
    simp at hp
  | true =>
    simp only [if_true] at h
    obtain ⟨x, _, bs, hx, hpb⟩ := concatM_mem h p hp
    exact (eeRowSwept_mem hx p hpb).2

end SpatialHash

/-! ## Claims -/

/-- C1, at a failing input. Two segments on the diagonal, `(0,0,0)-(3,3,3)` and
`(5,5,5)-(7,7,7)`, at rest, voxel size 4 and radius 2: the swept boxes inflated
by 2 are `[-2,5]³` and `[3,9]³`, so `edge_edge_aabb_ccd` holds for the edges
`0 < 1`, which share no vertex; the swept build puts them in the cells 0 and 7
and the swept query, which does not use the radius, returns no candidate. -/
theorem swept_query_misses_inflated_pair :
    sweptPipeline (specExternal 0 0) farSegV farSegV twoSegE [] 4 2 true true true
      = .ok ⟨[], [], []⟩ ∧
    (specExternal 0 0).edge_edge_aabb_ccd ⟨0, 0, 0⟩ ⟨3, 3, 3⟩ ⟨5, 5, 5⟩ ⟨7, 7, 7⟩
      ⟨0, 0, 0⟩ ⟨3, 3, 3⟩ ⟨5, 5, 5⟩ ⟨7, 7, 7⟩ 2 = true ∧
    farSegV = [⟨0, 0, 0⟩, ⟨3, 3, 3⟩, ⟨5, 5, 5⟩, ⟨7, 7, 7⟩] ∧
    twoSegE = [(0, 1), (2, 3)] ∧
    (∃ sh, buildSwept (specExternal 0 0) farSegV farSegV twoSegE [] 4 = .ok sh ∧
      sh.pointAndEdgeOccupancy = [[0], [0], [7], [7], [0], [7]]) := by
  refine ⟨by decide!, by decide!, rfl, rfl, ?_⟩
  refine ⟨⟨⟨0, 0, 0⟩, ⟨7, 7, 7⟩, 1 / 4, ⟨2, 2, 2⟩, 4, 4, 6,
    [(0, [0, 1, 4]), (7, [2, 3, 5])], [[0], [0], [7], [7], [0], [7]]⟩, by decide!, rfl⟩

/-- C2. Edge-pair uniqueness: whatever the index, the mesh, the radius and the
flags, every pair `(eai, ebi)` that the static or the swept
`queryMeshForCandidates` appends to `ee_candidates` has `eai < ebi`. -/
theorem ee_candidates_ordered (sh : SpatialHash) (ext : External) (V V0 V1 : List Vec3)
    (E : List (Nat × Nat)) (F : List (Nat × Nat × Nat)) (cands : Candidates)
    (radius : ℚ) (queryEV queryEE queryFV : Bool) :
    (∀ c, sh.queryMeshForCandidates ext V E F cands radius queryEV queryEE queryFV = .ok c →
      ∃ app, c.ee_candidates = cands.ee_candidates ++ app ∧ ∀ p ∈ app, p.1 < p.2) ∧
    (∀ c, sh.queryMeshForCandidatesSwept ext V0 V1 E F cands radius queryEV queryEE queryFV
        = .ok c →
      ∃ app, c.ee_candidates = cands.ee_candidates ++ app ∧ ∀ p ∈ app, p.1 < p.2) := by
  constructor
  · intro c h
    obtain ⟨ev, ee, fv, hc, _, hee, _⟩ := SpatialHash.queryMeshForCandidates_ok h
    refine ⟨ee, by rw [hc], ?_⟩
    rw [SpatialHash.static_ee_pass_nil hee]
    intro p hp
    simp at hp
  · intro c h
    obtain ⟨ev, ee, fv, hc, _, hee, _⟩ := SpatialHash.queryMeshForCandidatesSwept_ok h
    refine ⟨ee, by rw [hc], ?_⟩
    intro p hp
    exact (SpatialHash.swept_ee_pass_mem hee p hp).1

/-- Witness of C2 on the pierced triangle at radius 1/16: both queries return,
the swept one appends the ordered pair `(1, 3)`. -/
theorem ee_candidates_ordered_witness :
    (pierceIndex.queryMeshForCandidates (specExternal 0 0) pierceV pierceE triF ⟨[], [], []⟩
        (1 / 16) true true true
      = .ok ⟨[(0, 0), (2, 0), (1, 1), (3, 3)], [], [(0, 0)]⟩ ∧
      ∃ app, ([] : List (Nat × Nat)) = [] ++ app ∧ ∀ p ∈ app, p.1 < p.2) ∧
    (pierceIndex.queryMeshForCandidatesSwept (specExternal 0 0) pierceV pierceV pierceE triF
        ⟨[], [], []⟩ (1 / 16) true true true
      = .ok ⟨[(1, 0), (1, 3)], [(1, 3)], [(0, 3)]⟩ ∧
      ∃ app, [(1, 3)] = ([] : List (Nat × Nat)) ++ app ∧ ∀ p ∈ app, p.1 < p.2) :=
  ⟨⟨by decide!,
      (ee_candidates_ordered pierceIndex (specExternal 0 0) pierceV pierceV pierceV pierceE
        triF ⟨[], [], []⟩ (1 / 16) true true true).1
        ⟨[(0, 0), (2, 0), (1, 1), (3, 3)], [], [(0, 0)]⟩ (by decide!)⟩,
    ⟨by decide!,
      (ee_candidates_ordered pierceIndex (specExternal 0 0) pierceV pierceV pierceV pierceE
        triF ⟨[], [], []⟩ (1 / 16) true true true).2
        ⟨[(1, 0), (1, 3)], [(1, 3)], [(0, 3)]⟩ (by decide!)⟩⟩

/-- C3. Incidence exclusion (swept): whatever the index, the mesh, the radius
and the flags, every pair the swept `queryMeshForCandidates` appends passed the
incidence filter: an edge-vertex pair `(ei, vi)` has `vi` different from both
endpoints of edge `ei`, a face-vertex pair `(fi, vi)` has `vi` different from the
three vertices of face `fi`, and the two edges of an edge-edge pair share no
vertex. -/
theorem swept_incidence_exclusion (sh : SpatialHash) (ext : External) (V0 V1 : List Vec3)
    (E : List (Nat × Nat)) (F : List (Nat × Nat × Nat)) (cands c : Candidates)
    (radius : ℚ) (queryEV queryEE queryFV : Bool)
    (h : sh.queryMeshForCandidatesSwept ext V0 V1 E F cands radius queryEV queryEE queryFV
      = .ok c) :
    ∃ ev ee fv,
      c = ⟨cands.ev_candidates ++ ev, cands.ee_candidates ++ ee, cands.fv_candidates ++ fv⟩ ∧
      (∀ p ∈ ev, ∃ e, E[p.1]? = some e ∧ p.2 ≠ e.1 ∧ p.2 ≠ e.2) ∧
      (∀ p ∈ ee, ∃ ea eb, E[p.1]? = some ea ∧ E[p.2]? = some eb ∧
        ea.1 ≠ eb.1 ∧ ea.1 ≠ eb.2 ∧ ea.2 ≠ eb.1 ∧ ea.2 ≠ eb.2) ∧
      (∀ p ∈ fv, ∃ f, F[p.1]? = some f ∧ p.2 ≠ f.1 ∧ p.2 ≠ f.2.1 ∧ p.2 ≠ f.2.2) := by
  obtain ⟨ev, ee, fv, hc, hev, hee, hfv⟩ := SpatialHash.queryMeshForCandidatesSwept_ok h
  refine ⟨ev, ee, fv, hc, ?_, ?_, ?_⟩
  · intro p hp
    cases queryEV with
    | false =>
      simp at hev
      subst hev
      simp at hp
    | true =>
      simp only [if_true] at hev
      obtain ⟨x, _, bs, hx, hpb⟩ := concatM_mem hev p hp
      exact (SpatialHash.evRowSwept_mem hx p hpb).2
  · intro p hp
    exact (SpatialHash.swept_ee_pass_mem hee p hp).2
  · intro p hp
    cases queryFV with
    | false =>
      simp at hfv
      subst hfv
      simp at hp
    | true =>
      simp only [if_true] at hfv
      obtain ⟨x, _, bs, hx, hpb⟩ := concatM_mem hfv p hp
      exact (SpatialHash.fvRowSwept_mem hx p hpb).2

/-- Witness of C3 on the pierced triangle at radius 1/16, starting from
non-empty `Candidates`: the query returns and appends one or two pairs per list. -/
theorem swept_incidence_exclusion_witness :
    pierceIndex.queryMeshForCandidatesSwept (specExternal 0 0) pierceV pierceV pierceE triF
        ⟨[(7, 7)], [(8, 8)], [(9, 9)]⟩ (1 / 16) true true true
      = .ok ⟨[(7, 7), (1, 0), (1, 3)], [(8, 8), (1, 3)], [(9, 9), (0, 3)]⟩ ∧
    ∃ ev ee fv,
      (⟨[(7, 7), (1, 0), (1, 3)], [(8, 8), (1, 3)], [(9, 9), (0, 3)]⟩ : Candidates)
        = ⟨[(7, 7)] ++ ev, [(8, 8)] ++ ee, [(9, 9)] ++ fv⟩ ∧
      (∀ p ∈ ev, ∃ e, pierceE[p.1]? = some e ∧ p.2 ≠ e.1 ∧ p.2 ≠ e.2) ∧
      (∀ p ∈ ee, ∃ ea eb, pierceE[p.1]? = some ea ∧ pierceE[p.2]? = some eb ∧
        ea.1 ≠ eb.1 ∧ ea.1 ≠ eb.2 ∧ ea.2 ≠ eb.1 ∧ ea.2 ≠ eb.2) ∧
      (∀ p ∈ fv, ∃ f, triF[p.1]? = some f ∧ p.2 ≠ f.1 ∧ p.2 ≠ f.2.1 ∧ p.2 ≠ f.2.2) :=
  ⟨by decide!,
    swept_incidence_exclusion pierceIndex (specExternal 0 0) pierceV pierceV pierceE triF
      ⟨[(7, 7)], [(8, 8)], [(9, 9)]⟩ _ (1 / 16) true true true (by decide!)⟩

/-- C4, at a failing input. On the index the swept build makes of the pierced
triangle, the static `queryMeshForCandidates` at radius 0 returns the
edge-vertex pairs `(0,0)`, `(2,0)`, `(1,1)`, `(3,3)` and the face-vertex pair
`(0,0)`: in each the vertex is the first endpoint of the edge, resp. the first
vertex of the face. -/
theorem static_query_admits_incident_pairs :
    buildSwept (specExternal 0 0) pierceV pierceV pierceE triF 2 = .ok pierceIndex ∧
    pierceIndex.queryMeshForCandidates (specExternal 0 0) pierceV pierceE triF ⟨[], [], []⟩
        0 true true true
      = .ok ⟨[(0, 0), (2, 0), (1, 1), (3, 3)], [], [(0, 0)]⟩ ∧
    pierceE = [(0, 1), (1, 2), (0, 2), (3, 4)] ∧ triF = [(0, 1, 2)] := by
  refine ⟨by decide!, by decide!, rfl, rfl⟩

/-- C5, refuted. On the two-segment mesh no voxel size, no flag setting and no
choice of the external collaborators makes the static pipeline return
`ee_candidates = [(0,1)]` at radius 0. -/
theorem two_segments_static_not_pair :
    ¬ ∃ (ext : External) (voxelSize : ℚ) (queryEV queryFV : Bool) (c : Candidates),
      staticPipeline ext twoSegV twoSegE [] voxelSize 0 queryEV true queryFV = .ok c ∧
      c.ee_candidates = [(0, 1)] := by
  rintro ⟨ext, voxelSize, queryEV, queryFV, c, h, hc⟩
  unfold staticPipeline at h
  split at h
  · simp at h
  · obtain ⟨ev, ee, fv, hcc, _, hee, _⟩ := SpatialHash.queryMeshForCandidates_ok h
    rw [SpatialHash.static_ee_pass_nil hee] at hcc
    rw [hcc] at hc
    simp at hc

/-- C5, amended. On the two-segment mesh at radius 0 the boxes of the two edges,
`[-1,1]×{-1}×{0}` and `{0}×{1}×[-1,1]`, are disjoint, `edge_edge_aabb_cd` rejects
the pair, and the static `queryMeshForCandidates`, on whatever index it runs and
whenever it returns, returns an empty `ee_candidates`. -/
theorem two_segments_static_no_ee (sh : SpatialHash) (edge_len disp_len : ℚ)
    (queryEV queryFV : Bool) (c : Candidates)
    (h : sh.queryMeshForCandidates (specExternal edge_len disp_len) twoSegV twoSegE []
      ⟨[], [], []⟩ 0 queryEV true queryFV = .ok c) :
    c.ee_candidates = [] ∧
    (specExternal edge_len disp_len).edge_edge_aabb_cd
      ⟨-1, -1, 0⟩ ⟨1, -1, 0⟩ ⟨0, 1, 1⟩ ⟨0, 1, -1⟩ 0 = false := by
  constructor
  · obtain ⟨ev, ee, fv, hcc, _, hee, _⟩ := SpatialHash.queryMeshForCandidates_ok h
    rw [SpatialHash.static_ee_pass_nil hee] at hcc
    rw [hcc]
    rfl
  · simp [specExternal, AABB.intersects, AABB.union, AABB.from_point, Vec3.addScalar,
      Vec3.cmin, Vec3.cmax]

/-- Witness of the amended C5: on the index the swept build makes of the
two-segment mesh the static query returns, with two edge-vertex pairs and no
edge-edge pair. -/
theorem two_segments_static_no_ee_witness :
    buildSwept (specExternal 2 0) twoSegV twoSegV twoSegE [] 0 = .ok twoSegIndex ∧
    twoSegIndex.queryMeshForCandidates (specExternal 2 0) twoSegV twoSegE []
        ⟨[], [], []⟩ 0 true true true = .ok ⟨[(0, 0), (1, 2)], [], []⟩ ∧
    (([] : List (Nat × Nat)) = [] ∧
      (specExternal 2 0).edge_edge_aabb_cd
        ⟨-1, -1, 0⟩ ⟨1, -1, 0⟩ ⟨0, 1, 1⟩ ⟨0, 1, -1⟩ 0 = false) :=
  ⟨by decide!, by decide!,
    two_segments_static_no_ee twoSegIndex 2 0 true true ⟨[(0, 0), (1, 2)], [], []⟩
      (by decide!)⟩

/-- C6, at a failing input. With `V1 = V0` the swept pipeline returns on the
two-segment mesh (no candidate at radius 0) and on the pierced triangle (four
candidates at radius 1/16); the static pipeline on the same inputs stops at an
out-of-bounds read of `pointAndEdgeOccupancy`, which the static build leaves
empty. Run on the index of the swept build instead, the static query returns
other sets than the swept one. -/
theorem static_swept_disagree_at_rest :
    sweptPipeline (specExternal 2 0) twoSegV twoSegV twoSegE [] 0 0 false true false
      = .ok ⟨[], [], []⟩ ∧
    staticPipeline (specExternal 2 0) twoSegV twoSegE [] 0 0 false true false
      = .error .outOfBounds ∧
    sweptPipeline (specExternal 0 0) pierceV pierceV pierceE triF 2 (1 / 16) true true true
      = .ok ⟨[(1, 0), (1, 3)], [(1, 3)], [(0, 3)]⟩ ∧
    staticPipeline (specExternal 0 0) pierceV pierceE triF 2 (1 / 16) true true true
      = .error .outOfBounds ∧
    pierceIndex.queryMeshForCandidates (specExternal 0 0) pierceV pierceE triF ⟨[], [], []⟩
        (1 / 16) true true true
      = .ok ⟨[(0, 0), (2, 0), (1, 1), (3, 3)], [], [(0, 0)]⟩ := by
  refine ⟨by decide!, by decide!, by decide!, by decide!, by decide!⟩

/-! ## Grid sizing -/

theorem colwiseMinCoeff_replicate (p : Vec3) (n : Nat) :
    colwiseMinCoeff (List.replicate (n + 1) p) = .ok p := by
  have h : ∀ k : Nat, (List.replicate k p).foldl Vec3.cmin p = p := by
    intro k
    induction k with
    | zero => rfl
    | succ k ih => simpa [List.replicate_succ, Vec3.cmin] using ih
  simp [List.replicate_succ, colwiseMinCoeff, h]

theorem colwiseMaxCoeff_replicate (p : Vec3) (n : Nat) :
    colwiseMaxCoeff (List.replicate (n + 1) p) = .ok p := by
  have h : ∀ k : Nat, (List.replicate k p).foldl Vec3.cmax p = p := by
    intro k
    induction k with
    | zero => rfl
    | succ k ih => simpa [List.replicate_succ, Vec3.cmax] using ih
  simp [List.replicate_succ, colwiseMaxCoeff, h]

/-- With coinciding corners the fallback divides by `0 * 1.01`. -/
theorem sizeGrid_degenerate (p : Vec3) (voxelSize : ℚ) (nV nE : Nat) :
    sizeGrid p p voxelSize nV nE = .error .divByZero := by
  unfold sizeGrid fdiv
  by_cases hs : voxelSize = 0
  · simp [hs]
  · simp [hs, Vec3.sub, Vec3.scale, Vec3.ceil, Vec3.maxCoeff, Idx3.minCoeff]

/-- C7, at the failing input. For the mesh whose `n + 1` vertices all equal
`p` (in particular `(0,0,0)`) with the single edge `(0,0)`, the static and the
swept build divide by zero, for every voxel size (auto-sized or given) and
whatever the length helpers return: the range is zero, `voxelCount` is not
positive and the fallback evaluates `1.0 / (0 * 1.01)`. -/
theorem degenerate_build_divides_by_zero (ext : External) (p : Vec3) (n : Nat)
    (voxelSize : ℚ) :
    build ext (List.replicate (n + 1) p) [(0, 0)] [] voxelSize = .error .divByZero ∧
    buildSwept ext (List.replicate (n + 1) p) (List.replicate (n + 1) p) [(0, 0)] []
      voxelSize = .error .divByZero := by
  constructor
  · unfold build
    simp only [colwiseMinCoeff_replicate, colwiseMaxCoeff_replicate, sizeGrid_degenerate]
  · unfold buildSwept
    have hc : ∀ q : Vec3, q.cmin q = q ∧ q.cmax q = q := by
      intro q
      simp [Vec3.cmin, Vec3.cmax]
    simp only [colwiseMinCoeff_replicate, colwiseMaxCoeff_replicate, (hc p).1, (hc p).2,
      sizeGrid_degenerate]
    simp

/-- C8, at a failing input. For the two vertices `(0,0,0)`, `(1,1,1)` and voxel
size 1 the grid has one cell per axis while the vertex `(1,1,1)` has voxel-axis
index `(1,1,1)`: the static build stops at the bounds assertion of
`voxelAxisIndex2VoxelIndex`, and the swept build returns an index in which that
vertex lies outside the grid. -/
theorem boundary_vertex_outside_grid :
    build (specExternal 0 0) [⟨0, 0, 0⟩, ⟨1, 1, 1⟩] [(0, 1)] [] 1 = .error .assertion ∧
    buildSwept (specExternal 0 0) [⟨0, 0, 0⟩, ⟨1, 1, 1⟩] [⟨0, 0, 0⟩, ⟨1, 1, 1⟩] [(0, 1)] [] 1
      = .ok diagIndex ∧
    diagIndex.voxelCount = ⟨1, 1, 1⟩ ∧
    diagIndex.locateVoxelAxisIndex ⟨1, 1, 1⟩ = ⟨1, 1, 1⟩ ∧
    ¬ diagIndex.inGrid 1 1 1 := by
  refine ⟨by decide!, by decide!, rfl, by decide!, by decide!⟩

theorem foldl_min_proj (f : Vec3 → ℚ) (hf : ∀ a b, f (Vec3.cmin a b) = min (f a) (f b)) :
    ∀ (vs : List Vec3) (v : Vec3),
      (∀ w ∈ v :: vs, f (vs.foldl Vec3.cmin v) ≤ f w) ∧
      (∃ w ∈ v :: vs, f w = f (vs.foldl Vec3.cmin v)) := by
  intro vs
  induction vs with
  | nil =>
    intro v
    simp
  | cons a as ih =>
    intro v
    obtain ⟨hle, w, hw, hwe⟩ := ih (Vec3.cmin v a)
    have hm := hle (Vec3.cmin v a) (List.mem_cons_self _ _)
    rw [hf] at hm
    constructor
    · intro u hu
      simp only [List.foldl_cons]
      rcases List.mem_cons.mp hu with h | h
      · subst h
        exact le_trans hm (min_le_left _ _)
      · rcases List.mem_cons.mp h with h | h
        · subst h
          exact le_trans hm (min_le_right _ _)
        · exact hle u (List.mem_cons_of_mem _ h)
    · simp only [List.foldl_cons]
      rcases List.mem_cons.mp hw with h | h
      · subst h
        rw [hf] at hwe
        rcases min_choice (f v) (f a) with hc | hc
        · exact ⟨v, List.mem_cons_self _ _, by rw [← hwe, hc]⟩
        · exact ⟨a, by simp, by rw [← hwe, hc]⟩
      · exact ⟨w, by simp [h], hwe⟩

theorem foldl_max_proj (f : Vec3 → ℚ) (hf : ∀ a b, f (Vec3.cmax a b) = max (f a) (f b)) :
    ∀ (vs : List Vec3) (v : Vec3),
      (∀ w ∈ v :: vs, f w ≤ f (vs.foldl Vec3.cmax v)) ∧
      (∃ w ∈ v :: vs, f w = f (vs.foldl Vec3.cmax v)) := by
  intro vs
  induction vs with
  | nil =>
    intro v
    simp
  | cons a as ih =>
    intro v
    obtain ⟨hle, w, hw, hwe⟩ := ih (Vec3.cmax v a)
    have hm := hle (Vec3.cmax v a) (List.mem_cons_self _ _)
    rw [hf] at hm
    constructor
    · intro u hu
      simp only [List.foldl_cons]
      rcases List.mem_cons.mp hu with h | h
      · subst h
        exact le_trans (le_max_left _ _) hm
      · rcases List.mem_cons.mp h with h | h
        · subst h
          exact le_trans (le_max_right _ _) hm
        · exact hle u (List.mem_cons_of_mem _ h)
    · simp only [List.foldl_cons]
      rcases List.mem_cons.mp hw with h | h
      · subst h
        rw [hf] at hwe
        rcases max_choice (f v) (f a) with hc | hc
        · exact ⟨v, List.mem_cons_self _ _, by rw [← hwe, hc]⟩
        · exact ⟨a, by simp, by rw [← hwe, hc]⟩
      · exact ⟨w, by simp [h], hwe⟩

/-- The corners `colwise().minCoeff()` and `colwise().maxCoeff()` are the
componentwise extremes of the rows. -/
theorem colwise_isExtremes {V : List Vec3} {lb rt : Vec3}
    (hlb : colwiseMinCoeff V = .ok lb) (hrt : colwiseMaxCoeff V = .ok rt) :
    IsExtremes lb rt V := by
  cases V with
  | nil => simp [colwiseMinCoeff] at hlb
  | cons v vs =>
    simp only [colwiseMinCoeff, Except.ok.injEq] at hlb
    simp only [colwiseMaxCoeff, Except.ok.injEq] at hrt
    subst hlb
    subst hrt
    have hx := foldl_min_proj (fun a => a.x) (fun _ _ => rfl) vs v
    have hy := foldl_min_proj (fun a => a.y) (fun _ _ => rfl) vs v
    have hz := foldl_min_proj (fun a => a.z) (fun _ _ => rfl) vs v
    have hX := foldl_max_proj (fun a => a.x) (fun _ _ => rfl) vs v
    have hY := foldl_max_proj (fun a => a.y) (fun _ _ => rfl) vs v
    have hZ := foldl_max_proj (fun a => a.z) (fun _ _ => rfl) vs v
    exact ⟨fun w hw => ⟨⟨hx.1 w hw, hy.1 w hw, hz.1 w hw⟩, ⟨hX.1 w hw, hY.1 w hw, hZ.1 w hw⟩⟩,
      ⟨hx.2, hy.2, hz.2⟩, ⟨hX.2, hY.2, hZ.2⟩⟩

theorem isExtremes_append {lb0 rt0 lb1 rt1 : Vec3} {V0 V1 : List Vec3}
    (h0 : IsExtremes lb0 rt0 V0) (h1 : IsExtremes lb1 rt1 V1) :
    IsExtremes (lb0.cmin lb1) (rt0.cmax rt1) (V0 ++ V1) := by
  obtain ⟨hb0, ⟨⟨ax0, hax0, eax0⟩, ⟨ay0, hay0, eay0⟩, ⟨az0, haz0, eaz0⟩⟩,
    ⟨⟨bx0, hbx0, ebx0⟩, ⟨by0, hby0, eby0⟩, ⟨bz0, hbz0, ebz0⟩⟩⟩ := h0
  obtain ⟨hb1, ⟨⟨ax1, hax1, eax1⟩, ⟨ay1, hay1, eay1⟩, ⟨az1, haz1, eaz1⟩⟩,
    ⟨⟨bx1, hbx1, ebx1⟩, ⟨by1, hby1, eby1⟩, ⟨bz1, hbz1, ebz1⟩⟩⟩ := h1
  have pick_min : ∀ (a b : ℚ) (u w : Vec3) (f : Vec3 → ℚ), u ∈ V0 → w ∈ V1 →
      f u = a → f w = b → ∃ v ∈ V0 ++ V1, f v = min a b := by
    intro a b u w f hu hw hua hwb
    rcases min_choice a b with hc | hc
    · exact ⟨u, List.mem_append_left _ hu, by rw [hc, hua]⟩
    · exact ⟨w, List.mem_append_right _ hw, by rw [hc, hwb]⟩
  have pick_max : ∀ (a b : ℚ) (u w : Vec3) (f : Vec3 → ℚ), u ∈ V0 → w ∈ V1 →
      f u = a → f w = b → ∃ v ∈ V0 ++ V1, f v = max a b := by
    intro a b u w f hu hw hua hwb
    rcases max_choice a b with hc | hc
    · exact ⟨u, List.mem_append_left _ hu, by rw [hc, hua]⟩
    · exact ⟨w, List.mem_append_right _ hw, by rw [hc, hwb]⟩
  refine ⟨?_, ⟨?_, ?_, ?_⟩, ⟨?_, ?_, ?_⟩⟩
  · intro v hv
    simp only [Vec3.cmin, Vec3.cmax]
    rcases List.mem_append.mp hv with h | h
    · obtain ⟨⟨h1, h2, h3⟩, ⟨h4, h5, h6⟩⟩ := hb0 v h
      exact ⟨⟨le_trans (min_le_left _ _) h1, le_trans (min_le_left _ _) h2,
        le_trans (min_le_left _ _) h3⟩, ⟨le_trans h4 (le_max_left _ _),
        le_trans h5 (le_max_left _ _), le_trans h6 (le_max_left _ _)⟩⟩
    · obtain ⟨⟨h1, h2, h3⟩, ⟨h4, h5, h6⟩⟩ := hb1 v h
      exact ⟨⟨le_trans (min_le_right _ _) h1, le_trans (min_le_right _ _) h2,
        le_trans (min_le_right _ _) h3⟩, ⟨le_trans h4 (le_max_right _ _),
        le_trans h5 (le_max_right _ _), le_trans h6 (le_max_right _ _)⟩⟩
  · exact pick_min _ _ ax0 ax1 (fun a => a.x) hax0 hax1 eax0 eax1
  · exact pick_min _ _ ay0 ay1 (fun a => a.y) hay0 hay1 eay0 eay1
  · exact pick_min _ _ az0 az1 (fun a => a.z) haz0 haz1 eaz0 eaz1
  · exact pick_max _ _ bx0 bx1 (fun a => a.x) hbx0 hbx1 ebx0 ebx1
  · exact pick_max _ _ by0 by1 (fun a => a.y) hby0 hby1 eby0 eby1
  · exact pick_max _ _ bz0 bz1 (fun a => a.z) hbz0 hbz1 ebz0 ebz1

theorem minCoeff_le_zero_iff (c : Idx3) :
    c.minCoeff ≤ 0 ↔ (c.x ≤ 0 ∨ c.y ≤ 0 ∨ c.z ≤ 0) := by
  simp [Idx3.minCoeff, min_le_iff, or_assoc]

/-- What `sizeGrid` stores when it returns. -/
theorem sizeGrid_ok {lb rt : Vec3} {voxelSize : ℚ} {nV nE : Nat} {sh : SpatialHash}
    (h : sizeGrid lb rt voxelSize nV nE = .ok sh) :
    sh.leftBottomCorner = lb ∧ sh.rightTopCorner = rt ∧
    sh.edgeStartInd = nV ∧ sh.triStartInd = nV + nE ∧
    sh.voxel = [] ∧ sh.pointAndEdgeOccupancy = [] ∧
    voxelSize ≠ 0 ∧ GridRule sh voxelSize ∧
    ((((rt.sub lb).scale (1 / voxelSize)).ceil.minCoeff ≤ 0) → (rt.sub lb).maxCoeff ≠ 0) := by
  unfold sizeGrid fdiv at h
  by_cases hs : voxelSize = 0
  · simp [hs] at h
  · simp only [hs, if_false] at h
    by_cases hc : ((rt.sub lb).scale (1 / voxelSize)).ceil.minCoeff ≤ 0
    · simp only [hc, if_true] at h
      by_cases hm : (rt.sub lb).maxCoeff * (101 / 100) = 0
      · simp [hm] at h
      · simp only [hm, if_false, Except.ok.injEq] at h
        subst h
        have hm' : (rt.sub lb).maxCoeff ≠ 0 := by
          intro h0
          exact hm (by rw [h0]; simp)
        refine ⟨rfl, rfl, rfl, rfl, rfl, rfl, hs, ?_, fun _ => hm'⟩
        refine ⟨fun _ => ⟨rfl, rfl⟩, fun hn => ?_, by simp⟩
        exact absurd ((minCoeff_le_zero_iff _).mp hc) hn
    · simp only [hc, if_false, Except.ok.injEq] at h
      subst h
      refine ⟨rfl, rfl, rfl, rfl, rfl, rfl, hs, ?_, fun hh => absurd hh hc⟩
      refine ⟨fun hp => ?_, fun _ => ⟨rfl, rfl⟩, rfl⟩
      exact absurd ((minCoeff_le_zero_iff _).mpr hp) hc

/-- The steps of a static `build` that returned. -/
theorem build_ok {ext : External} {V : List Vec3} {E : List (Nat × Nat)}
    {F : List (Nat × Nat × Nat)} {voxelSize : ℚ} {sh : SpatialHash}
    (h : build ext V E F voxelSize = .ok sh) :
    ∃ lb rt g voxel0 voxelLoc_e voxelLoc_f,
      colwiseMinCoeff V = .ok lb ∧ colwiseMaxCoeff V = .ok rt ∧
      sizeGrid lb rt (if voxelSize ≤ 0 then suggestGoodVoxelSize ext V E F 0 else voxelSize)
        V.length E.length = .ok g ∧
      insertVertices g [] V 0 = .ok voxel0 ∧
      forEachM (staticEdgeCells g (V.map g.locateVoxelAxisIndex)) E = .ok voxelLoc_e ∧
      forEachM (staticFaceCells g (V.map g.locateVoxelAxisIndex)) F = .ok voxelLoc_f ∧
      sh = { g with
        voxel := insertLocs (insertLocs voxel0 voxelLoc_e g.edgeStartInd) voxelLoc_f
          g.triStartInd } := by
  unfold build at h
  simp only at h
  split at h
  · simp at h
  · rename_i lb hlb
    split at h
    · simp at h
    · rename_i rt hrt
      split at h
      · simp at h
      · rename_i g hg
        split at h
        · simp at h
        · rename_i voxel0 hv
          split at h
          · simp at h
          · rename_i le hle
            split at h
            · simp at h
            · rename_i lf hlf
              simp only [Except.ok.injEq] at h
              exact ⟨lb, rt, g, voxel0, le, lf, hlb, hrt, hg, hv, hle, hlf, h.symm⟩

/-- The steps of a swept `build` that returned. -/
theorem buildSwept_ok {ext : External} {V0 V1 : List Vec3} {E : List (Nat × Nat)}
    {F : List (Nat × Nat × Nat)} {voxelSize : ℚ} {sh : SpatialHash}
    (h : buildSwept ext V0 V1 E F voxelSize = .ok sh) :
    ∃ min0 min1 max0 max1 g occupancyE voxelLoc_f,
      V0.length = V1.length ∧
      colwiseMinCoeff V0 = .ok min0 ∧ colwiseMinCoeff V1 = .ok min1 ∧
      colwiseMaxCoeff V0 = .ok max0 ∧ colwiseMaxCoeff V1 = .ok max1 ∧
      sizeGrid (min0.cmin min1) (max0.cmax max1)
        (if voxelSize ≤ 0 then suggestGoodVoxelSizeSwept ext V0 V1 E F 0 else voxelSize)
        V0.length E.length = .ok g ∧
      forEachM (sweptEdgeCells g
        (List.zipWith (fun p0 p1 =>
          (g.locateVoxelAxisIndex p0).cmin (g.locateVoxelAxisIndex p1)) V0 V1)
        (List.zipWith (fun p0 p1 =>
          (g.locateVoxelAxisIndex p0).cmax (g.locateVoxelAxisIndex p1)) V0 V1)) E
        = .ok occupancyE ∧
      forEachM (sweptFaceCells g
        (List.zipWith (fun p0 p1 =>
          (g.locateVoxelAxisIndex p0).cmin (g.locateVoxelAxisIndex p1)) V0 V1)
        (List.zipWith (fun p0 p1 =>
          (g.locateVoxelAxisIndex p0).cmax (g.locateVoxelAxisIndex p1)) V0 V1)) F
        = .ok voxelLoc_f ∧
      sh = { g with
        voxel := insertLocs
          (insertLocs []
            (List.zipWith (fun mins maxs => cellLoop g.voxelCount g.voxelCount0x1 mins maxs)
              (List.zipWith (fun p0 p1 =>
                (g.locateVoxelAxisIndex p0).cmin (g.locateVoxelAxisIndex p1)) V0 V1)
              (List.zipWith (fun p0 p1 =>
                (g.locateVoxelAxisIndex p0).cmax (g.locateVoxelAxisIndex p1)) V0 V1)
              ++ occupancyE) 0)
          voxelLoc_f g.triStartInd
        pointAndEdgeOccupancy :=
          List.zipWith (fun mins maxs => cellLoop g.voxelCount g.voxelCount0x1 mins maxs)
            (List.zipWith (fun p0 p1 =>
              (g.locateVoxelAxisIndex p0).cmin (g.locateVoxelAxisIndex p1)) V0 V1)
            (List.zipWith (fun p0 p1 =>
              (g.locateVoxelAxisIndex p0).cmax (g.locateVoxelAxisIndex p1)) V0 V1)
            ++ occupancyE } := by
  unfold buildSwept at h
  simp only at h
  split at h
  · simp at h
  · rename_i hlen
    split at h
    · simp at h
    · rename_i min0 hmin0
      split at h
      · simp at h
      · rename_i min1 hmin1
        split at h
        · simp at h
        · rename_i max0 hmax0
          split at h
          · simp at h
          · rename_i max1 hmax1
            split at h
            · simp at h
            · rename_i g hg
              split at h
              · simp at h
              · rename_i oe hoe
                split at h
                · simp at h
                · rename_i lf hlf
                  simp only [Except.ok.injEq] at h
                  exact ⟨min0, min1, max0, max1, g, oe, lf, not_not.mp hlen, hmin0, hmin1,
                    hmax0, hmax1, hg, hoe, hlf, h.symm⟩

theorem getE_total {α : Type} {xs : List α} {i : Nat} (h : i < xs.length) :
    ∃ a, getE xs i = .ok a := by
  unfold getE
  rw [List.getElem?_eq_getElem h]
  exact ⟨_, rfl⟩

theorem forEachM_total {α β : Type} (f : α → Except Err β) :
    ∀ (xs : List α), (∀ x ∈ xs, ∃ y, f x = .ok y) → ∃ ys, forEachM f xs = .ok ys := by
  intro xs
  induction xs with
  | nil =>
    intro _
    exact ⟨[], rfl⟩
  | cons a as ih =>
    intro h
    obtain ⟨b, hb⟩ := h a (List.mem_cons_self _ _)
    obtain ⟨bs, hbs⟩ := ih (fun x hx => h x (List.mem_cons_of_mem _ hx))
    exact ⟨b :: bs, by simp [forEachM, hb, hbs]⟩

theorem insertVertices_total (sh : SpatialHash) :
    ∀ (ps : List Vec3) (voxel : VoxelMap) (vi : Nat),
      (∀ p ∈ ps, ∃ k, sh.locateVoxelIndex p = .ok k) →
      ∃ voxel', insertVertices sh voxel ps vi = .ok voxel' := by
  intro ps
  induction ps with
  | nil =>
    intro voxel vi _
    exact ⟨voxel, rfl⟩
  | cons p ps ih =>
    intro voxel vi h
    obtain ⟨k, hk⟩ := h p (List.mem_cons_self _ _)
    obtain ⟨v', hv'⟩ := ih (voxelEmplace voxel k vi) (vi + 1)
      (fun q hq => h q (List.mem_cons_of_mem _ hq))
    exact ⟨v', by simp [insertVertices, hk, hv']⟩

theorem sizeGrid_total (lb rt : Vec3) (voxelSize : ℚ) (nV nE : Nat) (hs : voxelSize ≠ 0)
    (hm : ((rt.sub lb).scale (1 / voxelSize)).ceil.minCoeff ≤ 0 → (rt.sub lb).maxCoeff ≠ 0) :
    ∃ g, sizeGrid lb rt voxelSize nV nE = .ok g := by
  unfold sizeGrid fdiv
  simp only [hs, if_false]
  by_cases hc : ((rt.sub lb).scale (1 / voxelSize)).ceil.minCoeff ≤ 0
  · have hne : (rt.sub lb).maxCoeff * (101 / 100) ≠ 0 :=
      mul_ne_zero (hm hc) (by norm_num)
    simp only [hc, if_true, hne, if_false]
    exact ⟨_, rfl⟩
  · simp only [hc, if_false]
    exact ⟨_, rfl⟩

theorem staticEdgeCells_total (g : SpatialHash) {vvai : List Idx3} {e : Nat × Nat}
    (h : e.1 < vvai.length ∧ e.2 < vvai.length) : ∃ y, staticEdgeCells g vvai e = .ok y := by
  obtain ⟨a0, h0⟩ := getE_total h.1
  obtain ⟨a1, h1⟩ := getE_total h.2
  unfold staticEdgeCells
  simp only [h0, h1]
  exact ⟨_, rfl⟩

theorem staticFaceCells_total (g : SpatialHash) {vvai : List Idx3} {f : Nat × Nat × Nat}
    (h : f.1 < vvai.length ∧ f.2.1 < vvai.length) :
    ∃ y, staticFaceCells g vvai f = .ok y := by
  obtain ⟨a0, h0⟩ := getE_total h.1
  obtain ⟨a1, h1⟩ := getE_total h.2
  unfold staticFaceCells
  simp only [h0, h1]
  exact ⟨_, rfl⟩

theorem getVAI_total {mins maxs : List Idx3} {i : Nat} (h1 : i < mins.length)
    (h2 : i < maxs.length) : ∃ a, getVAI mins maxs i = .ok a := by
  obtain ⟨a0, h0⟩ := getE_total h1
  obtain ⟨a1, h1⟩ := getE_total h2
  unfold getVAI
  simp only [h0, h1]
  exact ⟨_, rfl⟩

theorem sweptEdgeCells_total (g : SpatialHash) {mins maxs : List Idx3} {e : Nat × Nat}
    (h1 : e.1 < mins.length ∧ e.2 < mins.length) (h2 : e.1 < maxs.length ∧ e.2 < maxs.length) :
    ∃ y, sweptEdgeCells g mins maxs e = .ok y := by
  obtain ⟨a0, h0⟩ := getVAI_total h1.1 h2.1
  obtain ⟨a1, h1⟩ := getVAI_total h1.2 h2.2
  unfold sweptEdgeCells
  simp only [h0, h1]
  exact ⟨_, rfl⟩

theorem sweptFaceCells_total (g : SpatialHash) {mins maxs : List Idx3} {f : Nat × Nat × Nat}
    (h1 : f.1 < mins.length ∧ f.2.1 < mins.length ∧ f.2.2 < mins.length)
    (h2 : f.1 < maxs.length ∧ f.2.1 < maxs.length ∧ f.2.2 < maxs.length) :
    ∃ y, sweptFaceCells g mins maxs f = .ok y := by
  obtain ⟨a0, h0⟩ := getVAI_total h1.1 h2.1
  obtain ⟨a1, h1'⟩ := getVAI_total h1.2.1 h2.2.1
  obtain ⟨a2, h2'⟩ := getVAI_total h1.2.2 h2.2.2
  unfold sweptFaceCells
  simp only [h0, h1', h2']
  exact ⟨_, rfl⟩

/-- The static build returns once the grid is sized, every vertex passes the
bounds assertion and the mesh is well-formed. -/
theorem build_total {ext : External} {V : List Vec3} {E : List (Nat × Nat)}
    {F : List (Nat × Nat × Nat)} {voxelSize : ℚ} {lb rt : Vec3} {g : SpatialHash}
    (hlb : colwiseMinCoeff V = .ok lb) (hrt : colwiseMaxCoeff V = .ok rt)
    (hg : sizeGrid lb rt (if voxelSize ≤ 0 then suggestGoodVoxelSize ext V E F 0 else voxelSize)
      V.length E.length = .ok g)
    (hin : ∀ p ∈ V, ∃ k, g.locateVoxelIndex p = .ok k)
    (hmesh : MeshInRange V.length E F) :
    ∃ sh, build ext V E F voxelSize = .ok sh := by
  obtain ⟨voxel0, hv⟩ := insertVertices_total g V [] 0 hin
  obtain ⟨le, hle⟩ := forEachM_total (staticEdgeCells g (V.map g.locateVoxelAxisIndex))
    E (fun e he => staticEdgeCells_total g (by simpa using hmesh.1 e he))
  obtain ⟨lf, hlf⟩ := forEachM_total (staticFaceCells g (V.map g.locateVoxelAxisIndex))
    F (fun f hf => staticFaceCells_total g
      (by simpa using ⟨(hmesh.2 f hf).1, (hmesh.2 f hf).2.1⟩))
  unfold build
  simp only [hlb, hrt, hg, hv, hle, hlf]
  exact ⟨_, rfl⟩

/-- The swept build returns once the grid is sized and the mesh is well-formed. -/
theorem buildSwept_total {ext : External} {V0 V1 : List Vec3} {E : List (Nat × Nat)}
    {F : List (Nat × Nat × Nat)} {voxelSize : ℚ} {min0 min1 max0 max1 : Vec3}
    {g : SpatialHash} (hlen : V0.length = V1.length)
    (hmin0 : colwiseMinCoeff V0 = .ok min0) (hmin1 : colwiseMinCoeff V1 = .ok min1)
    (hmax0 : colwiseMaxCoeff V0 = .ok max0) (hmax1 : colwiseMaxCoeff V1 = .ok max1)
    (hg : sizeGrid (min0.cmin min1) (max0.cmax max1)
      (if voxelSize ≤ 0 then suggestGoodVoxelSizeSwept ext V0 V1 E F 0 else voxelSize)
      V0.length E.length = .ok g)
    (hmesh : MeshInRange V0.length E F) :
    ∃ sh, buildSwept ext V0 V1 E F voxelSize = .ok sh := by
  obtain ⟨oe, hoe⟩ := forEachM_total
    (sweptEdgeCells g
      (List.zipWith (fun p0 p1 =>
        (g.locateVoxelAxisIndex p0).cmin (g.locateVoxelAxisIndex p1)) V0 V1)
      (List.zipWith (fun p0 p1 =>
        (g.locateVoxelAxisIndex p0).cmax (g.locateVoxelAxisIndex p1)) V0 V1))
    E (fun e he => sweptEdgeCells_total g
      (by simpa [List.length_zipWith, ← hlen] using hmesh.1 e he)
      (by simpa [List.length_zipWith, ← hlen] using hmesh.1 e he))
  obtain ⟨lf, hlf⟩ := forEachM_total
    (sweptFaceCells g
      (List.zipWith (fun p0 p1 =>
        (g.locateVoxelAxisIndex p0).cmin (g.locateVoxelAxisIndex p1)) V0 V1)
      (List.zipWith (fun p0 p1 =>
        (g.locateVoxelAxisIndex p0).cmax (g.locateVoxelAxisIndex p1)) V0 V1))
    F (fun f hf => sweptFaceCells_total g
      (by simpa [List.length_zipWith, ← hlen] using hmesh.2 f hf)
      (by simpa [List.length_zipWith, ← hlen] using hmesh.2 f hf))
  have hne : ¬ (V0.length ≠ V1.length) := not_not.mpr hlen
  unfold buildSwept
  rw [if_neg hne]
  simp only [hmin0, hmin1, hmax0, hmax1, hg, hoe, hlf]
  exact ⟨_, rfl⟩

/-! ## The single-cell fallback -/

theorem floor_fallback_eq_zero {a M : ℚ} (h0 : 0 ≤ a) (hM : a ≤ M) (hpos : 0 < M) :
    ⌊a * (1 / (M * (101 / 100)))⌋ = 0 := by
  have hden : 0 < M * (101 / 100) := by positivity
  rw [Int.floor_eq_zero_iff]
  constructor
  · positivity
  · rw [mul_one_div, div_lt_one hden]
    nlinarith

/-- With the fallback's `one_div_voxelSize`, every point of the box is located
in the cell `(0,0,0)`. -/
theorem locate_eq_zero_of_fallback (sh : SpatialHash) (p : Vec3)
    (hinv : sh.one_div_voxelSize =
      1 / ((sh.rightTopCorner.sub sh.leftBottomCorner).maxCoeff * (101 / 100)))
    (hpos : 0 < (sh.rightTopCorner.sub sh.leftBottomCorner).maxCoeff)
    (hbox : InBox sh p) : sh.locateVoxelAxisIndex p = ⟨0, 0, 0⟩ := by
  obtain ⟨⟨hx0, hx1⟩, ⟨hy0, hy1⟩, ⟨hz0, hz1⟩⟩ := hbox
  have hmx : sh.rightTopCorner.x - sh.leftBottomCorner.x ≤
      (sh.rightTopCorner.sub sh.leftBottomCorner).maxCoeff :=
    le_trans (le_max_left _ _) (le_max_left _ _)
  have hmy : sh.rightTopCorner.y - sh.leftBottomCorner.y ≤
      (sh.rightTopCorner.sub sh.leftBottomCorner).maxCoeff :=
    le_trans (le_max_right _ _) (le_max_left _ _)
  have hmz : sh.rightTopCorner.z - sh.leftBottomCorner.z ≤
      (sh.rightTopCorner.sub sh.leftBottomCorner).maxCoeff :=
    le_max_right _ _
  unfold SpatialHash.locateVoxelAxisIndex
  rw [hinv]
  generalize (sh.rightTopCorner.sub sh.leftBottomCorner).maxCoeff = M at *
  simp only [Vec3.floor, Vec3.scale, Vec3.sub]
  rw [floor_fallback_eq_zero (by linarith) (by linarith) hpos,
    floor_fallback_eq_zero (by linarith) (by linarith) hpos,
    floor_fallback_eq_zero (by linarith) (by linarith) hpos]

theorem insertLocs_zero :
    ∀ (k : Nat) (l : List Nat) (id : Nat),
      insertLocs [(0, l)] (List.replicate k [0]) id = [(0, l ++ List.range' id k)] := by
  intro k
  induction k with
  | zero =>
    intro l id
    simp [insertLocs]
  | succ k ih =>
    intro l id
    simp only [List.replicate_succ, insertLocs, List.foldl_cons, List.foldl_nil, voxelEmplace,
      if_true]
    rw [ih, List.range'_succ]
    simp

theorem insertVertices_zero (sh : SpatialHash) :
    ∀ (ps : List Vec3) (l : List Nat) (vi : Nat),
      (∀ p ∈ ps, sh.locateVoxelIndex p = .ok 0) →
      insertVertices sh [(0, l)] ps vi = .ok [(0, l ++ List.range' vi ps.length)] := by
  intro ps
  induction ps with
  | nil =>
    intro l vi _
    simp [insertVertices]
  | cons p ps ih =>
    intro l vi h
    have hp := h p (List.mem_cons_self _ _)
    simp only [insertVertices, hp, voxelEmplace, if_true]
    rw [ih _ _ (fun q hq => h q (List.mem_cons_of_mem _ hq)), List.length_cons,
      List.range'_succ]
    simp

theorem insertVertices_zero_nil (sh : SpatialHash) (V : List Vec3) (hV : V ≠ [])
    (h : ∀ p ∈ V, sh.locateVoxelIndex p = .ok 0) :
    insertVertices sh [] V 0 = .ok [(0, List.range V.length)] := by
  cases V with
  | nil => exact absurd rfl hV
  | cons p ps =>
    have hp := h p (List.mem_cons_self _ _)
    simp only [insertVertices, hp, voxelEmplace]
    rw [insertVertices_zero sh ps _ _ (fun q hq => h q (List.mem_cons_of_mem _ hq)),
      List.length_cons, List.range_eq_range', List.range'_succ]
    simp

theorem forEachM_const {α β : Type} {f : α → Except Err β} {c : β} :
    ∀ {xs : List α} {ys : List β}, forEachM f xs = .ok ys →
      (∀ x ∈ xs, ∀ y, f x = .ok y → y = c) → ys = List.replicate xs.length c := by
  intro xs
  induction xs with
  | nil =>
    intro ys h _
    simp [forEachM] at h
    simp [h]
  | cons a as ih =>
    intro ys h hc
    simp only [forEachM] at h
    cases hfa : f a with
    | error e => simp [hfa] at h
    | ok b =>
      cases hrest : forEachM f as with
      | error e => simp [hfa, hrest] at h
      | ok bs =>
        simp [hfa, hrest] at h
        subst h
        rw [ih hrest (fun x hx y hy => hc x (List.mem_cons_of_mem _ hx) y hy),
          hc a (List.mem_cons_self _ _) b hfa]
        simp [List.replicate_succ]

theorem getE_mem {α : Type} {xs : List α} {i : Nat} {a : α} (h : getE xs i = .ok a) :
    a ∈ xs := List.getElem?_mem (getE_ok h)

theorem mem_zipWith_elim {α β γ : Type} (f : α → β → γ) :
    ∀ (xs : List α) (ys : List β) (c : γ), c ∈ List.zipWith f xs ys →
      ∃ x ∈ xs, ∃ y ∈ ys, c = f x y := by
  intro xs
  induction xs with
  | nil =>
    intro ys c h
    simp at h
  | cons x xs ih =>
    intro ys c h
    cases ys with
    | nil => simp at h
    | cons y ys =>
      simp only [List.zipWith_cons_cons, List.mem_cons] at h
      rcases h with h | h
      · exact ⟨x, List.mem_cons_self _ _, y, List.mem_cons_self _ _, h⟩
      · obtain ⟨x', hx', y', hy', hc⟩ := ih ys c h
        exact ⟨x', List.mem_cons_of_mem _ hx', y', List.mem_cons_of_mem _ hy', hc⟩

theorem cellLoop_zero (voxelCount : Idx3) (voxelCount0x1 : Int) :
    cellLoop voxelCount voxelCount0x1 ⟨0, 0, 0⟩ ⟨0, 0, 0⟩ = [0] := by
  have h : rangeIncl 0 0 = [0] := by decide
  simp [cellLoop, h]

theorem insertLocs_zero_nil (k : Nat) :
    insertLocs [] (List.replicate (k + 1) [0]) 0 = [(0, List.range (k + 1))] := by
  simp only [List.replicate_succ, insertLocs, List.foldl_cons, List.foldl_nil, voxelEmplace]
  rw [insertLocs_zero, List.range_eq_range', List.range'_succ]
  simp

theorem range_append_range' (n q : Nat) :
    List.range n ++ List.range' n q = List.range (n + q) := by
  rw [List.range_eq_range', List.range_eq_range']
  have h := List.range'_append_1 0 n q
  rw [Nat.zero_add] at h
  rw [h, Nat.add_comm]

theorem staticEdgeCells_zero {g : SpatialHash} {vvai : List Idx3} {e : Nat × Nat}
    {y : List Int} (hz : ∀ a ∈ vvai, a = (⟨0, 0, 0⟩ : Idx3))
    (h : staticEdgeCells g vvai e = .ok y) : y = [0] := by
  unfold staticEdgeCells at h
  cases h0 : getE vvai e.1 with
  | error err => simp [h0] at h
  | ok a0 =>
    cases h1 : getE vvai e.2 with
    | error err => simp [h0, h1] at h
    | ok a1 =>
      simp only [h0, h1, Except.ok.injEq] at h
      rw [hz a0 (getE_mem h0), hz a1 (getE_mem h1)] at h
      rw [← h]
      simp [Idx3.cmin, Idx3.cmax, cellLoop_zero]

theorem staticFaceCells_zero {g : SpatialHash} {vvai : List Idx3} {f : Nat × Nat × Nat}
    {y : List Int} (hz : ∀ a ∈ vvai, a = (⟨0, 0, 0⟩ : Idx3))
    (h : staticFaceCells g vvai f = .ok y) : y = [0] := by
  unfold staticFaceCells at h
  cases h0 : getE vvai f.1 with
  | error err => simp [h0] at h
  | ok a0 =>
    cases h1 : getE vvai f.2.1 with
    | error err => simp [h0, h1] at h
    | ok a1 =>
      simp only [h0, h1, Except.ok.injEq] at h
      rw [hz a0 (getE_mem h0), hz a1 (getE_mem h1)] at h
      rw [← h]
      simp [Idx3.cmin, Idx3.cmax, cellLoop_zero]

theorem getVAI_zero {mins maxs : List Idx3} {i : Nat} {a : Idx3 × Idx3}
    (hmin : ∀ a ∈ mins, a = (⟨0, 0, 0⟩ : Idx3)) (hmax : ∀ a ∈ maxs, a = (⟨0, 0, 0⟩ : Idx3))
    (h : getVAI mins maxs i = .ok a) : a = (⟨0, 0, 0⟩, ⟨0, 0, 0⟩) := by
  unfold getVAI at h
  cases h0 : getE mins i with
  | error err => simp [h0] at h
  | ok mn =>
    cases h1 : getE maxs i with
    | error err => simp [h0, h1] at h
    | ok mx =>
      simp only [h0, h1, Except.ok.injEq] at h
      rw [← h, hmin mn (getE_mem h0), hmax mx (getE_mem h1)]

theorem sweptEdgeCells_zero {g : SpatialHash} {mins maxs : List Idx3} {e : Nat × Nat}
    {y : List Int} (hmin : ∀ a ∈ mins, a = (⟨0, 0, 0⟩ : Idx3))
    (hmax : ∀ a ∈ maxs, a = (⟨0, 0, 0⟩ : Idx3))
    (h : sweptEdgeCells g mins maxs e = .ok y) : y = [0] := by
  unfold sweptEdgeCells at h
  cases h0 : getVAI mins maxs e.1 with
  | error err => simp [h0] at h
  | ok a0 =>
    cases h1 : getVAI mins maxs e.2 with
    | error err => simp [h0, h1] at h
    | ok a1 =>
      simp only [h0, h1, Except.ok.injEq] at h
      rw [getVAI_zero hmin hmax h0, getVAI_zero hmin hmax h1] at h
      rw [← h]
      simp [Idx3.cmin, Idx3.cmax, cellLoop_zero]

theorem sweptFaceCells_zero {g : SpatialHash} {mins maxs : List Idx3} {f : Nat × Nat × Nat}
    {y : List Int} (hmin : ∀ a ∈ mins, a = (⟨0, 0, 0⟩ : Idx3))
    (hmax : ∀ a ∈ maxs, a = (⟨0, 0, 0⟩ : Idx3))
    (h : sweptFaceCells g mins maxs f = .ok y) : y = [0] := by
  unfold sweptFaceCells at h
  cases h0 : getVAI mins maxs f.1 with
  | error err => simp [h0] at h
  | ok a0 =>
    cases h1 : getVAI mins maxs f.2.1 with
    | error err => simp [h0, h1] at h
    | ok a1 =>
      cases h2 : getVAI mins maxs f.2.2 with
      | error err => simp [h0, h1, h2] at h
      | ok a2 =>
        simp only [h0, h1, h2, Except.ok.injEq] at h
        rw [getVAI_zero hmin hmax h0, getVAI_zero hmin hmax h1,
          getVAI_zero hmin hmax h2] at h
        rw [← h]
        simp [Idx3.cmin, Idx3.cmax, cellLoop_zero]

theorem isExtremes_inBox {sh : SpatialHash} {P : List Vec3}
    (h : IsExtremes sh.leftBottomCorner sh.rightTopCorner P) :
    ∀ v ∈ P, InBox sh v := by
  intro v hv
  obtain ⟨⟨h1, h2, h3⟩, ⟨h4, h5, h6⟩⟩ := h.1 v hv
  exact ⟨⟨h1, h4⟩, ⟨h2, h5⟩, ⟨h3, h6⟩⟩

theorem colwiseMinCoeff_ne_nil {V : List Vec3} {lb : Vec3} (h : colwiseMinCoeff V = .ok lb) :
    V ≠ [] := by
  intro hV
  subst hV
  simp [colwiseMinCoeff] at h

/-- What a build that returned after the fallback triggered holds. -/
theorem fallback_of_build_ok (ext : External) (V V0 V1 : List Vec3) (E : List (Nat × Nat))
    (F : List (Nat × Nat × Nat)) (voxelSize : ℚ) :
    (∀ sh, build ext V E F voxelSize = .ok sh →
      FallbackTriggers sh.leftBottomCorner sh.rightTopCorner
        (if voxelSize ≤ 0 then suggestGoodVoxelSize ext V E F 0 else voxelSize) →
      0 < (sh.rightTopCorner.sub sh.leftBottomCorner).maxCoeff →
      (∀ p, InBox sh p → sh.locateVoxelAxisIndex p = ⟨0, 0, 0⟩) ∧
      (∀ v ∈ V, sh.locateVoxelAxisIndex v = ⟨0, 0, 0⟩) ∧
      sh.voxel = [(0, List.range (V.length + E.length + F.length))]) ∧
    (∀ sh, buildSwept ext V0 V1 E F voxelSize = .ok sh →
      FallbackTriggers sh.leftBottomCorner sh.rightTopCorner
        (if voxelSize ≤ 0 then suggestGoodVoxelSizeSwept ext V0 V1 E F 0 else voxelSize) →
      0 < (sh.rightTopCorner.sub sh.leftBottomCorner).maxCoeff →
      (∀ p, InBox sh p → sh.locateVoxelAxisIndex p = ⟨0, 0, 0⟩) ∧
      (∀ v ∈ V0 ++ V1, sh.locateVoxelAxisIndex v = ⟨0, 0, 0⟩) ∧
      sh.pointAndEdgeOccupancy = List.replicate (V0.length + E.length) [0] ∧
      sh.voxel = [(0, List.range (V0.length + E.length + F.length))]) := by
  constructor
  · intro sh h hf hpos
    obtain ⟨lb, rt, g, voxel0, le, lf, hlb, hrt, hg, hv, hle, hlf, hsh⟩ := build_ok h
    obtain ⟨h1, h2, h3, h4, _, _, _, hrule, _⟩ := sizeGrid_ok hg
    subst hsh
    have hf' : FallbackTriggers g.leftBottomCorner g.rightTopCorner
        (if voxelSize ≤ 0 then suggestGoodVoxelSize ext V E F 0 else voxelSize) := hf
    have hpos' : 0 < (g.rightTopCorner.sub g.leftBottomCorner).maxCoeff := hpos
    obtain ⟨hcount, hinv⟩ := hrule.1 hf'
    have hloc : ∀ p, InBox g p → g.locateVoxelAxisIndex p = ⟨0, 0, 0⟩ :=
      fun p hp => locate_eq_zero_of_fallback g p hinv hpos' hp
    have hext : IsExtremes g.leftBottomCorner g.rightTopCorner V := by
      rw [h1, h2]
      exact colwise_isExtremes hlb hrt
    have hV : ∀ v ∈ V, g.locateVoxelAxisIndex v = ⟨0, 0, 0⟩ :=
      fun v hv => hloc v (isExtremes_inBox hext v hv)
    refine ⟨fun p hp => hloc p hp, hV, ?_⟩
    have hidx : ∀ p ∈ V, g.locateVoxelIndex p = .ok 0 := by
      intro p hp
      simp [SpatialHash.locateVoxelIndex, hV p hp, SpatialHash.voxelAxisIndex2VoxelIndex,
        SpatialHash.inGrid, hcount]
    have hz : ∀ a ∈ V.map g.locateVoxelAxisIndex, a = (⟨0, 0, 0⟩ : Idx3) := by
      intro a ha
      obtain ⟨v, hv', hva⟩ := List.mem_map.mp ha
      rw [← hva]
      exact hV v hv'
    have hvox0 : voxel0 = [(0, List.range V.length)] := by
      rw [insertVertices_zero_nil g V (colwiseMinCoeff_ne_nil hlb) hidx] at hv
      simpa using hv.symm
    have hle' := forEachM_const hle (fun x _ y hy => staticEdgeCells_zero hz hy)
    have hlf' := forEachM_const hlf (fun x _ y hy => staticFaceCells_zero hz hy)
    show insertLocs (insertLocs voxel0 le g.edgeStartInd) lf g.triStartInd = _
    rw [hvox0, hle', hlf', h3, h4, insertLocs_zero, range_append_range', insertLocs_zero,
      range_append_range']
  · intro sh h hf hpos
    obtain ⟨min0, min1, max0, max1, g, oe, lf, hlen, hmin0, hmin1, hmax0, hmax1, hg, hoe,
      hlf, hsh⟩ := buildSwept_ok h
    obtain ⟨h1, h2, h3, h4, _, _, _, hrule, _⟩ := sizeGrid_ok hg
    subst hsh
    have hf' : FallbackTriggers g.leftBottomCorner g.rightTopCorner
        (if voxelSize ≤ 0 then suggestGoodVoxelSizeSwept ext V0 V1 E F 0 else voxelSize) := hf
    have hpos' : 0 < (g.rightTopCorner.sub g.leftBottomCorner).maxCoeff := hpos
    obtain ⟨hcount, hinv⟩ := hrule.1 hf'
    have hloc : ∀ p, InBox g p → g.locateVoxelAxisIndex p = ⟨0, 0, 0⟩ :=
      fun p hp => locate_eq_zero_of_fallback g p hinv hpos' hp
    have hext : IsExtremes g.leftBottomCorner g.rightTopCorner (V0 ++ V1) := by
      rw [h1, h2]
      exact isExtremes_append (colwise_isExtremes hmin0 hmax0)
        (colwise_isExtremes hmin1 hmax1)
    have hV : ∀ v ∈ V0 ++ V1, g.locateVoxelAxisIndex v = ⟨0, 0, 0⟩ :=
      fun v hv => hloc v (isExtremes_inBox hext v hv)
    refine ⟨fun p hp => hloc p hp, hV, ?_⟩
    have hmin : ∀ a ∈ List.zipWith (fun p0 p1 =>
        (g.locateVoxelAxisIndex p0).cmin (g.locateVoxelAxisIndex p1)) V0 V1,
        a = (⟨0, 0, 0⟩ : Idx3) := by
      intro a ha
      obtain ⟨x, hx, y, hy, hxy⟩ := mem_zipWith_elim _ V0 V1 a ha
      rw [hxy, hV x (List.mem_append_left _ hx), hV y (List.mem_append_right _ hy)]
      simp [Idx3.cmin]
    have hmax : ∀ a ∈ List.zipWith (fun p0 p1 =>
        (g.locateVoxelAxisIndex p0).cmax (g.locateVoxelAxisIndex p1)) V0 V1,
        a = (⟨0, 0, 0⟩ : Idx3) := by
      intro a ha
      obtain ⟨x, hx, y, hy, hxy⟩ := mem_zipWith_elim _ V0 V1 a ha
      rw [hxy, hV x (List.mem_append_left _ hx), hV y (List.mem_append_right _ hy)]
      simp [Idx3.cmax]
    have hoccV : List.zipWith
        (fun mins maxs => cellLoop g.voxelCount g.voxelCount0x1 mins maxs)
        (List.zipWith (fun p0 p1 =>
          (g.locateVoxelAxisIndex p0).cmin (g.locateVoxelAxisIndex p1)) V0 V1)
        (List.zipWith (fun p0 p1 =>
          (g.locateVoxelAxisIndex p0).cmax (g.locateVoxelAxisIndex p1)) V0 V1)
        = List.replicate V0.length [0] := by
      rw [List.eq_replicate_iff]
      constructor
      · simp [List.length_zipWith, hlen]
      · intro b hb
        obtain ⟨x, hx, y, hy, hxy⟩ := mem_zipWith_elim _ _ _ b hb
        rw [hxy, hmin x hx, hmax y hy, cellLoop_zero]
    have hoe' := forEachM_const hoe (fun x _ y hy => sweptEdgeCells_zero hmin hmax hy)
    have hlf' := forEachM_const hlf (fun x _ y hy => sweptFaceCells_zero hmin hmax hy)
    have hocc : List.zipWith
        (fun mins maxs => cellLoop g.voxelCount g.voxelCount0x1 mins maxs)
        (List.zipWith (fun p0 p1 =>
          (g.locateVoxelAxisIndex p0).cmin (g.locateVoxelAxisIndex p1)) V0 V1)
        (List.zipWith (fun p0 p1 =>
          (g.locateVoxelAxisIndex p0).cmax (g.locateVoxelAxisIndex p1)) V0 V1) ++ oe
        = List.replicate (V0.length + E.length) [0] := by
      rw [hoccV, hoe', List.replicate_add]
    have hne : V0 ≠ [] := colwiseMinCoeff_ne_nil hmin0
    obtain ⟨k, hk⟩ : ∃ k, V0.length + E.length = k + 1 := by
      cases V0 with
      | nil => exact absurd rfl hne
      | cons v vs => exact ⟨vs.length + E.length, by simp [List.length_cons]; omega⟩
    refine ⟨hocc, ?_⟩
    show insertLocs (insertLocs [] _ 0) lf g.triStartInd = _
    rw [hocc, hlf', h4, hk, insertLocs_zero_nil, insertLocs_zero, range_append_range']

/-- In the fallback grid every point of a set with the grid's corners as
extremes passes the bounds assertion and has linear index 0. -/
theorem fallback_grid_index {lb rt : Vec3} {s : ℚ} {nV nE : Nat} {g : SpatialHash}
    {P : List Vec3} (hg : sizeGrid lb rt s nV nE = .ok g) (hf : FallbackTriggers lb rt s)
    (hpos : 0 < (rt.sub lb).maxCoeff) (hext : IsExtremes lb rt P) :
    ∀ p ∈ P, g.locateVoxelIndex p = .ok 0 := by
  obtain ⟨h1, h2, _, _, _, _, _, hrule, _⟩ := sizeGrid_ok hg
  have hf' : FallbackTriggers g.leftBottomCorner g.rightTopCorner s := by
    rw [h1, h2]
    exact hf
  have hpos' : 0 < (g.rightTopCorner.sub g.leftBottomCorner).maxCoeff := by
    rw [h1, h2]
    exact hpos
  have hext' : IsExtremes g.leftBottomCorner g.rightTopCorner P := by
    rw [h1, h2]
    exact hext
  obtain ⟨hcount, hinv⟩ := hrule.1 hf'
  intro p hp
  have hz := locate_eq_zero_of_fallback g p hinv hpos' (isExtremes_inBox hext' p hp)
  simp [SpatialHash.locateVoxelIndex, hz, SpatialHash.voxelAxisIndex2VoxelIndex,
    SpatialHash.inGrid, hcount]

/-! ## The voxel map after the serial insertion -/

theorem voxelFind_emplace (m : VoxelMap) (k : Int) (id : Nat) (c : Int) :
    voxelFind (voxelEmplace m k id) c =
      if k = c then some (voxelGet m k ++ [id]) else voxelFind m c := by
  induction m with
  | nil =>
    by_cases h : k = c <;> simp [voxelEmplace, voxelFind, voxelGet, h]
  | cons kv rest ih =>
    obtain ⟨k', l⟩ := kv
    by_cases hk : k' = k
    · subst hk
      by_cases h : k' = c <;> simp [voxelEmplace, voxelFind, voxelGet, h]
    · by_cases h : k = c
      · subst h
        simp only [voxelEmplace, hk, if_false, voxelFind, ih, if_true, voxelGet]
      · by_cases h' : k' = c
        · subst h'
          simp [voxelEmplace, hk, voxelFind, h]
        · simp [voxelEmplace, hk, voxelFind, ih, h, h']

theorem voxelGet_emplace (m : VoxelMap) (k : Int) (id : Nat) (c : Int) :
    voxelGet (voxelEmplace m k id) c =
      if k = c then voxelGet m c ++ [id] else voxelGet m c := by
  unfold voxelGet
  rw [voxelFind_emplace]
  by_cases h : k = c
  · subst h
    simp [voxelGet]
  · simp [h]

theorem voxelGet_foldl_emplace (id : Nat) (c : Int) :
    ∀ (loc : List Int) (m : VoxelMap),
      voxelGet (loc.foldl (fun m voxelI => voxelEmplace m voxelI id) m) c =
        voxelGet m c ++ List.replicate (loc.count c) id := by
  intro loc
  induction loc with
  | nil =>
    intro m
    simp
  | cons k ks ih =>
    intro m
    simp only [List.foldl_cons]
    rw [ih, voxelGet_emplace]
    by_cases h : k = c
    · subst h
      simp [List.replicate_succ]
    · have h' : ¬ (k == c) = true := by simpa using h
      simp [h, List.count_cons, h']

theorem voxelGet_insertLocs (c : Int) :
    ∀ (locs : List (List Int)) (m : VoxelMap) (id : Nat),
      voxelGet (insertLocs m locs id) c = voxelGet m c ++ idsFor locs id c := by
  intro locs
  induction locs with
  | nil =>
    intro m id
    simp [insertLocs, idsFor]
  | cons loc rest ih =>
    intro m id
    simp only [insertLocs, idsFor]
    rw [ih, voxelGet_foldl_emplace, List.append_assoc]

theorem mem_idsFor (c : Int) (p : Nat) :
    ∀ (locs : List (List Int)) (id : Nat),
      p ∈ idsFor locs id c ↔ ∃ i loc, locs[i]? = some loc ∧ p = id + i ∧ c ∈ loc := by
  intro locs
  induction locs with
  | nil =>
    intro id
    simp [idsFor]
  | cons loc rest ih =>
    intro id
    simp only [idsFor, List.mem_append, List.mem_replicate, ih]
    constructor
    · rintro (⟨hc, hp⟩ | ⟨i, loc', hi, hp, hc⟩)
      · exact ⟨0, loc, by simp, by omega, List.count_pos_iff.mp (Nat.pos_of_ne_zero hc)⟩
      · exact ⟨i + 1, loc', by simpa using hi, by omega, hc⟩
    · rintro ⟨i, loc', hi, hp, hc⟩
      cases i with
      | zero =>
        simp at hi
        subst hi
        exact Or.inl ⟨Nat.ne_of_gt (List.count_pos_iff.mpr hc), by omega⟩
      | succ i =>
        exact Or.inr ⟨i, loc', by simpa using hi, by omega, hc⟩

theorem mem_voxelGet_iff (m : VoxelMap) (c : Int) (p : Nat) :
    p ∈ voxelGet m c ↔ ∃ l, voxelFind m c = some l ∧ p ∈ l := by
  unfold voxelGet
  cases h : voxelFind m c with
  | none => simp
  | some l => simp

theorem forEachM_length {α β : Type} {f : α → Except Err β} :
    ∀ {xs : List α} {ys : List β}, forEachM f xs = .ok ys → ys.length = xs.length := by
  intro xs
  induction xs with
  | nil =>
    intro ys h
    simp [forEachM] at h
    simp [← h]
  | cons a as ih =>
    intro ys h
    simp only [forEachM] at h
    cases hfa : f a with
    | error e => simp [hfa] at h
    | ok b =>
      cases hrest : forEachM f as with
      | error e => simp [hfa, hrest] at h
      | ok bs =>
        simp [hfa, hrest] at h
        subst h
        simp [ih hrest]

theorem forEachM_getElem {α β : Type} {f : α → Except Err β} :
    ∀ {xs : List α} {ys : List β}, forEachM f xs = .ok ys →
      ∀ (j : Nat) (y : β), ys[j]? = some y ↔ ∃ x, xs[j]? = some x ∧ f x = .ok y := by
  intro xs
  induction xs with
  | nil =>
    intro ys h j y
    simp [forEachM] at h
    subst h
    simp
  | cons a as ih =>
    intro ys h j y
    simp only [forEachM] at h
    cases hfa : f a with
    | error e => simp [hfa] at h
    | ok b =>
      cases hrest : forEachM f as with
      | error e => simp [hfa, hrest] at h
      | ok bs =>
        simp [hfa, hrest] at h
        subst h
        cases j with
        | zero =>
          simp only [List.getElem?_cons_zero, Option.some.injEq]
          constructor
          · intro hb
            exact ⟨a, rfl, by rw [hfa, hb]⟩
          · rintro ⟨x, hx, hfx⟩
            subst hx
            rw [hfa] at hfx
            simpa using hfx
        | succ j =>
          simp only [List.getElem?_cons_succ]
          exact ih hrest j y

namespace SpatialHash

theorem scanOccupancy_total (sh : SpatialHash) (keep : Nat → Option Nat) :
    ∀ (occ : List Int) (inds : List Nat),
      (∀ c ∈ occ, ∃ l, voxelFind sh.voxel c = some l) →
      ∃ r, sh.scanOccupancy keep occ inds = .ok r := by
  intro occ
  induction occ with
  | nil =>
    intro inds _
    exact ⟨inds, rfl⟩
  | cons c cs ih =>
    intro inds h
    obtain ⟨l, hl⟩ := h c (List.mem_cons_self _ _)
    simp only [scanOccupancy, hl]
    exact ih _ (fun c' hc' => h c' (List.mem_cons_of_mem _ hc'))

theorem scanPrimitives_total (sh : SpatialHash) :
    ∀ (occ : List Int) (acc : List Nat × List Nat × List Nat),
      (∀ c ∈ occ, ∃ l, voxelFind sh.voxel c = some l) →
      ∃ r, sh.scanPrimitives occ acc = .ok r := by
  intro occ
  induction occ with
  | nil =>
    intro acc _
    exact ⟨acc, rfl⟩
  | cons c cs ih =>
    intro acc h
    obtain ⟨l, hl⟩ := h c (List.mem_cons_self _ _)
    simp only [scanPrimitives, hl]
    exact ih _ (fun c' hc' => h c' (List.mem_cons_of_mem _ hc'))

end SpatialHash

/-! ## The shape of a built index -/

theorem isExtremes_le {lb rt : Vec3} {P : List Vec3} (h : IsExtremes lb rt P) :
    lb.x ≤ rt.x ∧ lb.y ≤ rt.y ∧ lb.z ≤ rt.z := by
  obtain ⟨hb, ⟨⟨vx, hvx, ex⟩, ⟨vy, hvy, ey⟩, ⟨vz, hvz, ez⟩⟩, _⟩ := h
  refine ⟨?_, ?_, ?_⟩
  · rw [← ex]
    exact (hb vx hvx).2.1
  · rw [← ey]
    exact (hb vy hvy).2.2.1
  · rw [← ez]
    exact (hb vz hvz).2.2.2

/-- After the grid is sized on corners with `lb <= rt`, the stored reciprocal
voxel size is positive (a negative size always ends in the fallback). -/
theorem sizeGrid_inv_pos {lb rt : Vec3} {voxelSize : ℚ} {nV nE : Nat} {g : SpatialHash}
    (hg : sizeGrid lb rt voxelSize nV nE = .ok g)
    (hle : lb.x ≤ rt.x ∧ lb.y ≤ rt.y ∧ lb.z ≤ rt.z) : 0 < g.one_div_voxelSize := by
  obtain ⟨h1, h2, _, _, _, _, hs, hrule, hm⟩ := sizeGrid_ok hg
  have hrange : 0 ≤ (rt.sub lb).maxCoeff := by
    have : 0 ≤ rt.x - lb.x := by linarith [hle.1]
    exact le_trans this (le_trans (le_max_left _ _) (le_max_left _ _))
  unfold GridRule at hrule
  rw [h1, h2] at hrule
  by_cases hc : ((rt.sub lb).scale (1 / voxelSize)).ceil.minCoeff ≤ 0
  · have hne := hm hc
    obtain ⟨_, hinv⟩ := hrule.1 ((minCoeff_le_zero_iff _).mp hc)
    rw [hinv]
    have hpos : 0 < (rt.sub lb).maxCoeff := lt_of_le_of_ne hrange (Ne.symm hne)
    positivity
  · have hnc : ¬ ((((rt.sub lb).scale (1 / voxelSize)).ceil).x ≤ 0 ∨
        (((rt.sub lb).scale (1 / voxelSize)).ceil).y ≤ 0 ∨
        (((rt.sub lb).scale (1 / voxelSize)).ceil).z ≤ 0) :=
      fun hp => hc ((minCoeff_le_zero_iff _).mpr hp)
    obtain ⟨_, hinv⟩ := hrule.2.1 hnc
    rw [hinv]
    rcases lt_or_gt_of_ne hs with hneg | hpos
    · exfalso
      apply hnc
      left
      show ⌈(rt.x - lb.x) * (1 / voxelSize)⌉ ≤ 0
      rw [Int.ceil_le]
      have h1 : 1 / voxelSize < 0 := one_div_neg.mpr hneg
      have h2 : 0 ≤ rt.x - lb.x := by linarith [hle.1]
      simpa using mul_nonpos_of_nonneg_of_nonpos h2 (le_of_lt h1)
    · positivity

/-- The parts of a swept `build` that returned, read off the result. -/
theorem buildSwept_shape {ext : External} {V0 V1 : List Vec3} {E : List (Nat × Nat)}
    {F : List (Nat × Nat × Nat)} {voxelSize : ℚ} {sh : SpatialHash}
    (h : buildSwept ext V0 V1 E F voxelSize = .ok sh) :
    ∃ occupancyE voxelLoc_f,
      V0.length = V1.length ∧ sh.edgeStartInd = V0.length ∧
      sh.triStartInd = V0.length + E.length ∧
      sh.voxelCount0x1 = sh.voxelCount.x * sh.voxelCount.y ∧
      0 < sh.one_div_voxelSize ∧
      forEachM (sweptEdgeCells sh (vertexMinVAI sh V0 V1) (vertexMaxVAI sh V0 V1)) E
        = .ok occupancyE ∧
      forEachM (sweptFaceCells sh (vertexMinVAI sh V0 V1) (vertexMaxVAI sh V0 V1)) F
        = .ok voxelLoc_f ∧
      sh.pointAndEdgeOccupancy =
        List.zipWith (fun mins maxs => cellLoop sh.voxelCount sh.voxelCount0x1 mins maxs)
          (vertexMinVAI sh V0 V1) (vertexMaxVAI sh V0 V1) ++ occupancyE ∧
      sh.voxel =
        insertLocs (insertLocs [] sh.pointAndEdgeOccupancy 0) voxelLoc_f sh.triStartInd := by
  obtain ⟨min0, min1, max0, max1, g, oe, lf, hlen, hmin0, hmin1, hmax0, hmax1, hg, hoe, hlf,
    hsh⟩ := buildSwept_ok h
  obtain ⟨_, _, h3, h4, _, _, _, hrule, _⟩ := sizeGrid_ok hg
  have hpos := sizeGrid_inv_pos hg
    (isExtremes_le (isExtremes_append (colwise_isExtremes hmin0 hmax0)
      (colwise_isExtremes hmin1 hmax1)))
  subst hsh
  exact ⟨oe, lf, hlen, h3, h4, hrule.2.2, hpos, hoe, hlf, rfl, rfl⟩

theorem length_vertexMinVAI (sh : SpatialHash) (V0 V1 : List Vec3)
    (hlen : V0.length = V1.length) : (vertexMinVAI sh V0 V1).length = V0.length := by
  simp [vertexMinVAI, List.length_zipWith, hlen]

theorem length_vertexMaxVAI (sh : SpatialHash) (V0 V1 : List Vec3)
    (hlen : V0.length = V1.length) : (vertexMaxVAI sh V0 V1).length = V0.length := by
  simp [vertexMaxVAI, List.length_zipWith, hlen]

/-- After the swept build the occupancy table has one entry per vertex and edge. -/
theorem buildSwept_occupancy_length {ext : External} {V0 V1 : List Vec3}
    {E : List (Nat × Nat)} {F : List (Nat × Nat × Nat)} {voxelSize : ℚ} {sh : SpatialHash}
    (h : buildSwept ext V0 V1 E F voxelSize = .ok sh) :
    sh.pointAndEdgeOccupancy.length = V0.length + E.length := by
  obtain ⟨oe, lf, hlen, _, _, _, _, hoe, _, hocc, _⟩ := buildSwept_shape h
  rw [hocc, List.length_append, List.length_zipWith, length_vertexMinVAI sh V0 V1 hlen,
    length_vertexMaxVAI sh V0 V1 hlen, forEachM_length hoe]
  simp

/-- After the swept build, an ID below `triStartInd` is in the list of a cell
exactly when the cell is in the ID's occupancy list. -/
theorem buildSwept_mem_voxel_iff {ext : External} {V0 V1 : List Vec3}
    {E : List (Nat × Nat)} {F : List (Nat × Nat × Nat)} {voxelSize : ℚ} {sh : SpatialHash}
    (h : buildSwept ext V0 V1 E F voxelSize = .ok sh) (p : Nat) (c : Int)
    (hp : p < sh.triStartInd) :
    (∃ occ, sh.pointAndEdgeOccupancy[p]? = some occ ∧ c ∈ occ) ↔
      (∃ l, voxelFind sh.voxel c = some l ∧ p ∈ l) := by
  obtain ⟨oe, lf, _, _, _, _, _, _, _, _, hvox⟩ := buildSwept_shape h
  rw [← mem_voxelGet_iff, hvox, voxelGet_insertLocs, voxelGet_insertLocs]
  simp only [voxelGet, voxelFind, List.nil_append, List.mem_append, mem_idsFor]
  constructor
  · rintro ⟨occ, hocc, hc⟩
    exact Or.inl ⟨p, occ, hocc, by omega, hc⟩
  · rintro (⟨i, loc, hi, hpi, hc⟩ | ⟨i, loc, _, hpi, _⟩)
    · have : i = p := by omega
      subst this
      exact ⟨loc, hi, hc⟩
    · omega

/-- C11. Occupancy/voxel consistency of the swept build: the occupancy table
has `tri_start` entries, for every primitive ID `p < tri_start` and every linear
cell index `c`, `c` is listed in `point_and_edge_occupancy[p]` if and only if
`p` appears in `voxel[c]`, and therefore the index-keyed queries
`queryPointForPrimitives`, `queryPointForEdges`, `queryPointForTriangles` (for
every vertex) and `queryEdgeForEdges` (for every edge) find every cell they look
up and return. -/
theorem occupancy_voxel_consistent (ext : External) (V0 V1 : List Vec3)
    (E : List (Nat × Nat)) (F : List (Nat × Nat × Nat)) (voxelSize : ℚ) (sh : SpatialHash)
    (h : buildSwept ext V0 V1 E F voxelSize = .ok sh) :
    sh.pointAndEdgeOccupancy.length = sh.triStartInd ∧
    (∀ p c, p < sh.triStartInd →
      ((∃ occ, sh.pointAndEdgeOccupancy[p]? = some occ ∧ c ∈ occ) ↔
        (∃ l, voxelFind sh.voxel c = some l ∧ p ∈ l))) ∧
    (∀ vi, vi < V0.length →
      (∃ r, sh.queryPointForPrimitives vi = .ok r) ∧
      (∃ r, sh.queryPointForEdges vi = .ok r) ∧
      (∃ r, sh.queryPointForTriangles vi = .ok r)) ∧
    (∀ eai, eai < E.length → ∃ r, sh.queryEdgeForEdges eai = .ok r) := by
  obtain ⟨oe, lf, hlen, hes, hts, _, _, _, _, _, _⟩ := buildSwept_shape h
  have hl := buildSwept_occupancy_length h
  have hkeys : ∀ p, p < sh.triStartInd → ∃ occ, getE sh.pointAndEdgeOccupancy p = .ok occ ∧
      ∀ c ∈ occ, ∃ l, voxelFind sh.voxel c = some l := by
    intro p hp
    obtain ⟨occ, hocc⟩ := getE_total (show p < sh.pointAndEdgeOccupancy.length by omega)
    refine ⟨occ, hocc, fun c hc => ?_⟩
    obtain ⟨l, hl', _⟩ := (buildSwept_mem_voxel_iff h p c hp).mp ⟨occ, getE_ok hocc, hc⟩
    exact ⟨l, hl'⟩
  refine ⟨by omega, fun p c hp => buildSwept_mem_voxel_iff h p c hp, ?_, ?_⟩
  · intro vi hvi
    obtain ⟨occ, hocc, hk⟩ := hkeys vi (by omega)
    refine ⟨?_, ?_, ?_⟩
    · unfold SpatialHash.queryPointForPrimitives
      rw [hocc]
      exact SpatialHash.scanPrimitives_total sh occ _ hk
    · unfold SpatialHash.queryPointForEdges
      rw [hocc]
      exact SpatialHash.scanOccupancy_total sh _ occ _ hk
    · unfold SpatialHash.queryPointForTriangles
      rw [hocc]
      exact SpatialHash.scanOccupancy_total sh _ occ _ hk
  · intro eai heai
    obtain ⟨occ, hocc, hk⟩ := hkeys (eai + sh.edgeStartInd) (by omega)
    unfold SpatialHash.queryEdgeForEdges
    rw [hocc]
    exact SpatialHash.scanOccupancy_total sh _ occ _ hk

/-- Witness of C11: the swept build of the two crossing segments of the
repository's test (first edge moving up, second moving down along `y`, voxel
size 3/2), an index with six cells. -/
theorem occupancy_voxel_consistent_witness :
    buildSwept (specExternal 0 0) twoSegV crossV1 twoSegE [] (3 / 2) = .ok crossIndex ∧
    (crossIndex.pointAndEdgeOccupancy.length = crossIndex.triStartInd ∧
    (∀ p c, p < crossIndex.triStartInd →
      ((∃ occ, crossIndex.pointAndEdgeOccupancy[p]? = some occ ∧ c ∈ occ) ↔
        (∃ l, voxelFind crossIndex.voxel c = some l ∧ p ∈ l))) ∧
    (∀ vi, vi < twoSegV.length →
      (∃ r, crossIndex.queryPointForPrimitives vi = .ok r) ∧
      (∃ r, crossIndex.queryPointForEdges vi = .ok r) ∧
      (∃ r, crossIndex.queryPointForTriangles vi = .ok r)) ∧
    (∀ eai, eai < twoSegE.length → ∃ r, crossIndex.queryEdgeForEdges eai = .ok r)) :=
  ⟨by decide!,
    occupancy_voxel_consistent (specExternal 0 0) twoSegV crossV1 twoSegE [] (3 / 2)
      crossIndex (by decide!)⟩

/-! ## Cell enumeration -/

theorem mem_rangeIncl (lo hi c : Int) : c ∈ rangeIncl lo hi ↔ lo ≤ c ∧ c ≤ hi := by
  unfold rangeIncl
  rw [List.mem_map]
  constructor
  · rintro ⟨i, hi', hc⟩
    simp at hi'
    obtain ⟨a, ha, hai⟩ := hi'
    omega
  · rintro ⟨h1, h2⟩
    refine ⟨c - lo, ?_, by omega⟩
    simp
    refine ⟨(c - lo).toNat, ?_, ?_⟩
    · rw [Int.toNat_of_nonneg (by omega)]
      omega
    · rw [Int.toNat_of_nonneg (by omega)]

theorem mem_cellLoop (voxelCount : Idx3) (voxelCount0x1 : Int) (mins maxs : Idx3) (c : Int) :
    c ∈ cellLoop voxelCount voxelCount0x1 mins maxs ↔
      ∃ ix iy iz, InIdxBox mins maxs ix iy iz ∧
        c = ix + (iy * voxelCount.x + iz * voxelCount0x1) := by
  unfold cellLoop InIdxBox
  simp only [List.mem_flatMap, List.mem_map, mem_rangeIncl]
  constructor
  · rintro ⟨iz, hz, iy, hy, ix, hx, hc⟩
    exact ⟨ix, iy, iz, ⟨hx, hy, hz⟩, hc.symm⟩
  · rintro ⟨ix, iy, iz, ⟨hx, hy, hz⟩, hc⟩
    exact ⟨iz, hz, iy, hy, ix, hx, hc.symm⟩

theorem floor_affine_min (l v a b : ℚ) (hv : 0 ≤ v) :
    min ⌊(a - l) * v⌋ ⌊(b - l) * v⌋ = ⌊(min a b - l) * v⌋ := by
  have hmono : Monotone (fun x : ℚ => ⌊(x - l) * v⌋) := by
    intro x y hxy
    exact Int.floor_mono (mul_le_mul_of_nonneg_right (sub_le_sub_right hxy l) hv)
  exact (hmono.map_min).symm

theorem floor_affine_max (l v a b : ℚ) (hv : 0 ≤ v) :
    max ⌊(a - l) * v⌋ ⌊(b - l) * v⌋ = ⌊(max a b - l) * v⌋ := by
  have hmono : Monotone (fun x : ℚ => ⌊(x - l) * v⌋) := by
    intro x y hxy
    exact Int.floor_mono (mul_le_mul_of_nonneg_right (sub_le_sub_right hxy l) hv)
  exact (hmono.map_max).symm

/-- With a non-negative reciprocal voxel size, locating commutes with the
componentwise minimum. -/
theorem locate_cmin (sh : SpatialHash) (hv : 0 ≤ sh.one_div_voxelSize) (p q : Vec3) :
    (sh.locateVoxelAxisIndex p).cmin (sh.locateVoxelAxisIndex q) =
      sh.locateVoxelAxisIndex (p.cmin q) := by
  simp only [SpatialHash.locateVoxelAxisIndex, Vec3.floor, Vec3.scale, Vec3.sub, Idx3.cmin,
    Vec3.cmin, floor_affine_min _ _ _ _ hv]

/-- With a non-negative reciprocal voxel size, locating commutes with the
componentwise maximum. -/
theorem locate_cmax (sh : SpatialHash) (hv : 0 ≤ sh.one_div_voxelSize) (p q : Vec3) :
    (sh.locateVoxelAxisIndex p).cmax (sh.locateVoxelAxisIndex q) =
      sh.locateVoxelAxisIndex (p.cmax q) := by
  simp only [SpatialHash.locateVoxelAxisIndex, Vec3.floor, Vec3.scale, Vec3.sub, Idx3.cmax,
    Vec3.cmax, floor_affine_max _ _ _ _ hv]

theorem getE_of_getElem? {α : Type} {xs : List α} {i : Nat} {a : α} (h : xs[i]? = some a) :
    getE xs i = .ok a := by
  unfold getE
  rw [h]

theorem getElem?_vertexMinVAI (sh : SpatialHash) (hv : 0 ≤ sh.one_div_voxelSize)
    {V0 V1 : List Vec3} {i : Nat} {p0 p1 : Vec3} (h0 : V0[i]? = some p0)
    (h1 : V1[i]? = some p1) :
    (vertexMinVAI sh V0 V1)[i]? = some (sh.locateVoxelAxisIndex (p0.cmin p1)) := by
  unfold vertexMinVAI
  rw [List.getElem?_zipWith_eq_some]
  exact ⟨p0, p1, h0, h1, locate_cmin sh hv p0 p1⟩

theorem getElem?_vertexMaxVAI (sh : SpatialHash) (hv : 0 ≤ sh.one_div_voxelSize)
    {V0 V1 : List Vec3} {i : Nat} {p0 p1 : Vec3} (h0 : V0[i]? = some p0)
    (h1 : V1[i]? = some p1) :
    (vertexMaxVAI sh V0 V1)[i]? = some (sh.locateVoxelAxisIndex (p0.cmax p1)) := by
  unfold vertexMaxVAI
  rw [List.getElem?_zipWith_eq_some]
  exact ⟨p0, p1, h0, h1, locate_cmax sh hv p0 p1⟩

theorem getVAI_swept (sh : SpatialHash) (hv : 0 ≤ sh.one_div_voxelSize)
    {V0 V1 : List Vec3} {i : Nat} {p0 p1 : Vec3} (h0 : V0[i]? = some p0)
    (h1 : V1[i]? = some p1) :
    getVAI (vertexMinVAI sh V0 V1) (vertexMaxVAI sh V0 V1) i =
      .ok (sh.locateVoxelAxisIndex (p0.cmin p1), sh.locateVoxelAxisIndex (p0.cmax p1)) := by
  unfold getVAI
  rw [getE_of_getElem? (getElem?_vertexMinVAI sh hv h0 h1),
    getE_of_getElem? (getElem?_vertexMaxVAI sh hv h0 h1)]

/-- The cell list the swept build computes for an edge with endpoints `a`, `b`:
the index box of the swept AABB of the four endpoint positions. -/
theorem sweptEdgeCells_eq (sh : SpatialHash) (hv : 0 ≤ sh.one_div_voxelSize)
    {V0 V1 : List Vec3} {e : Nat × Nat} {a0 a1 b0 b1 : Vec3}
    (ha0 : V0[e.1]? = some a0) (ha1 : V0[e.2]? = some a1)
    (hb0 : V1[e.1]? = some b0) (hb1 : V1[e.2]? = some b1) :
    sweptEdgeCells sh (vertexMinVAI sh V0 V1) (vertexMaxVAI sh V0 V1) e =
      .ok (cellLoop sh.voxelCount sh.voxelCount0x1
        (sh.locateVoxelAxisIndex ((a0.cmin b0).cmin (a1.cmin b1)))
        (sh.locateVoxelAxisIndex ((a0.cmax b0).cmax (a1.cmax b1)))) := by
  unfold sweptEdgeCells
  rw [getVAI_swept sh hv ha0 hb0, getVAI_swept sh hv ha1 hb1]
  simp only [locate_cmin sh hv, locate_cmax sh hv]

/-- The vertex loop of the static build is the serial insertion of the
one-cell lists of the vertices. -/
theorem insertVertices_eq (sh : SpatialHash) :
    ∀ (ps : List Vec3) (m m' : VoxelMap) (vi : Nat),
      insertVertices sh m ps vi = .ok m' →
      ∃ ks, forEachM sh.locateVoxelIndex ps = .ok ks ∧
        m' = insertLocs m (ks.map (fun k => [k])) vi := by
  intro ps
  induction ps with
  | nil =>
    intro m m' vi h
    simp only [insertVertices, Except.ok.injEq] at h
    exact ⟨[], rfl, by simp [insertLocs, h]⟩
  | cons p ps ih =>
    intro m m' vi h
    simp only [insertVertices] at h
    cases hk : sh.locateVoxelIndex p with
    | error e => simp [hk] at h
    | ok k =>
      simp only [hk] at h
      obtain ⟨ks, hks, hm⟩ := ih _ _ _ h
      refine ⟨k :: ks, by simp [forEachM, hk, hks], ?_⟩
      simp [insertLocs, hm]

/-- The parts of a static `build` that returned, read off the result. -/
theorem build_shape {ext : External} {V : List Vec3} {E : List (Nat × Nat)}
    {F : List (Nat × Nat × Nat)} {voxelSize : ℚ} {sh : SpatialHash}
    (h : build ext V E F voxelSize = .ok sh) :
    ∃ ks voxelLoc_e voxelLoc_f,
      sh.edgeStartInd = V.length ∧ sh.triStartInd = V.length + E.length ∧
      sh.voxelCount0x1 = sh.voxelCount.x * sh.voxelCount.y ∧
      0 < sh.one_div_voxelSize ∧
      sh.pointAndEdgeOccupancy = [] ∧
      forEachM sh.locateVoxelIndex V = .ok ks ∧
      forEachM (staticEdgeCells sh (V.map sh.locateVoxelAxisIndex)) E = .ok voxelLoc_e ∧
      forEachM (staticFaceCells sh (V.map sh.locateVoxelAxisIndex)) F = .ok voxelLoc_f ∧
      sh.voxel =
        insertLocs (insertLocs (insertLocs [] (ks.map (fun k => [k])) 0) voxelLoc_e
          sh.edgeStartInd) voxelLoc_f sh.triStartInd := by
  obtain ⟨lb, rt, g, voxel0, le, lf, hlb, hrt, hg, hv, hle, hlf, hsh⟩ := build_ok h
  obtain ⟨_, _, h3, h4, _, h6, _, hrule, _⟩ := sizeGrid_ok hg
  have hpos := sizeGrid_inv_pos hg (isExtremes_le (colwise_isExtremes hlb hrt))
  obtain ⟨ks, hks, hvox0⟩ := insertVertices_eq g V [] voxel0 0 hv
  subst hsh
  subst hvox0
  exact ⟨ks, le, lf, h3, h4, hrule.2.2, hpos, h6, hks, hle, hlf, rfl⟩

/-! ## Face cells and repeated IDs -/

/-- C13 (code defect): the static face loop reads the voxel-axis index of
`F(k,1)` twice and never that of `F(k,2)`. For the triangle with vertices
`(0,0,0)`, `(1,1,1)`, `(3,3,3)` and voxel size 2 the build returns, the three
vertices lie in the cells `(0,0,0)`, `(0,0,0)`, `(1,1,1)`, so the sub-box
spanned by all three is the whole `2 × 2 × 2` grid and contains cell 7; yet
the face ID `tri_start + 0 = 6` is stored in cell 0 only, and the list of
cell 7 is `[2, 4, 5]`. -/
theorem static_face_misses_third_vertex :
    build (specExternal 0 0) stretchV triE triF 2 = .ok stretchIndex ∧
    stretchIndex.triStartInd + 0 = 6 ∧
    stretchV.map stretchIndex.locateVoxelAxisIndex = [⟨0, 0, 0⟩, ⟨0, 0, 0⟩, ⟨1, 1, 1⟩] ∧
    (7 : Int) ∈ cellLoop stretchIndex.voxelCount stretchIndex.voxelCount0x1
      ⟨0, 0, 0⟩ ⟨1, 1, 1⟩ ∧
    voxelFind stretchIndex.voxel 7 = some [2, 4, 5] ∧
    (stretchIndex.voxel.filter (fun kv => decide (6 ∈ kv.2))).map Prod.fst = [0] := by
  decide!

/-- C14 (code defect): the swept build of the unit diagonal `(0,0,0)–(1,1,1)`
at rest with voxel size 1 makes a one-cell grid; the far endpoint gets the axis
index `(1,1,1)`, outside the grid, so the eight cells enumerated for the edge
have the linear indices `0, 1, 1, 2, 1, 2, 2, 3`, and the serial insertion
stores the edge ID 2 three times in the voxel list of index 1. -/
theorem swept_voxel_list_repeats_id :
    buildSwept (specExternal 0 0) [⟨0, 0, 0⟩, ⟨1, 1, 1⟩] [⟨0, 0, 0⟩, ⟨1, 1, 1⟩]
      [(0, 1)] [] 1 = .ok diagIndex ∧
    diagIndex.pointAndEdgeOccupancy[2]? = some [0, 1, 1, 2, 1, 2, 2, 3] ∧
    voxelFind diagIndex.voxel 1 = some [2, 2, 2] ∧
    ¬ ([2, 2, 2] : List Nat).Nodup := by
  decide!


/-! ## The unified ID space -/

/-- The IDs a static build stores in the list of cell `c`, by class. -/
theorem build_mem_voxel_iff {ext : External} {V : List Vec3} {E : List (Nat × Nat)}
    {F : List (Nat × Nat × Nat)} {voxelSize : ℚ} {sh : SpatialHash}
    (h : build ext V E F voxelSize = .ok sh) (c : Int) (id : Nat) :
    (∃ l, voxelFind sh.voxel c = some l ∧ id ∈ l) ↔
      ((id < sh.edgeStartInd ∧ ∃ p, V[id]? = some p ∧ sh.locateVoxelIndex p = .ok c) ∨
       (sh.edgeStartInd ≤ id ∧ id < sh.triStartInd ∧ ∃ e cells,
          E[id - sh.edgeStartInd]? = some e ∧
          staticEdgeCells sh (V.map sh.locateVoxelAxisIndex) e = .ok cells ∧ c ∈ cells) ∨
       (sh.triStartInd ≤ id ∧ ∃ f cells, F[id - sh.triStartInd]? = some f ∧
          staticFaceCells sh (V.map sh.locateVoxelAxisIndex) f = .ok cells ∧ c ∈ cells)) := by
  obtain ⟨ks, le, lf, hes, hts, _, _, _, hks, hle, hlf, hvox⟩ := build_shape h
  have hlks := forEachM_length hks
  have hlle := forEachM_length hle
  rw [← mem_voxelGet_iff, hvox, voxelGet_insertLocs, voxelGet_insertLocs, voxelGet_insertLocs]
  simp only [voxelGet, voxelFind, List.nil_append, List.mem_append, mem_idsFor]
  constructor
  · rintro ((⟨i, loc, hi, hid, hc⟩ | ⟨j, loc, hj, hid, hc⟩) | ⟨k, loc, hk, hid, hc⟩)
    · left
      rw [List.getElem?_map] at hi
      cases hki : ks[i]? with
      | none => simp [hki] at hi
      | some k =>
        have hil : i < ks.length := (List.getElem?_eq_some.mp hki).1
        obtain ⟨p, hp, hloc⟩ := (forEachM_getElem hks i k).mp hki
        simp [hki] at hi
        subst hi
        simp at hc
        subst hc
        have : id = i := by omega
        subst this
        exact ⟨by omega, p, hp, hloc⟩
    · right; left
      have hjl : j < le.length := (List.getElem?_eq_some.mp hj).1
      obtain ⟨e, he, hcells⟩ := (forEachM_getElem hle j loc).mp hj
      have hsub : id - sh.edgeStartInd = j := by omega
      refine ⟨by omega, by omega, e, loc, ?_, hcells, hc⟩
      rw [hsub]
      exact he
    · right; right
      obtain ⟨f, hf, hcells⟩ := (forEachM_getElem hlf k loc).mp hk
      have hsub : id - sh.triStartInd = k := by omega
      refine ⟨by omega, f, loc, ?_, hcells, hc⟩
      rw [hsub]
      exact hf
  · rintro (⟨_, p, hp, hloc⟩ | ⟨h1, _, e, cells, he, hcells, hc⟩ | ⟨h1, f, cells, hf, hcells, hc⟩)
    · left; left
      have hk := (forEachM_getElem hks id c).mpr ⟨p, hp, hloc⟩
      refine ⟨id, [c], ?_, by omega, by simp⟩
      rw [List.getElem?_map, hk]
      rfl
    · left; right
      exact ⟨id - sh.edgeStartInd, cells,
        (forEachM_getElem hle _ cells).mpr ⟨e, he, hcells⟩, by omega, hc⟩
    · right
      exact ⟨id - sh.triStartInd, cells,
        (forEachM_getElem hlf _ cells).mpr ⟨f, hf, hcells⟩, by omega, hc⟩

/-- The IDs a swept build stores in the list of cell `c`, by class. -/
theorem buildSwept_mem_voxel_classes {ext : External} {V0 V1 : List Vec3}
    {E : List (Nat × Nat)} {F : List (Nat × Nat × Nat)} {voxelSize : ℚ} {sh : SpatialHash}
    (h : buildSwept ext V0 V1 E F voxelSize = .ok sh) (c : Int) (id : Nat) :
    (∃ l, voxelFind sh.voxel c = some l ∧ id ∈ l) ↔
      ((id < sh.edgeStartInd ∧ ∃ mins maxs, (vertexMinVAI sh V0 V1)[id]? = some mins ∧
          (vertexMaxVAI sh V0 V1)[id]? = some maxs ∧
          c ∈ cellLoop sh.voxelCount sh.voxelCount0x1 mins maxs) ∨
       (sh.edgeStartInd ≤ id ∧ id < sh.triStartInd ∧ ∃ e cells,
          E[id - sh.edgeStartInd]? = some e ∧
          sweptEdgeCells sh (vertexMinVAI sh V0 V1) (vertexMaxVAI sh V0 V1) e = .ok cells ∧
          c ∈ cells) ∨
       (sh.triStartInd ≤ id ∧ ∃ f cells, F[id - sh.triStartInd]? = some f ∧
          sweptFaceCells sh (vertexMinVAI sh V0 V1) (vertexMaxVAI sh V0 V1) f = .ok cells ∧
          c ∈ cells)) := by
  obtain ⟨oe, lf, hlen, hes, hts, _, _, hoe, hlf, hocc, hvox⟩ := buildSwept_shape h
  have hloe := forEachM_length hoe
  have hzl : (List.zipWith
      (fun mins maxs => cellLoop sh.voxelCount sh.voxelCount0x1 mins maxs)
      (vertexMinVAI sh V0 V1) (vertexMaxVAI sh V0 V1)).length = V0.length := by
    rw [List.length_zipWith, length_vertexMinVAI sh V0 V1 hlen,
      length_vertexMaxVAI sh V0 V1 hlen]
    simp
  rw [← mem_voxelGet_iff, hvox, voxelGet_insertLocs, voxelGet_insertLocs]
  simp only [voxelGet, voxelFind, List.nil_append, List.mem_append, mem_idsFor]
  constructor
  · rintro (⟨i, loc, hi, hid, hc⟩ | ⟨k, loc, hk, hid, hc⟩)
    · have hii : id = i := by omega
      subst hii
      rw [hocc] at hi
      by_cases hlt : id < V0.length
      · left
        rw [List.getElem?_append_left (by omega), List.getElem?_zipWith_eq_some] at hi
        obtain ⟨mins, maxs, hmins, hmaxs, hloc⟩ := hi
        subst hloc
        exact ⟨by omega, mins, maxs, hmins, hmaxs, hc⟩
      · right; left
        rw [List.getElem?_append_right (by omega), hzl] at hi
        have hjl : id - V0.length < oe.length := (List.getElem?_eq_some.mp hi).1
        obtain ⟨e, he, hcells⟩ := (forEachM_getElem hoe _ loc).mp hi
        refine ⟨by omega, by omega, e, loc, ?_, hcells, hc⟩
        rw [hes]
        exact he
    · right; right
      obtain ⟨f, hf, hcells⟩ := (forEachM_getElem hlf k loc).mp hk
      have hsub : id - sh.triStartInd = k := by omega
      refine ⟨by omega, f, loc, ?_, hcells, hc⟩
      rw [hsub]
      exact hf
  · rintro (⟨h1, mins, maxs, hmins, hmaxs, hc⟩ | ⟨h1, h2, e, cells, he, hcells, hc⟩ |
      ⟨h1, f, cells, hf, hcells, hc⟩)
    · left
      refine ⟨id, _, ?_, by omega, hc⟩
      rw [hocc, List.getElem?_append_left (by omega), List.getElem?_zipWith_eq_some]
      exact ⟨mins, maxs, hmins, hmaxs, rfl⟩
    · left
      refine ⟨id, cells, ?_, by omega, hc⟩
      rw [hocc, List.getElem?_append_right (by omega), hzl, ← hes]
      exact (forEachM_getElem hoe _ cells).mpr ⟨e, he, hcells⟩
    · right
      exact ⟨id - sh.triStartInd, cells,
        (forEachM_getElem hlf _ cells).mpr ⟨f, hf, hcells⟩, by omega, hc⟩


/-- C15. Unified primitive ID space: after a build (static or swept) on `n`
vertices, `m` edges and `q` faces that returned, `edge_start = n` and
`tri_start = n + m`; an ID is stored in the list of a cell exactly when it is
below `edge_start` and the vertex with that index occupies the cell, or it is in
`[edge_start, tri_start)` and the edge `id - edge_start` occupies the cell, or
it is at least `tri_start` and the face `id - tri_start` occupies the cell
(occupation being the cell list the build computes for the primitive); and
every stored ID is below `n + m + q`. -/
theorem unified_id_space (ext : External) (V V0 V1 : List Vec3) (E : List (Nat × Nat))
    (F : List (Nat × Nat × Nat)) (voxelSize : ℚ) :
    (∀ sh, build ext V E F voxelSize = .ok sh →
      sh.edgeStartInd = V.length ∧ sh.triStartInd = V.length + E.length ∧
      (∀ (c : Int) (id : Nat), (∃ l, voxelFind sh.voxel c = some l ∧ id ∈ l) ↔
        ((id < sh.edgeStartInd ∧ ∃ p, V[id]? = some p ∧ sh.locateVoxelIndex p = .ok c) ∨
         (sh.edgeStartInd ≤ id ∧ id < sh.triStartInd ∧ ∃ e cells,
            E[id - sh.edgeStartInd]? = some e ∧
            staticEdgeCells sh (V.map sh.locateVoxelAxisIndex) e = .ok cells ∧ c ∈ cells) ∨
         (sh.triStartInd ≤ id ∧ ∃ f cells, F[id - sh.triStartInd]? = some f ∧
            staticFaceCells sh (V.map sh.locateVoxelAxisIndex) f = .ok cells ∧
            c ∈ cells))) ∧
      (∀ (c : Int) (l : List Nat) (id : Nat), voxelFind sh.voxel c = some l → id ∈ l →
        id < V.length + E.length + F.length)) ∧
    (∀ sh, buildSwept ext V0 V1 E F voxelSize = .ok sh →
      sh.edgeStartInd = V0.length ∧ sh.triStartInd = V0.length + E.length ∧
      (∀ (c : Int) (id : Nat), (∃ l, voxelFind sh.voxel c = some l ∧ id ∈ l) ↔
        ((id < sh.edgeStartInd ∧ ∃ mins maxs, (vertexMinVAI sh V0 V1)[id]? = some mins ∧
            (vertexMaxVAI sh V0 V1)[id]? = some maxs ∧
            c ∈ cellLoop sh.voxelCount sh.voxelCount0x1 mins maxs) ∨
         (sh.edgeStartInd ≤ id ∧ id < sh.triStartInd ∧ ∃ e cells,
            E[id - sh.edgeStartInd]? = some e ∧
            sweptEdgeCells sh (vertexMinVAI sh V0 V1) (vertexMaxVAI sh V0 V1) e
              = .ok cells ∧ c ∈ cells) ∨
         (sh.triStartInd ≤ id ∧ ∃ f cells, F[id - sh.triStartInd]? = some f ∧
            sweptFaceCells sh (vertexMinVAI sh V0 V1) (vertexMaxVAI sh V0 V1) f
              = .ok cells ∧ c ∈ cells))) ∧
      (∀ (c : Int) (l : List Nat) (id : Nat), voxelFind sh.voxel c = some l → id ∈ l →
        id < V0.length + E.length + F.length)) := by
  constructor
  · intro sh h
    obtain ⟨ks, le, lf, hes, hts, _, _, _, hks, hle, hlf, hvox⟩ := build_shape h
    refine ⟨hes, hts, build_mem_voxel_iff h, ?_⟩
    intro c l id hl hid
    rcases (build_mem_voxel_iff h c id).mp ⟨l, hl, hid⟩ with
      ⟨h1, _⟩ | ⟨_, h2, _⟩ | ⟨_, f, cells, hf, _⟩
    · omega
    · omega
    · have := (List.getElem?_eq_some.mp hf).1
      omega
  · intro sh h
    obtain ⟨oe, lf, hlen, hes, hts, _⟩ := buildSwept_shape h
    refine ⟨hes, hts, buildSwept_mem_voxel_classes h, ?_⟩
    intro c l id hl hid
    rcases (buildSwept_mem_voxel_classes h c id).mp ⟨l, hl, hid⟩ with
      ⟨h1, _⟩ | ⟨_, h2, _⟩ | ⟨_, f, cells, hf, _⟩
    · omega
    · omega
    · have := (List.getElem?_eq_some.mp hf).1
      omega

/-- Witness of C15: the static build of the stretched triangle (three vertices,
three edges, one face) and the swept build of the two crossing segments. -/
theorem unified_id_space_witness :
    build (specExternal 0 0) stretchV triE triF 2 = .ok stretchIndex ∧
    buildSwept (specExternal 0 0) twoSegV crossV1 twoSegE [] (3 / 2) = .ok crossIndex ∧
    (stretchIndex.edgeStartInd = stretchV.length ∧ stretchIndex.triStartInd = stretchV.length + triE.length ∧
      (∀ (c : Int) (id : Nat), (∃ l, voxelFind stretchIndex.voxel c = some l ∧ id ∈ l) ↔
        ((id < stretchIndex.edgeStartInd ∧ ∃ p, stretchV[id]? = some p ∧ stretchIndex.locateVoxelIndex p = .ok c) ∨
         (stretchIndex.edgeStartInd ≤ id ∧ id < stretchIndex.triStartInd ∧ ∃ e cells,
            triE[id - stretchIndex.edgeStartInd]? = some e ∧
            staticEdgeCells stretchIndex (stretchV.map stretchIndex.locateVoxelAxisIndex) e = .ok cells ∧ c ∈ cells) ∨
         (stretchIndex.triStartInd ≤ id ∧ ∃ f cells, triF[id - stretchIndex.triStartInd]? = some f ∧
            staticFaceCells stretchIndex (stretchV.map stretchIndex.locateVoxelAxisIndex) f = .ok cells ∧
            c ∈ cells))) ∧
      (∀ (c : Int) (l : List Nat) (id : Nat), voxelFind stretchIndex.voxel c = some l → id ∈ l →
        id < stretchV.length + triE.length + triF.length)) ∧
    (crossIndex.edgeStartInd = twoSegV.length ∧ crossIndex.triStartInd = twoSegV.length + twoSegE.length ∧
      (∀ (c : Int) (id : Nat), (∃ l, voxelFind crossIndex.voxel c = some l ∧ id ∈ l) ↔
        ((id < crossIndex.edgeStartInd ∧ ∃ mins maxs, (vertexMinVAI crossIndex twoSegV crossV1)[id]? = some mins ∧
            (vertexMaxVAI crossIndex twoSegV crossV1)[id]? = some maxs ∧
            c ∈ cellLoop crossIndex.voxelCount crossIndex.voxelCount0x1 mins maxs) ∨
         (crossIndex.edgeStartInd ≤ id ∧ id < crossIndex.triStartInd ∧ ∃ e cells,
            twoSegE[id - crossIndex.edgeStartInd]? = some e ∧
            sweptEdgeCells crossIndex (vertexMinVAI crossIndex twoSegV crossV1) (vertexMaxVAI crossIndex twoSegV crossV1) e
              = .ok cells ∧ c ∈ cells) ∨
         (crossIndex.triStartInd ≤ id ∧ ∃ f cells, ([] : List (Nat × Nat × Nat))[id - crossIndex.triStartInd]? = some f ∧
            sweptFaceCells crossIndex (vertexMinVAI crossIndex twoSegV crossV1) (vertexMaxVAI crossIndex twoSegV crossV1) f
              = .ok cells ∧ c ∈ cells))) ∧
      (∀ (c : Int) (l : List Nat) (id : Nat), voxelFind crossIndex.voxel c = some l → id ∈ l →
        id < twoSegV.length + twoSegE.length + ([] : List (Nat × Nat × Nat)).length)) :=
  ⟨by decide!, by decide!,
    (unified_id_space (specExternal 0 0) stretchV stretchV stretchV triE triF 2).1
      stretchIndex (by decide!),
    (unified_id_space (specExternal 0 0) twoSegV twoSegV crossV1 twoSegE [] (3 / 2)).2
      crossIndex (by decide!)⟩


/-! ## Position-based queries -/

theorem mem_foldl_step {σ : Type} (proj : σ → List Nat) (step : σ → Nat → σ)
    (P : Nat → Nat → Prop)
    (hstep : ∀ s i j, j ∈ proj (step s i) ↔ j ∈ proj s ∨ P i j) :
    ∀ (l : List Nat) (init : σ) (j : Nat),
      j ∈ proj (l.foldl step init) ↔ j ∈ proj init ∨ ∃ i ∈ l, P i j := by
  intro l
  induction l with
  | nil =>
    intro init j
    simp
  | cons a l ih =>
    intro init j
    rw [List.foldl_cons, ih, hstep]
    constructor
    · rintro ((h | h) | ⟨i, hi, h⟩)
      · exact Or.inl h
      · exact Or.inr ⟨a, List.mem_cons_self _ _, h⟩
      · exact Or.inr ⟨i, List.mem_cons_of_mem _ hi, h⟩
    · rintro (h | ⟨i, hi, h⟩)
      · exact Or.inl (Or.inl h)
      · rcases List.mem_cons.mp hi with rfl | hi
        · exact Or.inl (Or.inr h)
        · exact Or.inr ⟨i, hi, h⟩

namespace SpatialHash

/-- What a position-based scan collects: the images of the IDs stored in the
cells it looks up. -/
theorem mem_scanCells {σ : Type} (sh : SpatialHash) (proj : σ → List Nat)
    (step : σ → Nat → σ) (P : Nat → Nat → Prop)
    (hstep : ∀ s i j, j ∈ proj (step s i) ↔ j ∈ proj s ∨ P i j) :
    ∀ (cells : List Int) (init : σ) (j : Nat),
      j ∈ proj (sh.scanCells step cells init) ↔
        j ∈ proj init ∨
          ∃ i, P i j ∧ ∃ c ∈ cells, ∃ l, voxelFind sh.voxel c = some l ∧ i ∈ l := by
  intro cells
  induction cells with
  | nil =>
    intro init j
    simp [scanCells]
  | cons c cells ih =>
    intro init j
    have hunf : sh.scanCells step (c :: cells) init =
        sh.scanCells step cells
          (match voxelFind sh.voxel c with
            | none => init
            | some l => l.foldl step init) := rfl
    rw [hunf, ih]
    cases hc : voxelFind sh.voxel c with
    | none =>
      simp only
      constructor
      · rintro (h | ⟨i, hP, c', hc', l, hl, hi⟩)
        · exact Or.inl h
        · exact Or.inr ⟨i, hP, c', List.mem_cons_of_mem _ hc', l, hl, hi⟩
      · rintro (h | ⟨i, hP, c', hc', l, hl, hi⟩)
        · exact Or.inl h
        · rcases List.mem_cons.mp hc' with rfl | hc'
          · rw [hc] at hl
            cases hl
          · exact Or.inr ⟨i, hP, c', hc', l, hl, hi⟩
    | some l0 =>
      simp only
      rw [mem_foldl_step proj step P hstep]
      constructor
      · rintro ((h | ⟨i, hi, hP⟩) | ⟨i, hP, c', hc', l, hl, hi⟩)
        · exact Or.inl h
        · exact Or.inr ⟨i, hP, c, List.mem_cons_self _ _, l0, hc, hi⟩
        · exact Or.inr ⟨i, hP, c', List.mem_cons_of_mem _ hc', l, hl, hi⟩
      · rintro (h | ⟨i, hP, c', hc', l, hl, hi⟩)
        · exact Or.inl (Or.inl h)
        · rcases List.mem_cons.mp hc' with rfl | hc'
          · rw [hc] at hl
            cases hl
            exact Or.inl (Or.inr ⟨i, hi, hP⟩)
          · exact Or.inr ⟨i, hP, c', hc', l, hl, hi⟩

/-- The keys a position-based query looks up are the linear indices of the cells
of its clamped index box. -/
theorem mem_lookups (sh : SpatialHash) (leftBottom rightTop : Vec3) (c : Int) :
    c ∈ sh.lookups leftBottom rightTop ↔
      ∃ ix iy iz,
        InIdxBox ((sh.locateVoxelAxisIndex leftBottom).cmax ⟨0, 0, 0⟩)
          ((sh.locateVoxelAxisIndex rightTop).cmin
            ⟨sh.voxelCount.x - 1, sh.voxelCount.y - 1, sh.voxelCount.z - 1⟩) ix iy iz ∧
        c = ix + (iy * sh.voxelCount.x + iz * sh.voxelCount0x1) := by
  unfold lookups
  exact mem_cellLoop _ _ _ _ c

end SpatialHash

/-- The cells of the clamped index box in the words of the query template. -/
theorem storedInBox_iff (sh : SpatialHash) (lo hi : Vec3) (r : ℚ) (indI : Nat) :
    (∃ c ∈ sh.lookups (lo.subScalar r) (hi.addScalar r),
        ∃ l, voxelFind sh.voxel c = some l ∧ indI ∈ l) ↔ StoredInBox sh lo hi r indI := by
  unfold StoredInBox
  simp only [SpatialHash.mem_lookups, InIdxBox, SpatialHash.locateVoxelAxisIndex, Vec3.floor,
    Vec3.scale, Vec3.sub, Vec3.subScalar, Vec3.addScalar, Idx3.cmax, Idx3.cmin]
  constructor
  · rintro ⟨c, ⟨ix, iy, iz, ⟨hx, hy, hz⟩, hc⟩, l, hl, hi⟩
    subst hc
    refine ⟨ix, iy, iz, ?_, ?_, ?_, l, ?_, hi⟩
    · rw [max_comm, min_comm]; exact hx
    · rw [max_comm, min_comm]; exact hy
    · rw [max_comm, min_comm]; exact hz
    · rw [add_assoc]; exact hl
  · rintro ⟨ix, iy, iz, hx, hy, hz, l, hl, hi⟩
    refine ⟨_, ⟨ix, iy, iz, ⟨?_, ?_, ?_⟩, rfl⟩, l, ?_, hi⟩
    · rw [max_comm, min_comm]; exact hx
    · rw [max_comm, min_comm]; exact hy
    · rw [max_comm, min_comm]; exact hz
    · rw [← add_assoc]; exact hl

theorem mem_stdSort (v : List Nat) (j : Nat) : j ∈ stdSort v ↔ j ∈ v :=
  (List.perm_insertionSort (· ≤ ·) v).mem_iff

theorem mem_stdUnique : ∀ (v : List Nat) (j : Nat), j ∈ stdUnique v ↔ j ∈ v
  | [], j => by simp [stdUnique]
  | [a], j => by simp [stdUnique]
  | a :: b :: rest, j => by
    have ih := mem_stdUnique (b :: rest) j
    unfold stdUnique
    by_cases hab : a = b
    · rw [if_pos hab, ih]
      subst hab
      simp
    · rw [if_neg hab, List.mem_cons, ih]
      simp

/-- After `std::sort`, `std::unique` leaves a strictly increasing vector. -/
theorem stdUnique_strict : ∀ (v : List Nat), v.Sorted (· ≤ ·) →
    (stdUnique v).Sorted (· < ·)
  | [], _ => by simp [stdUnique]
  | [a], _ => by simp [stdUnique]
  | a :: b :: rest, h => by
    have hs : (b :: rest).Sorted (· ≤ ·) := List.Sorted.of_cons h
    have ih := stdUnique_strict (b :: rest) hs
    have hall : ∀ x ∈ b :: rest, a ≤ x := List.rel_of_sorted_cons h
    have hall2 : ∀ x ∈ b :: rest, b ≤ x := by
      intro x hx
      rcases List.mem_cons.mp hx with rfl | hx
      · exact le_refl _
      · exact List.rel_of_sorted_cons hs x hx
    unfold stdUnique
    by_cases hab : a = b
    · rw [if_pos hab]
      exact ih
    · rw [if_neg hab]
      refine List.sorted_cons.mpr ⟨?_, ih⟩
      intro x hx
      have hx' := (mem_stdUnique (b :: rest) x).mp hx
      have h1 := hall2 x hx'
      have h2 := hall b (List.mem_cons_self _ _)
      omega

theorem stdUnique_stdSort_strict (v : List Nat) : (stdUnique (stdSort v)).Sorted (· < ·) :=
  stdUnique_strict _ (List.sorted_insertionSort (· ≤ ·) v)


/-! ## The query template -/

theorem mem_setInsert (s : List Nat) (x j : Nat) : j ∈ setInsert s x ↔ j ∈ s ∨ j = x := by
  unfold setInsert
  by_cases h : x ∈ s
  · rw [if_pos h]
    constructor
    · exact Or.inl
    · rintro (hj | rfl)
      · exact hj
      · exact h
  · rw [if_neg h]
    simp

namespace SpatialHash

/-- A scan from empty outputs over the cells of a query with radius `r` collects
the images of the IDs stored in the clamped box. -/
theorem mem_scan_lookups {σ : Type} (sh : SpatialHash) (proj : σ → List Nat)
    (step : σ → Nat → σ) (P : Nat → Nat → Prop)
    (hstep : ∀ s i j, j ∈ proj (step s i) ↔ j ∈ proj s ∨ P i j)
    (lo hi : Vec3) (r : ℚ) (init : σ) (hinit : proj init = []) (j : Nat) :
    j ∈ proj (sh.scanCells step (sh.lookups (lo.subScalar r) (hi.addScalar r)) init) ↔
      ∃ i, P i j ∧ StoredInBox sh lo hi r i := by
  rw [mem_scanCells sh proj step P hstep, hinit]
  simp only [List.not_mem_nil, false_or, storedInBox_iff]

theorem edgeAfterStep_mem (sh : SpatialHash) (eai : Int) (s : List Nat) (i j : Nat) :
    j ∈ (if i ≥ sh.edgeStartInd ∧ i < sh.triStartInd ∧
          (i : Int) - (sh.edgeStartInd : Int) > eai
        then s ++ [i - sh.edgeStartInd] else s) ↔
      j ∈ s ∨ (sh.edgeStartInd ≤ i ∧ i < sh.triStartInd ∧
        (i : Int) - (sh.edgeStartInd : Int) > eai ∧ j = i - sh.edgeStartInd) := by
  split_ifs with h
  · rw [List.mem_append, List.mem_singleton]
    constructor
    · rintro (hj | hj)
      · exact Or.inl hj
      · exact Or.inr ⟨h.1, h.2.1, h.2.2, hj⟩
    · rintro (hj | ⟨_, _, _, hj⟩)
      · exact Or.inl hj
      · exact Or.inr hj
  · constructor
    · exact Or.inl
    · rintro (hj | ⟨h1, h2, h3, _⟩)
      · exact hj
      · exact absurd ⟨h1, h2, h3⟩ h

/-- What the static position-based `queryEdgeForEdges` returns. -/
theorem mem_queryEdgeForEdgesStatic (sh : SpatialHash) (e0 e1 : Vec3) (edgeInds : List Nat)
    (r : ℚ) (eai : Int) (j : Nat) :
    j ∈ sh.queryEdgeForEdgesStatic e0 e1 edgeInds r eai ↔
      ∃ indI, (sh.edgeStartInd ≤ indI ∧ indI < sh.triStartInd ∧
          (indI : Int) - (sh.edgeStartInd : Int) > eai ∧ j = indI - sh.edgeStartInd) ∧
        StoredInBox sh (e0.cmin e1) (e0.cmax e1) r indI := by
  unfold SpatialHash.queryEdgeForEdgesStatic
  simp only [mem_stdUnique, mem_stdSort]
  exact sh.mem_scan_lookups id _ _ (sh.edgeAfterStep_mem eai) _ _ r _ rfl j

/-- What the swept position-based `queryEdgeForEdges` returns. -/
theorem mem_queryEdgeForEdgesSwept (sh : SpatialHash) (ea0_t0 ea1_t0 ea0_t1 ea1_t1 : Vec3)
    (edgeInds : List Nat) (r : ℚ) (eai : Int) (j : Nat) :
    j ∈ sh.queryEdgeForEdgesSwept ea0_t0 ea1_t0 ea0_t1 ea1_t1 edgeInds r eai ↔
      ∃ indI, (sh.edgeStartInd ≤ indI ∧ indI < sh.triStartInd ∧
          (indI : Int) - (sh.edgeStartInd : Int) > eai ∧ j = indI - sh.edgeStartInd) ∧
        StoredInBox sh (((ea0_t0.cmin ea1_t0).cmin ea0_t1).cmin ea1_t1)
          (((ea0_t0.cmax ea1_t0).cmax ea0_t1).cmax ea1_t1) r indI := by
  unfold SpatialHash.queryEdgeForEdgesSwept
  simp only [mem_stdUnique, mem_stdSort]
  exact sh.mem_scan_lookups id _ _ (sh.edgeAfterStep_mem eai) _ _ r _ rfl j

end SpatialHash

theorem forEachM_ok_of_mem {α β : Type} {f : α → Except Err β} :
    ∀ {xs : List α} {ys : List β}, forEachM f xs = .ok ys → ∀ x ∈ xs, ∃ y, f x = .ok y := by
  intro xs
  induction xs with
  | nil =>
    intro ys _ x hx
    simp at hx
  | cons a as ih =>
    intro ys h x hx
    simp only [forEachM] at h
    cases hfa : f a with
    | error e => simp [hfa] at h
    | ok b =>
      cases hrest : forEachM f as with
      | error e => simp [hfa, hrest] at h
      | ok bs =>
        rcases List.mem_cons.mp hx with rfl | hx
        · exact ⟨b, hfa⟩
        · exact ih hrest x hx

/-- A static build that returned has read both endpoints of every edge. -/
theorem build_edges_in_range {ext : External} {V : List Vec3} {E : List (Nat × Nat)}
    {F : List (Nat × Nat × Nat)} {voxelSize : ℚ} {sh : SpatialHash}
    (h : build ext V E F voxelSize = .ok sh) :
    ∀ e ∈ E, e.1 < V.length ∧ e.2 < V.length := by
  obtain ⟨ks, le, lf, _, _, _, _, _, _, hle, _⟩ := build_shape h
  intro e he
  obtain ⟨cells, hcells⟩ := forEachM_ok_of_mem hle e he
  unfold staticEdgeCells at hcells
  cases h1 : getE (V.map sh.locateVoxelAxisIndex) e.1 with
  | error err => simp [h1] at hcells
  | ok a =>
    cases h2 : getE (V.map sh.locateVoxelAxisIndex) e.2 with
    | error err => simp [h1, h2] at hcells
    | ok b =>
      have l1 := (List.getElem?_eq_some.mp (getE_ok h1)).1
      have l2 := (List.getElem?_eq_some.mp (getE_ok h2)).1
      rw [List.length_map] at l1 l2
      exact ⟨l1, l2⟩

theorem foldE_total {σ : Type} (step : σ → Nat → Except Err σ)
    (hstep : ∀ s i, ∃ s', step s i = .ok s') :
    ∀ (l : List Nat) (init : σ), ∃ r, foldE step l init = .ok r := by
  intro l
  induction l with
  | nil =>
    intro init
    exact ⟨init, rfl⟩
  | cons a l ih =>
    intro init
    obtain ⟨s', hs'⟩ := hstep init a
    simp only [foldE, hs']
    exact ih s'

namespace SpatialHash

theorem scanCellsE_total {σ : Type} (sh : SpatialHash) (step : σ → Nat → Except Err σ)
    (hstep : ∀ s i, ∃ s', step s i = .ok s') :
    ∀ (cells : List Int) (init : σ), ∃ r, sh.scanCellsE step cells init = .ok r := by
  intro cells
  induction cells with
  | nil =>
    intro init
    exact ⟨init, rfl⟩
  | cons c cells ih =>
    intro init
    cases hc : voxelFind sh.voxel c with
    | none =>
      simp only [scanCellsE, hc]
      exact ih init
    | some l =>
      obtain ⟨acc, hacc⟩ := foldE_total step hstep l init
      simp only [scanCellsE, hc, hacc]
      exact ih acc

theorem bboxCheckStatic_total {V : List Vec3} {E : List (Nat × Nat)}
    (hE : ∀ e ∈ E, e.1 < V.length ∧ e.2 < V.length) (leftBottom rightTop : Vec3)
    {ebi : Nat} (hebi : ebi < E.length) :
    ∃ b, bboxCheckStatic V E leftBottom rightTop ebi = .ok b := by
  obtain ⟨eb, heb⟩ := getE_total hebi
  have hin := hE eb (getE_mem heb)
  obtain ⟨eb0, heb0⟩ := getE_total hin.1
  obtain ⟨eb1, heb1⟩ := getE_total hin.2
  unfold bboxCheckStatic
  simp only [heb, heb0, heb1]
  exact ⟨_, rfl⟩

/-- The static BBox-check query returns on the mesh the index was built from. -/
theorem queryEdgeForEdgesWithBBoxCheckStatic_total {ext : External} {V : List Vec3}
    {E : List (Nat × Nat)} {F : List (Nat × Nat × Nat)} {voxelSize : ℚ}
    {sh : SpatialHash} (h : build ext V E F voxelSize = .ok sh)
    (ea0 ea1 : Vec3) (edgeInds : List Nat) (radius : ℚ) (eai : Int) :
    ∃ res, sh.queryEdgeForEdgesWithBBoxCheckStatic V E ea0 ea1 edgeInds radius eai
      = .ok res := by
  obtain ⟨_, _, _, hes, hts, _⟩ := build_shape h
  have hE := build_edges_in_range h
  unfold queryEdgeForEdgesWithBBoxCheckStatic
  simp only []
  obtain ⟨r, hr⟩ := sh.scanCellsE_total
    (fun edgeInds indI =>
      if indI ≥ sh.edgeStartInd ∧ indI < sh.triStartInd ∧
          (indI : Int) - (sh.edgeStartInd : Int) > eai
      then
        match bboxCheckStatic V E ((ea0.cmin ea1).subScalar radius)
          ((ea0.cmax ea1).addScalar radius) (indI - sh.edgeStartInd) with
        | .error e => .error e
        | .ok b => if b then .ok (edgeInds ++ [indI - sh.edgeStartInd]) else .ok edgeInds
      else .ok edgeInds)
    (by
      intro s i
      dsimp only
      by_cases hc : i ≥ sh.edgeStartInd ∧ i < sh.triStartInd ∧
          (i : Int) - (sh.edgeStartInd : Int) > eai
      · obtain ⟨b, hb⟩ := bboxCheckStatic_total hE ((ea0.cmin ea1).subScalar radius)
          ((ea0.cmax ea1).addScalar radius) (show i - sh.edgeStartInd < E.length by omega)
        rw [if_pos hc, hb]
        cases b
        · exact ⟨_, rfl⟩
        · exact ⟨_, rfl⟩
      · rw [if_neg hc]
        exact ⟨_, rfl⟩)
    (sh.lookups ((ea0.cmin ea1).subScalar radius) ((ea0.cmax ea1).addScalar radius))
    (stdClear edgeInds)
  rw [hr]
  exact ⟨_, rfl⟩

end SpatialHash

/-- C18. Ordered query outputs: in an index made by either build on a mesh with
edge list `E`, the vectors returned by the position-based `queryEdgeForEdges`
(static and swept), by the static `queryEdgeForEdgesWithBBoxCheck` (which
returns on the mesh of a static build) and by `queryEdgeForPE` are strictly
increasing, whatever the output vectors held before the call, and every edge
index `e` returned by `queryEdgeForEdges` satisfies `eai < e < |E|`. -/
theorem ordered_query_outputs (ext : External) (V V0 V1 : List Vec3)
    (E : List (Nat × Nat)) (F : List (Nat × Nat × Nat)) (voxelSize : ℚ) (sh : SpatialHash)
    (h : build ext V E F voxelSize = .ok sh ∨ buildSwept ext V0 V1 E F voxelSize = .ok sh) :
    (∀ (e0 e1 : Vec3) (edgeInds : List Nat) (radius : ℚ) (eai : Int),
      (sh.queryEdgeForEdgesStatic e0 e1 edgeInds radius eai).Sorted (· < ·) ∧
      ∀ e ∈ sh.queryEdgeForEdgesStatic e0 e1 edgeInds radius eai,
        eai < (e : Int) ∧ e < E.length) ∧
    (∀ (ea0_t0 ea1_t0 ea0_t1 ea1_t1 : Vec3) (edgeInds : List Nat) (radius : ℚ) (eai : Int),
      (sh.queryEdgeForEdgesSwept ea0_t0 ea1_t0 ea0_t1 ea1_t1 edgeInds radius eai).Sorted
        (· < ·) ∧
      ∀ e ∈ sh.queryEdgeForEdgesSwept ea0_t0 ea1_t0 ea0_t1 ea1_t1 edgeInds radius eai,
        eai < (e : Int) ∧ e < E.length) ∧
    (∀ (ea0 ea1 : Vec3) (edgeInds : List Nat) (radius : ℚ) (eai : Int),
      (build ext V E F voxelSize = .ok sh →
        ∃ res, sh.queryEdgeForEdgesWithBBoxCheckStatic V E ea0 ea1 edgeInds radius eai
          = .ok res) ∧
      ∀ res, sh.queryEdgeForEdgesWithBBoxCheckStatic V E ea0 ea1 edgeInds radius eai
          = .ok res → res.Sorted (· < ·)) ∧
    (∀ (e0 e1 : Vec3) (vertInds edgeInds : List Nat),
      (sh.queryEdgeForPE e0 e1 vertInds edgeInds).1.Sorted (· < ·) ∧
      (sh.queryEdgeForPE e0 e1 vertInds edgeInds).2.Sorted (· < ·)) := by
  have hoff : sh.triStartInd = sh.edgeStartInd + E.length := by
    rcases h with h | h
    · obtain ⟨_, _, _, hes, hts, _⟩ := build_shape h
      omega
    · obtain ⟨_, _, _, hes, hts, _⟩ := buildSwept_shape h
      omega
  refine ⟨?_, ?_, ?_, ?_⟩
  · intro e0 e1 edgeInds radius eai
    refine ⟨stdUnique_stdSort_strict _, ?_⟩
    intro e he
    obtain ⟨indI, ⟨h1, h2, h3, h4⟩, _⟩ :=
      (sh.mem_queryEdgeForEdgesStatic e0 e1 edgeInds radius eai e).mp he
    omega
  · intro ea0_t0 ea1_t0 ea0_t1 ea1_t1 edgeInds radius eai
    refine ⟨stdUnique_stdSort_strict _, ?_⟩
    intro e he
    obtain ⟨indI, ⟨h1, h2, h3, h4⟩, _⟩ :=
      (sh.mem_queryEdgeForEdgesSwept ea0_t0 ea1_t0 ea0_t1 ea1_t1 edgeInds radius eai e).mp he
    omega
  · intro ea0 ea1 edgeInds radius eai
    constructor
    · intro hb
      exact SpatialHash.queryEdgeForEdgesWithBBoxCheckStatic_total hb ea0 ea1 edgeInds
        radius eai
    · intro res hres
      unfold SpatialHash.queryEdgeForEdgesWithBBoxCheckStatic at hres
      simp only [] at hres
      split at hres
      · simp at hres
      · simp only [Except.ok.injEq] at hres
        subst hres
        exact stdUnique_stdSort_strict _
  · intro e0 e1 vertInds edgeInds
    exact ⟨stdUnique_stdSort_strict _, stdUnique_stdSort_strict _⟩

/-- Witness of C18: the static build of the stretched triangle with its three
edges. -/
theorem ordered_query_outputs_witness :
    (build (specExternal 0 0) stretchV triE triF 2 = .ok stretchIndex ∨
      buildSwept (specExternal 0 0) stretchV stretchV triE triF 2 = .ok stretchIndex) ∧
    ((∀ (e0 e1 : Vec3) (edgeInds : List Nat) (radius : ℚ) (eai : Int),
      (stretchIndex.queryEdgeForEdgesStatic e0 e1 edgeInds radius eai).Sorted (· < ·) ∧
      ∀ e ∈ stretchIndex.queryEdgeForEdgesStatic e0 e1 edgeInds radius eai,
        eai < (e : Int) ∧ e < triE.length) ∧
    (∀ (ea0_t0 ea1_t0 ea0_t1 ea1_t1 : Vec3) (edgeInds : List Nat) (radius : ℚ) (eai : Int),
      (stretchIndex.queryEdgeForEdgesSwept ea0_t0 ea1_t0 ea0_t1 ea1_t1 edgeInds radius eai).Sorted
        (· < ·) ∧
      ∀ e ∈ stretchIndex.queryEdgeForEdgesSwept ea0_t0 ea1_t0 ea0_t1 ea1_t1 edgeInds radius eai,
        eai < (e : Int) ∧ e < triE.length) ∧
    (∀ (ea0 ea1 : Vec3) (edgeInds : List Nat) (radius : ℚ) (eai : Int),
      (build (specExternal 0 0) stretchV triE triF 2 = .ok stretchIndex →
        ∃ res, stretchIndex.queryEdgeForEdgesWithBBoxCheckStatic stretchV triE ea0 ea1 edgeInds radius eai
          = .ok res) ∧
      ∀ res, stretchIndex.queryEdgeForEdgesWithBBoxCheckStatic stretchV triE ea0 ea1 edgeInds radius eai
          = .ok res → res.Sorted (· < ·)) ∧
    (∀ (e0 e1 : Vec3) (vertInds edgeInds : List Nat),
      (stretchIndex.queryEdgeForPE e0 e1 vertInds edgeInds).1.Sorted (· < ·) ∧
      (stretchIndex.queryEdgeForPE e0 e1 vertInds edgeInds).2.Sorted (· < ·))) :=
  ⟨Or.inl (by decide!),
    ordered_query_outputs (specExternal 0 0) stretchV stretchV stretchV triE triF 2
      stretchIndex (Or.inl (by decide!))⟩


namespace SpatialHash

/-- What an index-keyed scan that returned has collected. -/
theorem scanOccupancy_mem (sh : SpatialHash) (keep : Nat → Option Nat) :
    ∀ (occ : List Int) (init r : List Nat), sh.scanOccupancy keep occ init = .ok r →
      ∀ j, j ∈ r ↔ j ∈ init ∨
        ∃ i, keep i = some j ∧ ∃ c ∈ occ, ∃ l, voxelFind sh.voxel c = some l ∧ i ∈ l := by
  have hstep : ∀ (s : List Nat) (i j : Nat),
      j ∈ id ((fun (s : List Nat) indI =>
          match keep indI with
          | some j => setInsert s j
          | none => s) s i) ↔ j ∈ id s ∨ keep i = some j := by
    intro s i j
    simp only [id]
    cases hk : keep i with
    | none => simp
    | some x =>
      simp only [mem_setInsert, Option.some.injEq]
      constructor
      · rintro (hj | hj)
        · exact Or.inl hj
        · exact Or.inr hj.symm
      · rintro (hj | hj)
        · exact Or.inl hj
        · exact Or.inr hj.symm
  intro occ
  induction occ with
  | nil =>
    intro init r h j
    simp only [scanOccupancy, Except.ok.injEq] at h
    subst h
    simp
  | cons c occ ih =>
    intro init r h j
    cases hc : voxelFind sh.voxel c with
    | none => simp [scanOccupancy, hc] at h
    | some l0 =>
      simp only [scanOccupancy, hc] at h
      rw [ih _ _ h j]
      have hfold := mem_foldl_step id _ _ hstep l0 init j
      simp only [id] at hfold
      rw [hfold]
      constructor
      · rintro ((hj | ⟨i, hi, hP⟩) | ⟨i, hP, c', hc', l, hl, hi⟩)
        · exact Or.inl hj
        · exact Or.inr ⟨i, hP, c, List.mem_cons_self _ _, l0, hc, hi⟩
        · exact Or.inr ⟨i, hP, c', List.mem_cons_of_mem _ hc', l, hl, hi⟩
      · rintro (hj | ⟨i, hP, c', hc', l, hl, hi⟩)
        · exact Or.inl (Or.inl hj)
        · rcases List.mem_cons.mp hc' with rfl | hc'
          · rw [hc] at hl
            cases hl
            exact Or.inl (Or.inr ⟨i, hi, hP⟩)
          · exact Or.inr ⟨i, hP, c', hc', l, hl, hi⟩

/-- Every edge index the index-keyed `queryEdgeForEdges(eai)` returns is above
`eai`. -/
theorem queryEdgeForEdges_gt {sh : SpatialHash} {eai : Nat} {r : List Nat}
    (h : sh.queryEdgeForEdges eai = .ok r) : ∀ e ∈ r, eai < e := by
  intro e he
  unfold queryEdgeForEdges at h
  cases hocc : getE sh.pointAndEdgeOccupancy (eai + sh.edgeStartInd) with
  | error err => simp [hocc] at h
  | ok occ =>
    simp only [hocc] at h
    rcases (sh.scanOccupancy_mem _ occ [] r h e).mp he with hj | ⟨i, hk, _⟩
    · simp at hj
    · split_ifs at hk with hc
      simp only [Option.some.injEq] at hk
      omega

end SpatialHash

/-- After the swept build every occupancy list below `tri_start` can be read and
names only cells that are present in `voxel`. -/
theorem buildSwept_occupancy_keys {ext : External} {V0 V1 : List Vec3}
    {E : List (Nat × Nat)} {F : List (Nat × Nat × Nat)} {voxelSize : ℚ} {sh : SpatialHash}
    (h : buildSwept ext V0 V1 E F voxelSize = .ok sh) (p : Nat) (hp : p < sh.triStartInd) :
    ∃ occ, getE sh.pointAndEdgeOccupancy p = .ok occ ∧
      ∀ c ∈ occ, ∃ l, voxelFind sh.voxel c = some l := by
  obtain ⟨oe, lf, hlen, hes, hts, _⟩ := buildSwept_shape h
  have hl := buildSwept_occupancy_length h
  obtain ⟨occ, hocc⟩ := getE_total (show p < sh.pointAndEdgeOccupancy.length by omega)
  refine ⟨occ, hocc, fun c hc => ?_⟩
  obtain ⟨l, hl', _⟩ := (buildSwept_mem_voxel_iff h p c hp).mp ⟨occ, getE_ok hocc, hc⟩
  exact ⟨l, hl'⟩

/-- The index-keyed `queryEdgeForEdges` returns for every edge of a swept build. -/
theorem queryEdgeForEdges_total {ext : External} {V0 V1 : List Vec3}
    {E : List (Nat × Nat)} {F : List (Nat × Nat × Nat)} {voxelSize : ℚ} {sh : SpatialHash}
    (h : buildSwept ext V0 V1 E F voxelSize = .ok sh) (eai : Nat) (heai : eai < E.length) :
    ∃ r, sh.queryEdgeForEdges eai = .ok r := by
  obtain ⟨oe, lf, hlen, hes, hts, _⟩ := buildSwept_shape h
  obtain ⟨occ, hocc, hk⟩ := buildSwept_occupancy_keys h (eai + sh.edgeStartInd) (by omega)
  unfold SpatialHash.queryEdgeForEdges
  rw [hocc]
  exact SpatialHash.scanOccupancy_total sh _ occ _ hk

/-- C19. The `eai` tie-breaker visits each unordered edge pair at most once: in
an index made by the swept build, for any two edges `a` and `b` the index-keyed
`queryEdgeForEdges` returns on both, `a` is not in the result for `a`, and `b`
in the result for `a` and `a` in the result for `b` do not both hold; the same
holds for the position-based `queryEdgeForEdges` (swept and static) called with
`eai = a` and `eai = b`, whatever the positions, radius and prior output. -/
theorem eai_visits_pair_once (ext : External) (V0 V1 : List Vec3)
    (E : List (Nat × Nat)) (F : List (Nat × Nat × Nat)) (voxelSize : ℚ) (sh : SpatialHash)
    (h : buildSwept ext V0 V1 E F voxelSize = .ok sh) (a b : Nat)
    (ha : a < E.length) (hb : b < E.length) :
    (∃ ra rb, sh.queryEdgeForEdges a = .ok ra ∧ sh.queryEdgeForEdges b = .ok rb ∧
      a ∉ ra ∧ ¬ (b ∈ ra ∧ a ∈ rb)) ∧
    (∀ (a0_t0 a1_t0 a0_t1 a1_t1 b0_t0 b1_t0 b0_t1 b1_t1 : Vec3) (va vb : List Nat)
        (radius : ℚ),
      a ∉ sh.queryEdgeForEdgesSwept a0_t0 a1_t0 a0_t1 a1_t1 va radius (a : Nat) ∧
      ¬ (b ∈ sh.queryEdgeForEdgesSwept a0_t0 a1_t0 a0_t1 a1_t1 va radius (a : Nat) ∧
        a ∈ sh.queryEdgeForEdgesSwept b0_t0 b1_t0 b0_t1 b1_t1 vb radius (b : Nat))) ∧
    (∀ (a0 a1 b0 b1 : Vec3) (va vb : List Nat) (radius : ℚ),
      a ∉ sh.queryEdgeForEdgesStatic a0 a1 va radius (a : Nat) ∧
      ¬ (b ∈ sh.queryEdgeForEdgesStatic a0 a1 va radius (a : Nat) ∧
        a ∈ sh.queryEdgeForEdgesStatic b0 b1 vb radius (b : Nat))) := by
  refine ⟨?_, ?_, ?_⟩
  · obtain ⟨ra, hra⟩ := queryEdgeForEdges_total h a ha
    obtain ⟨rb, hrb⟩ := queryEdgeForEdges_total h b hb
    refine ⟨ra, rb, hra, hrb, ?_, ?_⟩
    · intro hmem
      exact absurd (SpatialHash.queryEdgeForEdges_gt hra a hmem) (lt_irrefl a)
    · rintro ⟨h1, h2⟩
      have := SpatialHash.queryEdgeForEdges_gt hra b h1
      have := SpatialHash.queryEdgeForEdges_gt hrb a h2
      omega
  · intro a0_t0 a1_t0 a0_t1 a1_t1 b0_t0 b1_t0 b0_t1 b1_t1 va vb radius
    have hgt : ∀ (p0 p1 p2 p3 : Vec3) (v : List Nat) (x : Nat),
        ∀ e ∈ sh.queryEdgeForEdgesSwept p0 p1 p2 p3 v radius (x : Nat), x < e := by
      intro p0 p1 p2 p3 v x e he
      obtain ⟨indI, ⟨h1, h2, h3, h4⟩, _⟩ :=
        (sh.mem_queryEdgeForEdgesSwept p0 p1 p2 p3 v radius x e).mp he
      omega
    constructor
    · intro hmem
      exact absurd (hgt _ _ _ _ _ a a hmem) (lt_irrefl a)
    · rintro ⟨h1, h2⟩
      have := hgt _ _ _ _ _ a b h1
      have := hgt _ _ _ _ _ b a h2
      omega
  · intro a0 a1 b0 b1 va vb radius
    have hgt : ∀ (p0 p1 : Vec3) (v : List Nat) (x : Nat),
        ∀ e ∈ sh.queryEdgeForEdgesStatic p0 p1 v radius (x : Nat), x < e := by
      intro p0 p1 v x e he
      obtain ⟨indI, ⟨h1, h2, h3, h4⟩, _⟩ :=
        (sh.mem_queryEdgeForEdgesStatic p0 p1 v radius x e).mp he
      omega
    constructor
    · intro hmem
      exact absurd (hgt _ _ _ a a hmem) (lt_irrefl a)
    · rintro ⟨h1, h2⟩
      have := hgt _ _ _ a b h1
      have := hgt _ _ _ b a h2
      omega

/-- Witness of C19: the two edges of the crossing segments after their swept
build. -/
theorem eai_visits_pair_once_witness :
    buildSwept (specExternal 0 0) twoSegV crossV1 twoSegE [] (3 / 2) = .ok crossIndex ∧
    0 < twoSegE.length ∧ 1 < twoSegE.length ∧
    ((∃ ra rb, crossIndex.queryEdgeForEdges 0 = .ok ra ∧ crossIndex.queryEdgeForEdges 1 = .ok rb ∧
      0 ∉ ra ∧ ¬ (1 ∈ ra ∧ 0 ∈ rb)) ∧
    (∀ (a0_t0 a1_t0 a0_t1 a1_t1 b0_t0 b1_t0 b0_t1 b1_t1 : Vec3) (va vb : List Nat)
        (radius : ℚ),
      0 ∉ crossIndex.queryEdgeForEdgesSwept a0_t0 a1_t0 a0_t1 a1_t1 va radius (0 : Nat) ∧
      ¬ (1 ∈ crossIndex.queryEdgeForEdgesSwept a0_t0 a1_t0 a0_t1 a1_t1 va radius (0 : Nat) ∧
        0 ∈ crossIndex.queryEdgeForEdgesSwept b0_t0 b1_t0 b0_t1 b1_t1 vb radius (1 : Nat))) ∧
    (∀ (a0 a1 b0 b1 : Vec3) (va vb : List Nat) (radius : ℚ),
      0 ∉ crossIndex.queryEdgeForEdgesStatic a0 a1 va radius (0 : Nat) ∧
      ¬ (1 ∈ crossIndex.queryEdgeForEdgesStatic a0 a1 va radius (0 : Nat) ∧
        0 ∈ crossIndex.queryEdgeForEdgesStatic b0 b1 vb radius (1 : Nat)))) :=
  ⟨by decide!, by decide, by decide,
    eai_visits_pair_once (specExternal 0 0) twoSegV crossV1 twoSegE [] (3 / 2) crossIndex
      (by decide!) 0 1 (by decide) (by decide)⟩


/-! ## The BBox-check variants -/

theorem foldE_mem (step : List Nat → Nat → Except Err (List Nat)) (Q : Nat → Nat → Prop)
    (hstep : ∀ s i s', step s i = .ok s' → ∀ j, j ∈ s' ↔ j ∈ s ∨ Q i j) :
    ∀ (l : List Nat) (init r : List Nat), foldE step l init = .ok r →
      ∀ j, j ∈ r ↔ j ∈ init ∨ ∃ i ∈ l, Q i j := by
  intro l
  induction l with
  | nil =>
    intro init r h j
    simp only [foldE, Except.ok.injEq] at h
    subst h
    simp
  | cons a l ih =>
    intro init r h j
    cases hs : step init a with
    | error e => simp [foldE, hs] at h
    | ok s' =>
      simp only [foldE, hs] at h
      rw [ih s' r h j, hstep init a s' hs j]
      constructor
      · rintro ((hj | hj) | ⟨i, hi, hQ⟩)
        · exact Or.inl hj
        · exact Or.inr ⟨a, List.mem_cons_self _ _, hj⟩
        · exact Or.inr ⟨i, List.mem_cons_of_mem _ hi, hQ⟩
      · rintro (hj | ⟨i, hi, hQ⟩)
        · exact Or.inl (Or.inl hj)
        · rcases List.mem_cons.mp hi with rfl | hi
          · exact Or.inl (Or.inr hQ)
          · exact Or.inr ⟨i, hi, hQ⟩

namespace SpatialHash

theorem scanCellsE_mem (sh : SpatialHash) (step : List Nat → Nat → Except Err (List Nat))
    (Q : Nat → Nat → Prop)
    (hstep : ∀ s i s', step s i = .ok s' → ∀ j, j ∈ s' ↔ j ∈ s ∨ Q i j) :
    ∀ (cells : List Int) (init r : List Nat), sh.scanCellsE step cells init = .ok r →
      ∀ j, j ∈ r ↔ j ∈ init ∨
        ∃ i, Q i j ∧ ∃ c ∈ cells, ∃ l, voxelFind sh.voxel c = some l ∧ i ∈ l := by
  intro cells
  induction cells with
  | nil =>
    intro init r h j
    simp only [scanCellsE, Except.ok.injEq] at h
    subst h
    simp
  | cons c cells ih =>
    intro init r h j
    cases hc : voxelFind sh.voxel c with
    | none =>
      simp only [scanCellsE, hc] at h
      rw [ih init r h j]
      constructor
      · rintro (hj | ⟨i, hQ, c', hc', l, hl, hi⟩)
        · exact Or.inl hj
        · exact Or.inr ⟨i, hQ, c', List.mem_cons_of_mem _ hc', l, hl, hi⟩
      · rintro (hj | ⟨i, hQ, c', hc', l, hl, hi⟩)
        · exact Or.inl hj
        · rcases List.mem_cons.mp hc' with rfl | hc'
          · rw [hc] at hl
            cases hl
          · exact Or.inr ⟨i, hQ, c', hc', l, hl, hi⟩
    | some l0 =>
      simp only [scanCellsE, hc] at h
      cases hf : foldE step l0 init with
      | error e => simp [hf] at h
      | ok acc =>
        simp only [hf] at h
        rw [ih acc r h j, foldE_mem step Q hstep l0 init acc hf j]
        constructor
        · rintro ((hj | ⟨i, hi, hQ⟩) | ⟨i, hQ, c', hc', l, hl, hi⟩)
          · exact Or.inl hj
          · exact Or.inr ⟨i, hQ, c, List.mem_cons_self _ _, l0, hc, hi⟩
          · exact Or.inr ⟨i, hQ, c', List.mem_cons_of_mem _ hc', l, hl, hi⟩
        · rintro (hj | ⟨i, hQ, c', hc', l, hl, hi⟩)
          · exact Or.inl (Or.inl hj)
          · rcases List.mem_cons.mp hc' with rfl | hc'
            · rw [hc] at hl
              cases hl
              exact Or.inl (Or.inr ⟨i, hi, hQ⟩)
            · exact Or.inr ⟨i, hQ, c', hc', l, hl, hi⟩

theorem scanOccupancyE_mem (sh : SpatialHash)
    (step : List Nat → Nat → Except Err (List Nat)) (Q : Nat → Nat → Prop)
    (hstep : ∀ s i s', step s i = .ok s' → ∀ j, j ∈ s' ↔ j ∈ s ∨ Q i j) :
    ∀ (occ : List Int) (init r : List Nat), sh.scanOccupancyE step occ init = .ok r →
      ∀ j, j ∈ r ↔ j ∈ init ∨
        ∃ i, Q i j ∧ ∃ c ∈ occ, ∃ l, voxelFind sh.voxel c = some l ∧ i ∈ l := by
  intro occ
  induction occ with
  | nil =>
    intro init r h j
    simp only [scanOccupancyE, Except.ok.injEq] at h
    subst h
    simp
  | cons c occ ih =>
    intro init r h j
    cases hc : voxelFind sh.voxel c with
    | none => simp [scanOccupancyE, hc] at h
    | some l0 =>
      simp only [scanOccupancyE, hc] at h
      cases hf : foldE step l0 init with
      | error e => simp [hf] at h
      | ok acc =>
        simp only [hf] at h
        rw [ih acc r h j, foldE_mem step Q hstep l0 init acc hf j]
        constructor
        · rintro ((hj | ⟨i, hi, hQ⟩) | ⟨i, hQ, c', hc', l, hl, hi⟩)
          · exact Or.inl hj
          · exact Or.inr ⟨i, hQ, c, List.mem_cons_self _ _, l0, hc, hi⟩
          · exact Or.inr ⟨i, hQ, c', List.mem_cons_of_mem _ hc', l, hl, hi⟩
        · rintro (hj | ⟨i, hQ, c', hc', l, hl, hi⟩)
          · exact Or.inl (Or.inl hj)
          · rcases List.mem_cons.mp hc' with rfl | hc'
            · rw [hc] at hl
              cases hl
              exact Or.inl (Or.inr ⟨i, hi, hQ⟩)
            · exact Or.inr ⟨i, hQ, c', hc', l, hl, hi⟩

theorem scanOccupancyE_total (sh : SpatialHash)
    (step : List Nat → Nat → Except Err (List Nat))
    (hstep : ∀ s i, ∃ s', step s i = .ok s') :
    ∀ (occ : List Int) (init : List Nat),
      (∀ c ∈ occ, ∃ l, voxelFind sh.voxel c = some l) →
      ∃ r, sh.scanOccupancyE step occ init = .ok r := by
  intro occ
  induction occ with
  | nil =>
    intro init _
    exact ⟨init, rfl⟩
  | cons c occ ih =>
    intro init h
    obtain ⟨l, hl⟩ := h c (List.mem_cons_self _ _)
    obtain ⟨acc, hacc⟩ := foldE_total step hstep l init
    simp only [scanOccupancyE, hl, hacc]
    exact ih acc (fun c' hc' => h c' (List.mem_cons_of_mem _ hc'))

/-- The source's test `!((b.min - a.max > 0).any() || (a.min - b.max > 0).any())`
is the closed overlap test of the two boxes. -/
theorem not_anyPos_iff_intersects (bmin bmax amin amax : Vec3) :
    decide (¬ ((bmin.sub amax).anyPos ∨ (amin.sub bmax).anyPos)) =
      (AABB.mk bmin bmax).intersects (AABB.mk amin amax) := by
  unfold AABB.intersects Vec3.anyPos Vec3.sub
  simp only [decide_eq_decide, not_or, not_lt, sub_nonpos]
  constructor
  · rintro ⟨⟨h1, h2, h3⟩, h4, h5, h6⟩
    exact ⟨⟨h1, h4⟩, ⟨h2, h5⟩, h3, h6⟩
  · rintro ⟨⟨h1, h4⟩, ⟨h2, h5⟩, h3, h6⟩
    exact ⟨⟨h1, h2, h3⟩, h4, h5, h6⟩

theorem bboxCheckStatic_true_iff (V : List Vec3) (E : List (Nat × Nat))
    (leftBottom rightTop : Vec3) (ebi : Nat) :
    bboxCheckStatic V E leftBottom rightTop ebi = .ok true ↔
      ∃ eb eb0 eb1, E[ebi]? = some eb ∧ V[eb.1]? = some eb0 ∧ V[eb.2]? = some eb1 ∧
        (AABB.mk (eb0.cmin eb1) (eb0.cmax eb1)).intersects (AABB.mk leftBottom rightTop)
          = true := by
  unfold bboxCheckStatic
  constructor
  · intro h
    cases heb : getE E ebi with
    | error e => simp [heb] at h
    | ok eb =>
      cases h0 : getE V eb.1 with
      | error e => simp [heb, h0] at h
      | ok eb0 =>
        cases h1 : getE V eb.2 with
        | error e => simp [heb, h0, h1] at h
        | ok eb1 =>
          simp only [heb, h0, h1, Except.ok.injEq] at h
          rw [not_anyPos_iff_intersects] at h
          exact ⟨eb, eb0, eb1, getE_ok heb, getE_ok h0, getE_ok h1, h⟩
  · rintro ⟨eb, eb0, eb1, heb, h0, h1, hi⟩
    rw [getE_of_getElem? heb]
    simp only [getE_of_getElem? h0, getE_of_getElem? h1, Except.ok.injEq]
    rw [not_anyPos_iff_intersects]
    exact hi

end SpatialHash


namespace SpatialHash

theorem bboxCheckSwept_true_iff (V0 V1 : List Vec3) (E : List (Nat × Nat))
    (bboxEABottomLeft bboxEATopRight : Vec3) (ebi : Nat) :
    bboxCheckSwept V0 V1 E bboxEABottomLeft bboxEATopRight ebi = .ok true ↔
      ∃ eb eb0_t0 eb1_t0 eb0_t1 eb1_t1, E[ebi]? = some eb ∧
        V0[eb.1]? = some eb0_t0 ∧ V0[eb.2]? = some eb1_t0 ∧
        V1[eb.1]? = some eb0_t1 ∧ V1[eb.2]? = some eb1_t1 ∧
        (AABB.mk (((eb0_t0.cmin eb1_t0).cmin eb0_t1).cmin eb1_t1)
          (((eb0_t0.cmax eb1_t0).cmax eb0_t1).cmax eb1_t1)).intersects
          (AABB.mk bboxEABottomLeft bboxEATopRight) = true := by
  unfold bboxCheckSwept
  constructor
  · intro h
    cases heb : getE E ebi with
    | error e => simp [heb] at h
    | ok eb =>
      cases h0 : getE V0 eb.1 with
      | error e => simp [heb, h0] at h
      | ok eb0_t0 =>
        cases h1 : getE V0 eb.2 with
        | error e => simp [heb, h0, h1] at h
        | ok eb1_t0 =>
          cases h2 : getE V1 eb.1 with
          | error e => simp [heb, h0, h1, h2] at h
          | ok eb0_t1 =>
            cases h3 : getE V1 eb.2 with
            | error e => simp [heb, h0, h1, h2, h3] at h
            | ok eb1_t1 =>
              simp only [heb, h0, h1, h2, h3, Except.ok.injEq] at h
              rw [not_anyPos_iff_intersects] at h
              exact ⟨eb, eb0_t0, eb1_t0, eb0_t1, eb1_t1, getE_ok heb, getE_ok h0,
                getE_ok h1, getE_ok h2, getE_ok h3, h⟩
  · rintro ⟨eb, eb0_t0, eb1_t0, eb0_t1, eb1_t1, heb, h0, h1, h2, h3, hi⟩
    rw [getE_of_getElem? heb]
    simp only [getE_of_getElem? h0, getE_of_getElem? h1, getE_of_getElem? h2,
      getE_of_getElem? h3, Except.ok.injEq]
    rw [not_anyPos_iff_intersects]
    exact hi

theorem bboxCheckSwept_total {V0 V1 : List Vec3} {E : List (Nat × Nat)}
    (hE : ∀ e ∈ E, (e.1 < V0.length ∧ e.2 < V0.length) ∧ (e.1 < V1.length ∧ e.2 < V1.length))
    (bboxEABottomLeft bboxEATopRight : Vec3) {ebi : Nat} (hebi : ebi < E.length) :
    ∃ b, bboxCheckSwept V0 V1 E bboxEABottomLeft bboxEATopRight ebi = .ok b := by
  obtain ⟨eb, heb⟩ := getE_total hebi
  have hin := hE eb (getE_mem heb)
  obtain ⟨eb0, heb0⟩ := getE_total hin.1.1
  obtain ⟨eb1, heb1⟩ := getE_total hin.1.2
  obtain ⟨eb2, heb2⟩ := getE_total hin.2.1
  obtain ⟨eb3, heb3⟩ := getE_total hin.2.2
  unfold bboxCheckSwept
  simp only [heb, heb0, heb1, heb2, heb3]
  exact ⟨_, rfl⟩

/-- One step of the static BBox-check scan: the edge is appended exactly when the
plain query keeps it and its box test succeeds. -/
theorem bboxStaticStep_mem (sh : SpatialHash) (V : List Vec3) (E : List (Nat × Nat))
    (leftBottom rightTop : Vec3) (eai : Int) (s : List Nat) (i : Nat) (s' : List Nat)
    (h : (if i ≥ sh.edgeStartInd ∧ i < sh.triStartInd ∧
            (i : Int) - (sh.edgeStartInd : Int) > eai
          then
            match bboxCheckStatic V E leftBottom rightTop (i - sh.edgeStartInd) with
            | .error e => .error e
            | .ok b => if b then .ok (s ++ [i - sh.edgeStartInd]) else .ok s
          else .ok s) = Except.ok s') (j : Nat) :
    j ∈ s' ↔ j ∈ s ∨
      ((sh.edgeStartInd ≤ i ∧ i < sh.triStartInd ∧
          (i : Int) - (sh.edgeStartInd : Int) > eai ∧ j = i - sh.edgeStartInd) ∧
        bboxCheckStatic V E leftBottom rightTop j = .ok true) := by
  by_cases hc : i ≥ sh.edgeStartInd ∧ i < sh.triStartInd ∧
      (i : Int) - (sh.edgeStartInd : Int) > eai
  · rw [if_pos hc] at h
    cases hb : bboxCheckStatic V E leftBottom rightTop (i - sh.edgeStartInd) with
    | error e => simp [hb] at h
    | ok b =>
      simp only [hb] at h
      cases b with
      | false =>
        simp only [Bool.false_eq_true, if_false, Except.ok.injEq] at h
        subst h
        constructor
        · exact Or.inl
        · rintro (hj | ⟨⟨_, _, _, hj⟩, hck⟩)
          · exact hj
          · rw [hj, hb] at hck
            cases hck
      | true =>
        simp only [if_true, Except.ok.injEq] at h
        subst h
        rw [List.mem_append, List.mem_singleton]
        constructor
        · rintro (hj | hj)
          · exact Or.inl hj
          · refine Or.inr ⟨⟨hc.1, hc.2.1, hc.2.2, hj⟩, ?_⟩
            rw [hj]
            exact hb
        · rintro (hj | ⟨⟨_, _, _, hj⟩, _⟩)
          · exact Or.inl hj
          · exact Or.inr hj
  · rw [if_neg hc] at h
    simp only [Except.ok.injEq] at h
    subst h
    constructor
    · exact Or.inl
    · rintro (hj | ⟨⟨h1, h2, h3, _⟩, _⟩)
      · exact hj
      · exact absurd ⟨h1, h2, h3⟩ hc

/-- The static BBox-check query, when it returns, holds the edges of the plain
query that pass the box test. -/
theorem bboxStatic_refines (sh : SpatialHash) (V : List Vec3) (E : List (Nat × Nat))
    (ea0 ea1 : Vec3) (edgeInds : List Nat) (radius : ℚ) (eai : Int) (res : List Nat)
    (h : sh.queryEdgeForEdgesWithBBoxCheckStatic V E ea0 ea1 edgeInds radius eai = .ok res)
    (ebi : Nat) :
    ebi ∈ res ↔ ebi ∈ sh.queryEdgeForEdgesStatic ea0 ea1 edgeInds radius eai ∧
      bboxCheckStatic V E ((ea0.cmin ea1).subScalar radius)
        ((ea0.cmax ea1).addScalar radius) ebi = .ok true := by
  unfold queryEdgeForEdgesWithBBoxCheckStatic at h
  simp only [] at h
  split at h
  · simp at h
  · rename_i x hscan
    simp only [Except.ok.injEq] at h
    subst h
    have hm := sh.scanCellsE_mem _ _
      (sh.bboxStaticStep_mem V E ((ea0.cmin ea1).subScalar radius)
        ((ea0.cmax ea1).addScalar radius) eai) _ _ _ hscan ebi
    simp only [mem_stdUnique, mem_stdSort]
    rw [hm, sh.mem_queryEdgeForEdgesStatic]
    simp only [stdClear, List.not_mem_nil, false_or, storedInBox_iff]
    constructor
    · rintro ⟨i, ⟨hP, hck⟩, hst⟩
      exact ⟨⟨i, hP, hst⟩, hck⟩
    · rintro ⟨⟨i, hP, hst⟩, hck⟩
      exact ⟨i, ⟨hP, hck⟩, hst⟩

end SpatialHash


namespace SpatialHash

theorem scanOccupancyE_keys (sh : SpatialHash)
    (step : List Nat → Nat → Except Err (List Nat)) :
    ∀ (occ : List Int) (init r : List Nat), sh.scanOccupancyE step occ init = .ok r →
      ∀ c ∈ occ, ∃ l, voxelFind sh.voxel c = some l := by
  intro occ
  induction occ with
  | nil =>
    intro init r _ c hc
    simp at hc
  | cons c0 occ ih =>
    intro init r h c hc
    cases hc0 : voxelFind sh.voxel c0 with
    | none => simp [scanOccupancyE, hc0] at h
    | some l0 =>
      simp only [scanOccupancyE, hc0] at h
      cases hf : foldE step l0 init with
      | error e => simp [hf] at h
      | ok acc =>
        simp only [hf] at h
        rcases List.mem_cons.mp hc with rfl | hc
        · exact ⟨l0, hc0⟩
        · exact ih acc r h c hc

/-- One step of the swept BBox-check scan: the edge is inserted exactly when the
plain query keeps it and its box test succeeds. -/
theorem bboxSweptStep_mem (sh : SpatialHash) (V0 V1 : List Vec3) (E : List (Nat × Nat))
    (bboxEABottomLeft bboxEATopRight : Vec3) (eai : Nat) (s : List Nat) (i : Nat)
    (s' : List Nat)
    (h : (if sh.edgeStartInd ≤ i ∧ i < sh.triStartInd ∧ i - sh.edgeStartInd > eai
          then
            match bboxCheckSwept V0 V1 E bboxEABottomLeft bboxEATopRight
              (i - sh.edgeStartInd) with
            | .error e => .error e
            | .ok b => if b then .ok (setInsert s (i - sh.edgeStartInd)) else .ok s
          else .ok s) = Except.ok s') (j : Nat) :
    j ∈ s' ↔ j ∈ s ∨
      ((sh.edgeStartInd ≤ i ∧ i < sh.triStartInd ∧ i - sh.edgeStartInd > eai ∧
          j = i - sh.edgeStartInd) ∧
        bboxCheckSwept V0 V1 E bboxEABottomLeft bboxEATopRight j = .ok true) := by
  by_cases hc : sh.edgeStartInd ≤ i ∧ i < sh.triStartInd ∧ i - sh.edgeStartInd > eai
  · rw [if_pos hc] at h
    cases hb : bboxCheckSwept V0 V1 E bboxEABottomLeft bboxEATopRight
        (i - sh.edgeStartInd) with
    | error e => simp [hb] at h
    | ok b =>
      simp only [hb] at h
      cases b with
      | false =>
        simp only [Bool.false_eq_true, if_false, Except.ok.injEq] at h
        subst h
        constructor
        · exact Or.inl
        · rintro (hj | ⟨⟨_, _, _, hj⟩, hck⟩)
          · exact hj
          · rw [hj, hb] at hck
            cases hck
      | true =>
        simp only [if_true, Except.ok.injEq] at h
        subst h
        rw [mem_setInsert]
        constructor
        · rintro (hj | hj)
          · exact Or.inl hj
          · refine Or.inr ⟨⟨hc.1, hc.2.1, hc.2.2, hj⟩, ?_⟩
            rw [hj]
            exact hb
        · rintro (hj | ⟨⟨_, _, _, hj⟩, _⟩)
          · exact Or.inl hj
          · exact Or.inr hj
  · rw [if_neg hc] at h
    simp only [Except.ok.injEq] at h
    subst h
    constructor
    · exact Or.inl
    · rintro (hj | ⟨⟨h1, h2, h3, _⟩, _⟩)
      · exact hj
      · exact absurd ⟨h1, h2, h3⟩ hc

/-- What the index-keyed `queryEdgeForEdges` returns. -/
theorem mem_queryEdgeForEdges {sh : SpatialHash} {eai : Nat} {r : List Nat}
    (h : sh.queryEdgeForEdges eai = .ok r) (j : Nat) :
    j ∈ r ↔ ∃ occ, getE sh.pointAndEdgeOccupancy (eai + sh.edgeStartInd) = .ok occ ∧
      ∃ i, (sh.edgeStartInd ≤ i ∧ i < sh.triStartInd ∧ i - sh.edgeStartInd > eai ∧
          j = i - sh.edgeStartInd) ∧
        ∃ c ∈ occ, ∃ l, voxelFind sh.voxel c = some l ∧ i ∈ l := by
  unfold queryEdgeForEdges at h
  cases hocc : getE sh.pointAndEdgeOccupancy (eai + sh.edgeStartInd) with
  | error err => simp [hocc] at h
  | ok occ =>
    simp only [hocc] at h
    rw [sh.scanOccupancy_mem _ occ [] r h j]
    simp only [List.not_mem_nil, false_or, Except.ok.injEq, exists_eq_left']
    constructor
    · rintro ⟨i, hk, hst⟩
      split_ifs at hk with hc
      simp only [Option.some.injEq] at hk
      exact ⟨i, ⟨hc.1, hc.2.1, hc.2.2, hk.symm⟩, hst⟩
    · rintro ⟨i, ⟨h1, h2, h3, h4⟩, hst⟩
      refine ⟨i, ?_, hst⟩
      rw [if_pos ⟨h1, h2, h3⟩, h4]

/-- The swept BBox-check query, when it returns, has read the four rows of the
query edge, the plain index-keyed query returns too, and the result holds the
edges of the plain query that pass the box test. -/
theorem bboxSwept_refines (sh : SpatialHash) (V0 V1 : List Vec3) (E : List (Nat × Nat))
    (eai : Nat) (res : List Nat)
    (h : sh.queryEdgeForEdgesWithBBoxCheck V0 V1 E eai = .ok res) :
    ∃ ea ea0_t0 ea1_t0 ea0_t1 ea1_t1 plain, E[eai]? = some ea ∧
      V0[ea.1]? = some ea0_t0 ∧ V0[ea.2]? = some ea1_t0 ∧
      V1[ea.1]? = some ea0_t1 ∧ V1[ea.2]? = some ea1_t1 ∧
      sh.queryEdgeForEdges eai = .ok plain ∧
      ∀ ebi, ebi ∈ res ↔ ebi ∈ plain ∧
        bboxCheckSwept V0 V1 E (((ea0_t0.cmin ea1_t0).cmin ea0_t1).cmin ea1_t1)
          (((ea0_t0.cmax ea1_t0).cmax ea0_t1).cmax ea1_t1) ebi = .ok true := by
  unfold queryEdgeForEdgesWithBBoxCheck at h
  cases hea : getE E eai with
  | error e => simp [hea] at h
  | ok ea =>
    cases h0 : getE V0 ea.1 with
    | error e => simp [hea, h0] at h
    | ok ea0_t0 =>
      cases h1 : getE V0 ea.2 with
      | error e => simp [hea, h0, h1] at h
      | ok ea1_t0 =>
        cases h2 : getE V1 ea.1 with
        | error e => simp [hea, h0, h1, h2] at h
        | ok ea0_t1 =>
          cases h3 : getE V1 ea.2 with
          | error e => simp [hea, h0, h1, h2, h3] at h
          | ok ea1_t1 =>
            cases hocc : getE sh.pointAndEdgeOccupancy (eai + sh.edgeStartInd) with
            | error e => simp [hea, h0, h1, h2, h3, hocc] at h
            | ok occ =>
              simp only [hea, h0, h1, h2, h3, hocc] at h
              have hkeys := sh.scanOccupancyE_keys _ occ [] res h
              obtain ⟨plain, hplain⟩ : ∃ plain, sh.queryEdgeForEdges eai = .ok plain := by
                unfold queryEdgeForEdges
                rw [hocc]
                exact sh.scanOccupancy_total _ occ [] hkeys
              refine ⟨ea, ea0_t0, ea1_t0, ea0_t1, ea1_t1, plain, getE_ok hea, getE_ok h0,
                getE_ok h1, getE_ok h2, getE_ok h3, hplain, ?_⟩
              intro ebi
              have hm := sh.scanOccupancyE_mem _ _
                (sh.bboxSweptStep_mem V0 V1 E (((ea0_t0.cmin ea1_t0).cmin ea0_t1).cmin ea1_t1)
                  (((ea0_t0.cmax ea1_t0).cmax ea0_t1).cmax ea1_t1) eai) occ [] res h ebi
              rw [hm, mem_queryEdgeForEdges hplain ebi]
              simp only [List.not_mem_nil, false_or, hocc, Except.ok.injEq, exists_eq_left']
              constructor
              · rintro ⟨i, ⟨hP, hck⟩, hst⟩
                exact ⟨⟨i, hP, hst⟩, hck⟩
              · rintro ⟨⟨i, hP, hst⟩, hck⟩
                exact ⟨i, ⟨hP, hck⟩, hst⟩

end SpatialHash

/-- A swept build that returned has read both endpoints of every edge at both
times. -/
theorem buildSwept_edges_in_range {ext : External} {V0 V1 : List Vec3}
    {E : List (Nat × Nat)} {F : List (Nat × Nat × Nat)} {voxelSize : ℚ} {sh : SpatialHash}
    (h : buildSwept ext V0 V1 E F voxelSize = .ok sh) :
    ∀ e ∈ E, (e.1 < V0.length ∧ e.2 < V0.length) ∧ (e.1 < V1.length ∧ e.2 < V1.length) := by
  obtain ⟨oe, lf, hlen, _, _, _, _, hoe, _⟩ := buildSwept_shape h
  intro e he
  obtain ⟨cells, hcells⟩ := forEachM_ok_of_mem hoe e he
  unfold sweptEdgeCells at hcells
  cases h1 : getVAI (vertexMinVAI sh V0 V1) (vertexMaxVAI sh V0 V1) e.1 with
  | error err => simp [h1] at hcells
  | ok a =>
    cases h2 : getVAI (vertexMinVAI sh V0 V1) (vertexMaxVAI sh V0 V1) e.2 with
    | error err => simp [h1, h2] at hcells
    | ok b =>
      have key : ∀ (i : Nat) (x : Idx3 × Idx3),
          getVAI (vertexMinVAI sh V0 V1) (vertexMaxVAI sh V0 V1) i = .ok x →
          i < V0.length := by
        intro i x hx
        unfold getVAI at hx
        cases hm : getE (vertexMinVAI sh V0 V1) i with
        | error err => simp [hm] at hx
        | ok m =>
          have := (List.getElem?_eq_some.mp (getE_ok hm)).1
          rw [length_vertexMinVAI sh V0 V1 hlen] at this
          exact this
      have l1 := key e.1 a h1
      have l2 := key e.2 b h2
      exact ⟨⟨l1, l2⟩, by omega, by omega⟩


/-- The swept BBox-check query returns for every edge of the mesh the index was
built from. -/
theorem queryEdgeForEdgesWithBBoxCheck_total {ext : External} {V0 V1 : List Vec3}
    {E : List (Nat × Nat)} {F : List (Nat × Nat × Nat)} {voxelSize : ℚ} {sh : SpatialHash}
    (h : buildSwept ext V0 V1 E F voxelSize = .ok sh) (eai : Nat) (heai : eai < E.length) :
    ∃ res, sh.queryEdgeForEdgesWithBBoxCheck V0 V1 E eai = .ok res := by
  obtain ⟨oe, lf, hlen, hes, hts, _⟩ := buildSwept_shape h
  have hE := buildSwept_edges_in_range h
  obtain ⟨ea, hea⟩ := getE_total heai
  have hin := hE ea (getE_mem hea)
  obtain ⟨a0, h0⟩ := getE_total hin.1.1
  obtain ⟨a1, h1⟩ := getE_total hin.1.2
  obtain ⟨a2, h2⟩ := getE_total hin.2.1
  obtain ⟨a3, h3⟩ := getE_total hin.2.2
  obtain ⟨occ, hocc, hk⟩ := buildSwept_occupancy_keys h (eai + sh.edgeStartInd) (by omega)
  unfold SpatialHash.queryEdgeForEdgesWithBBoxCheck
  simp only [hea, h0, h1, h2, h3, hocc]
  refine sh.scanOccupancyE_total _ ?_ occ [] hk
  intro s i
  dsimp only
  by_cases hc : sh.edgeStartInd ≤ i ∧ i < sh.triStartInd ∧ i - sh.edgeStartInd > eai
  · obtain ⟨b, hb⟩ := SpatialHash.bboxCheckSwept_total hE
      (((a0.cmin a1).cmin a2).cmin a3) (((a0.cmax a1).cmax a2).cmax a3)
      (show i - sh.edgeStartInd < E.length by omega)
    rw [if_pos hc, hb]
    cases b
    · exact ⟨_, rfl⟩
    · exact ⟨_, rfl⟩
  · rw [if_neg hc]
    exact ⟨_, rfl⟩

/-- C20. The BBox-check variant is the plain query plus an AABB filter. On the
mesh of a static build the static `queryEdgeForEdgesWithBBoxCheck` returns, and
its result holds exactly the edges `ebi` of the static `queryEdgeForEdges` with
the same arguments whose box (min/max of the two endpoints) passes the closed
overlap test `intersects` (touching boxes accepted) against the box of the query
edge inflated by `radius`. On the mesh of a swept build the index-keyed
`queryEdgeForEdgesWithBBoxCheck` and `queryEdgeForEdges` return for every edge
`eai`, and the former holds exactly the edges of the latter whose box over `t0`
and `t1` passes the closed overlap test against the box of edge `eai` over `t0`
and `t1`. In both cases the result is a subset of the plain query's. -/
theorem bbox_check_filters_plain (ext : External) (V V0 V1 : List Vec3)
    (E : List (Nat × Nat)) (F : List (Nat × Nat × Nat)) (voxelSize : ℚ) :
    (∀ sh, build ext V E F voxelSize = .ok sh →
      ∀ (ea0 ea1 : Vec3) (edgeInds : List Nat) (radius : ℚ) (eai : Int),
        ∃ res, sh.queryEdgeForEdgesWithBBoxCheckStatic V E ea0 ea1 edgeInds radius eai
            = .ok res ∧
          (∀ ebi, ebi ∈ res ↔
            ebi ∈ sh.queryEdgeForEdgesStatic ea0 ea1 edgeInds radius eai ∧
            ∃ eb eb0 eb1, E[ebi]? = some eb ∧ V[eb.1]? = some eb0 ∧ V[eb.2]? = some eb1 ∧
              (AABB.mk (eb0.cmin eb1) (eb0.cmax eb1)).intersects
                (AABB.mk ((ea0.cmin ea1).subScalar radius) ((ea0.cmax ea1).addScalar radius))
                = true) ∧
          (∀ ebi ∈ res, ebi ∈ sh.queryEdgeForEdgesStatic ea0 ea1 edgeInds radius eai)) ∧
    (∀ sh, buildSwept ext V0 V1 E F voxelSize = .ok sh →
      ∀ eai, eai < E.length →
        ∃ res plain ea ea0_t0 ea1_t0 ea0_t1 ea1_t1,
          sh.queryEdgeForEdgesWithBBoxCheck V0 V1 E eai = .ok res ∧
          sh.queryEdgeForEdges eai = .ok plain ∧
          E[eai]? = some ea ∧ V0[ea.1]? = some ea0_t0 ∧ V0[ea.2]? = some ea1_t0 ∧
          V1[ea.1]? = some ea0_t1 ∧ V1[ea.2]? = some ea1_t1 ∧
          (∀ ebi, ebi ∈ res ↔ ebi ∈ plain ∧
            ∃ eb eb0_t0 eb1_t0 eb0_t1 eb1_t1, E[ebi]? = some eb ∧
              V0[eb.1]? = some eb0_t0 ∧ V0[eb.2]? = some eb1_t0 ∧
              V1[eb.1]? = some eb0_t1 ∧ V1[eb.2]? = some eb1_t1 ∧
              (AABB.mk (((eb0_t0.cmin eb1_t0).cmin eb0_t1).cmin eb1_t1)
                (((eb0_t0.cmax eb1_t0).cmax eb0_t1).cmax eb1_t1)).intersects
                (AABB.mk (((ea0_t0.cmin ea1_t0).cmin ea0_t1).cmin ea1_t1)
                  (((ea0_t0.cmax ea1_t0).cmax ea0_t1).cmax ea1_t1)) = true) ∧
          (∀ ebi ∈ res, ebi ∈ plain)) := by
  constructor
  · intro sh h ea0 ea1 edgeInds radius eai
    obtain ⟨res, hres⟩ :=
      SpatialHash.queryEdgeForEdgesWithBBoxCheckStatic_total h ea0 ea1 edgeInds radius eai
    have href := sh.bboxStatic_refines V E ea0 ea1 edgeInds radius eai res hres
    refine ⟨res, hres, ?_, ?_⟩
    · intro ebi
      rw [href ebi, SpatialHash.bboxCheckStatic_true_iff]
    · intro ebi hebi
      exact ((href ebi).mp hebi).1
  · intro sh h eai heai
    obtain ⟨res, hres⟩ := queryEdgeForEdgesWithBBoxCheck_total h eai heai
    obtain ⟨ea, a0, a1, a2, a3, plain, hea, h0, h1, h2, h3, hplain, href⟩ :=
      sh.bboxSwept_refines V0 V1 E eai res hres
    refine ⟨res, plain, ea, a0, a1, a2, a3, hres, hplain, hea, h0, h1, h2, h3, ?_, ?_⟩
    · intro ebi
      rw [href ebi, SpatialHash.bboxCheckSwept_true_iff]
    · intro ebi hebi
      exact ((href ebi).mp hebi).1

/-- Witness of C20: the static build of the stretched triangle and the swept
build of the two crossing segments. -/
theorem bbox_check_filters_plain_witness :
    build (specExternal 0 0) stretchV triE triF 2 = .ok stretchIndex ∧
    buildSwept (specExternal 0 0) twoSegV crossV1 twoSegE [] (3 / 2) = .ok crossIndex ∧
    (∀ (ea0 ea1 : Vec3) (edgeInds : List Nat) (radius : ℚ) (eai : Int),
        ∃ res, stretchIndex.queryEdgeForEdgesWithBBoxCheckStatic stretchV triE ea0 ea1 edgeInds radius eai
            = .ok res ∧
          (∀ ebi, ebi ∈ res ↔
            ebi ∈ stretchIndex.queryEdgeForEdgesStatic ea0 ea1 edgeInds radius eai ∧
            ∃ eb eb0 eb1, triE[ebi]? = some eb ∧ stretchV[eb.1]? = some eb0 ∧ stretchV[eb.2]? = some eb1 ∧
              (AABB.mk (eb0.cmin eb1) (eb0.cmax eb1)).intersects
                (AABB.mk ((ea0.cmin ea1).subScalar radius) ((ea0.cmax ea1).addScalar radius))
                = true) ∧
          (∀ ebi ∈ res, ebi ∈ stretchIndex.queryEdgeForEdgesStatic ea0 ea1 edgeInds radius eai)) ∧
    (∀ eai, eai < twoSegE.length →
        ∃ res plain ea ea0_t0 ea1_t0 ea0_t1 ea1_t1,
          crossIndex.queryEdgeForEdgesWithBBoxCheck twoSegV crossV1 twoSegE eai = .ok res ∧
          crossIndex.queryEdgeForEdges eai = .ok plain ∧
          twoSegE[eai]? = some ea ∧ twoSegV[ea.1]? = some ea0_t0 ∧ twoSegV[ea.2]? = some ea1_t0 ∧
          crossV1[ea.1]? = some ea0_t1 ∧ crossV1[ea.2]? = some ea1_t1 ∧
          (∀ ebi, ebi ∈ res ↔ ebi ∈ plain ∧
            ∃ eb eb0_t0 eb1_t0 eb0_t1 eb1_t1, twoSegE[ebi]? = some eb ∧
              twoSegV[eb.1]? = some eb0_t0 ∧ twoSegV[eb.2]? = some eb1_t0 ∧
              crossV1[eb.1]? = some eb0_t1 ∧ crossV1[eb.2]? = some eb1_t1 ∧
              (AABB.mk (((eb0_t0.cmin eb1_t0).cmin eb0_t1).cmin eb1_t1)
                (((eb0_t0.cmax eb1_t0).cmax eb0_t1).cmax eb1_t1)).intersects
                (AABB.mk (((ea0_t0.cmin ea1_t0).cmin ea0_t1).cmin ea1_t1)
                  (((ea0_t0.cmax ea1_t0).cmax ea0_t1).cmax ea1_t1)) = true) ∧
          (∀ ebi ∈ res, ebi ∈ plain)) :=
  ⟨by decide!, by decide!,
    (bbox_check_filters_plain (specExternal 0 0) stretchV stretchV stretchV triE triF 2).1
      stretchIndex (by decide!),
    (bbox_check_filters_plain (specExternal 0 0) twoSegV twoSegV crossV1 twoSegE []
      (3 / 2)).2 crossIndex (by decide!)⟩


/-! ## The fast path and the static pipeline -/

/-- C21 (code defect): for the triangle `(0,0,0)`, `(1,1,1)`, `(1,0,0)` at rest
with voxel size 1 the swept build makes a one-cell grid and gives the two
vertices on the upper boundary out-of-grid axis indices. The index-keyed
`queryEdgeForEdges(0)` walks the occupancy list of edge 0, out-of-grid cells
included, and returns the edges 2 and 1; the position-based swept
`queryEdgeForEdges` with the four endpoint positions of edge 0, radius 0 and
`eai = 0` clamps its box to the grid and returns edge 2 only. Likewise the
index-keyed `queryPointForTriangles(1)` returns face 0 and the position-based
swept `queryPointForTriangles` at the position of vertex 1 returns nothing. -/
theorem fast_path_differs_on_boundary :
    buildSwept (specExternal 0 0) cornerV cornerV triE triF 1 = .ok cornerIndex ∧
    cornerIndex.queryEdgeForEdges 0 = .ok [2, 1] ∧
    cornerIndex.queryEdgeForEdgesSwept ⟨0, 0, 0⟩ ⟨1, 1, 1⟩ ⟨0, 0, 0⟩ ⟨1, 1, 1⟩ [] 0 0 = [2] ∧
    cornerIndex.queryPointForTriangles 1 = .ok [0] ∧
    cornerIndex.queryPointForTrianglesSwept ⟨1, 1, 1⟩ ⟨1, 1, 1⟩ 0 = [] := by
  refine ⟨by decide!, by decide!, by decide!, by decide!, by decide!⟩

/-- C22 (code defect): the static build of the stretched triangle returns an
index whose occupancy table is empty, so the first lookup of each enabled pass
of the static `queryMeshForCandidates` (`pointAndEdgeOccupancy[0]` for the
vertex passes, `pointAndEdgeOccupancy[0 + edge_start]` for the edge pass) is out
of bounds; only with all three flags off does the query return. -/
theorem static_query_reads_outside_occupancy :
    build (specExternal 0 0) stretchV triE triF 2 = .ok stretchIndex ∧
    stretchIndex.pointAndEdgeOccupancy = [] ∧
    stretchIndex.queryPointForEdges 0 = .error .outOfBounds ∧
    stretchIndex.queryEdgeForEdges 0 = .error .outOfBounds ∧
    stretchIndex.queryPointForTriangles 0 = .error .outOfBounds ∧
    staticPipeline (specExternal 0 0) stretchV triE triF 2 0 true false false
      = .error .outOfBounds ∧
    staticPipeline (specExternal 0 0) stretchV triE triF 2 0 false true false
      = .error .outOfBounds ∧
    staticPipeline (specExternal 0 0) stretchV triE triF 2 0 false false true
      = .error .outOfBounds ∧
    staticPipeline (specExternal 0 0) stretchV triE triF 2 0 false false false
      = .ok ⟨[], [], []⟩ := by
  refine ⟨by decide!, rfl, by decide!, by decide!, by decide!, by decide!, by decide!,
    by decide!, by decide!⟩


/-! ## Merging the per-worker buffers -/

theorem merge_local_candidates_eq :
    ∀ (storages : List Candidates) (candidates : Candidates),
      merge_local_candidates storages candidates =
        ⟨candidates.ev_candidates ++ storages.flatMap (fun l => l.ev_candidates),
          candidates.ee_candidates ++ storages.flatMap (fun l => l.ee_candidates),
          candidates.fv_candidates ++ storages.flatMap (fun l => l.fv_candidates)⟩ := by
  intro storages
  induction storages with
  | nil =>
    intro candidates
    simp [merge_local_candidates]
  | cons s storages ih =>
    intro candidates
    have hunf : merge_local_candidates (s :: storages) candidates =
        merge_local_candidates storages
          ⟨candidates.ev_candidates ++ s.ev_candidates,
            candidates.ee_candidates ++ s.ee_candidates,
            candidates.fv_candidates ++ s.fv_candidates⟩ := rfl
    rw [hunf, ih]
    simp [List.flatMap_cons, List.append_assoc]

theorem concatM_ok_of_forall {α β : Type} {f : α → Except Err (List β)} (g : α → List β) :
    ∀ (xs : List α), (∀ x ∈ xs, f x = .ok (g x)) → concatM f xs = .ok (xs.flatMap g) := by
  intro xs
  induction xs with
  | nil =>
    intro _
    rfl
  | cons a as ih =>
    intro h
    simp only [concatM, h a (List.mem_cons_self _ _),
      ih (fun x hx => h x (List.mem_cons_of_mem _ hx)), List.flatMap_cons]

theorem concatM_ok_inv {α β : Type} {f : α → Except Err (List β)} :
    ∀ {xs : List α} {l : List β}, concatM f xs = .ok l → ∀ x ∈ xs, ∃ y, f x = .ok y := by
  intro xs
  induction xs with
  | nil =>
    intro l _ x hx
    simp at hx
  | cons a as ih =>
    intro l h x hx
    simp only [concatM] at h
    cases hfa : f a with
    | error e => simp [hfa] at h
    | ok b =>
      cases hrest : concatM f as with
      | error e => simp [hfa, hrest] at h
      | ok bs =>
        rcases List.mem_cons.mp hx with rfl | hx
        · exact ⟨b, hfa⟩
        · exact ih hrest x hx

/-- What a parallel pass leaves when every iteration returns. -/
theorem parallelFor_ok_of_forall {row : Nat → Except Err (List (Nat × Nat))}
    (g : Nat → List (Nat × Nat)) :
    ∀ (chunks : List Chunk), (∀ i ∈ chunks.flatMap Chunk.indices, row i = .ok (g i)) →
      parallelFor row chunks = .ok (chunks.map (fun c => (c.worker, c.indices.flatMap g))) := by
  intro chunks
  induction chunks with
  | nil =>
    intro _
    rfl
  | cons c chunks ih =>
    intro h
    have hc : concatM row c.indices = .ok (c.indices.flatMap g) :=
      concatM_ok_of_forall g c.indices
        (fun i hi => h i (by simp only [List.flatMap_cons, List.mem_append]; exact Or.inl hi))
    have hrest := ih
      (fun i hi => h i (by simp only [List.flatMap_cons, List.mem_append]; exact Or.inr hi))
    unfold parallelFor at hrest ⊢
    simp only [forEachM, hc, hrest, List.map_cons]

/-- A parallel pass that returned has run every iteration of every chunk. -/
theorem parallelFor_ok_inv {row : Nat → Except Err (List (Nat × Nat))} :
    ∀ {chunks : List Chunk} {outs : List (Nat × List (Nat × Nat))},
      parallelFor row chunks = .ok outs →
      ∀ i ∈ chunks.flatMap Chunk.indices, ∃ l, row i = .ok l := by
  intro chunks outs h i hi
  rw [List.mem_flatMap] at hi
  obtain ⟨c, hc, hic⟩ := hi
  obtain ⟨o, ho⟩ := forEachM_ok_of_mem h c hc
  cases hcm : concatM row c.indices with
  | error e => simp [hcm] at ho
  | ok l => exact concatM_ok_inv hcm i hic


theorem flatMap_if_not_mem {β : Type} (x : Nat) (l : List β) :
    ∀ (ws : List Nat), x ∉ ws → ws.flatMap (fun w => if x = w then l else []) = [] := by
  intro ws
  induction ws with
  | nil =>
    intro _
    rfl
  | cons w ws ih =>
    intro h
    have h1 : x ≠ w := fun e => h (e ▸ List.mem_cons_self _ _)
    have h2 : x ∉ ws := fun e => h (List.mem_cons_of_mem _ e)
    rw [List.flatMap_cons, if_neg h1, ih h2]
    rfl

theorem flatMap_if_mem {β : Type} (x : Nat) (l : List β) :
    ∀ (ws : List Nat), ws.Nodup → x ∈ ws →
      ws.flatMap (fun w => if x = w then l else []) = l := by
  intro ws
  induction ws with
  | nil =>
    intro _ h
    simp at h
  | cons w ws ih =>
    intro hnd h
    rw [List.nodup_cons] at hnd
    rw [List.flatMap_cons]
    by_cases hxw : x = w
    · subst hxw
      rw [if_pos rfl, flatMap_if_not_mem x l ws hnd.1, List.append_nil]
    · rw [if_neg hxw, List.nil_append]
      rcases List.mem_cons.mp h with h | h
      · exact absurd h hxw
      · exact ih hnd.2 h

theorem localBuffer_cons (o : Nat × List (Nat × Nat)) (outs : List (Nat × List (Nat × Nat)))
    (w : Nat) :
    localBuffer (o :: outs) w = (if o.1 = w then o.2 else []) ++ localBuffer outs w := by
  unfold localBuffer
  by_cases h : o.1 = w
  · simp [List.filter_cons, h]
  · simp [List.filter_cons, h]

/-- The buffers of distinct workers together hold what the chunks appended, up
to order. -/
theorem localBuffer_perm (workers : List Nat) (hnd : workers.Nodup) :
    ∀ (outs : List (Nat × List (Nat × Nat))), (∀ o ∈ outs, o.1 ∈ workers) →
      (workers.flatMap (localBuffer outs)).Perm (outs.flatMap Prod.snd) := by
  intro outs
  induction outs with
  | nil =>
    intro _
    have : workers.flatMap (localBuffer []) = [] := by
      simp [localBuffer]
    rw [this]
    exact List.Perm.refl _
  | cons o outs ih =>
    intro h
    have hfun : localBuffer (o :: outs) =
        fun w => (if o.1 = w then o.2 else []) ++ localBuffer outs w := by
      funext w
      exact localBuffer_cons o outs w
    rw [hfun, List.flatMap_cons]
    refine (List.flatMap_append_perm workers _ _).symm.trans ?_
    rw [flatMap_if_mem o.1 o.2 workers hnd (h o (List.mem_cons_self _ _))]
    exact List.Perm.append_left _ (ih (fun o' ho' => h o' (List.mem_cons_of_mem _ ho')))

/-- Under a schedule of `[0, n)` a pass whose iterations all return leaves in
the buffers, up to order, what the sequential loop appends. -/
theorem parallel_pass_perm {row : Nat → Except Err (List (Nat × Nat))}
    (g : Nat → List (Nat × Nat)) {n : Nat} {workers : List Nat} {chunks : List Chunk}
    (hs : IsSchedule n workers chunks) (hrow : ∀ i, i < n → row i = .ok (g i)) :
    ∃ outs, parallelFor row chunks = .ok outs ∧
      (workers.flatMap (localBuffer outs)).Perm ((List.range n).flatMap g) := by
  obtain ⟨hnd, hw, hp⟩ := hs
  have hall : ∀ i ∈ chunks.flatMap Chunk.indices, row i = .ok (g i) := by
    intro i hi
    exact hrow i (List.mem_range.mp (hp.mem_iff.mp hi))
  refine ⟨_, parallelFor_ok_of_forall g chunks hall, ?_⟩
  refine (localBuffer_perm workers hnd _ ?_).trans ?_
  · intro o ho
    rw [List.mem_map] at ho
    obtain ⟨c, hc, rfl⟩ := ho
    exact hw c hc
  · have : (chunks.map (fun c => (c.worker, c.indices.flatMap g))).flatMap Prod.snd =
        (chunks.flatMap Chunk.indices).flatMap g := by
      rw [List.flatMap_map, List.flatMap_assoc]
    rw [this]
    exact List.Perm.flatMap_right g hp

/-- One pass of the query under two schedules: if it returns under the first it
returns under the second, and the buffers hold the same pairs up to order. -/
theorem pass_perm (flag : Bool) (row : Nat → Except Err (List (Nat × Nat))) {n : Nat}
    {w1 w2 : List Nat} {c1 c2 : List Chunk} (hs1 : IsSchedule n w1 c1)
    (hs2 : IsSchedule n w2 c2) {outs1 : List (Nat × List (Nat × Nat))}
    (h1 : (if flag then parallelFor row c1 else .ok []) = .ok outs1) :
    ∃ outs2, (if flag then parallelFor row c2 else .ok []) = .ok outs2 ∧
      (w1.flatMap (localBuffer outs1)).Perm (w2.flatMap (localBuffer outs2)) := by
  cases flag with
  | false =>
    simp only [Bool.false_eq_true, if_false, Except.ok.injEq] at h1
    subst h1
    refine ⟨[], rfl, ?_⟩
    have e1 : w1.flatMap (localBuffer []) = [] := by simp [localBuffer]
    have e2 : w2.flatMap (localBuffer []) = [] := by simp [localBuffer]
    rw [e1, e2]
  | true =>
    simp only [if_true] at h1 ⊢
    have hok := parallelFor_ok_inv h1
    have hrow : ∀ i, i < n → ∃ l, row i = .ok l := by
      intro i hi
      exact hok i (hs1.2.2.mem_iff.mpr (List.mem_range.mpr hi))
    obtain ⟨g, hg⟩ : ∃ g : Nat → List (Nat × Nat), ∀ i, i < n → row i = .ok (g i) := by
      refine ⟨fun i => match row i with
        | .ok l => l
        | .error _ => [], ?_⟩
      intro i hi
      obtain ⟨l, hl⟩ := hrow i hi
      simp only [hl]
    obtain ⟨o1, ho1, hp1⟩ := parallel_pass_perm g hs1 hg
    obtain ⟨o2, ho2, hp2⟩ := parallel_pass_perm g hs2 hg
    rw [h1] at ho1
    simp only [Except.ok.injEq] at ho1
    subst ho1
    exact ⟨o2, ho2, hp1.trans hp2.symm⟩

theorem localStorages_ev (workers : List Nat) (ev ee fv : List (Nat × List (Nat × Nat))) :
    (localStorages workers ev ee fv).flatMap (fun l => l.ev_candidates) =
      workers.flatMap (localBuffer ev) := by
  simp [localStorages, List.flatMap_map]

theorem localStorages_ee (workers : List Nat) (ev ee fv : List (Nat × List (Nat × Nat))) :
    (localStorages workers ev ee fv).flatMap (fun l => l.ee_candidates) =
      workers.flatMap (localBuffer ee) := by
  simp [localStorages, List.flatMap_map]

theorem localStorages_fv (workers : List Nat) (ev ee fv : List (Nat × List (Nat × Nat))) :
    (localStorages workers ev ee fv).flatMap (fun l => l.fv_candidates) =
      workers.flatMap (localBuffer fv) := by
  simp [localStorages, List.flatMap_map]


/-- The three passes under two schedules: if the query returns under the first
it returns under the second, each output list is the given list followed by the
pairs found, and the pairs found agree up to order. -/
theorem threePasses_perm (evRow eeRow fvRow : Nat → Except Err (List (Nat × Nat)))
    (candidates : Candidates) (queryEV queryEE queryFV : Bool) {nV nE : Nat}
    {w1 w2 : List Nat} {ev1 ee1 fv1 ev2 ee2 fv2 : List Chunk}
    (h1 : IsSchedule nV w1 ev1 ∧ IsSchedule nE w1 ee1 ∧ IsSchedule nV w1 fv1)
    (h2 : IsSchedule nV w2 ev2 ∧ IsSchedule nE w2 ee2 ∧ IsSchedule nV w2 fv2)
    {r1 : Candidates}
    (hr : threePasses evRow eeRow fvRow candidates queryEV queryEE queryFV w1 ev1 ee1 fv1
      = .ok r1) :
    ∃ r2, threePasses evRow eeRow fvRow candidates queryEV queryEE queryFV w2 ev2 ee2 fv2
        = .ok r2 ∧
      r1.ev_candidates.Perm r2.ev_candidates ∧ r1.ee_candidates.Perm r2.ee_candidates ∧
      r1.fv_candidates.Perm r2.fv_candidates := by
  unfold threePasses at hr ⊢
  cases hev : (if queryEV then parallelFor evRow ev1 else .ok []) with
  | error e => simp [hev] at hr
  | ok ev =>
    cases hee : (if queryEE then parallelFor eeRow ee1 else .ok []) with
    | error e => simp [hev, hee] at hr
    | ok ee =>
      cases hfv : (if queryFV then parallelFor fvRow fv1 else .ok []) with
      | error e => simp [hev, hee, hfv] at hr
      | ok fv =>
        simp only [hev, hee, hfv, Except.ok.injEq] at hr
        subst hr
        obtain ⟨ev', hev', pev⟩ := pass_perm queryEV evRow h1.1 h2.1 hev
        obtain ⟨ee', hee', pee⟩ := pass_perm queryEE eeRow h1.2.1 h2.2.1 hee
        obtain ⟨fv', hfv', pfv⟩ := pass_perm queryFV fvRow h1.2.2 h2.2.2 hfv
        refine ⟨merge_local_candidates (localStorages w2 ev' ee' fv') candidates,
          by simp only [hev', hee', hfv'], ?_, ?_, ?_⟩
        · simp only [merge_local_candidates_eq, localStorages_ev]
          exact List.Perm.append_left _ pev
        · simp only [merge_local_candidates_eq, localStorages_ee]
          exact List.Perm.append_left _ pee
        · simp only [merge_local_candidates_eq, localStorages_fv]
          exact List.Perm.append_left _ pfv

/-- The sequential loops are the schedule with one worker and one chunk per
pass. -/
theorem threePasses_single (evRow eeRow fvRow : Nat → Except Err (List (Nat × Nat)))
    (candidates : Candidates) (queryEV queryEE queryFV : Bool) (nV nE : Nat) :
    threePasses evRow eeRow fvRow candidates queryEV queryEE queryFV [0]
        [⟨0, 0, nV⟩] [⟨0, 0, nE⟩] [⟨0, 0, nV⟩] =
      match (if queryEV then concatM evRow (List.range nV) else .ok []) with
      | .error e => .error e
      | .ok ev =>
        match (if queryEE then concatM eeRow (List.range nE) else .ok []) with
        | .error e => .error e
        | .ok ee =>
          match (if queryFV then concatM fvRow (List.range nV) else .ok []) with
          | .error e => .error e
          | .ok fv => .ok (merge_local_candidates [⟨ev, ee, fv⟩] candidates) := by
  have hone : ∀ (row : Nat → Except Err (List (Nat × Nat))) (n : Nat),
      parallelFor row [⟨0, 0, n⟩] =
        match concatM row (List.range n) with
        | .error e => .error e
        | .ok l => .ok [(0, l)] := by
    intro row n
    simp only [parallelFor, forEachM, Chunk.indices, Nat.sub_zero, ← List.range_eq_range']
    cases concatM row (List.range n) <;> rfl
  have hbuf : ∀ l : List (Nat × Nat), localBuffer [(0, l)] 0 = l := by
    intro l
    simp [localBuffer]
  have hnil : localBuffer [] 0 = [] := by simp [localBuffer]
  unfold threePasses
  simp only [hone]
  cases queryEV <;> cases queryEE <;> cases queryFV <;>
    simp only [Bool.false_eq_true, if_false, if_true] <;>
    (try cases concatM evRow (List.range nV)) <;> (try simp only []) <;>
    (try cases concatM eeRow (List.range nE)) <;> (try simp only []) <;>
    (try cases concatM fvRow (List.range nV)) <;>
    simp only [localStorages, List.map_cons, List.map_nil, hbuf, hnil]


/-! ## Schedules of the parallel loops -/

theorem insertionSort_eq_of_perm {l1 l2 : List (Nat × Nat)} (hp : l1.Perm l2)
    (le : Nat × Nat → Nat × Nat → Prop) [DecidableRel le] [IsTotal (Nat × Nat) le]
    [IsAntisymm (Nat × Nat) le] [IsTrans (Nat × Nat) le] :
    l1.insertionSort le = l2.insertionSort le :=
  List.eq_of_perm_of_sorted
    (((List.perm_insertionSort le l1).trans hp).trans (List.perm_insertionSort le l2).symm)
    (List.sorted_insertionSort le l1) (List.sorted_insertionSort le l2)

/-- C24. Idempotence up to order: for a fixed index, mesh, radius, flags and
given `Candidates`, take any two schedules of the three parallel loops (any
splitting of the vertex and edge ranges into chunks, any assignment of the
chunks to per-worker buffers, any order of the buffers in the merge). If
`queryMeshForCandidates` (swept or static) returns under the first it returns
under the second, its `ev`, `ee` and `fv` lists are permutations of those of the
first, and so the two runs agree after sorting each output vector by any total
order. The sequential loops are the schedule with one worker and one chunk. -/
theorem candidates_agree_up_to_order (sh : SpatialHash) (ext : External)
    (V0 V1 : List Vec3) (E : List (Nat × Nat)) (F : List (Nat × Nat × Nat))
    (candidates : Candidates) (radius : ℚ) (queryEV queryEE queryFV : Bool)
    (w1 w2 : List Nat) (ev1 ee1 fv1 ev2 ee2 fv2 : List Chunk)
    (h1 : IsSchedule V0.length w1 ev1 ∧ IsSchedule E.length w1 ee1 ∧
      IsSchedule V0.length w1 fv1)
    (h2 : IsSchedule V0.length w2 ev2 ∧ IsSchedule E.length w2 ee2 ∧
      IsSchedule V0.length w2 fv2) :
    (∀ r1, sh.queryMeshForCandidatesSweptPar ext V0 V1 E F candidates radius queryEV queryEE queryFV
          w1 ev1 ee1 fv1 = .ok r1 →
      ∃ r2, sh.queryMeshForCandidatesSweptPar ext V0 V1 E F candidates radius queryEV queryEE queryFV
            w2 ev2 ee2 fv2 = .ok r2 ∧
        r1.ev_candidates.Perm r2.ev_candidates ∧ r1.ee_candidates.Perm r2.ee_candidates ∧
        r1.fv_candidates.Perm r2.fv_candidates ∧
        (∀ (le : Nat × Nat → Nat × Nat → Prop) [DecidableRel le] [IsTotal (Nat × Nat) le]
              [IsAntisymm (Nat × Nat) le] [IsTrans (Nat × Nat) le],
            r1.ev_candidates.insertionSort le = r2.ev_candidates.insertionSort le ∧
            r1.ee_candidates.insertionSort le = r2.ee_candidates.insertionSort le ∧
            r1.fv_candidates.insertionSort le = r2.fv_candidates.insertionSort le)) ∧
    (∀ r1, sh.queryMeshForCandidatesPar ext V0 E F candidates radius queryEV queryEE queryFV
          w1 ev1 ee1 fv1 = .ok r1 →
      ∃ r2, sh.queryMeshForCandidatesPar ext V0 E F candidates radius queryEV queryEE queryFV
            w2 ev2 ee2 fv2 = .ok r2 ∧
        r1.ev_candidates.Perm r2.ev_candidates ∧ r1.ee_candidates.Perm r2.ee_candidates ∧
        r1.fv_candidates.Perm r2.fv_candidates ∧
        (∀ (le : Nat × Nat → Nat × Nat → Prop) [DecidableRel le] [IsTotal (Nat × Nat) le]
              [IsAntisymm (Nat × Nat) le] [IsTrans (Nat × Nat) le],
            r1.ev_candidates.insertionSort le = r2.ev_candidates.insertionSort le ∧
            r1.ee_candidates.insertionSort le = r2.ee_candidates.insertionSort le ∧
            r1.fv_candidates.insertionSort le = r2.fv_candidates.insertionSort le)) ∧
    sh.queryMeshForCandidatesSwept ext V0 V1 E F candidates radius queryEV queryEE queryFV =
      sh.queryMeshForCandidatesSweptPar ext V0 V1 E F candidates radius queryEV queryEE queryFV
        [0] [⟨0, 0, V0.length⟩] [⟨0, 0, E.length⟩] [⟨0, 0, V0.length⟩] ∧
    sh.queryMeshForCandidates ext V0 E F candidates radius queryEV queryEE queryFV =
      sh.queryMeshForCandidatesPar ext V0 E F candidates radius queryEV queryEE queryFV
        [0] [⟨0, 0, V0.length⟩] [⟨0, 0, E.length⟩] [⟨0, 0, V0.length⟩] := by
  refine ⟨?_, ?_, ?_, ?_⟩
  · intro r1 hr
    unfold SpatialHash.queryMeshForCandidatesSweptPar at hr ⊢
    by_cases hlen : V0.length ≠ V1.length
    · rw [if_pos hlen] at hr
      simp at hr
    · rw [if_neg hlen] at hr ⊢
      obtain ⟨r2, hr2, pev, pee, pfv⟩ := threePasses_perm _ _ _ _ _ _ _ h1 h2 hr
      exact ⟨r2, hr2, pev, pee, pfv, fun le _ _ _ _ =>
        ⟨insertionSort_eq_of_perm pev le, insertionSort_eq_of_perm pee le,
          insertionSort_eq_of_perm pfv le⟩⟩
  · intro r1 hr
    unfold SpatialHash.queryMeshForCandidatesPar at hr ⊢
    obtain ⟨r2, hr2, pev, pee, pfv⟩ := threePasses_perm _ _ _ _ _ _ _ h1 h2 hr
    exact ⟨r2, hr2, pev, pee, pfv, fun le _ _ _ _ =>
      ⟨insertionSort_eq_of_perm pev le, insertionSort_eq_of_perm pee le,
        insertionSort_eq_of_perm pfv le⟩⟩
  · unfold SpatialHash.queryMeshForCandidatesSwept SpatialHash.queryMeshForCandidatesSweptPar
    rw [threePasses_single]
  · unfold SpatialHash.queryMeshForCandidates SpatialHash.queryMeshForCandidatesPar
    rw [threePasses_single]

/-- Witness of C24: the pierced triangle (five vertices, four edges) in its swept
index, once with one worker and one chunk per loop, once with two workers, two
chunks per loop run in reverse order, and the buffers merged in reverse order:
the second run returns the edge-vertex pairs in the other order. -/
theorem candidates_agree_up_to_order_witness :
    (IsSchedule pierceV.length [0] [⟨0, 0, 5⟩] ∧ IsSchedule pierceE.length [0] [⟨0, 0, 4⟩] ∧
      IsSchedule pierceV.length [0] [⟨0, 0, 5⟩]) ∧
    (IsSchedule pierceV.length [0, 1] [⟨0, 3, 5⟩, ⟨1, 0, 3⟩] ∧ IsSchedule pierceE.length [0, 1] [⟨1, 2, 4⟩, ⟨0, 0, 2⟩] ∧
      IsSchedule pierceV.length [0, 1] [⟨1, 1, 5⟩, ⟨1, 0, 1⟩]) ∧
    pierceIndex.queryMeshForCandidatesSweptPar (specExternal 0 0) pierceV pierceV pierceE triF
      ⟨[], [], []⟩ (1 / 16) true true true [0] [⟨0, 0, 5⟩] [⟨0, 0, 4⟩] [⟨0, 0, 5⟩]
      = .ok ⟨[(1, 0), (1, 3)], [(1, 3)], [(0, 3)]⟩ ∧
    pierceIndex.queryMeshForCandidatesSweptPar (specExternal 0 0) pierceV pierceV pierceE triF
      ⟨[], [], []⟩ (1 / 16) true true true [0, 1] [⟨0, 3, 5⟩, ⟨1, 0, 3⟩] [⟨1, 2, 4⟩, ⟨0, 0, 2⟩] [⟨1, 1, 5⟩, ⟨1, 0, 1⟩]
      = .ok ⟨[(1, 3), (1, 0)], [(1, 3)], [(0, 3)]⟩ ∧
    ((∀ r1, pierceIndex.queryMeshForCandidatesSweptPar (specExternal 0 0) pierceV pierceV pierceE triF (⟨[], [], []⟩ : Candidates) (1 / 16) true true true
          [0] [⟨0, 0, 5⟩] [⟨0, 0, 4⟩] [⟨0, 0, 5⟩] = .ok r1 →
      ∃ r2, pierceIndex.queryMeshForCandidatesSweptPar (specExternal 0 0) pierceV pierceV pierceE triF (⟨[], [], []⟩ : Candidates) (1 / 16) true true true
            [0, 1] [⟨0, 3, 5⟩, ⟨1, 0, 3⟩] [⟨1, 2, 4⟩, ⟨0, 0, 2⟩] [⟨1, 1, 5⟩, ⟨1, 0, 1⟩] = .ok r2 ∧
        r1.ev_candidates.Perm r2.ev_candidates ∧ r1.ee_candidates.Perm r2.ee_candidates ∧
        r1.fv_candidates.Perm r2.fv_candidates ∧
        (∀ (le : Nat × Nat → Nat × Nat → Prop) [DecidableRel le] [IsTotal (Nat × Nat) le]
              [IsAntisymm (Nat × Nat) le] [IsTrans (Nat × Nat) le],
            r1.ev_candidates.insertionSort le = r2.ev_candidates.insertionSort le ∧
            r1.ee_candidates.insertionSort le = r2.ee_candidates.insertionSort le ∧
            r1.fv_candidates.insertionSort le = r2.fv_candidates.insertionSort le)) ∧
    (∀ r1, pierceIndex.queryMeshForCandidatesPar (specExternal 0 0) pierceV pierceE triF (⟨[], [], []⟩ : Candidates) (1 / 16) true true true
          [0] [⟨0, 0, 5⟩] [⟨0, 0, 4⟩] [⟨0, 0, 5⟩] = .ok r1 →
      ∃ r2, pierceIndex.queryMeshForCandidatesPar (specExternal 0 0) pierceV pierceE triF (⟨[], [], []⟩ : Candidates) (1 / 16) true true true
            [0, 1] [⟨0, 3, 5⟩, ⟨1, 0, 3⟩] [⟨1, 2, 4⟩, ⟨0, 0, 2⟩] [⟨1, 1, 5⟩, ⟨1, 0, 1⟩] = .ok r2 ∧
        r1.ev_candidates.Perm r2.ev_candidates ∧ r1.ee_candidates.Perm r2.ee_candidates ∧
        r1.fv_candidates.Perm r2.fv_candidates ∧
        (∀ (le : Nat × Nat → Nat × Nat → Prop) [DecidableRel le] [IsTotal (Nat × Nat) le]
              [IsAntisymm (Nat × Nat) le] [IsTrans (Nat × Nat) le],
            r1.ev_candidates.insertionSort le = r2.ev_candidates.insertionSort le ∧
            r1.ee_candidates.insertionSort le = r2.ee_candidates.insertionSort le ∧
            r1.fv_candidates.insertionSort le = r2.fv_candidates.insertionSort le)) ∧
    pierceIndex.queryMeshForCandidatesSwept (specExternal 0 0) pierceV pierceV pierceE triF (⟨[], [], []⟩ : Candidates) (1 / 16) true true true =
      pierceIndex.queryMeshForCandidatesSweptPar (specExternal 0 0) pierceV pierceV pierceE triF (⟨[], [], []⟩ : Candidates) (1 / 16) true true true
        [0] [⟨0, 0, pierceV.length⟩] [⟨0, 0, pierceE.length⟩] [⟨0, 0, pierceV.length⟩] ∧
    pierceIndex.queryMeshForCandidates (specExternal 0 0) pierceV pierceE triF (⟨[], [], []⟩ : Candidates) (1 / 16) true true true =
      pierceIndex.queryMeshForCandidatesPar (specExternal 0 0) pierceV pierceE triF (⟨[], [], []⟩ : Candidates) (1 / 16) true true true
        [0] [⟨0, 0, pierceV.length⟩] [⟨0, 0, pierceE.length⟩] [⟨0, 0, pierceV.length⟩]) :=
  ⟨by decide, by decide, by decide!, by decide!,
    candidates_agree_up_to_order pierceIndex (specExternal 0 0) pierceV pierceV pierceE triF
      ⟨[], [], []⟩ (1 / 16) true true true [0] [0, 1] [⟨0, 0, 5⟩] [⟨0, 0, 4⟩] [⟨0, 0, 5⟩] [⟨0, 3, 5⟩, ⟨1, 0, 3⟩] [⟨1, 2, 4⟩, ⟨0, 0, 2⟩] [⟨1, 1, 5⟩, ⟨1, 0, 1⟩]
      (by decide) (by decide)⟩


/-! ## What the query adds to its output -/

theorem threePasses_appends {evRow eeRow fvRow : Nat → Except Err (List (Nat × Nat))}
    {candidates : Candidates} {queryEV queryEE queryFV : Bool} {workers : List Nat}
    {evChunks eeChunks fvChunks : List Chunk} {res : Candidates}
    (h : threePasses evRow eeRow fvRow candidates queryEV queryEE queryFV workers
      evChunks eeChunks fvChunks = .ok res) :
    ∃ ev ee fv, res = ⟨candidates.ev_candidates ++ ev, candidates.ee_candidates ++ ee,
        candidates.fv_candidates ++ fv⟩ ∧
      (queryEV = false → ev = []) ∧ (queryEE = false → ee = []) ∧
      (queryFV = false → fv = []) := by
  have hnil : ∀ ws : List Nat, ws.flatMap (localBuffer []) = [] := by
    intro ws
    simp [localBuffer]
  unfold threePasses at h
  cases hev : (if queryEV then parallelFor evRow evChunks else .ok []) with
  | error e => simp [hev] at h
  | ok ev =>
    cases hee : (if queryEE then parallelFor eeRow eeChunks else .ok []) with
    | error e => simp [hev, hee] at h
    | ok ee =>
      cases hfv : (if queryFV then parallelFor fvRow fvChunks else .ok []) with
      | error e => simp [hev, hee, hfv] at h
      | ok fv =>
        simp only [hev, hee, hfv, Except.ok.injEq] at h
        subst h
        refine ⟨workers.flatMap (localBuffer ev), workers.flatMap (localBuffer ee),
          workers.flatMap (localBuffer fv), ?_, ?_, ?_, ?_⟩
        · rw [merge_local_candidates_eq, localStorages_ev, localStorages_ee,
            localStorages_fv]
        · intro hq
          rw [hq] at hev
          simp only [Bool.false_eq_true, if_false, Except.ok.injEq] at hev
          rw [← hev, hnil]
        · intro hq
          rw [hq] at hee
          simp only [Bool.false_eq_true, if_false, Except.ok.injEq] at hee
          rw [← hee, hnil]
        · intro hq
          rw [hq] at hfv
          simp only [Bool.false_eq_true, if_false, Except.ok.injEq] at hfv
          rw [← hfv, hnil]

namespace SpatialHash

theorem queryMeshForCandidates_eq_par (sh : SpatialHash) (ext : External) (V : List Vec3)
    (E : List (Nat × Nat)) (F : List (Nat × Nat × Nat)) (candidates : Candidates)
    (radius : ℚ) (queryEV queryEE queryFV : Bool) :
    sh.queryMeshForCandidates ext V E F candidates radius queryEV queryEE queryFV =
      sh.queryMeshForCandidatesPar ext V E F candidates radius queryEV queryEE queryFV
        [0] [⟨0, 0, V.length⟩] [⟨0, 0, E.length⟩] [⟨0, 0, V.length⟩] := by
  unfold queryMeshForCandidates queryMeshForCandidatesPar
  rw [threePasses_single]

theorem queryMeshForCandidatesSwept_eq_par (sh : SpatialHash) (ext : External)
    (V0 V1 : List Vec3) (E : List (Nat × Nat)) (F : List (Nat × Nat × Nat))
    (candidates : Candidates) (radius : ℚ) (queryEV queryEE queryFV : Bool) :
    sh.queryMeshForCandidatesSwept ext V0 V1 E F candidates radius queryEV queryEE queryFV =
      sh.queryMeshForCandidatesSweptPar ext V0 V1 E F candidates radius queryEV queryEE
        queryFV [0] [⟨0, 0, V0.length⟩] [⟨0, 0, E.length⟩] [⟨0, 0, V0.length⟩] := by
  unfold queryMeshForCandidatesSwept queryMeshForCandidatesSweptPar
  rw [threePasses_single]

theorem queryMeshForCandidatesPar_appends {sh : SpatialHash} {ext : External}
    {V : List Vec3} {E : List (Nat × Nat)} {F : List (Nat × Nat × Nat)}
    {candidates : Candidates} {radius : ℚ} {queryEV queryEE queryFV : Bool}
    {workers : List Nat} {evChunks eeChunks fvChunks : List Chunk} {res : Candidates}
    (h : sh.queryMeshForCandidatesPar ext V E F candidates radius queryEV queryEE queryFV
      workers evChunks eeChunks fvChunks = .ok res) :
    ∃ ev ee fv, res = ⟨candidates.ev_candidates ++ ev, candidates.ee_candidates ++ ee,
        candidates.fv_candidates ++ fv⟩ ∧
      (queryEV = false → ev = []) ∧ (queryEE = false → ee = []) ∧
      (queryFV = false → fv = []) :=
  threePasses_appends h

theorem queryMeshForCandidatesSweptPar_appends {sh : SpatialHash} {ext : External}
    {V0 V1 : List Vec3} {E : List (Nat × Nat)} {F : List (Nat × Nat × Nat)}
    {candidates : Candidates} {radius : ℚ} {queryEV queryEE queryFV : Bool}
    {workers : List Nat} {evChunks eeChunks fvChunks : List Chunk} {res : Candidates}
    (h : sh.queryMeshForCandidatesSweptPar ext V0 V1 E F candidates radius queryEV queryEE
      queryFV workers evChunks eeChunks fvChunks = .ok res) :
    ∃ ev ee fv, res = ⟨candidates.ev_candidates ++ ev, candidates.ee_candidates ++ ee,
        candidates.fv_candidates ++ fv⟩ ∧
      (queryEV = false → ev = []) ∧ (queryEE = false → ee = []) ∧
      (queryFV = false → fv = []) := by
  unfold queryMeshForCandidatesSweptPar at h
  by_cases hlen : V0.length ≠ V1.length
  · rw [if_pos hlen] at h
    simp at h
  · rw [if_neg hlen] at h
    exact threePasses_appends h

end SpatialHash

/-- C25. The merge loses and invents nothing: `merge_local_candidates` makes each
output list its previous content followed by the concatenation, in buffer order,
of the corresponding per-worker lists, so each new length is the old length plus
the sum of the buffers' lengths; and `queryMeshForCandidates` (static or swept,
sequential or under any schedule of its parallel loops), when it returns, returns
each list of the `Candidates` it was given followed by the pairs it found. -/
theorem merge_loses_nothing (storages : List Candidates) (sh : SpatialHash)
    (ext : External) (V0 V1 : List Vec3) (E : List (Nat × Nat))
    (F : List (Nat × Nat × Nat)) (candidates : Candidates) (radius : ℚ)
    (queryEV queryEE queryFV : Bool) (workers : List Nat)
    (evChunks eeChunks fvChunks : List Chunk) :
    merge_local_candidates storages candidates =
      ⟨candidates.ev_candidates ++ storages.flatMap (fun l => l.ev_candidates),
        candidates.ee_candidates ++ storages.flatMap (fun l => l.ee_candidates),
        candidates.fv_candidates ++ storages.flatMap (fun l => l.fv_candidates)⟩ ∧
    ((merge_local_candidates storages candidates).ev_candidates.length =
        candidates.ev_candidates.length +
          (storages.map (fun l => l.ev_candidates.length)).sum ∧
      (merge_local_candidates storages candidates).ee_candidates.length =
        candidates.ee_candidates.length +
          (storages.map (fun l => l.ee_candidates.length)).sum ∧
      (merge_local_candidates storages candidates).fv_candidates.length =
        candidates.fv_candidates.length +
          (storages.map (fun l => l.fv_candidates.length)).sum) ∧
    (∀ res, sh.queryMeshForCandidates ext V0 E F candidates radius queryEV queryEE queryFV = .ok res →
      ∃ ev ee fv, res = ⟨candidates.ev_candidates ++ ev, candidates.ee_candidates ++ ee,
        candidates.fv_candidates ++ fv⟩) ∧
    (∀ res, sh.queryMeshForCandidatesSwept ext V0 V1 E F candidates radius queryEV queryEE queryFV = .ok res →
      ∃ ev ee fv, res = ⟨candidates.ev_candidates ++ ev, candidates.ee_candidates ++ ee,
        candidates.fv_candidates ++ fv⟩) ∧
    (∀ res, sh.queryMeshForCandidatesPar ext V0 E F candidates radius queryEV queryEE queryFV
          workers evChunks eeChunks fvChunks = .ok res →
      ∃ ev ee fv, res = ⟨candidates.ev_candidates ++ ev, candidates.ee_candidates ++ ee,
        candidates.fv_candidates ++ fv⟩) ∧
    (∀ res, sh.queryMeshForCandidatesSweptPar ext V0 V1 E F candidates radius queryEV queryEE queryFV
          workers evChunks eeChunks fvChunks = .ok res →
      ∃ ev ee fv, res = ⟨candidates.ev_candidates ++ ev, candidates.ee_candidates ++ ee,
        candidates.fv_candidates ++ fv⟩) := by
  refine ⟨merge_local_candidates_eq storages candidates, ?_, ?_, ?_, ?_, ?_⟩
  · rw [merge_local_candidates_eq]
    simp only [List.length_append, List.length_flatMap]
    exact ⟨rfl, rfl, rfl⟩
  · intro res h
    rw [sh.queryMeshForCandidates_eq_par] at h
    obtain ⟨ev, ee, fv, hres, _⟩ := SpatialHash.queryMeshForCandidatesPar_appends h
    exact ⟨ev, ee, fv, hres⟩
  · intro res h
    rw [sh.queryMeshForCandidatesSwept_eq_par] at h
    obtain ⟨ev, ee, fv, hres, _⟩ := SpatialHash.queryMeshForCandidatesSweptPar_appends h
    exact ⟨ev, ee, fv, hres⟩
  · intro res h
    obtain ⟨ev, ee, fv, hres, _⟩ := SpatialHash.queryMeshForCandidatesPar_appends h
    exact ⟨ev, ee, fv, hres⟩
  · intro res h
    obtain ⟨ev, ee, fv, hres, _⟩ := SpatialHash.queryMeshForCandidatesSweptPar_appends h
    exact ⟨ev, ee, fv, hres⟩

/-- Witness of C25: the queries on the pierced triangle, called with non-empty
`Candidates`, return them extended. -/
theorem merge_loses_nothing_witness :
    pierceIndex.queryMeshForCandidatesSwept (specExternal 0 0) pierceV pierceV pierceE triF
      ⟨[(7, 7)], [(8, 8)], [(9, 9)]⟩ (1 / 16) true false true
      = .ok ⟨[(7, 7), (1, 0), (1, 3)], [(8, 8)], [(9, 9), (0, 3)]⟩ ∧
    pierceIndex.queryMeshForCandidates (specExternal 0 0) pierceV pierceE triF
      ⟨[(7, 7)], [(8, 8)], [(9, 9)]⟩ (1 / 16) true false true
      = .ok ⟨[(7, 7), (0, 0), (2, 0), (1, 1), (3, 3)], [(8, 8)], [(9, 9), (0, 0)]⟩ ∧
    ((∀ res, pierceIndex.queryMeshForCandidates (specExternal 0 0) pierceV pierceE triF (⟨[(7, 7)], [(8, 8)], [(9, 9)]⟩ : Candidates) (1 / 16) true false true = .ok res →
      ∃ ev ee fv, res = ⟨(⟨[(7, 7)], [(8, 8)], [(9, 9)]⟩ : Candidates).ev_candidates ++ ev, (⟨[(7, 7)], [(8, 8)], [(9, 9)]⟩ : Candidates).ee_candidates ++ ee,
        (⟨[(7, 7)], [(8, 8)], [(9, 9)]⟩ : Candidates).fv_candidates ++ fv⟩) ∧
    (∀ res, pierceIndex.queryMeshForCandidatesSwept (specExternal 0 0) pierceV pierceV pierceE triF (⟨[(7, 7)], [(8, 8)], [(9, 9)]⟩ : Candidates) (1 / 16) true false true = .ok res →
      ∃ ev ee fv, res = ⟨(⟨[(7, 7)], [(8, 8)], [(9, 9)]⟩ : Candidates).ev_candidates ++ ev, (⟨[(7, 7)], [(8, 8)], [(9, 9)]⟩ : Candidates).ee_candidates ++ ee,
        (⟨[(7, 7)], [(8, 8)], [(9, 9)]⟩ : Candidates).fv_candidates ++ fv⟩) ∧
    (∀ res, pierceIndex.queryMeshForCandidatesPar (specExternal 0 0) pierceV pierceE triF (⟨[(7, 7)], [(8, 8)], [(9, 9)]⟩ : Candidates) (1 / 16) true false true
          [0, 1] [⟨0, 3, 5⟩, ⟨1, 0, 3⟩] [⟨1, 2, 4⟩, ⟨0, 0, 2⟩] [⟨1, 1, 5⟩, ⟨1, 0, 1⟩] = .ok res →
      ∃ ev ee fv, res = ⟨(⟨[(7, 7)], [(8, 8)], [(9, 9)]⟩ : Candidates).ev_candidates ++ ev, (⟨[(7, 7)], [(8, 8)], [(9, 9)]⟩ : Candidates).ee_candidates ++ ee,
        (⟨[(7, 7)], [(8, 8)], [(9, 9)]⟩ : Candidates).fv_candidates ++ fv⟩) ∧
    (∀ res, pierceIndex.queryMeshForCandidatesSweptPar (specExternal 0 0) pierceV pierceV pierceE triF (⟨[(7, 7)], [(8, 8)], [(9, 9)]⟩ : Candidates) (1 / 16) true false true
          [0, 1] [⟨0, 3, 5⟩, ⟨1, 0, 3⟩] [⟨1, 2, 4⟩, ⟨0, 0, 2⟩] [⟨1, 1, 5⟩, ⟨1, 0, 1⟩] = .ok res →
      ∃ ev ee fv, res = ⟨(⟨[(7, 7)], [(8, 8)], [(9, 9)]⟩ : Candidates).ev_candidates ++ ev, (⟨[(7, 7)], [(8, 8)], [(9, 9)]⟩ : Candidates).ee_candidates ++ ee,
        (⟨[(7, 7)], [(8, 8)], [(9, 9)]⟩ : Candidates).fv_candidates ++ fv⟩)) :=
  ⟨by decide!, by decide!,
    (merge_loses_nothing [] pierceIndex (specExternal 0 0) pierceV pierceV pierceE triF
      ⟨[(7, 7)], [(8, 8)], [(9, 9)]⟩ (1 / 16) true false true [0, 1] [⟨0, 3, 5⟩, ⟨1, 0, 3⟩] [⟨1, 2, 4⟩, ⟨0, 0, 2⟩] [⟨1, 1, 5⟩, ⟨1, 0, 1⟩]).2.2⟩

/-- C27. A disabled category yields nothing: when `queryMeshForCandidates`
(static or swept, sequential or under any schedule) returns, the list of every
category whose flag is off is the list it was given, for every index, mesh,
radius, external predicate and prior content. -/
theorem disabled_category_adds_nothing (sh : SpatialHash) (ext : External)
    (V0 V1 : List Vec3) (E : List (Nat × Nat)) (F : List (Nat × Nat × Nat))
    (candidates : Candidates) (radius : ℚ) (queryEV queryEE queryFV : Bool)
    (workers : List Nat) (evChunks eeChunks fvChunks : List Chunk) :
    (∀ res, sh.queryMeshForCandidates ext V0 E F candidates radius queryEV queryEE queryFV = .ok res →
      (queryEV = false → res.ev_candidates = candidates.ev_candidates) ∧
      (queryEE = false → res.ee_candidates = candidates.ee_candidates) ∧
      (queryFV = false → res.fv_candidates = candidates.fv_candidates)) ∧
    (∀ res, sh.queryMeshForCandidatesSwept ext V0 V1 E F candidates radius queryEV queryEE queryFV = .ok res →
      (queryEV = false → res.ev_candidates = candidates.ev_candidates) ∧
      (queryEE = false → res.ee_candidates = candidates.ee_candidates) ∧
      (queryFV = false → res.fv_candidates = candidates.fv_candidates)) ∧
    (∀ res, sh.queryMeshForCandidatesPar ext V0 E F candidates radius queryEV queryEE queryFV
          workers evChunks eeChunks fvChunks = .ok res →
      (queryEV = false → res.ev_candidates = candidates.ev_candidates) ∧
      (queryEE = false → res.ee_candidates = candidates.ee_candidates) ∧
      (queryFV = false → res.fv_candidates = candidates.fv_candidates)) ∧
    (∀ res, sh.queryMeshForCandidatesSweptPar ext V0 V1 E F candidates radius queryEV queryEE queryFV
          workers evChunks eeChunks fvChunks = .ok res →
      (queryEV = false → res.ev_candidates = candidates.ev_candidates) ∧
      (queryEE = false → res.ee_candidates = candidates.ee_candidates) ∧
      (queryFV = false → res.fv_candidates = candidates.fv_candidates)) := by
  have key : ∀ (res : Candidates),
      (∃ ev ee fv, res = ⟨candidates.ev_candidates ++ ev, candidates.ee_candidates ++ ee,
          candidates.fv_candidates ++ fv⟩ ∧
        (queryEV = false → ev = []) ∧ (queryEE = false → ee = []) ∧
        (queryFV = false → fv = [])) →
      (queryEV = false → res.ev_candidates = candidates.ev_candidates) ∧
      (queryEE = false → res.ee_candidates = candidates.ee_candidates) ∧
      (queryFV = false → res.fv_candidates = candidates.fv_candidates) := by
    rintro res ⟨ev, ee, fv, hres, h1, h2, h3⟩
    subst hres
    refine ⟨fun hq => ?_, fun hq => ?_, fun hq => ?_⟩
    · simp [h1 hq]
    · simp [h2 hq]
    · simp [h3 hq]
  refine ⟨?_, ?_, ?_, ?_⟩
  · intro res h
    rw [sh.queryMeshForCandidates_eq_par] at h
    exact key res (SpatialHash.queryMeshForCandidatesPar_appends h)
  · intro res h
    rw [sh.queryMeshForCandidatesSwept_eq_par] at h
    exact key res (SpatialHash.queryMeshForCandidatesSweptPar_appends h)
  · intro res h
    exact key res (SpatialHash.queryMeshForCandidatesPar_appends h)
  · intro res h
    exact key res (SpatialHash.queryMeshForCandidatesSweptPar_appends h)

/-- Witness of C27: the repository's test asks for edge-edge and face-vertex
pairs only; on its two crossing segments the swept pipeline then returns no
edge-vertex pair, and on the pierced triangle, where the edge-vertex pass would
find two pairs, the given edge-vertex list comes back unchanged. -/
theorem disabled_category_adds_nothing_witness :
    sweptPipeline (specExternal 0 0) twoSegV crossV1 twoSegE [] (3 / 2) 0 false true true
      = .ok ⟨[], [(0, 1)], []⟩ ∧
    pierceIndex.queryMeshForCandidatesSwept (specExternal 0 0) pierceV pierceV pierceE triF
      ⟨[(7, 7)], [(8, 8)], [(9, 9)]⟩ (1 / 16) false true true
      = .ok ⟨[(7, 7)], [(8, 8), (1, 3)], [(9, 9), (0, 3)]⟩ ∧
    ((∀ res, pierceIndex.queryMeshForCandidates (specExternal 0 0) pierceV pierceE triF (⟨[(7, 7)], [(8, 8)], [(9, 9)]⟩ : Candidates) (1 / 16) false true true = .ok res →
      (false = false → res.ev_candidates = (⟨[(7, 7)], [(8, 8)], [(9, 9)]⟩ : Candidates).ev_candidates) ∧
      (true = false → res.ee_candidates = (⟨[(7, 7)], [(8, 8)], [(9, 9)]⟩ : Candidates).ee_candidates) ∧
      (true = false → res.fv_candidates = (⟨[(7, 7)], [(8, 8)], [(9, 9)]⟩ : Candidates).fv_candidates)) ∧
    (∀ res, pierceIndex.queryMeshForCandidatesSwept (specExternal 0 0) pierceV pierceV pierceE triF (⟨[(7, 7)], [(8, 8)], [(9, 9)]⟩ : Candidates) (1 / 16) false true true = .ok res →
      (false = false → res.ev_candidates = (⟨[(7, 7)], [(8, 8)], [(9, 9)]⟩ : Candidates).ev_candidates) ∧
      (true = false → res.ee_candidates = (⟨[(7, 7)], [(8, 8)], [(9, 9)]⟩ : Candidates).ee_candidates) ∧
      (true = false → res.fv_candidates = (⟨[(7, 7)], [(8, 8)], [(9, 9)]⟩ : Candidates).fv_candidates)) ∧
    (∀ res, pierceIndex.queryMeshForCandidatesPar (specExternal 0 0) pierceV pierceE triF (⟨[(7, 7)], [(8, 8)], [(9, 9)]⟩ : Candidates) (1 / 16) false true true
          [0, 1] [⟨0, 3, 5⟩, ⟨1, 0, 3⟩] [⟨1, 2, 4⟩, ⟨0, 0, 2⟩] [⟨1, 1, 5⟩, ⟨1, 0, 1⟩] = .ok res →
      (false = false → res.ev_candidates = (⟨[(7, 7)], [(8, 8)], [(9, 9)]⟩ : Candidates).ev_candidates) ∧
      (true = false → res.ee_candidates = (⟨[(7, 7)], [(8, 8)], [(9, 9)]⟩ : Candidates).ee_candidates) ∧
      (true = false → res.fv_candidates = (⟨[(7, 7)], [(8, 8)], [(9, 9)]⟩ : Candidates).fv_candidates)) ∧
    (∀ res, pierceIndex.queryMeshForCandidatesSweptPar (specExternal 0 0) pierceV pierceV pierceE triF (⟨[(7, 7)], [(8, 8)], [(9, 9)]⟩ : Candidates) (1 / 16) false true true
          [0, 1] [⟨0, 3, 5⟩, ⟨1, 0, 3⟩] [⟨1, 2, 4⟩, ⟨0, 0, 2⟩] [⟨1, 1, 5⟩, ⟨1, 0, 1⟩] = .ok res →
      (false = false → res.ev_candidates = (⟨[(7, 7)], [(8, 8)], [(9, 9)]⟩ : Candidates).ev_candidates) ∧
      (true = false → res.ee_candidates = (⟨[(7, 7)], [(8, 8)], [(9, 9)]⟩ : Candidates).ee_candidates) ∧
      (true = false → res.fv_candidates = (⟨[(7, 7)], [(8, 8)], [(9, 9)]⟩ : Candidates).fv_candidates))) :=
  ⟨by decide!, by decide!,
    disabled_category_adds_nothing pierceIndex (specExternal 0 0) pierceV pierceV pierceE
      triF ⟨[(7, 7)], [(8, 8)], [(9, 9)]⟩ (1 / 16) false true true [0, 1] [⟨0, 3, 5⟩, ⟨1, 0, 3⟩] [⟨1, 2, 4⟩, ⟨0, 0, 2⟩] [⟨1, 1, 5⟩, ⟨1, 0, 1⟩]⟩


/-! ## The overlap test -/

/-- C28. AABB overlap is the closed interval test: `intersects(A, B)` holds iff on
every axis `A.min ≤ B.max` and `B.min ≤ A.max`, so boxes that only touch
overlap; the cases of the repository's 2D test come out as the test expects
(`[-1,0]×[0,1]` overlaps `[-1/2,1/2]×[0,1]` and not `[1/2,3/2]×[0,1]`, in both
argument orders, and likewise along `y`); and the inline box tests of both
`queryEdgeForEdgesWithBBoxCheck` overloads,
`!((b.min - a.max > 0).any() || (a.min - b.max > 0).any())`, compute exactly
this predicate on the box of the candidate edge and the box of the query. -/
theorem aabb_overlap_is_closed_test :
    (∀ A B : AABB, A.intersects B = true ↔
      (A.min.x ≤ B.max.x ∧ B.min.x ≤ A.max.x) ∧ (A.min.y ≤ B.max.y ∧ B.min.y ≤ A.max.y) ∧
        (A.min.z ≤ B.max.z ∧ B.min.z ≤ A.max.z)) ∧
    (∀ p q r : Vec3, (AABB.mk p q).intersects (AABB.mk q r) = true ↔
      (p.x ≤ r.x ∧ p.y ≤ r.y ∧ p.z ≤ r.z)) ∧
    ((box2 (-1) 0 0 1).intersects (box2 (-1 / 2) 0 (1 / 2) 1) = true ∧
      (box2 (-1) 0 0 1).intersects (box2 (1 / 2) 0 (3 / 2) 1) = false ∧
      (box2 (-1 / 2) 0 (1 / 2) 1).intersects (box2 (-1) 0 0 1) = true ∧
      (box2 (1 / 2) 0 (3 / 2) 1).intersects (box2 (-1) 0 0 1) = false ∧
      (box2 0 (-1) 1 0).intersects (box2 0 (-1 / 2) 1 (1 / 2)) = true ∧
      (box2 0 (-1) 1 0).intersects (box2 0 (1 / 2) 1 (3 / 2)) = false ∧
      (box2 (-1) 0 0 1).intersects (box2 0 0 1 1) = true) ∧
    (∀ bboxEBBottomLeft bboxEBTopRight leftBottom rightTop : Vec3,
      decide (¬ ((bboxEBBottomLeft.sub rightTop).anyPos ∨
          (leftBottom.sub bboxEBTopRight).anyPos)) =
        (AABB.mk bboxEBBottomLeft bboxEBTopRight).intersects (AABB.mk leftBottom rightTop)) ∧
    (∀ (V : List Vec3) (E : List (Nat × Nat)) (leftBottom rightTop : Vec3) (ebi : Nat),
      SpatialHash.bboxCheckStatic V E leftBottom rightTop ebi = .ok true ↔
        ∃ eb eb0 eb1, E[ebi]? = some eb ∧ V[eb.1]? = some eb0 ∧ V[eb.2]? = some eb1 ∧
          (AABB.mk (eb0.cmin eb1) (eb0.cmax eb1)).intersects (AABB.mk leftBottom rightTop)
            = true) ∧
    (∀ (V0 V1 : List Vec3) (E : List (Nat × Nat)) (bboxEABottomLeft bboxEATopRight : Vec3)
        (ebi : Nat),
      SpatialHash.bboxCheckSwept V0 V1 E bboxEABottomLeft bboxEATopRight ebi = .ok true ↔
        ∃ eb eb0_t0 eb1_t0 eb0_t1 eb1_t1, E[ebi]? = some eb ∧
          V0[eb.1]? = some eb0_t0 ∧ V0[eb.2]? = some eb1_t0 ∧
          V1[eb.1]? = some eb0_t1 ∧ V1[eb.2]? = some eb1_t1 ∧
          (AABB.mk (((eb0_t0.cmin eb1_t0).cmin eb0_t1).cmin eb1_t1)
            (((eb0_t0.cmax eb1_t0).cmax eb0_t1).cmax eb1_t1)).intersects
            (AABB.mk bboxEABottomLeft bboxEATopRight) = true) := by
  refine ⟨?_, ?_, ?_, ?_, ?_, ?_⟩
  · intro A B
    unfold AABB.intersects
    rw [decide_eq_true_iff]
  · intro p q r
    unfold AABB.intersects
    rw [decide_eq_true_iff]
    constructor
    · rintro ⟨⟨h1, _⟩, ⟨h2, _⟩, h3, _⟩
      exact ⟨h1, h2, h3⟩
    · rintro ⟨h1, h2, h3⟩
      exact ⟨⟨h1, le_refl _⟩, ⟨h2, le_refl _⟩, h3, le_refl _⟩
  · refine ⟨by decide!, by decide!, by decide!, by decide!, by decide!, by decide!,
      by decide!⟩
  · intro b0 b1 a0 a1
    exact SpatialHash.not_anyPos_iff_intersects b0 b1 a0 a1
  · intro V E lb rt ebi
    exact SpatialHash.bboxCheckStatic_true_iff V E lb rt ebi
  · intro V0 V1 E lb rt ebi
    exact SpatialHash.bboxCheckSwept_true_iff V0 V1 E lb rt ebi

/-- C29. AABB overlap is symmetric and reflexive: `intersects(A, B) =
intersects(B, A)` for all boxes, and `intersects(A, A)` is true for every box
with `min ≤ max` on every axis; the same holds of the inline test of
`queryEdgeForEdgesWithBBoxCheck`. -/
theorem aabb_overlap_symm_refl (A B : AABB) :
    A.intersects B = B.intersects A ∧
    (A.min.x ≤ A.max.x ∧ A.min.y ≤ A.max.y ∧ A.min.z ≤ A.max.z →
      A.intersects A = true) ∧
    decide (¬ ((A.min.sub B.max).anyPos ∨ (B.min.sub A.max).anyPos)) =
      decide (¬ ((B.min.sub A.max).anyPos ∨ (A.min.sub B.max).anyPos)) ∧
    (A.min.x ≤ A.max.x ∧ A.min.y ≤ A.max.y ∧ A.min.z ≤ A.max.z →
      decide (¬ ((A.min.sub A.max).anyPos ∨ (A.min.sub A.max).anyPos)) = true) := by
  have hsymm : A.intersects B = B.intersects A := by
    unfold AABB.intersects
    rw [decide_eq_decide]
    constructor
    · rintro ⟨⟨h1, h2⟩, ⟨h3, h4⟩, h5, h6⟩
      exact ⟨⟨h2, h1⟩, ⟨h4, h3⟩, h6, h5⟩
    · rintro ⟨⟨h1, h2⟩, ⟨h3, h4⟩, h5, h6⟩
      exact ⟨⟨h2, h1⟩, ⟨h4, h3⟩, h6, h5⟩
  have hrefl : A.min.x ≤ A.max.x ∧ A.min.y ≤ A.max.y ∧ A.min.z ≤ A.max.z →
      A.intersects A = true := by
    rintro ⟨h1, h2, h3⟩
    unfold AABB.intersects
    rw [decide_eq_true_iff]
    exact ⟨⟨h1, h1⟩, ⟨h2, h2⟩, h3, h3⟩
  refine ⟨hsymm, hrefl, ?_, ?_⟩
  · rw [SpatialHash.not_anyPos_iff_intersects, SpatialHash.not_anyPos_iff_intersects]
    exact hsymm
  · intro h
    rw [SpatialHash.not_anyPos_iff_intersects]
    exact hrefl h

/-- Witness of C29: the box `[-1, 0] × [0, 1]` of the repository's test and one
of its partners. -/
theorem aabb_overlap_symm_refl_witness :
    ((box2 (-1) 0 0 1).min.x ≤ (box2 (-1) 0 0 1).max.x ∧
      (box2 (-1) 0 0 1).min.y ≤ (box2 (-1) 0 0 1).max.y ∧
      (box2 (-1) 0 0 1).min.z ≤ (box2 (-1) 0 0 1).max.z) ∧
    (box2 (-1) 0 0 1).intersects (box2 (-1) 0 0 1) = true ∧
    (box2 (-1) 0 0 1).intersects (box2 (-1 / 2) 0 (1 / 2) 1) =
      (box2 (-1 / 2) 0 (1 / 2) 1).intersects (box2 (-1) 0 0 1) :=
  ⟨by decide!,
    (aabb_overlap_symm_refl (box2 (-1) 0 0 1) (box2 (-1 / 2) 0 (1 / 2) 1)).2.1 (by decide!),
    (aabb_overlap_symm_refl (box2 (-1) 0 0 1) (box2 (-1 / 2) 0 (1 / 2) 1)).1⟩


/-! ## Auto-sizing -/

theorem build_gridRule {ext : External} {V : List Vec3} {E : List (Nat × Nat)}
    {F : List (Nat × Nat × Nat)} {voxelSize : ℚ} {sh : SpatialHash}
    (h : build ext V E F voxelSize = .ok sh) :
    GridRule sh (if voxelSize ≤ 0 then suggestGoodVoxelSize ext V E F 0 else voxelSize) := by
  obtain ⟨lb, rt, g, voxel0, le, lf, _, _, hg, _, _, _, hsh⟩ := build_ok h
  obtain ⟨_, _, _, _, _, _, _, hrule, _⟩ := sizeGrid_ok hg
  subst hsh
  exact hrule

theorem buildSwept_gridRule {ext : External} {V0 V1 : List Vec3} {E : List (Nat × Nat)}
    {F : List (Nat × Nat × Nat)} {voxelSize : ℚ} {sh : SpatialHash}
    (h : buildSwept ext V0 V1 E F voxelSize = .ok sh) :
    GridRule sh
      (if voxelSize ≤ 0 then suggestGoodVoxelSizeSwept ext V0 V1 E F 0 else voxelSize) := by
  obtain ⟨min0, min1, max0, max1, g, oe, lf, _, _, _, _, _, hg, _, _, hsh⟩ := buildSwept_ok h
  obtain ⟨_, _, _, _, _, _, _, hrule, _⟩ := sizeGrid_ok hg
  subst hsh
  exact hrule

/-! ## Completeness of the index-keyed queries at radius 0 -/

/-- The occupancy list the swept build stores for a vertex. -/
theorem buildSwept_vertex_occupancy {ext : External} {V0 V1 : List Vec3}
    {E : List (Nat × Nat)} {F : List (Nat × Nat × Nat)} {voxelSize : ℚ} {sh : SpatialHash}
    (h : buildSwept ext V0 V1 E F voxelSize = .ok sh) {i : Nat} {p0 p1 : Vec3}
    (h0 : V0[i]? = some p0) (h1 : V1[i]? = some p1) :
    sh.pointAndEdgeOccupancy[i]? = some (cellLoop sh.voxelCount sh.voxelCount0x1
      (sh.locateVoxelAxisIndex (p0.cmin p1)) (sh.locateVoxelAxisIndex (p0.cmax p1))) := by
  obtain ⟨oe, lf, hlen, _, _, _, hpos, _, _, hocc, _⟩ := buildSwept_shape h
  have hv : 0 ≤ sh.one_div_voxelSize := le_of_lt hpos
  have hi : i < V0.length := (List.getElem?_eq_some.mp h0).1
  have hzl : (List.zipWith
      (fun mins maxs => cellLoop sh.voxelCount sh.voxelCount0x1 mins maxs)
      (vertexMinVAI sh V0 V1) (vertexMaxVAI sh V0 V1)).length = V0.length := by
    rw [List.length_zipWith, length_vertexMinVAI sh V0 V1 hlen,
      length_vertexMaxVAI sh V0 V1 hlen]
    simp
  rw [hocc, List.getElem?_append_left (by omega), List.getElem?_zipWith_eq_some]
  exact ⟨_, _, getElem?_vertexMinVAI sh hv h0 h1, getElem?_vertexMaxVAI sh hv h0 h1, rfl⟩

/-- The occupancy list the swept build stores for an edge. -/
theorem buildSwept_edge_occupancy {ext : External} {V0 V1 : List Vec3}
    {E : List (Nat × Nat)} {F : List (Nat × Nat × Nat)} {voxelSize : ℚ} {sh : SpatialHash}
    (h : buildSwept ext V0 V1 E F voxelSize = .ok sh) {j : Nat} {e : Nat × Nat}
    {a0 a1 b0 b1 : Vec3} (hj : E[j]? = some e)
    (ha0 : V0[e.1]? = some a0) (ha1 : V0[e.2]? = some a1)
    (hb0 : V1[e.1]? = some b0) (hb1 : V1[e.2]? = some b1) :
    sh.pointAndEdgeOccupancy[V0.length + j]? = some (cellLoop sh.voxelCount sh.voxelCount0x1
      (sh.locateVoxelAxisIndex ((a0.cmin b0).cmin (a1.cmin b1)))
      (sh.locateVoxelAxisIndex ((a0.cmax b0).cmax (a1.cmax b1)))) := by
  obtain ⟨oe, lf, hlen, _, _, _, hpos, hoe, _, hocc, _⟩ := buildSwept_shape h
  have hv : 0 ≤ sh.one_div_voxelSize := le_of_lt hpos
  have hzl : (List.zipWith
      (fun mins maxs => cellLoop sh.voxelCount sh.voxelCount0x1 mins maxs)
      (vertexMinVAI sh V0 V1) (vertexMaxVAI sh V0 V1)).length = V0.length := by
    rw [List.length_zipWith, length_vertexMinVAI sh V0 V1 hlen,
      length_vertexMaxVAI sh V0 V1 hlen]
    simp
  rw [hocc, List.getElem?_append_right (by omega), hzl, Nat.add_sub_cancel_left,
    forEachM_getElem hoe]
  exact ⟨e, hj, sweptEdgeCells_eq sh hv ha0 ha1 hb0 hb1⟩

/-- The cell list the swept build computes for a face: the index box of the
swept AABB of the six positions of its vertices. -/
theorem sweptFaceCells_eq (sh : SpatialHash) (hv : 0 ≤ sh.one_div_voxelSize)
    {V0 V1 : List Vec3} {f : Nat × Nat × Nat} {a0 a1 a2 b0 b1 b2 : Vec3}
    (ha0 : V0[f.1]? = some a0) (ha1 : V0[f.2.1]? = some a1) (ha2 : V0[f.2.2]? = some a2)
    (hb0 : V1[f.1]? = some b0) (hb1 : V1[f.2.1]? = some b1) (hb2 : V1[f.2.2]? = some b2) :
    sweptFaceCells sh (vertexMinVAI sh V0 V1) (vertexMaxVAI sh V0 V1) f =
      .ok (cellLoop sh.voxelCount sh.voxelCount0x1
        (sh.locateVoxelAxisIndex (((a0.cmin b0).cmin (a1.cmin b1)).cmin (a2.cmin b2)))
        (sh.locateVoxelAxisIndex (((a0.cmax b0).cmax (a1.cmax b1)).cmax (a2.cmax b2)))) := by
  unfold sweptFaceCells
  rw [getVAI_swept sh hv ha0 hb0, getVAI_swept sh hv ha1 hb1, getVAI_swept sh hv ha2 hb2]
  simp only [locate_cmin sh hv, locate_cmax sh hv]

/-- Two closed intervals that meet share a point, and its cell index lies in the
index range of both. -/
theorem floor_shared (l v alo ahi blo bhi : ℚ) (hv : 0 ≤ v) (ha : alo ≤ ahi)
    (hb : blo ≤ bhi) (h1 : alo ≤ bhi) (h2 : blo ≤ ahi) :
    ∃ i : Int, (⌊(alo - l) * v⌋ ≤ i ∧ i ≤ ⌊(ahi - l) * v⌋) ∧
      (⌊(blo - l) * v⌋ ≤ i ∧ i ≤ ⌊(bhi - l) * v⌋) := by
  have hmono : ∀ x y : ℚ, x ≤ y → ⌊(x - l) * v⌋ ≤ ⌊(y - l) * v⌋ := by
    intro x y hxy
    exact Int.floor_mono (mul_le_mul_of_nonneg_right (sub_le_sub_right hxy l) hv)
  refine ⟨⌊(max alo blo - l) * v⌋, ⟨?_, ?_⟩, ?_, ?_⟩
  · exact hmono _ _ (le_max_left _ _)
  · exact hmono _ _ (max_le ha h2)
  · exact hmono _ _ (le_max_right _ _)
  · exact hmono _ _ (max_le h1 hb)

/-- Two boxes that intersect have a cell in common: some cell lies in the index
box of both. -/
theorem shared_cell (sh : SpatialHash) (hv : 0 ≤ sh.one_div_voxelSize) (A B : AABB)
    (hA : A.min.x ≤ A.max.x ∧ A.min.y ≤ A.max.y ∧ A.min.z ≤ A.max.z)
    (hB : B.min.x ≤ B.max.x ∧ B.min.y ≤ B.max.y ∧ B.min.z ≤ B.max.z)
    (h : A.intersects B = true) :
    ∃ ix iy iz,
      InIdxBox (sh.locateVoxelAxisIndex A.min) (sh.locateVoxelAxisIndex A.max) ix iy iz ∧
      InIdxBox (sh.locateVoxelAxisIndex B.min) (sh.locateVoxelAxisIndex B.max) ix iy iz := by
  unfold AABB.intersects at h
  rw [decide_eq_true_iff] at h
  obtain ⟨⟨hx1, hx2⟩, ⟨hy1, hy2⟩, hz1, hz2⟩ := h
  obtain ⟨ix, hax, hbx⟩ := floor_shared sh.leftBottomCorner.x sh.one_div_voxelSize
    A.min.x A.max.x B.min.x B.max.x hv hA.1 hB.1 hx1 hx2
  obtain ⟨iy, hay, hby⟩ := floor_shared sh.leftBottomCorner.y sh.one_div_voxelSize
    A.min.y A.max.y B.min.y B.max.y hv hA.2.1 hB.2.1 hy1 hy2
  obtain ⟨iz, haz, hbz⟩ := floor_shared sh.leftBottomCorner.z sh.one_div_voxelSize
    A.min.z A.max.z B.min.z B.max.z hv hA.2.2 hB.2.2 hz1 hz2
  exact ⟨ix, iy, iz, ⟨hax, hay, haz⟩, ⟨hbx, hby, hbz⟩⟩


namespace SpatialHash

/-- What the index-keyed `queryPointForTriangles` returns. -/
theorem mem_queryPointForTriangles {sh : SpatialHash} {vi : Nat} {r : List Nat}
    (h : sh.queryPointForTriangles vi = .ok r) (j : Nat) :
    j ∈ r ↔ ∃ occ, getE sh.pointAndEdgeOccupancy vi = .ok occ ∧
      ∃ i, (sh.triStartInd ≤ i ∧ j = i - sh.triStartInd) ∧
        ∃ c ∈ occ, ∃ l, voxelFind sh.voxel c = some l ∧ i ∈ l := by
  unfold queryPointForTriangles at h
  cases hocc : getE sh.pointAndEdgeOccupancy vi with
  | error err => simp [hocc] at h
  | ok occ =>
    simp only [hocc] at h
    rw [sh.scanOccupancy_mem _ occ [] r h j]
    simp only [List.not_mem_nil, false_or, Except.ok.injEq, exists_eq_left']
    constructor
    · rintro ⟨i, hk, hst⟩
      split_ifs at hk with hc
      simp only [Option.some.injEq] at hk
      exact ⟨i, ⟨hc, hk.symm⟩, hst⟩
    · rintro ⟨i, ⟨h1, h2⟩, hst⟩
      refine ⟨i, ?_, hst⟩
      rw [if_pos h1, h2]

/-- What the index-keyed `queryPointForEdges` returns. -/
theorem mem_queryPointForEdges {sh : SpatialHash} {vi : Nat} {r : List Nat}
    (h : sh.queryPointForEdges vi = .ok r) (j : Nat) :
    j ∈ r ↔ ∃ occ, getE sh.pointAndEdgeOccupancy vi = .ok occ ∧
      ∃ i, (sh.edgeStartInd ≤ i ∧ i < sh.triStartInd ∧ j = i - sh.edgeStartInd) ∧
        ∃ c ∈ occ, ∃ l, voxelFind sh.voxel c = some l ∧ i ∈ l := by
  unfold queryPointForEdges at h
  cases hocc : getE sh.pointAndEdgeOccupancy vi with
  | error err => simp [hocc] at h
  | ok occ =>
    simp only [hocc] at h
    rw [sh.scanOccupancy_mem _ occ [] r h j]
    simp only [List.not_mem_nil, false_or, Except.ok.injEq, exists_eq_left']
    constructor
    · rintro ⟨i, hk, hst⟩
      split_ifs at hk with hc
      simp only [Option.some.injEq] at hk
      exact ⟨i, ⟨hc.1, hc.2, hk.symm⟩, hst⟩
    · rintro ⟨i, ⟨h1, h2, h3⟩, hst⟩
      refine ⟨i, ?_, hst⟩
      rw [if_pos ⟨h1, h2⟩, h3]

end SpatialHash

/-- The index-keyed point queries return for every vertex of a swept build. -/
theorem queryPointFor_total {ext : External} {V0 V1 : List Vec3}
    {E : List (Nat × Nat)} {F : List (Nat × Nat × Nat)} {voxelSize : ℚ} {sh : SpatialHash}
    (h : buildSwept ext V0 V1 E F voxelSize = .ok sh) (vi : Nat) (hvi : vi < V0.length) :
    (∃ r, sh.queryPointForTriangles vi = .ok r) ∧ (∃ r, sh.queryPointForEdges vi = .ok r) := by
  obtain ⟨oe, lf, hlen, hes, hts, _⟩ := buildSwept_shape h
  obtain ⟨occ, hocc, hk⟩ := buildSwept_occupancy_keys h vi (by omega)
  constructor
  · unfold SpatialHash.queryPointForTriangles
    rw [hocc]
    exact SpatialHash.scanOccupancy_total sh _ occ _ hk
  · unfold SpatialHash.queryPointForEdges
    rw [hocc]
    exact SpatialHash.scanOccupancy_total sh _ occ _ hk

theorem from_point_swept_zero (p0 p1 : Vec3) :
    AABB.from_point_swept p0 p1 0 = ⟨p0.cmin p1, p0.cmax p1⟩ := by
  simp [AABB.from_point_swept, Vec3.addScalar]

theorem vec_cmin_le_cmax (p q : Vec3) :
    (p.cmin q).x ≤ (p.cmax q).x ∧ (p.cmin q).y ≤ (p.cmax q).y ∧
      (p.cmin q).z ≤ (p.cmax q).z := by
  simp only [Vec3.cmin, Vec3.cmax]
  exact ⟨le_trans (min_le_left _ _) (le_max_left _ _),
    le_trans (min_le_left _ _) (le_max_left _ _),
    le_trans (min_le_left _ _) (le_max_left _ _)⟩

theorem vec_cmin_le_cmax_of {a b : Vec3} (c d : Vec3)
    (h : a.x ≤ b.x ∧ a.y ≤ b.y ∧ a.z ≤ b.z) :
    (a.cmin c).x ≤ (b.cmax d).x ∧ (a.cmin c).y ≤ (b.cmax d).y ∧
      (a.cmin c).z ≤ (b.cmax d).z := by
  simp only [Vec3.cmin, Vec3.cmax]
  exact ⟨le_trans (min_le_left _ _) (le_trans h.1 (le_max_left _ _)),
    le_trans (min_le_left _ _) (le_trans h.2.1 (le_max_left _ _)),
    le_trans (min_le_left _ _) (le_trans h.2.2 (le_max_left _ _))⟩

/-- C30. Query-level completeness at radius 0: after a swept build that returned,
for every two edges `a < b` whose uninflated swept AABBs (componentwise min/max
over the four endpoint positions at `t0` and `t1`) intersect, the index-keyed
`queryEdgeForEdges(a)` returns and `b` is in its result; for every vertex `v` and
face `f` whose swept AABBs intersect, `queryPointForTriangles(v)` returns and
holds `f`; and for every vertex `v` and edge `e` whose swept AABBs intersect,
`queryPointForEdges(v)` returns and holds `e`. -/
theorem query_complete_at_radius_zero (ext : External) (V0 V1 : List Vec3)
    (E : List (Nat × Nat)) (F : List (Nat × Nat × Nat)) (voxelSize : ℚ) (sh : SpatialHash)
    (h : buildSwept ext V0 V1 E F voxelSize = .ok sh) :
    (∀ (a b : Nat) (ea eb : Nat × Nat) (ea0_t0 ea1_t0 ea0_t1 ea1_t1 : Vec3)
        (eb0_t0 eb1_t0 eb0_t1 eb1_t1 : Vec3), a < b →
      E[a]? = some ea → E[b]? = some eb →
      V0[ea.1]? = some ea0_t0 → V0[ea.2]? = some ea1_t0 →
      V1[ea.1]? = some ea0_t1 → V1[ea.2]? = some ea1_t1 →
      V0[eb.1]? = some eb0_t0 → V0[eb.2]? = some eb1_t0 →
      V1[eb.1]? = some eb0_t1 → V1[eb.2]? = some eb1_t1 →
      ((AABB.from_point_swept ea0_t0 ea0_t1 0).union
          (AABB.from_point_swept ea1_t0 ea1_t1 0)).intersects
        ((AABB.from_point_swept eb0_t0 eb0_t1 0).union
          (AABB.from_point_swept eb1_t0 eb1_t1 0)) = true →
      ∃ r, sh.queryEdgeForEdges a = .ok r ∧ b ∈ r) ∧
    (∀ (v fi : Nat) (f : Nat × Nat × Nat) (p_t0 p_t1 : Vec3)
        (t0_t0 t1_t0 t2_t0 t0_t1 t1_t1 t2_t1 : Vec3),
      V0[v]? = some p_t0 → V1[v]? = some p_t1 → F[fi]? = some f →
      V0[f.1]? = some t0_t0 → V0[f.2.1]? = some t1_t0 → V0[f.2.2]? = some t2_t0 →
      V1[f.1]? = some t0_t1 → V1[f.2.1]? = some t1_t1 → V1[f.2.2]? = some t2_t1 →
      (AABB.from_point_swept p_t0 p_t1 0).intersects
        (((AABB.from_point_swept t0_t0 t0_t1 0).union
          (AABB.from_point_swept t1_t0 t1_t1 0)).union
          (AABB.from_point_swept t2_t0 t2_t1 0)) = true →
      ∃ r, sh.queryPointForTriangles v = .ok r ∧ fi ∈ r) ∧
    (∀ (v ei : Nat) (e : Nat × Nat) (p_t0 p_t1 e0_t0 e1_t0 e0_t1 e1_t1 : Vec3),
      V0[v]? = some p_t0 → V1[v]? = some p_t1 → E[ei]? = some e →
      V0[e.1]? = some e0_t0 → V0[e.2]? = some e1_t0 →
      V1[e.1]? = some e0_t1 → V1[e.2]? = some e1_t1 →
      (AABB.from_point_swept p_t0 p_t1 0).intersects
        ((AABB.from_point_swept e0_t0 e0_t1 0).union
          (AABB.from_point_swept e1_t0 e1_t1 0)) = true →
      ∃ r, sh.queryPointForEdges v = .ok r ∧ ei ∈ r) := by
  obtain ⟨oe, lf, hlen, hes, hts, hnxny, hpos, hoe, hlf, hocc, hvox⟩ := buildSwept_shape h
  have hv : 0 ≤ sh.one_div_voxelSize := le_of_lt hpos
  refine ⟨?_, ?_, ?_⟩
  · intro a b ea eb a0 a1 a0t a1t b0 b1 b0t b1t hab hea heb ha0 ha1 ha0t ha1t hb0 hb1 hb0t
      hb1t hint
    have hla : a < E.length := (List.getElem?_eq_some.mp hea).1
    have hlb : b < E.length := (List.getElem?_eq_some.mp heb).1
    simp only [from_point_swept_zero, AABB.union] at hint
    obtain ⟨ix, iy, iz, hA, hB⟩ := shared_cell sh hv
      (AABB.mk ((a0.cmin a0t).cmin (a1.cmin a1t)) ((a0.cmax a0t).cmax (a1.cmax a1t)))
      (AABB.mk ((b0.cmin b0t).cmin (b1.cmin b1t)) ((b0.cmax b0t).cmax (b1.cmax b1t)))
      (vec_cmin_le_cmax_of (a1.cmin a1t) (a1.cmax a1t) (vec_cmin_le_cmax a0 a0t))
      (vec_cmin_le_cmax_of (b1.cmin b1t) (b1.cmax b1t) (vec_cmin_le_cmax b0 b0t)) hint
    have hoa := buildSwept_edge_occupancy h hea ha0 ha1 ha0t ha1t
    have hob := buildSwept_edge_occupancy h heb hb0 hb1 hb0t hb1t
    obtain ⟨r, hr⟩ := queryEdgeForEdges_total h a hla
    refine ⟨r, hr, ?_⟩
    rw [SpatialHash.mem_queryEdgeForEdges hr]
    have hidx : a + sh.edgeStartInd = V0.length + a := by omega
    rw [← hidx] at hoa
    rw [← hes] at hob
    refine ⟨_, getE_of_getElem? hoa, sh.edgeStartInd + b,
      ⟨by omega, by omega, by omega, by omega⟩,
      ix + (iy * sh.voxelCount.x + iz * sh.voxelCount0x1),
      (mem_cellLoop _ _ _ _ _).mpr ⟨ix, iy, iz, hA, rfl⟩, ?_⟩
    exact (buildSwept_mem_voxel_iff h (sh.edgeStartInd + b) _ (by omega)).mp
      ⟨_, hob, (mem_cellLoop _ _ _ _ _).mpr ⟨ix, iy, iz, hB, rfl⟩⟩
  · intro v fi f p0 p1 t0 t1 t2 t0t t1t t2t hp0 hp1 hf ht0 ht1 ht2 ht0t ht1t ht2t hint
    have hlv : v < V0.length := (List.getElem?_eq_some.mp hp0).1
    have hlf' : fi < F.length := (List.getElem?_eq_some.mp hf).1
    simp only [from_point_swept_zero, AABB.union] at hint
    obtain ⟨ix, iy, iz, hA, hB⟩ := shared_cell sh hv
      (AABB.mk (p0.cmin p1) (p0.cmax p1))
      (AABB.mk (((t0.cmin t0t).cmin (t1.cmin t1t)).cmin (t2.cmin t2t))
        (((t0.cmax t0t).cmax (t1.cmax t1t)).cmax (t2.cmax t2t)))
      (vec_cmin_le_cmax p0 p1)
      (vec_cmin_le_cmax_of (t2.cmin t2t) (t2.cmax t2t)
        (vec_cmin_le_cmax_of (t1.cmin t1t) (t1.cmax t1t) (vec_cmin_le_cmax t0 t0t))) hint
    have hov := buildSwept_vertex_occupancy h hp0 hp1
    obtain ⟨r, hr⟩ := (queryPointFor_total h v hlv).1
    refine ⟨r, hr, ?_⟩
    rw [SpatialHash.mem_queryPointForTriangles hr]
    refine ⟨_, getE_of_getElem? hov, sh.triStartInd + fi, ⟨by omega, by omega⟩,
      ix + (iy * sh.voxelCount.x + iz * sh.voxelCount0x1),
      (mem_cellLoop _ _ _ _ _).mpr ⟨ix, iy, iz, hA, rfl⟩, ?_⟩
    refine (buildSwept_mem_voxel_classes h _ (sh.triStartInd + fi)).mpr (Or.inr (Or.inr
      ⟨by omega, f, _, ?_, sweptFaceCells_eq sh hv ht0 ht1 ht2 ht0t ht1t ht2t,
        (mem_cellLoop _ _ _ _ _).mpr ⟨ix, iy, iz, hB, rfl⟩⟩))
    rw [Nat.add_sub_cancel_left]
    exact hf
  · intro v ei e p0 p1 e0 e1 e0t e1t hp0 hp1 he he0 he1 he0t he1t hint
    have hlv : v < V0.length := (List.getElem?_eq_some.mp hp0).1
    have hle : ei < E.length := (List.getElem?_eq_some.mp he).1
    simp only [from_point_swept_zero, AABB.union] at hint
    obtain ⟨ix, iy, iz, hA, hB⟩ := shared_cell sh hv
      (AABB.mk (p0.cmin p1) (p0.cmax p1))
      (AABB.mk ((e0.cmin e0t).cmin (e1.cmin e1t)) ((e0.cmax e0t).cmax (e1.cmax e1t)))
      (vec_cmin_le_cmax p0 p1)
      (vec_cmin_le_cmax_of (e1.cmin e1t) (e1.cmax e1t) (vec_cmin_le_cmax e0 e0t)) hint
    have hov := buildSwept_vertex_occupancy h hp0 hp1
    have hoe' := buildSwept_edge_occupancy h he he0 he1 he0t he1t
    obtain ⟨r, hr⟩ := (queryPointFor_total h v hlv).2
    refine ⟨r, hr, ?_⟩
    rw [SpatialHash.mem_queryPointForEdges hr]
    refine ⟨_, getE_of_getElem? hov, sh.edgeStartInd + ei, ⟨by omega, by omega, by omega⟩,
      ix + (iy * sh.voxelCount.x + iz * sh.voxelCount0x1),
      (mem_cellLoop _ _ _ _ _).mpr ⟨ix, iy, iz, hA, rfl⟩, ?_⟩
    rw [← hes] at hoe'
    exact (buildSwept_mem_voxel_iff h (sh.edgeStartInd + ei) _ (by omega)).mp
      ⟨_, hoe', (mem_cellLoop _ _ _ _ _).mpr ⟨ix, iy, iz, hB, rfl⟩⟩


/-- Witness of C30: the pierced triangle at rest, whose swept build holds the
five vertices, four edges and the face in one cell. -/
theorem query_complete_at_radius_zero_witness :
    buildSwept (specExternal 0 0) pierceV pierceV pierceE triF 2 = .ok pierceIndex ∧
    ((∀ (a b : Nat) (ea eb : Nat × Nat) (ea0_t0 ea1_t0 ea0_t1 ea1_t1 : Vec3)
        (eb0_t0 eb1_t0 eb0_t1 eb1_t1 : Vec3), a < b →
      pierceE[a]? = some ea → pierceE[b]? = some eb →
      pierceV[ea.1]? = some ea0_t0 → pierceV[ea.2]? = some ea1_t0 →
      pierceV[ea.1]? = some ea0_t1 → pierceV[ea.2]? = some ea1_t1 →
      pierceV[eb.1]? = some eb0_t0 → pierceV[eb.2]? = some eb1_t0 →
      pierceV[eb.1]? = some eb0_t1 → pierceV[eb.2]? = some eb1_t1 →
      ((AABB.from_point_swept ea0_t0 ea0_t1 0).union
          (AABB.from_point_swept ea1_t0 ea1_t1 0)).intersects
        ((AABB.from_point_swept eb0_t0 eb0_t1 0).union
          (AABB.from_point_swept eb1_t0 eb1_t1 0)) = true →
      ∃ r, pierceIndex.queryEdgeForEdges a = .ok r ∧ b ∈ r) ∧
    (∀ (v fi : Nat) (f : Nat × Nat × Nat) (p_t0 p_t1 : Vec3)
        (t0_t0 t1_t0 t2_t0 t0_t1 t1_t1 t2_t1 : Vec3),
      pierceV[v]? = some p_t0 → pierceV[v]? = some p_t1 → triF[fi]? = some f →
      pierceV[f.1]? = some t0_t0 → pierceV[f.2.1]? = some t1_t0 → pierceV[f.2.2]? = some t2_t0 →
      pierceV[f.1]? = some t0_t1 → pierceV[f.2.1]? = some t1_t1 → pierceV[f.2.2]? = some t2_t1 →
      (AABB.from_point_swept p_t0 p_t1 0).intersects
        (((AABB.from_point_swept t0_t0 t0_t1 0).union
          (AABB.from_point_swept t1_t0 t1_t1 0)).union
          (AABB.from_point_swept t2_t0 t2_t1 0)) = true →
      ∃ r, pierceIndex.queryPointForTriangles v = .ok r ∧ fi ∈ r) ∧
    (∀ (v ei : Nat) (e : Nat × Nat) (p_t0 p_t1 e0_t0 e1_t0 e0_t1 e1_t1 : Vec3),
      pierceV[v]? = some p_t0 → pierceV[v]? = some p_t1 → pierceE[ei]? = some e →
      pierceV[e.1]? = some e0_t0 → pierceV[e.2]? = some e1_t0 →
      pierceV[e.1]? = some e0_t1 → pierceV[e.2]? = some e1_t1 →
      (AABB.from_point_swept p_t0 p_t1 0).intersects
        ((AABB.from_point_swept e0_t0 e0_t1 0).union
          (AABB.from_point_swept e1_t0 e1_t1 0)) = true →
      ∃ r, pierceIndex.queryPointForEdges v = .ok r ∧ ei ∈ r)) :=
  ⟨by decide!,
    query_complete_at_radius_zero (specExternal 0 0) pierceV pierceV pierceE triF 2
      pierceIndex (by decide!)⟩

/-! ## Two-column input -/

theorem Dyn.locateVoxelAxisIndex_length_le (sh : Dyn.SpatialHash) (p : Dyn.ArrayMax3d) :
    (sh.locateVoxelAxisIndex p).length ≤ p.length := by
  simp [Dyn.SpatialHash.locateVoxelAxisIndex]

/-- A position with at most two coefficients has no linear voxel index: the
conversion reads the coefficient 2 of its axis index. -/
theorem Dyn.locateVoxelIndex_short (sh : Dyn.SpatialHash) (p : Dyn.ArrayMax3d)
    (h : p.length ≤ 2) : sh.locateVoxelIndex p = .error .outOfBounds := by
  have hl := Dyn.locateVoxelAxisIndex_length_le sh p
  unfold Dyn.SpatialHash.locateVoxelIndex Dyn.SpatialHash.voxelAxisIndex2VoxelIndex
  generalize sh.locateVoxelAxisIndex p = a at hl
  rcases a with _ | ⟨x, _ | ⟨y, _ | ⟨z, t⟩⟩⟩
  · rfl
  · rfl
  · rfl
  · simp only [List.length_cons] at hl
    omega

/-- The static build returns no index for a matrix whose rows have at most two
columns, whatever the mesh and the voxel size. -/
theorem Dyn.build_short_rows
    (avg : List Dyn.ArrayMax3d → List Dyn.ArrayMax3d → List (Nat × Nat) → ℚ) (dim : Nat)
    (V : List Dyn.ArrayMax3d) (E : List (Nat × Nat)) (F : List (Nat × Nat × Nat))
    (voxelSize : ℚ) (h : ∀ p ∈ V, p.length ≤ 2) (sh : Dyn.SpatialHash) :
    Dyn.build avg dim V E F voxelSize ≠ .ok sh := by
  intro hb
  unfold Dyn.build at hb
  cases V with
  | nil => simp [Dyn.colwiseMinCoeff] at hb
  | cons p ps =>
    simp only [Dyn.colwiseMinCoeff, Dyn.colwiseMaxCoeff] at hb
    split at hb
    · cases hb
    · rename_i sh0 _
      simp only [Dyn.insertVertices,
        Dyn.locateVoxelIndex_short sh0 p (h p (List.mem_cons_self _ _))] at hb
      cases hb

/-- C23 (code defect): for two-column input the sizing steps give a grid
whose `voxelCount` and axis indices have two coefficients, and then the
conversion to a linear index, the edge and face cell loops and the
position-based query each read the coefficient 2 of such an array, so the
static build of the planar triangle returns no index; the same triangle with
three columns is built. -/
theorem two_column_input_reads_third_coefficient :
    Dyn.sizeGrid 2 [0, 0] [3, 3] 2 3 3 = .ok planarGrid
    ∧ planarV.map planarGrid.locateVoxelAxisIndex = [[0, 0], [0, 0], [1, 1]]
    ∧ planarGrid.locateVoxelIndex [0, 0] = .error .outOfBounds
    ∧ Dyn.staticEdgeCells planarGrid [[0, 0], [0, 0], [1, 1]] (0, 1) = .error .outOfBounds
    ∧ Dyn.staticFaceCells planarGrid [[0, 0], [0, 0], [1, 1]] (0, 1, 2)
        = .error .outOfBounds
    ∧ planarGrid.queryPointForTriangles [1, 1] 0 = .error .outOfBounds
    ∧ Dyn.build (fun _ _ _ => 0) 2 planarV triE triF 2 = .error .outOfBounds
    ∧ Dyn.build (fun _ _ _ => 0) 3 spaceV triE triF 2 = .ok spaceIndex
    ∧ spaceIndex.queryPointForTriangles [1, 1, 1] 0 = .ok [0] := by
  refine ⟨?_, ?_, ?_, ?_, ?_, ?_, ?_, ?_, ?_⟩ <;> decide!

/-! ## Injectivity of the linear voxel index -/

/-- Two numbers written with a low digit below `n` agree digit by digit. -/
theorem two_digits_eq {n a b c d : Int} (ha : 0 ≤ a) (han : a < n) (hc : 0 ≤ c)
    (hcn : c < n) (h : a + b * n = c + d * n) : a = c ∧ b = d := by
  have hac : a = c := by
    have hm := congrArg (fun t => t % n) h
    simp only [Int.add_mul_emod_self, Int.emod_eq_of_lt ha han,
      Int.emod_eq_of_lt hc hcn] at hm
    exact hm
  refine ⟨hac, ?_⟩
  have hn : n ≠ 0 := by omega
  have hbd : b * n = d * n := by
    rw [hac] at h
    exact add_left_cancel h
  exact mul_right_cancel₀ hn hbd

/-- The two-digit number `a + b * n` with `a` below `n` and `b` below `m` lies
below `n * m`. -/
theorem two_digits_lt {n m a b : Int} (ha : 0 ≤ a) (han : a < n) (hb : 0 ≤ b)
    (hbm : b < m) : 0 ≤ a + b * n ∧ a + b * n < n * m := by
  have hn : 0 < n := by omega
  constructor
  · have := mul_nonneg hb hn.le
    omega
  · have h1 : (b + 1) * n ≤ m * n := mul_le_mul_of_nonneg_right (by omega) hn.le
    nlinarith

/-! ## Flat meshes -/

/-- Points without extent along an axis make the count along that axis `ceil(0) = 0`,
so the fallback of the grid sizing triggers for every voxel size. -/
theorem flat_fallback {lb rt : Vec3} {P : List Vec3} (hext : IsExtremes lb rt P)
    (hflat : FlatAlongAxis P) (s : ℚ) : FallbackTriggers lb rt s := by
  obtain ⟨_, ⟨⟨a, ha, hax⟩, ⟨b, hb, hby⟩, ⟨c, hc, hcz⟩⟩,
    ⟨⟨a', ha', hax'⟩, ⟨b', hb', hby'⟩, ⟨c', hc', hcz'⟩⟩⟩ := hext
  unfold FallbackTriggers
  simp only [Vec3.ceil, Vec3.scale, Vec3.sub]
  rcases hflat with h | h | h
  · left
    have : rt.x - lb.x = 0 := by rw [← hax, ← hax', h a' ha' a ha]; ring
    rw [this]
    simp
  · right; left
    have : rt.y - lb.y = 0 := by rw [← hby, ← hby', h b' hb' b hb]; ring
    rw [this]
    simp
  · right; right
    have : rt.z - lb.z = 0 := by rw [← hcz, ← hcz', h c' hc' c hc]; ring
    rw [this]
    simp

theorem build_isExtremes {ext : External} {V : List Vec3} {E : List (Nat × Nat)}
    {F : List (Nat × Nat × Nat)} {voxelSize : ℚ} {sh : SpatialHash}
    (h : build ext V E F voxelSize = .ok sh) :
    IsExtremes sh.leftBottomCorner sh.rightTopCorner V := by
  obtain ⟨lb, rt, g, voxel0, le, lf, hlb, hrt, hg, _, _, _, hsh⟩ := build_ok h
  obtain ⟨h1, h2, _⟩ := sizeGrid_ok hg
  subst hsh
  simp only [h1, h2]
  exact colwise_isExtremes hlb hrt

theorem buildSwept_isExtremes {ext : External} {V0 V1 : List Vec3} {E : List (Nat × Nat)}
    {F : List (Nat × Nat × Nat)} {voxelSize : ℚ} {sh : SpatialHash}
    (h : buildSwept ext V0 V1 E F voxelSize = .ok sh) :
    IsExtremes sh.leftBottomCorner sh.rightTopCorner (V0 ++ V1) := by
  obtain ⟨min0, min1, max0, max1, g, oe, lf, _, hmin0, hmin1, hmax0, hmax1, hg, _, _, hsh⟩ :=
    buildSwept_ok h
  obtain ⟨h1, h2, _⟩ := sizeGrid_ok hg
  subst hsh
  simp only [h1, h2]
  exact isExtremes_append (colwise_isExtremes hmin0 hmax0) (colwise_isExtremes hmin1 hmax1)

/-- C37. A flat mesh always gets the single-cell grid: when the input vertices
(for the swept build: the vertices at both times) have zero extent along some
axis, every build that returns, whatever the voxel size, took the fallback
branch and holds `voxel_count = (1, 1, 1)` and
`inv_voxel_size = 1 / (max(range) * 1.01)`; and such a build does return when the
voxel size in effect is not 0, the mesh has some extent and its indices are in
range. -/
theorem flat_mesh_single_cell (ext : External) (V V0 V1 : List Vec3) (E : List (Nat × Nat))
    (F : List (Nat × Nat × Nat)) (voxelSize : ℚ) :
    (∀ sh, build ext V E F voxelSize = .ok sh → FlatAlongAxis V →
      FallbackTriggers sh.leftBottomCorner sh.rightTopCorner
        (if voxelSize ≤ 0 then suggestGoodVoxelSize ext V E F 0 else voxelSize) ∧
      sh.voxelCount = ⟨1, 1, 1⟩ ∧
      sh.one_div_voxelSize =
        1 / ((sh.rightTopCorner.sub sh.leftBottomCorner).maxCoeff * (101 / 100))) ∧
    (∀ sh, buildSwept ext V0 V1 E F voxelSize = .ok sh → FlatAlongAxis (V0 ++ V1) →
      FallbackTriggers sh.leftBottomCorner sh.rightTopCorner
        (if voxelSize ≤ 0 then suggestGoodVoxelSizeSwept ext V0 V1 E F 0 else voxelSize) ∧
      sh.voxelCount = ⟨1, 1, 1⟩ ∧
      sh.one_div_voxelSize =
        1 / ((sh.rightTopCorner.sub sh.leftBottomCorner).maxCoeff * (101 / 100))) ∧
    (∀ lb rt, colwiseMinCoeff V = .ok lb → colwiseMaxCoeff V = .ok rt → FlatAlongAxis V →
      (if voxelSize ≤ 0 then suggestGoodVoxelSize ext V E F 0 else voxelSize) ≠ 0 →
      0 < (rt.sub lb).maxCoeff → MeshInRange V.length E F →
      ∃ sh, build ext V E F voxelSize = .ok sh) ∧
    (∀ lb0 lb1 rt0 rt1, V0.length = V1.length →
      colwiseMinCoeff V0 = .ok lb0 → colwiseMinCoeff V1 = .ok lb1 →
      colwiseMaxCoeff V0 = .ok rt0 → colwiseMaxCoeff V1 = .ok rt1 →
      FlatAlongAxis (V0 ++ V1) →
      (if voxelSize ≤ 0 then suggestGoodVoxelSizeSwept ext V0 V1 E F 0 else voxelSize) ≠ 0 →
      0 < ((rt0.cmax rt1).sub (lb0.cmin lb1)).maxCoeff → MeshInRange V0.length E F →
      ∃ sh, buildSwept ext V0 V1 E F voxelSize = .ok sh) := by
  refine ⟨?_, ?_, ?_, ?_⟩
  · intro sh h hflat
    have hf := flat_fallback (build_isExtremes h) hflat
      (if voxelSize ≤ 0 then suggestGoodVoxelSize ext V E F 0 else voxelSize)
    exact ⟨hf, (build_gridRule h).1 hf⟩
  · intro sh h hflat
    have hf := flat_fallback (buildSwept_isExtremes h) hflat
      (if voxelSize ≤ 0 then suggestGoodVoxelSizeSwept ext V0 V1 E F 0 else voxelSize)
    exact ⟨hf, (buildSwept_gridRule h).1 hf⟩
  · intro lb rt hlb hrt hflat hs hpos hmesh
    have hf := flat_fallback (colwise_isExtremes hlb hrt) hflat
      (if voxelSize ≤ 0 then suggestGoodVoxelSize ext V E F 0 else voxelSize)
    obtain ⟨g, hg⟩ := sizeGrid_total lb rt _ V.length E.length hs (fun _ => ne_of_gt hpos)
    exact build_total hlb hrt hg
      (fun p hp => ⟨0, fallback_grid_index hg hf hpos (colwise_isExtremes hlb hrt) p hp⟩) hmesh
  · intro lb0 lb1 rt0 rt1 hlen hlb0 hlb1 hrt0 hrt1 hflat hs hpos hmesh
    obtain ⟨g, hg⟩ := sizeGrid_total (lb0.cmin lb1) (rt0.cmax rt1) _ V0.length E.length hs
      (fun _ => ne_of_gt hpos)
    exact buildSwept_total hlen hlb0 hlb1 hrt0 hrt1 hg hmesh


/-- Witness of C37: the flat triangle in the plane `z = 0` with voxel size 1. -/
theorem flat_mesh_single_cell_witness :
    ((build (specExternal 0 0) flatTriV triE triF 1 = .ok flatTriStaticIndex ∧
        FlatAlongAxis flatTriV) ∧
      FallbackTriggers flatTriStaticIndex.leftBottomCorner flatTriStaticIndex.rightTopCorner
        (if (1 : ℚ) ≤ 0 then suggestGoodVoxelSize (specExternal 0 0) flatTriV triE triF 0
          else 1) ∧
      flatTriStaticIndex.voxelCount = ⟨1, 1, 1⟩ ∧
      flatTriStaticIndex.one_div_voxelSize =
        1 / ((flatTriStaticIndex.rightTopCorner.sub
          flatTriStaticIndex.leftBottomCorner).maxCoeff * (101 / 100))) ∧
    ((buildSwept (specExternal 0 0) flatTriV flatTriV triE triF 1 = .ok flatTriIndex ∧
        FlatAlongAxis (flatTriV ++ flatTriV)) ∧
      FallbackTriggers flatTriIndex.leftBottomCorner flatTriIndex.rightTopCorner
        (if (1 : ℚ) ≤ 0
          then suggestGoodVoxelSizeSwept (specExternal 0 0) flatTriV flatTriV triE triF 0
          else 1) ∧
      flatTriIndex.voxelCount = ⟨1, 1, 1⟩ ∧
      flatTriIndex.one_div_voxelSize =
        1 / ((flatTriIndex.rightTopCorner.sub flatTriIndex.leftBottomCorner).maxCoeff
          * (101 / 100))) ∧
    ((MeshInRange flatTriV.length triE triF ∧
        (0 : ℚ) < ((⟨2, 2, 0⟩ : Vec3).sub ⟨0, 0, 0⟩).maxCoeff) ∧
      ∃ sh, build (specExternal 0 0) flatTriV triE triF 1 = .ok sh) ∧
    ((MeshInRange flatTriV.length triE triF ∧ flatTriV.length = flatTriV.length) ∧
      ∃ sh, buildSwept (specExternal 0 0) flatTriV flatTriV triE triF 1 = .ok sh) :=
  ⟨⟨by decide!,
      (flat_mesh_single_cell (specExternal 0 0) flatTriV [] [] triE triF 1).1
        flatTriStaticIndex (by decide!) (by decide!)⟩,
    ⟨by decide!,
      (flat_mesh_single_cell (specExternal 0 0) [] flatTriV flatTriV triE triF 1).2.1
        flatTriIndex (by decide!) (by decide!)⟩,
    ⟨by decide!,
      (flat_mesh_single_cell (specExternal 0 0) flatTriV [] [] triE triF 1).2.2.1
        ⟨0, 0, 0⟩ ⟨2, 2, 0⟩ (by decide!) (by decide!) (by decide!) (by decide!) (by decide!)
        (by decide!)⟩,
    ⟨by decide!,
      (flat_mesh_single_cell (specExternal 0 0) [] flatTriV flatTriV triE triF 1).2.2.2
        ⟨0, 0, 0⟩ ⟨0, 0, 0⟩ ⟨2, 2, 0⟩ ⟨2, 2, 0⟩ rfl (by decide!) (by decide!) (by decide!)
        (by decide!) (by decide!) (by decide!) (by decide!) (by decide!)⟩⟩

/-! ## The static edge-edge filter -/

/-- Every output of a loop body run over a list comes from an element of the list. -/
theorem forEachM_mem {α β : Type} {f : α → Except Err β} {xs : List α} {ys : List β}
    (h : forEachM f xs = .ok ys) : ∀ y ∈ ys, ∃ x ∈ xs, f x = .ok y := by
  intro y hy
  obtain ⟨j, hj, hjy⟩ := List.mem_iff_getElem.mp hy
  have hj2 : ys[j]? = some y := by
    rw [List.getElem?_eq_getElem hj, hjy]
  obtain ⟨x, hx, hfx⟩ := (forEachM_getElem h j y).mp hj2
  exact ⟨x, List.getElem?_mem hx, hfx⟩

/-- Every pair in a local buffer after a pass was appended by an iteration of
the enabled loop. -/
theorem pass_mem {flag : Bool} {row : Nat → Except Err (List (Nat × Nat))}
    {chunks : List Chunk} {outs : List (Nat × List (Nat × Nat))}
    (h : (if flag then parallelFor row chunks else .ok []) = .ok outs) (workers : List Nat) :
    ∀ p ∈ workers.flatMap (localBuffer outs),
      flag = true ∧ ∃ i l, i ∈ chunks.flatMap Chunk.indices ∧ row i = .ok l ∧ p ∈ l := by
  intro p hp
  rw [List.mem_flatMap] at hp
  obtain ⟨w, _, hpw⟩ := hp
  unfold localBuffer at hpw
  rw [List.mem_flatMap] at hpw
  obtain ⟨o, ho, hpo⟩ := hpw
  have ho2 : o ∈ outs := (List.mem_filter.mp ho).1
  cases flag with
  | false =>
    simp only [Bool.false_eq_true, if_false, Except.ok.injEq] at h
    rw [← h] at ho2
    cases ho2
  | true =>
    simp only [if_true] at h
    refine ⟨rfl, ?_⟩
    unfold parallelFor at h
    obtain ⟨c, hc, hfc⟩ := forEachM_mem h o ho2
    cases hcm : concatM row c.indices with
    | error e => simp [hcm] at hfc
    | ok l =>
      simp only [hcm, Except.ok.injEq] at hfc
      subst hfc
      obtain ⟨i, hi, bs, hbs, hpbs⟩ := concatM_mem hcm p hpo
      exact ⟨i, bs, List.mem_flatMap.mpr ⟨c, hc, hi⟩, hbs, hpbs⟩

/-- The result of the three passes: what was given, followed per category by
the local buffers in merge order. -/
theorem threePasses_ok {evRow eeRow fvRow : Nat → Except Err (List (Nat × Nat))}
    {candidates : Candidates} {queryEV queryEE queryFV : Bool} {workers : List Nat}
    {evChunks eeChunks fvChunks : List Chunk} {res : Candidates}
    (h : threePasses evRow eeRow fvRow candidates queryEV queryEE queryFV workers
      evChunks eeChunks fvChunks = .ok res) :
    ∃ ev ee fv,
      (if queryEV then parallelFor evRow evChunks else .ok []) = .ok ev ∧
      (if queryEE then parallelFor eeRow eeChunks else .ok []) = .ok ee ∧
      (if queryFV then parallelFor fvRow fvChunks else .ok []) = .ok fv ∧
      res = ⟨candidates.ev_candidates ++ workers.flatMap (localBuffer ev),
        candidates.ee_candidates ++ workers.flatMap (localBuffer ee),
        candidates.fv_candidates ++ workers.flatMap (localBuffer fv)⟩ := by
  unfold threePasses at h
  cases hev : (if queryEV then parallelFor evRow evChunks else .ok []) with
  | error e => simp [hev] at h
  | ok ev =>
    cases hee : (if queryEE then parallelFor eeRow eeChunks else .ok []) with
    | error e => simp [hev, hee] at h
    | ok ee =>
      cases hfv : (if queryFV then parallelFor fvRow fvChunks else .ok []) with
      | error e => simp [hev, hee, hfv] at h
      | ok fv =>
        simp only [hev, hee, hfv, Except.ok.injEq] at h
        subst h
        refine ⟨ev, ee, fv, rfl, rfl, rfl, ?_⟩
        rw [merge_local_candidates_eq, localStorages_ev, localStorages_ee, localStorages_fv]

/-- An inner loop whose body returns on every element returns. -/
theorem collectM_total {α β : Type} {f : α → Except Err (Option β)} :
    ∀ (xs : List α), (∀ x ∈ xs, ∃ r, f x = .ok r) → ∃ ys, collectM f xs = .ok ys := by
  intro xs
  induction xs with
  | nil =>
    intro _
    exact ⟨[], rfl⟩
  | cons a as ih =>
    intro h
    obtain ⟨r, hr⟩ := h a (List.mem_cons_self _ _)
    obtain ⟨bs, hbs⟩ := ih (fun x hx => h x (List.mem_cons_of_mem _ hx))
    unfold collectM
    rw [hr, hbs]
    cases r with
    | none => exact ⟨_, rfl⟩
    | some b => exact ⟨_, rfl⟩

/-- After a swept build every iteration of the static edge-edge pass returns,
and returns nothing. -/
theorem eeRow_total {ext : External} {V0 V1 : List Vec3} {E : List (Nat × Nat)}
    {F : List (Nat × Nat × Nat)} {voxelSize : ℚ} {sh : SpatialHash}
    (h : buildSwept ext V0 V1 E F voxelSize = .ok sh) (ext2 : External) (V : List Vec3)
    (radius : ℚ) (eai : Nat) (heai : eai < E.length) :
    sh.eeRow ext2 V E radius eai = .ok [] := by
  obtain ⟨r, hr⟩ := queryEdgeForEdges_total h eai heai
  obtain ⟨_, _, _, hes, hts, _⟩ := buildSwept_shape h
  have htot : ∃ l, sh.eeRow ext2 V E radius eai = .ok l := by
    unfold SpatialHash.eeRow
    simp only [hr]
    apply collectM_total
    intro ebi hebi
    obtain ⟨_, _, i, ⟨h1, h2, _, h4⟩, _⟩ := (SpatialHash.mem_queryEdgeForEdges hr ebi).mp hebi
    have hlt : ebi < E.length := by omega
    obtain ⟨ea, hea⟩ := getE_total heai
    obtain ⟨eb, heb⟩ := getE_total hlt
    simp only [hea, heb]
    split
    · rename_i hc
      exact absurd (hc.2.1.trans (hc.2.2.2.1.symm.trans hc.2.2.1)) hc.1
    · exact ⟨_, rfl⟩
  obtain ⟨l, hl⟩ := htot
  rw [hl, SpatialHash.eeRow_nil hl]


/-- C33. The static edge-edge filter admits nothing: the admission condition
`E(a,0) != E(b,0) && E(a,0) == E(b,1) && E(a,1) == E(b,0) && E(a,1) == E(b,1)` of
the static `queryMeshForCandidates` is unsatisfiable, every iteration of the
edge-edge pass that returns appends nothing, and so the static enumerator,
sequential or under any schedule, returns the `ee_candidates` it was given
(empty when started empty), for every index, mesh, radius and AABB predicate. On
an index whose occupancy table the swept build filled, the edge-edge pass does
return. -/
theorem static_ee_filter_admits_nothing (sh : SpatialHash) (ext : External) (V : List Vec3)
    (E : List (Nat × Nat)) (F : List (Nat × Nat × Nat)) (candidates : Candidates)
    (radius : ℚ) (queryEV queryEE queryFV : Bool) (workers : List Nat)
    (evChunks eeChunks fvChunks : List Chunk) :
    (∀ ea eb : Nat × Nat, ¬ (ea.1 ≠ eb.1 ∧ ea.1 = eb.2 ∧ ea.2 = eb.1 ∧ ea.2 = eb.2)) ∧
    (∀ eai l, sh.eeRow ext V E radius eai = .ok l → l = []) ∧
    (∀ res, sh.queryMeshForCandidates ext V E F candidates radius queryEV queryEE queryFV
        = .ok res → res.ee_candidates = candidates.ee_candidates) ∧
    (∀ res, sh.queryMeshForCandidatesPar ext V E F candidates radius queryEV queryEE queryFV
        workers evChunks eeChunks fvChunks = .ok res →
      res.ee_candidates = candidates.ee_candidates) ∧
    (∀ (ext0 : External) (V0 V1 : List Vec3) (voxelSize : ℚ),
      buildSwept ext0 V0 V1 E F voxelSize = .ok sh →
      sh.queryMeshForCandidates ext V E F candidates radius false true false
        = .ok candidates) := by
  have hpar : ∀ (ws : List Nat) (c1 c2 c3 : List Chunk) (res : Candidates),
      sh.queryMeshForCandidatesPar ext V E F candidates radius queryEV queryEE queryFV
        ws c1 c2 c3 = .ok res → res.ee_candidates = candidates.ee_candidates := by
    intro ws c1 c2 c3 res h
    unfold SpatialHash.queryMeshForCandidatesPar at h
    obtain ⟨ev, ee, fv, _, hee, _, hres⟩ := threePasses_ok h
    have hnil : ws.flatMap (localBuffer ee) = [] := by
      apply List.eq_nil_iff_forall_not_mem.mpr
      intro p hp
      obtain ⟨_, i, l, _, hl, hpl⟩ := pass_mem hee ws p hp
      rw [SpatialHash.eeRow_nil hl] at hpl
      cases hpl
    rw [hres, hnil, List.append_nil]
  refine ⟨?_, ?_, ?_, ?_, ?_⟩
  · intro ea eb hc
    exact hc.1 (hc.2.1.trans (hc.2.2.2.symm.trans hc.2.2.1))
  · intro eai l h
    exact SpatialHash.eeRow_nil h
  · intro res h
    rw [SpatialHash.queryMeshForCandidates_eq_par] at h
    exact hpar _ _ _ _ res h
  · intro res h
    exact hpar _ _ _ _ res h
  · intro ext0 V0 V1 voxelSize hb
    unfold SpatialHash.queryMeshForCandidates
    have hcm : concatM (sh.eeRow ext V E radius) (List.range E.length) = .ok [] := by
      have := concatM_ok_of_forall (f := sh.eeRow ext V E radius) (fun _ => [])
        (List.range E.length)
        (fun x hx => eeRow_total hb ext V radius x (List.mem_range.mp hx))
      have hn : ∀ (xs : List Nat), xs.flatMap (fun _ => ([] : List (Nat × Nat))) = [] := by
        intro xs
        induction xs with
        | nil => rfl
        | cons a as ih => rw [List.flatMap_cons, ih]; rfl
      rw [this, hn]
    simp only [Bool.false_eq_true, if_false, if_true, hcm, merge_local_candidates_single,
      List.append_nil]

/-- Witness of C33: on the index the swept build makes of the pierced triangle
the static query with all flags on returns, with no edge-edge pair, although the
edges 1 and 3 share a cell and no vertex. -/
theorem static_ee_filter_admits_nothing_witness :
    (buildSwept (specExternal 0 0) pierceV pierceV pierceE triF 2 = .ok pierceIndex ∧
      pierceIndex.queryMeshForCandidates (specExternal 0 0) pierceV pierceE triF
          ⟨[], [], []⟩ (1 / 16) true true true
        = .ok ⟨[(0, 0), (2, 0), (1, 1), (3, 3)], [], [(0, 0)]⟩) ∧
    ((∀ ea eb : Nat × Nat, ¬ (ea.1 ≠ eb.1 ∧ ea.1 = eb.2 ∧ ea.2 = eb.1 ∧ ea.2 = eb.2)) ∧
    (∀ eai l, pierceIndex.eeRow (specExternal 0 0) pierceV pierceE (1 / 16) eai = .ok l → l = []) ∧
    (∀ res, pierceIndex.queryMeshForCandidates (specExternal 0 0) pierceV pierceE triF (⟨[], [], []⟩ : Candidates) (1 / 16) true true true
        = .ok res → res.ee_candidates = (⟨[], [], []⟩ : Candidates).ee_candidates) ∧
    (∀ res, pierceIndex.queryMeshForCandidatesPar (specExternal 0 0) pierceV pierceE triF (⟨[], [], []⟩ : Candidates) (1 / 16) true true true
        [0, 1] [⟨0, 3, 5⟩, ⟨1, 0, 3⟩] [⟨1, 2, 4⟩, ⟨0, 0, 2⟩] [⟨1, 1, 5⟩, ⟨1, 0, 1⟩] = .ok res →
      res.ee_candidates = (⟨[], [], []⟩ : Candidates).ee_candidates) ∧
    (∀ (ext0 : External) (V0 V1 : List Vec3) (voxelSize : ℚ),
      buildSwept ext0 V0 V1 pierceE triF voxelSize = .ok pierceIndex →
      pierceIndex.queryMeshForCandidates (specExternal 0 0) pierceV pierceE triF (⟨[], [], []⟩ : Candidates) (1 / 16) false true false
        = .ok (⟨[], [], []⟩ : Candidates))) :=
  ⟨by decide!,
    static_ee_filter_admits_nothing pierceIndex (specExternal 0 0) pierceV pierceE triF
      ⟨[], [], []⟩ (1 / 16) true true true [0, 1] [⟨0, 3, 5⟩, ⟨1, 0, 3⟩]
      [⟨1, 2, 4⟩, ⟨0, 0, 2⟩] [⟨1, 1, 5⟩, ⟨1, 0, 1⟩]⟩

/-! ## The order of a voxel list -/

/-- The IDs an insertion loop appends lie in the ID range of the loop. -/
theorem idsFor_bounds (c : Int) (p : Nat) (locs : List (List Int)) (id : Nat)
    (h : p ∈ idsFor locs id c) : id ≤ p ∧ p < id + locs.length := by
  obtain ⟨i, loc, hi, hp, _⟩ := (mem_idsFor c p locs id).mp h
  have hlt : i < locs.length := by
    by_contra hn
    rw [List.getElem?_eq_none (by omega)] at hi
    cases hi
  omega

/-- The IDs one insertion loop appends to a cell come in non-decreasing order. -/
theorem idsFor_sorted (c : Int) :
    ∀ (locs : List (List Int)) (id : Nat), (idsFor locs id c).Sorted (· ≤ ·) := by
  intro locs
  induction locs with
  | nil =>
    intro id
    exact List.sorted_nil
  | cons loc rest ih =>
    intro id
    unfold idsFor
    unfold List.Sorted
    rw [List.pairwise_append]
    refine ⟨?_, ih (id + 1), ?_⟩
    · rw [List.pairwise_replicate]
      right
      exact le_refl id
    · intro a ha b hb
      rw [List.eq_of_mem_replicate ha]
      have := (idsFor_bounds c b rest (id + 1) hb).1
      omega

/-- A list in non-decreasing order is its entries below `k` followed by the
others. -/
theorem sorted_split (k : Nat) :
    ∀ (l : List Nat), l.Sorted (· ≤ ·) →
      l = l.filter (fun i => decide (i < k)) ++ l.filter (fun i => decide (k ≤ i)) := by
  intro l
  induction l with
  | nil =>
    intro _
    rfl
  | cons a as ih =>
    intro hs
    have hs2 := List.sorted_cons.mp hs
    by_cases ha : a < k
    · rw [List.filter_cons_of_pos (by simpa using ha),
        List.filter_cons_of_neg (by simpa using ha), List.cons_append, ← ih hs2.2]
    · have hall : ∀ b ∈ as, ¬ b < k := by
        intro b hb
        have := hs2.1 b hb
        omega
      have h1 : as.filter (fun i => decide (i < k)) = [] := by
        rw [List.filter_eq_nil_iff]
        intro b hb
        simpa using hall b hb
      have h2 : as.filter (fun i => decide (k ≤ i)) = as := by
        rw [List.filter_eq_self]
        intro b hb
        have := hall b hb
        simp only [decide_eq_true_eq]
        omega
      rw [List.filter_cons_of_neg (by simpa using ha),
        List.filter_cons_of_pos (by simp only [decide_eq_true_eq]; omega), h1, h2]
      rfl

/-- A list that is found is the list `voxelGet` returns. -/
theorem voxelGet_of_find {m : VoxelMap} {c : Int} {l : List Nat}
    (h : voxelFind m c = some l) : voxelGet m c = l := by
  unfold voxelGet
  rw [h]

/-- Two ordered lists separated by `k` append to an ordered list. -/
theorem sorted_append_of {a b : List Nat} (k : Nat) (ha : a.Sorted (· ≤ ·))
    (hb : b.Sorted (· ≤ ·)) (hak : ∀ x ∈ a, x < k) (hbk : ∀ y ∈ b, k ≤ y) :
    (a ++ b).Sorted (· ≤ ·) := by
  unfold List.Sorted
  rw [List.pairwise_append]
  refine ⟨ha, hb, ?_⟩
  intro x hx y hy
  have := hak x hx
  have := hbk y hy
  omega

/-- After either build every voxel list is in non-decreasing ID order. -/
theorem built_voxel_sorted {ext : External} {V V0 V1 : List Vec3} {E : List (Nat × Nat)}
    {F : List (Nat × Nat × Nat)} {voxelSize : ℚ} {sh : SpatialHash}
    (h : build ext V E F voxelSize = .ok sh ∨ buildSwept ext V0 V1 E F voxelSize = .ok sh)
    {c : Int} {l : List Nat} (hl : voxelFind sh.voxel c = some l) :
    l.Sorted (· ≤ ·) := by
  have hg := voxelGet_of_find hl
  rcases h with h | h
  · obtain ⟨ks, le, lf, hes, hts, _, _, _, hks, hle, hlf, hv⟩ := build_shape h
    rw [hv, voxelGet_insertLocs, voxelGet_insertLocs, voxelGet_insertLocs] at hg
    have hkl : (ks.map (fun k => [k])).length = V.length := by
      rw [List.length_map, forEachM_length hks]
    have hel : le.length = E.length := forEachM_length hle
    rw [← hg]
    refine sorted_append_of sh.triStartInd
      (sorted_append_of sh.edgeStartInd ?_ (idsFor_sorted c _ _) ?_ ?_)
      (idsFor_sorted c _ _) ?_ ?_
    · simpa [voxelGet, voxelFind] using idsFor_sorted c (ks.map (fun k => [k])) 0
    · intro x hx
      have hx2 : x ∈ idsFor (ks.map (fun k => [k])) 0 c := by
        simpa [voxelGet, voxelFind] using hx
      have := idsFor_bounds c x _ _ hx2
      omega
    · intro y hy
      exact (idsFor_bounds c y _ _ hy).1
    · intro x hx
      rcases List.mem_append.mp hx with hx | hx
      · have hx2 : x ∈ idsFor (ks.map (fun k => [k])) 0 c := by
          simpa [voxelGet, voxelFind] using hx
        have := idsFor_bounds c x _ _ hx2
        omega
      · have := idsFor_bounds c x _ _ hx
        omega
    · intro y hy
      exact (idsFor_bounds c y _ _ hy).1
  · obtain ⟨oe, lf, _, hes, hts, _, _, _, _, _, hv⟩ := buildSwept_shape h
    have hol := buildSwept_occupancy_length h
    rw [hv, voxelGet_insertLocs, voxelGet_insertLocs] at hg
    rw [← hg]
    refine sorted_append_of sh.triStartInd ?_ (idsFor_sorted c _ _) ?_ ?_
    · simpa [voxelGet, voxelFind] using idsFor_sorted c sh.pointAndEdgeOccupancy 0
    · intro x hx
      have hx2 : x ∈ idsFor sh.pointAndEdgeOccupancy 0 c := by
        simpa [voxelGet, voxelFind] using hx
      have := idsFor_bounds c x _ _ hx2
      omega
    · intro y hy
      exact (idsFor_bounds c y _ _ hy).1


/-- C35. Insertion order of a cell: after the serial build (static or swept) every
voxel list is its vertex IDs, followed by its edge IDs, followed by its face
IDs, each group in non-decreasing ID order (the order of the primitive index),
so the whole list is sorted in non-decreasing ID order. -/
theorem voxel_insertion_order (ext : External) (V V0 V1 : List Vec3) (E : List (Nat × Nat))
    (F : List (Nat × Nat × Nat)) (voxelSize : ℚ) (sh : SpatialHash)
    (h : build ext V E F voxelSize = .ok sh ∨ buildSwept ext V0 V1 E F voxelSize = .ok sh)
    (c : Int) (l : List Nat) (hl : voxelFind sh.voxel c = some l) :
    l = l.filter (fun i => decide (i < sh.edgeStartInd)) ++
        (l.filter (fun i => decide (sh.edgeStartInd ≤ i ∧ i < sh.triStartInd)) ++
          l.filter (fun i => decide (sh.triStartInd ≤ i))) ∧
    (l.filter (fun i => decide (i < sh.edgeStartInd))).Sorted (· ≤ ·) ∧
    (l.filter (fun i => decide (sh.edgeStartInd ≤ i ∧ i < sh.triStartInd))).Sorted (· ≤ ·) ∧
    (l.filter (fun i => decide (sh.triStartInd ≤ i))).Sorted (· ≤ ·) ∧
    l.Sorted (· ≤ ·) := by
  have hs := built_voxel_sorted h hl
  have hle : sh.edgeStartInd ≤ sh.triStartInd := by
    rcases h with h | h
    · obtain ⟨_, _, _, hes, hts, _⟩ := build_shape h
      omega
    · obtain ⟨_, _, _, hes, hts, _⟩ := buildSwept_shape h
      omega
  refine ⟨?_, hs.filter _, hs.filter _, hs.filter _, hs⟩
  have h1 := sorted_split sh.edgeStartInd l hs
  have h2 := sorted_split sh.triStartInd (l.filter (fun i => decide (sh.edgeStartInd ≤ i)))
    (hs.filter _)
  rw [List.filter_filter, List.filter_filter] at h2
  have e1 : (l.filter fun a => decide (a < sh.triStartInd) && decide (sh.edgeStartInd ≤ a))
      = l.filter (fun i => decide (sh.edgeStartInd ≤ i ∧ i < sh.triStartInd)) := by
    apply List.filter_congr
    intro x _
    by_cases hx1 : sh.edgeStartInd ≤ x <;> by_cases hx2 : x < sh.triStartInd <;> simp [hx1, hx2]
  have e2 : (l.filter fun a => decide (sh.triStartInd ≤ a) && decide (sh.edgeStartInd ≤ a))
      = l.filter (fun i => decide (sh.triStartInd ≤ i)) := by
    apply List.filter_congr
    intro x _
    by_cases hx1 : sh.triStartInd ≤ x
    · have : sh.edgeStartInd ≤ x := by omega
      simp [hx1, this]
    · simp [hx1]
  rw [e1, e2] at h2
  rw [← h2]
  exact h1

/-- Witness of C35: cell 0 of the static build of the stretched triangle
(vertices 0 and 1, then the three edges, then the face) and cell 1 of the swept
build of the unit diagonal, whose list repeats the edge ID. -/
theorem voxel_insertion_order_witness :
    (((build (specExternal 0 0) stretchV triE triF 2 = .ok stretchIndex ∨
          buildSwept (specExternal 0 0) [] [] triE triF 2 = .ok stretchIndex) ∧
        voxelFind stretchIndex.voxel 0 = some [0, 1, 3, 4, 5, 6]) ∧
    ([0, 1, 3, 4, 5, 6] : List Nat) = ([0, 1, 3, 4, 5, 6] : List Nat).filter (fun i => decide (i < stretchIndex.edgeStartInd)) ++
        (([0, 1, 3, 4, 5, 6] : List Nat).filter (fun i => decide (stretchIndex.edgeStartInd ≤ i ∧ i < stretchIndex.triStartInd)) ++
          ([0, 1, 3, 4, 5, 6] : List Nat).filter (fun i => decide (stretchIndex.triStartInd ≤ i))) ∧
    (([0, 1, 3, 4, 5, 6] : List Nat).filter (fun i => decide (i < stretchIndex.edgeStartInd))).Sorted (· ≤ ·) ∧
    (([0, 1, 3, 4, 5, 6] : List Nat).filter (fun i => decide (stretchIndex.edgeStartInd ≤ i ∧ i < stretchIndex.triStartInd))).Sorted (· ≤ ·) ∧
    (([0, 1, 3, 4, 5, 6] : List Nat).filter (fun i => decide (stretchIndex.triStartInd ≤ i))).Sorted (· ≤ ·) ∧
    ([0, 1, 3, 4, 5, 6] : List Nat).Sorted (· ≤ ·)) ∧
    (((build (specExternal 0 0) [] [(0, 1)] [] 1 = .ok diagIndex ∨
          buildSwept (specExternal 0 0) [⟨0, 0, 0⟩, ⟨1, 1, 1⟩] [⟨0, 0, 0⟩, ⟨1, 1, 1⟩]
            [(0, 1)] [] 1 = .ok diagIndex) ∧
        voxelFind diagIndex.voxel 1 = some [2, 2, 2]) ∧
    ([2, 2, 2] : List Nat) = ([2, 2, 2] : List Nat).filter (fun i => decide (i < diagIndex.edgeStartInd)) ++
        (([2, 2, 2] : List Nat).filter (fun i => decide (diagIndex.edgeStartInd ≤ i ∧ i < diagIndex.triStartInd)) ++
          ([2, 2, 2] : List Nat).filter (fun i => decide (diagIndex.triStartInd ≤ i))) ∧
    (([2, 2, 2] : List Nat).filter (fun i => decide (i < diagIndex.edgeStartInd))).Sorted (· ≤ ·) ∧
    (([2, 2, 2] : List Nat).filter (fun i => decide (diagIndex.edgeStartInd ≤ i ∧ i < diagIndex.triStartInd))).Sorted (· ≤ ·) ∧
    (([2, 2, 2] : List Nat).filter (fun i => decide (diagIndex.triStartInd ≤ i))).Sorted (· ≤ ·) ∧
    ([2, 2, 2] : List Nat).Sorted (· ≤ ·)) :=
  ⟨⟨⟨Or.inl (by decide!), by decide⟩,
      voxel_insertion_order (specExternal 0 0) stretchV [] [] triE triF 2 stretchIndex
        (Or.inl (by decide!)) 0 [0, 1, 3, 4, 5, 6] (by decide)⟩,
    ⟨⟨Or.inr (by decide!), by decide⟩,
      voxel_insertion_order (specExternal 0 0) [] [⟨0, 0, 0⟩, ⟨1, 1, 1⟩]
        [⟨0, 0, 0⟩, ⟨1, 1, 1⟩] [(0, 1)] [] 1 diagIndex (Or.inr (by decide!)) 1 [2, 2, 2]
        (by decide)⟩⟩

/-! ## Soundness of the swept candidates -/

theorem rows3_ok_iff (V : List Vec3) (i j k : Nat) (a b c : Vec3) :
    rows3 V i j k = .ok (a, b, c) ↔ V[i]? = some a ∧ V[j]? = some b ∧ V[k]? = some c := by
  unfold rows3 getE
  cases V[i]? <;> cases V[j]? <;> cases V[k]? <;> simp

theorem rows4_ok_iff (V : List Vec3) (i j k l : Nat) (a b c d : Vec3) :
    rows4 V i j k l = .ok (a, b, c, d) ↔
      V[i]? = some a ∧ V[j]? = some b ∧ V[k]? = some c ∧ V[l]? = some d := by
  unfold rows4 rows3 getE
  cases V[i]? <;> cases V[j]? <;> cases V[k]? <;> cases V[l]? <;> simp

theorem rows3_total {V : List Vec3} {i j k : Nat} (hi : i < V.length) (hj : j < V.length)
    (hk : k < V.length) : ∃ r, rows3 V i j k = .ok r := by
  unfold rows3 getE
  rw [List.getElem?_eq_getElem hi, List.getElem?_eq_getElem hj, List.getElem?_eq_getElem hk]
  exact ⟨_, rfl⟩

theorem rows4_total {V : List Vec3} {i j k l : Nat} (hi : i < V.length) (hj : j < V.length)
    (hk : k < V.length) (hl : l < V.length) : ∃ r, rows4 V i j k l = .ok r := by
  unfold rows4 rows3 getE
  rw [List.getElem?_eq_getElem hi, List.getElem?_eq_getElem hj, List.getElem?_eq_getElem hk,
    List.getElem?_eq_getElem hl]
  exact ⟨_, rfl⟩

/-- A pair the body of an inner loop emits for an element of the list is in the
output of the loop. -/
theorem collectM_mem_of {α β : Type} {f : α → Except Err (Option β)} :
    ∀ {xs : List α} {ys : List β}, collectM f xs = .ok ys →
      ∀ x ∈ xs, ∀ y, f x = .ok (some y) → y ∈ ys := by
  intro xs
  induction xs with
  | nil =>
    intro ys _ x hx
    cases hx
  | cons a as ih =>
    intro ys h x hx y hy
    unfold collectM at h
    cases hfa : f a with
    | error e => simp [hfa] at h
    | ok r =>
      cases hc : collectM f as with
      | error e => simp [hfa, hc] at h
      | ok bs =>
        rcases List.mem_cons.mp hx with hxa | hxas
        · subst hxa
          rw [hy] at hfa
          simp only [Except.ok.injEq] at hfa
          subst hfa
          simp only [hy, hc, Except.ok.injEq] at h
          rw [← h]
          exact List.mem_cons_self _ _
        · have hmem := ih hc x hxas y hy
          cases r with
          | none =>
            simp only [hfa, hc, Except.ok.injEq] at h
            exact h ▸ hmem
          | some b =>
            simp only [hfa, hc, Except.ok.injEq] at h
            rw [← h]
            exact List.mem_cons_of_mem _ hmem

/-- What an iteration of an outer loop appends is in the output of the loop. -/
theorem concatM_mem_of {α β : Type} {f : α → Except Err (List β)} :
    ∀ {xs : List α} {ys : List β}, concatM f xs = .ok ys →
      ∀ x ∈ xs, ∀ bs, f x = .ok bs → ∀ y ∈ bs, y ∈ ys := by
  intro xs
  induction xs with
  | nil =>
    intro ys _ x hx
    cases hx
  | cons a as ih =>
    intro ys h x hx bs hbs y hy
    unfold concatM at h
    cases hfa : f a with
    | error e => simp [hfa] at h
    | ok r =>
      cases hc : concatM f as with
      | error e => simp [hfa, hc] at h
      | ok cs =>
        simp only [hfa, hc, Except.ok.injEq] at h
        rw [← h]
        rcases List.mem_cons.mp hx with hxa | hxas
        · subst hxa
          rw [hbs] at hfa
          simp only [Except.ok.injEq] at hfa
          subst hfa
          exact List.mem_append_left _ hy
        · exact List.mem_append_right _ (ih hc x hxas bs hbs y hy)

namespace SpatialHash

/-- The pairs one iteration of the swept edge-vertex pass appends: the edges the
query returned for `vi` that the exhaustive scan keeps. -/
theorem evRowSwept_iff {sh : SpatialHash} {ext : External} {V0 V1 : List Vec3}
    {E : List (Nat × Nat)} {radius : ℚ} {vi : Nat} {l : List (Nat × Nat)}
    (h : sh.evRowSwept ext V0 V1 E radius vi = .ok l) :
    ∃ edgeInds, sh.queryPointForEdges vi = .ok edgeInds ∧
      ∀ p, p ∈ l ↔ p.2 = vi ∧ p.1 ∈ edgeInds ∧ ExhaustiveEV ext V0 V1 E radius p := by
  unfold evRowSwept at h
  cases hq : sh.queryPointForEdges vi with
  | error e => simp [hq] at h
  | ok edgeInds =>
    simp only [hq] at h
    refine ⟨edgeInds, rfl, ?_⟩
    intro p
    constructor
    · intro hp
      obtain ⟨ei, hei, hf⟩ := collectM_mem h p hp
      cases he : getE E ei with
      | error e => simp [he] at hf
      | ok e =>
        simp only [he] at hf
        split at hf
        · rename_i hc
          cases h0 : rows3 V0 vi e.1 e.2 with
          | error e => simp [h0] at hf
          | ok r0 =>
            obtain ⟨p0, e00, e10⟩ := r0
            cases h1 : rows3 V1 vi e.1 e.2 with
            | error e => simp [h0, h1] at hf
            | ok r1 =>
              obtain ⟨p1, e01, e11⟩ := r1
              simp only [h0, h1] at hf
              split at hf
              · rename_i hpred
                simp only [Except.ok.injEq, Option.some.injEq] at hf
                subst hf
                exact ⟨rfl, hei, e, p0, e00, e10, p1, e01, e11, getE_ok he, hc,
                  (rows3_ok_iff _ _ _ _ _ _ _).mp h0, (rows3_ok_iff _ _ _ _ _ _ _).mp h1,
                  hpred⟩
              · simp at hf
        · simp at hf
    · rintro ⟨hvi, hmem, e, p0, e00, e10, p1, e01, e11, he, hc, h0, h1, hpred⟩
      refine collectM_mem_of h p.1 hmem p ?_
      subst hvi
      simp only [getE_of_getElem? he, (rows3_ok_iff _ _ _ _ _ _ _).mpr h0,
        (rows3_ok_iff _ _ _ _ _ _ _).mpr h1, hpred, if_pos hc, if_true]

/-- The pairs one iteration of the swept edge-edge pass appends. -/
theorem eeRowSwept_iff {sh : SpatialHash} {ext : External} {V0 V1 : List Vec3}
    {E : List (Nat × Nat)} {radius : ℚ} {eai : Nat} {l : List (Nat × Nat)}
    (h : sh.eeRowSwept ext V0 V1 E radius eai = .ok l) :
    ∃ edgeInds, sh.queryEdgeForEdges eai = .ok edgeInds ∧
      ∀ p, p ∈ l ↔ p.1 = eai ∧ p.2 ∈ edgeInds ∧ ExhaustiveEE ext V0 V1 E radius p := by
  unfold eeRowSwept at h
  cases hq : sh.queryEdgeForEdges eai with
  | error e => simp [hq] at h
  | ok edgeInds =>
    simp only [hq] at h
    refine ⟨edgeInds, rfl, ?_⟩
    intro p
    constructor
    · intro hp
      obtain ⟨ebi, hebi, hf⟩ := collectM_mem h p hp
      cases hea : getE E eai with
      | error e => simp [hea] at hf
      | ok ea =>
        cases heb : getE E ebi with
        | error e => simp [hea, heb] at hf
        | ok eb =>
          simp only [hea, heb] at hf
          split at hf
          · rename_i hc
            cases h0 : rows4 V0 ea.1 ea.2 eb.1 eb.2 with
            | error e => simp [h0] at hf
            | ok r0 =>
              obtain ⟨a00, a10, b00, b10⟩ := r0
              cases h1 : rows4 V1 ea.1 ea.2 eb.1 eb.2 with
              | error e => simp [h0, h1] at hf
              | ok r1 =>
                obtain ⟨a01, a11, b01, b11⟩ := r1
                simp only [h0, h1] at hf
                split at hf
                · rename_i hpred
                  simp only [Except.ok.injEq, Option.some.injEq] at hf
                  subst hf
                  exact ⟨rfl, hebi, hc.2.2.2.2, ea, eb, a00, a10, b00, b10, a01, a11, b01,
                    b11, ⟨getE_ok hea, getE_ok heb⟩, ⟨hc.1, hc.2.1, hc.2.2.1, hc.2.2.2.1⟩,
                    (rows4_ok_iff _ _ _ _ _ _ _ _ _).mp h0,
                    (rows4_ok_iff _ _ _ _ _ _ _ _ _).mp h1, hpred⟩
                · simp at hf
          · simp at hf
    · rintro ⟨heai, hmem, hlt, ea, eb, a00, a10, b00, b10, a01, a11, b01, b11, ⟨hea, heb⟩,
        hc, h0, h1, hpred⟩
      refine collectM_mem_of h p.2 hmem p ?_
      subst heai
      simp only [getE_of_getElem? hea, getE_of_getElem? heb,
        (rows4_ok_iff _ _ _ _ _ _ _ _ _).mpr h0, (rows4_ok_iff _ _ _ _ _ _ _ _ _).mpr h1,
        hpred, if_pos (show ea.1 ≠ eb.1 ∧ ea.1 ≠ eb.2 ∧ ea.2 ≠ eb.1 ∧ ea.2 ≠ eb.2 ∧ p.1 < p.2
          from ⟨hc.1, hc.2.1, hc.2.2.1, hc.2.2.2, hlt⟩), if_true]

/-- The pairs one iteration of the swept face-vertex pass appends. -/
theorem fvRowSwept_iff {sh : SpatialHash} {ext : External} {V0 V1 : List Vec3}
    {F : List (Nat × Nat × Nat)} {radius : ℚ} {vi : Nat} {l : List (Nat × Nat)}
    (h : sh.fvRowSwept ext V0 V1 F radius vi = .ok l) :
    ∃ triInds, sh.queryPointForTriangles vi = .ok triInds ∧
      ∀ p, p ∈ l ↔ p.2 = vi ∧ p.1 ∈ triInds ∧ ExhaustiveFV ext V0 V1 F radius p := by
  unfold fvRowSwept at h
  cases hq : sh.queryPointForTriangles vi with
  | error e => simp [hq] at h
  | ok triInds =>
    simp only [hq] at h
    refine ⟨triInds, rfl, ?_⟩
    intro p
    constructor
    · intro hp
      obtain ⟨fi, hfi, hf⟩ := collectM_mem h p hp
      cases he : getE F fi with
      | error e => simp [he] at hf
      | ok f =>
        simp only [he] at hf
        split at hf
        · rename_i hc
          cases h0 : rows4 V0 vi f.1 f.2.1 f.2.2 with
          | error e => simp [h0] at hf
          | ok r0 =>
            obtain ⟨p0, t00, t10, t20⟩ := r0
            cases h1 : rows4 V1 vi f.1 f.2.1 f.2.2 with
            | error e => simp [h0, h1] at hf
            | ok r1 =>
              obtain ⟨p1, t01, t11, t21⟩ := r1
              simp only [h0, h1] at hf
              split at hf
              · rename_i hpred
                simp only [Except.ok.injEq, Option.some.injEq] at hf
                subst hf
                exact ⟨rfl, hfi, f, p0, t00, t10, t20, p1, t01, t11, t21, getE_ok he, hc,
                  (rows4_ok_iff _ _ _ _ _ _ _ _ _).mp h0,
                  (rows4_ok_iff _ _ _ _ _ _ _ _ _).mp h1, hpred⟩
              · simp at hf
        · simp at hf
    · rintro ⟨hvi, hmem, f, p0, t00, t10, t20, p1, t01, t11, t21, he, hc, h0, h1, hpred⟩
      refine collectM_mem_of h p.1 hmem p ?_
      subst hvi
      simp only [getE_of_getElem? he, (rows4_ok_iff _ _ _ _ _ _ _ _ _).mpr h0,
        (rows4_ok_iff _ _ _ _ _ _ _ _ _).mpr h1, hpred, if_pos hc, if_true]

end SpatialHash

theorem getVAI_lt {sh : SpatialHash} {V0 V1 : List Vec3} (hlen : V0.length = V1.length)
    {i : Nat} {x : Idx3 × Idx3}
    (hx : getVAI (vertexMinVAI sh V0 V1) (vertexMaxVAI sh V0 V1) i = .ok x) :
    i < V0.length := by
  unfold getVAI at hx
  cases hm : getE (vertexMinVAI sh V0 V1) i with
  | error err => simp [hm] at hx
  | ok m =>
    have := (List.getElem?_eq_some.mp (getE_ok hm)).1
    rw [length_vertexMinVAI sh V0 V1 hlen] at this
    exact this

/-- A swept build that returned read every face vertex within the vertex
matrix. -/
theorem buildSwept_faces_in_range {ext : External} {V0 V1 : List Vec3}
    {E : List (Nat × Nat)} {F : List (Nat × Nat × Nat)} {voxelSize : ℚ} {sh : SpatialHash}
    (h : buildSwept ext V0 V1 E F voxelSize = .ok sh) :
    ∀ f ∈ F, f.1 < V0.length ∧ f.2.1 < V0.length ∧ f.2.2 < V0.length := by
  obtain ⟨oe, lf, hlen, _, _, _, _, _, hlf, _⟩ := buildSwept_shape h
  intro f hf
  obtain ⟨cells, hcells⟩ := forEachM_ok_of_mem hlf f hf
  unfold sweptFaceCells at hcells
  cases h1 : getVAI (vertexMinVAI sh V0 V1) (vertexMaxVAI sh V0 V1) f.1 with
  | error err => simp [h1] at hcells
  | ok a =>
    cases h2 : getVAI (vertexMinVAI sh V0 V1) (vertexMaxVAI sh V0 V1) f.2.1 with
    | error err => simp [h1, h2] at hcells
    | ok b =>
      cases h3 : getVAI (vertexMinVAI sh V0 V1) (vertexMaxVAI sh V0 V1) f.2.2 with
      | error err => simp [h1, h2, h3] at hcells
      | ok c => exact ⟨getVAI_lt hlen h1, getVAI_lt hlen h2, getVAI_lt hlen h3⟩

/-- After the swept build the index-keyed `queryPointForEdges(vi)` returns the
edges that share a voxel cell with vertex `vi`. -/
theorem mem_queryPointForEdges_shares {ext : External} {V0 V1 : List Vec3}
    {E : List (Nat × Nat)} {F : List (Nat × Nat × Nat)} {voxelSize : ℚ} {sh : SpatialHash}
    (h : buildSwept ext V0 V1 E F voxelSize = .ok sh) {vi : Nat} (hvi : vi < V0.length)
    {r : List Nat} (hr : sh.queryPointForEdges vi = .ok r) (ei : Nat) :
    ei ∈ r ↔ ei < E.length ∧ SharesCell sh vi (sh.edgeStartInd + ei) := by
  obtain ⟨_, _, _, hes, hts, _⟩ := buildSwept_shape h
  rw [SpatialHash.mem_queryPointForEdges hr]
  constructor
  · rintro ⟨occ, hocc, i, ⟨h1, h2, h3⟩, c, hc, l, hl, hil⟩
    obtain ⟨l2, hl2, hvl⟩ := (buildSwept_mem_voxel_iff h vi c (by omega)).mp
      ⟨occ, getE_ok hocc, hc⟩
    rw [hl] at hl2
    simp only [Option.some.injEq] at hl2
    subst hl2
    have hi : sh.edgeStartInd + ei = i := by omega
    exact ⟨by omega, c, l, hl, hvl, hi ▸ hil⟩
  · rintro ⟨hlt, c, l, hl, hvl, hel⟩
    obtain ⟨occ, hocc, hc⟩ := (buildSwept_mem_voxel_iff h vi c (by omega)).mpr ⟨l, hl, hvl⟩
    exact ⟨occ, getE_of_getElem? hocc, sh.edgeStartInd + ei, ⟨by omega, by omega, by omega⟩,
      c, hc, l, hl, hel⟩

/-- After the swept build the index-keyed `queryPointForTriangles(vi)` returns
the faces that share a voxel cell with vertex `vi`. -/
theorem mem_queryPointForTriangles_shares {ext : External} {V0 V1 : List Vec3}
    {E : List (Nat × Nat)} {F : List (Nat × Nat × Nat)} {voxelSize : ℚ} {sh : SpatialHash}
    (h : buildSwept ext V0 V1 E F voxelSize = .ok sh) {vi : Nat} (hvi : vi < V0.length)
    {r : List Nat} (hr : sh.queryPointForTriangles vi = .ok r) (fi : Nat) :
    fi ∈ r ↔ fi < F.length ∧ SharesCell sh vi (sh.triStartInd + fi) := by
  obtain ⟨_, _, _, hes, hts, _⟩ := buildSwept_shape h
  rw [SpatialHash.mem_queryPointForTriangles hr]
  constructor
  · rintro ⟨occ, hocc, i, ⟨h1, h2⟩, c, hc, l, hl, hil⟩
    obtain ⟨l2, hl2, hvl⟩ := (buildSwept_mem_voxel_iff h vi c (by omega)).mp
      ⟨occ, getE_ok hocc, hc⟩
    rw [hl] at hl2
    simp only [Option.some.injEq] at hl2
    subst hl2
    have hi : sh.triStartInd + fi = i := by omega
    refine ⟨?_, c, l, hl, hvl, hi ▸ hil⟩
    rcases (buildSwept_mem_voxel_classes h c i).mp ⟨l, hl, hil⟩ with hcl | hcl | hcl
    · omega
    · omega
    · obtain ⟨_, f, _, hf, _⟩ := hcl
      rw [← h2] at hf
      exact (List.getElem?_eq_some.mp hf).1
  · rintro ⟨_, c, l, hl, hvl, hel⟩
    obtain ⟨occ, hocc, hc⟩ := (buildSwept_mem_voxel_iff h vi c (by omega)).mpr ⟨l, hl, hvl⟩
    exact ⟨occ, getE_of_getElem? hocc, sh.triStartInd + fi, ⟨by omega, by omega⟩,
      c, hc, l, hl, hel⟩

/-- After the swept build the index-keyed `queryEdgeForEdges(eai)` returns the
later edges that share a voxel cell with edge `eai`. -/
theorem mem_queryEdgeForEdges_shares {ext : External} {V0 V1 : List Vec3}
    {E : List (Nat × Nat)} {F : List (Nat × Nat × Nat)} {voxelSize : ℚ} {sh : SpatialHash}
    (h : buildSwept ext V0 V1 E F voxelSize = .ok sh) {eai : Nat} (heai : eai < E.length)
    {r : List Nat} (hr : sh.queryEdgeForEdges eai = .ok r) (ebi : Nat) :
    ebi ∈ r ↔ eai < ebi ∧ ebi < E.length ∧
      SharesCell sh (sh.edgeStartInd + eai) (sh.edgeStartInd + ebi) := by
  obtain ⟨_, _, _, hes, hts, _⟩ := buildSwept_shape h
  rw [SpatialHash.mem_queryEdgeForEdges hr]
  constructor
  · rintro ⟨occ, hocc, i, ⟨h1, h2, h3, h4⟩, c, hc, l, hl, hil⟩
    have hocc2 : sh.pointAndEdgeOccupancy[sh.edgeStartInd + eai]? = some occ := by
      rw [Nat.add_comm]
      exact getE_ok hocc
    obtain ⟨l2, hl2, hvl⟩ := (buildSwept_mem_voxel_iff h (sh.edgeStartInd + eai) c
      (by omega)).mp ⟨occ, hocc2, hc⟩
    rw [hl] at hl2
    simp only [Option.some.injEq] at hl2
    subst hl2
    have hi : sh.edgeStartInd + ebi = i := by omega
    exact ⟨by omega, by omega, c, l, hl, hvl, hi ▸ hil⟩
  · rintro ⟨hlt, hlen, c, l, hl, hvl, hel⟩
    obtain ⟨occ, hocc, hc⟩ := (buildSwept_mem_voxel_iff h (sh.edgeStartInd + eai) c
      (by omega)).mpr ⟨l, hl, hvl⟩
    rw [Nat.add_comm] at hocc
    exact ⟨occ, getE_of_getElem? hocc, sh.edgeStartInd + ebi,
      ⟨by omega, by omega, by omega, by omega⟩, c, hc, l, hl, hel⟩

/-- An outer loop whose body returns on every element returns. -/
theorem concatM_total {α β : Type} {f : α → Except Err (List β)} :
    ∀ (xs : List α), (∀ x ∈ xs, ∃ r, f x = .ok r) → ∃ ys, concatM f xs = .ok ys := by
  intro xs
  induction xs with
  | nil =>
    intro _
    exact ⟨[], rfl⟩
  | cons a as ih =>
    intro h
    obtain ⟨r, hr⟩ := h a (List.mem_cons_self _ _)
    obtain ⟨bs, hbs⟩ := ih (fun x hx => h x (List.mem_cons_of_mem _ hx))
    unfold concatM
    rw [hr, hbs]
    exact ⟨_, rfl⟩

/-- After the swept build every iteration of the swept edge-vertex pass
returns. -/
theorem evRowSwept_total {ext : External} {V0 V1 : List Vec3} {E : List (Nat × Nat)}
    {F : List (Nat × Nat × Nat)} {voxelSize : ℚ} {sh : SpatialHash}
    (h : buildSwept ext V0 V1 E F voxelSize = .ok sh) (ext2 : External) (radius : ℚ)
    (vi : Nat) (hvi : vi < V0.length) :
    ∃ l, sh.evRowSwept ext2 V0 V1 E radius vi = .ok l := by
  obtain ⟨r, hr⟩ := (queryPointFor_total h vi hvi).2
  obtain ⟨_, _, hlen, _⟩ := buildSwept_shape h
  unfold SpatialHash.evRowSwept
  simp only [hr]
  apply collectM_total
  intro ei hei
  have hlt := ((mem_queryPointForEdges_shares h hvi hr ei).mp hei).1
  obtain ⟨e, he⟩ := getE_total hlt
  have hin := buildSwept_edges_in_range h e (getE_mem he)
  obtain ⟨r0, h0⟩ := rows3_total hvi hin.1.1 hin.1.2
  obtain ⟨r1, h1⟩ := rows3_total (hlen ▸ hvi) hin.2.1 hin.2.2
  simp only [he, h0, h1]
  split
  · split
    · exact ⟨_, rfl⟩
    · exact ⟨_, rfl⟩
  · exact ⟨_, rfl⟩

/-- After the swept build every iteration of the swept edge-edge pass returns. -/
theorem eeRowSwept_total {ext : External} {V0 V1 : List Vec3} {E : List (Nat × Nat)}
    {F : List (Nat × Nat × Nat)} {voxelSize : ℚ} {sh : SpatialHash}
    (h : buildSwept ext V0 V1 E F voxelSize = .ok sh) (ext2 : External) (radius : ℚ)
    (eai : Nat) (heai : eai < E.length) :
    ∃ l, sh.eeRowSwept ext2 V0 V1 E radius eai = .ok l := by
  obtain ⟨r, hr⟩ := queryEdgeForEdges_total h eai heai
  unfold SpatialHash.eeRowSwept
  simp only [hr]
  apply collectM_total
  intro ebi hebi
  have hlt := ((mem_queryEdgeForEdges_shares h heai hr ebi).mp hebi).2.1
  obtain ⟨ea, hea⟩ := getE_total heai
  obtain ⟨eb, heb⟩ := getE_total hlt
  have hina := buildSwept_edges_in_range h ea (getE_mem hea)
  have hinb := buildSwept_edges_in_range h eb (getE_mem heb)
  obtain ⟨r0, h0⟩ := rows4_total hina.1.1 hina.1.2 hinb.1.1 hinb.1.2
  obtain ⟨r1, h1⟩ := rows4_total hina.2.1 hina.2.2 hinb.2.1 hinb.2.2
  simp only [hea, heb, h0, h1]
  split
  · split
    · exact ⟨_, rfl⟩
    · exact ⟨_, rfl⟩
  · exact ⟨_, rfl⟩

/-- After the swept build every iteration of the swept face-vertex pass
returns. -/
theorem fvRowSwept_total {ext : External} {V0 V1 : List Vec3} {E : List (Nat × Nat)}
    {F : List (Nat × Nat × Nat)} {voxelSize : ℚ} {sh : SpatialHash}
    (h : buildSwept ext V0 V1 E F voxelSize = .ok sh) (ext2 : External) (radius : ℚ)
    (vi : Nat) (hvi : vi < V0.length) :
    ∃ l, sh.fvRowSwept ext2 V0 V1 F radius vi = .ok l := by
  obtain ⟨r, hr⟩ := (queryPointFor_total h vi hvi).1
  obtain ⟨_, _, hlen, _⟩ := buildSwept_shape h
  unfold SpatialHash.fvRowSwept
  simp only [hr]
  apply collectM_total
  intro fi hfi
  have hlt := ((mem_queryPointForTriangles_shares h hvi hr fi).mp hfi).1
  obtain ⟨f, hf⟩ := getE_total hlt
  have hin := buildSwept_faces_in_range h f (getE_mem hf)
  obtain ⟨r0, h0⟩ := rows4_total hvi hin.1 hin.2.1 hin.2.2
  obtain ⟨r1, h1⟩ := rows4_total (V := V1) (hlen ▸ hvi) (hlen ▸ hin.1) (hlen ▸ hin.2.1)
    (hlen ▸ hin.2.2)
  simp only [hf, h0, h1]
  split
  · split
    · exact ⟨_, rfl⟩
    · exact ⟨_, rfl⟩
  · exact ⟨_, rfl⟩

/-- The pairs a sequential pass appends. -/
theorem seq_pass_mem_iff {flag : Bool} {row : Nat → Except Err (List (Nat × Nat))} {n : Nat}
    {out : List (Nat × Nat)}
    (h : (if flag then concatM row (List.range n) else .ok []) = .ok out) (p : Nat × Nat) :
    p ∈ out ↔ flag = true ∧ ∃ i, i < n ∧ ∃ l, row i = .ok l ∧ p ∈ l := by
  cases flag with
  | false =>
    simp only [Bool.false_eq_true, if_false, Except.ok.injEq] at h
    subst h
    simp
  | true =>
    simp only [if_true] at h
    constructor
    · intro hp
      obtain ⟨i, hi, l, hl, hpl⟩ := concatM_mem h p hp
      exact ⟨rfl, i, List.mem_range.mp hi, l, hl, hpl⟩
    · rintro ⟨_, i, hi, l, hl, hpl⟩
      exact concatM_mem_of h i (List.mem_range.mpr hi) l hl p hpl

/-- A sequential pass over rows that all return returns. -/
theorem seq_pass_total (flag : Bool) (row : Nat → Except Err (List (Nat × Nat))) {n : Nat}
    (h : ∀ i, i < n → ∃ l, row i = .ok l) :
    ∃ out, (if flag then concatM row (List.range n) else .ok []) = .ok out := by
  cases flag with
  | false => exact ⟨[], rfl⟩
  | true =>
    simp only [if_true]
    exact concatM_total _ (fun i hi => h i (List.mem_range.mp hi))

/-- After the swept build a vertex and an edge whose uninflated swept boxes
intersect share a voxel cell. -/
theorem shares_cell_vertex_edge {ext : External} {V0 V1 : List Vec3}
    {E : List (Nat × Nat)} {F : List (Nat × Nat × Nat)} {voxelSize : ℚ} {sh : SpatialHash}
    (h : buildSwept ext V0 V1 E F voxelSize = .ok sh) {v ei : Nat} {e : Nat × Nat}
    {p0 p1 e0 e1 e0t e1t : Vec3} (hp0 : V0[v]? = some p0) (hp1 : V1[v]? = some p1)
    (he : E[ei]? = some e) (he0 : V0[e.1]? = some e0) (he1 : V0[e.2]? = some e1)
    (he0t : V1[e.1]? = some e0t) (he1t : V1[e.2]? = some e1t)
    (hint : (AABB.from_point_swept p0 p1 0).intersects
      ((AABB.from_point_swept e0 e0t 0).union (AABB.from_point_swept e1 e1t 0)) = true) :
    SharesCell sh v (sh.edgeStartInd + ei) := by
  obtain ⟨_, _, _, hes, hts, _, hpos, _⟩ := buildSwept_shape h
  have hv : 0 ≤ sh.one_div_voxelSize := le_of_lt hpos
  have hlv : v < V0.length := (List.getElem?_eq_some.mp hp0).1
  have hle : ei < E.length := (List.getElem?_eq_some.mp he).1
  simp only [from_point_swept_zero, AABB.union] at hint
  obtain ⟨ix, iy, iz, hA, hB⟩ := shared_cell sh hv
    (AABB.mk (p0.cmin p1) (p0.cmax p1))
    (AABB.mk ((e0.cmin e0t).cmin (e1.cmin e1t)) ((e0.cmax e0t).cmax (e1.cmax e1t)))
    (vec_cmin_le_cmax p0 p1)
    (vec_cmin_le_cmax_of (e1.cmin e1t) (e1.cmax e1t) (vec_cmin_le_cmax e0 e0t)) hint
  have hov := buildSwept_vertex_occupancy h hp0 hp1
  have hoe := buildSwept_edge_occupancy h he he0 he1 he0t he1t
  rw [← hes] at hoe
  obtain ⟨l, hl, hvl⟩ := (buildSwept_mem_voxel_iff h v
    (ix + (iy * sh.voxelCount.x + iz * sh.voxelCount0x1)) (by omega)).mp
    ⟨_, hov, (mem_cellLoop _ _ _ _ _).mpr ⟨ix, iy, iz, hA, rfl⟩⟩
  obtain ⟨l2, hl2, hel⟩ := (buildSwept_mem_voxel_iff h (sh.edgeStartInd + ei)
    (ix + (iy * sh.voxelCount.x + iz * sh.voxelCount0x1)) (by omega)).mp
    ⟨_, hoe, (mem_cellLoop _ _ _ _ _).mpr ⟨ix, iy, iz, hB, rfl⟩⟩
  rw [hl] at hl2
  simp only [Option.some.injEq] at hl2
  subst hl2
  exact ⟨_, l, hl, hvl, hel⟩

/-- After the swept build two edges whose uninflated swept boxes intersect share
a voxel cell. -/
theorem shares_cell_edge_edge {ext : External} {V0 V1 : List Vec3}
    {E : List (Nat × Nat)} {F : List (Nat × Nat × Nat)} {voxelSize : ℚ} {sh : SpatialHash}
    (h : buildSwept ext V0 V1 E F voxelSize = .ok sh) {a b : Nat} {ea eb : Nat × Nat}
    {a0 a1 a0t a1t b0 b1 b0t b1t : Vec3} (hea : E[a]? = some ea) (heb : E[b]? = some eb)
    (ha0 : V0[ea.1]? = some a0) (ha1 : V0[ea.2]? = some a1)
    (ha0t : V1[ea.1]? = some a0t) (ha1t : V1[ea.2]? = some a1t)
    (hb0 : V0[eb.1]? = some b0) (hb1 : V0[eb.2]? = some b1)
    (hb0t : V1[eb.1]? = some b0t) (hb1t : V1[eb.2]? = some b1t)
    (hint : ((AABB.from_point_swept a0 a0t 0).union
        (AABB.from_point_swept a1 a1t 0)).intersects
      ((AABB.from_point_swept b0 b0t 0).union (AABB.from_point_swept b1 b1t 0)) = true) :
    SharesCell sh (sh.edgeStartInd + a) (sh.edgeStartInd + b) := by
  obtain ⟨_, _, _, hes, hts, _, hpos, _⟩ := buildSwept_shape h
  have hv : 0 ≤ sh.one_div_voxelSize := le_of_lt hpos
  have hla : a < E.length := (List.getElem?_eq_some.mp hea).1
  have hlb : b < E.length := (List.getElem?_eq_some.mp heb).1
  simp only [from_point_swept_zero, AABB.union] at hint
  obtain ⟨ix, iy, iz, hA, hB⟩ := shared_cell sh hv
    (AABB.mk ((a0.cmin a0t).cmin (a1.cmin a1t)) ((a0.cmax a0t).cmax (a1.cmax a1t)))
    (AABB.mk ((b0.cmin b0t).cmin (b1.cmin b1t)) ((b0.cmax b0t).cmax (b1.cmax b1t)))
    (vec_cmin_le_cmax_of (a1.cmin a1t) (a1.cmax a1t) (vec_cmin_le_cmax a0 a0t))
    (vec_cmin_le_cmax_of (b1.cmin b1t) (b1.cmax b1t) (vec_cmin_le_cmax b0 b0t)) hint
  have hoa := buildSwept_edge_occupancy h hea ha0 ha1 ha0t ha1t
  have hob := buildSwept_edge_occupancy h heb hb0 hb1 hb0t hb1t
  rw [← hes] at hoa hob
  obtain ⟨l, hl, hal⟩ := (buildSwept_mem_voxel_iff h (sh.edgeStartInd + a)
    (ix + (iy * sh.voxelCount.x + iz * sh.voxelCount0x1)) (by omega)).mp
    ⟨_, hoa, (mem_cellLoop _ _ _ _ _).mpr ⟨ix, iy, iz, hA, rfl⟩⟩
  obtain ⟨l2, hl2, hbl⟩ := (buildSwept_mem_voxel_iff h (sh.edgeStartInd + b)
    (ix + (iy * sh.voxelCount.x + iz * sh.voxelCount0x1)) (by omega)).mp
    ⟨_, hob, (mem_cellLoop _ _ _ _ _).mpr ⟨ix, iy, iz, hB, rfl⟩⟩
  rw [hl] at hl2
  simp only [Option.some.injEq] at hl2
  subst hl2
  exact ⟨_, l, hl, hal, hbl⟩

/-- After the swept build a vertex and a face whose uninflated swept boxes
intersect share a voxel cell. -/
theorem shares_cell_vertex_face {ext : External} {V0 V1 : List Vec3}
    {E : List (Nat × Nat)} {F : List (Nat × Nat × Nat)} {voxelSize : ℚ} {sh : SpatialHash}
    (h : buildSwept ext V0 V1 E F voxelSize = .ok sh) {v fi : Nat} {f : Nat × Nat × Nat}
    {p0 p1 t0 t1 t2 t0t t1t t2t : Vec3} (hp0 : V0[v]? = some p0) (hp1 : V1[v]? = some p1)
    (hf : F[fi]? = some f)
    (ht0 : V0[f.1]? = some t0) (ht1 : V0[f.2.1]? = some t1) (ht2 : V0[f.2.2]? = some t2)
    (ht0t : V1[f.1]? = some t0t) (ht1t : V1[f.2.1]? = some t1t)
    (ht2t : V1[f.2.2]? = some t2t)
    (hint : (AABB.from_point_swept p0 p1 0).intersects
      (((AABB.from_point_swept t0 t0t 0).union (AABB.from_point_swept t1 t1t 0)).union
        (AABB.from_point_swept t2 t2t 0)) = true) :
    SharesCell sh v (sh.triStartInd + fi) := by
  obtain ⟨_, _, _, hes, hts, _, hpos, _⟩ := buildSwept_shape h
  have hv : 0 ≤ sh.one_div_voxelSize := le_of_lt hpos
  have hlv : v < V0.length := (List.getElem?_eq_some.mp hp0).1
  simp only [from_point_swept_zero, AABB.union] at hint
  obtain ⟨ix, iy, iz, hA, hB⟩ := shared_cell sh hv
    (AABB.mk (p0.cmin p1) (p0.cmax p1))
    (AABB.mk (((t0.cmin t0t).cmin (t1.cmin t1t)).cmin (t2.cmin t2t))
      (((t0.cmax t0t).cmax (t1.cmax t1t)).cmax (t2.cmax t2t)))
    (vec_cmin_le_cmax p0 p1)
    (vec_cmin_le_cmax_of (t2.cmin t2t) (t2.cmax t2t)
      (vec_cmin_le_cmax_of (t1.cmin t1t) (t1.cmax t1t) (vec_cmin_le_cmax t0 t0t))) hint
  have hov := buildSwept_vertex_occupancy h hp0 hp1
  obtain ⟨l, hl, hvl⟩ := (buildSwept_mem_voxel_iff h v
    (ix + (iy * sh.voxelCount.x + iz * sh.voxelCount0x1)) (by omega)).mp
    ⟨_, hov, (mem_cellLoop _ _ _ _ _).mpr ⟨ix, iy, iz, hA, rfl⟩⟩
  obtain ⟨l2, hl2, hfl⟩ := (buildSwept_mem_voxel_classes h
    (ix + (iy * sh.voxelCount.x + iz * sh.voxelCount0x1)) (sh.triStartInd + fi)).mpr
    (Or.inr (Or.inr ⟨by omega, f, _, by rw [Nat.add_sub_cancel_left]; exact hf,
      sweptFaceCells_eq sh hv ht0 ht1 ht2 ht0t ht1t ht2t,
      (mem_cellLoop _ _ _ _ _).mpr ⟨ix, iy, iz, hB, rfl⟩⟩))
  rw [hl] at hl2
  simp only [Option.some.injEq] at hl2
  subst hl2
  exact ⟨_, l, hl, hvl, hfl⟩

/-- C31. Candidate soundness: after a swept build the swept `queryMeshForCandidates`
returns, and the pairs it appends are exactly the pairs that pass the incidence
filter and the AABB predicate at `radius` (the pairs an exhaustive scan with the
same predicate keeps) and whose two primitives share a voxel cell of the index.
Together with conservativeness (every pair the scan keeps shares a cell) the
appended sets are those of the exhaustive scan; and conservativeness holds when
the predicates accept only pairs whose uninflated swept boxes intersect. -/
theorem candidate_soundness (ext : External) (V0 V1 : List Vec3) (E : List (Nat × Nat))
    (F : List (Nat × Nat × Nat)) (voxelSize : ℚ) (sh : SpatialHash)
    (h : buildSwept ext V0 V1 E F voxelSize = .ok sh) (candidates : Candidates)
    (radius : ℚ) (queryEV queryEE queryFV : Bool) :
    ∃ ev ee fv,
      sh.queryMeshForCandidatesSwept ext V0 V1 E F candidates radius queryEV queryEE queryFV
        = .ok ⟨candidates.ev_candidates ++ ev, candidates.ee_candidates ++ ee,
          candidates.fv_candidates ++ fv⟩ ∧
      (∀ p, p ∈ ev ↔ queryEV = true ∧ ExhaustiveEV ext V0 V1 E radius p ∧
        SharesCell sh p.2 (sh.edgeStartInd + p.1)) ∧
      (∀ p, p ∈ ee ↔ queryEE = true ∧ ExhaustiveEE ext V0 V1 E radius p ∧
        SharesCell sh (sh.edgeStartInd + p.1) (sh.edgeStartInd + p.2)) ∧
      (∀ p, p ∈ fv ↔ queryFV = true ∧ ExhaustiveFV ext V0 V1 F radius p ∧
        SharesCell sh p.2 (sh.triStartInd + p.1)) ∧
      (((∀ p, ExhaustiveEV ext V0 V1 E radius p →
            SharesCell sh p.2 (sh.edgeStartInd + p.1)) →
          ∀ p, p ∈ ev ↔ queryEV = true ∧ ExhaustiveEV ext V0 V1 E radius p) ∧
        ((∀ p, ExhaustiveEE ext V0 V1 E radius p →
            SharesCell sh (sh.edgeStartInd + p.1) (sh.edgeStartInd + p.2)) →
          ∀ p, p ∈ ee ↔ queryEE = true ∧ ExhaustiveEE ext V0 V1 E radius p) ∧
        ((∀ p, ExhaustiveFV ext V0 V1 F radius p →
            SharesCell sh p.2 (sh.triStartInd + p.1)) →
          ∀ p, p ∈ fv ↔ queryFV = true ∧ ExhaustiveFV ext V0 V1 F radius p)) ∧
      (PredicatesWithinBoxes ext radius →
        (∀ p, ExhaustiveEV ext V0 V1 E radius p →
          SharesCell sh p.2 (sh.edgeStartInd + p.1)) ∧
        (∀ p, ExhaustiveEE ext V0 V1 E radius p →
          SharesCell sh (sh.edgeStartInd + p.1) (sh.edgeStartInd + p.2)) ∧
        (∀ p, ExhaustiveFV ext V0 V1 F radius p →
          SharesCell sh p.2 (sh.triStartInd + p.1))) := by
  obtain ⟨_, _, hlen, _⟩ := buildSwept_shape h
  obtain ⟨ev, hev⟩ := seq_pass_total queryEV (sh.evRowSwept ext V0 V1 E radius)
    (fun i hi => evRowSwept_total h ext radius i hi)
  obtain ⟨ee, hee⟩ := seq_pass_total queryEE (sh.eeRowSwept ext V0 V1 E radius)
    (fun i hi => eeRowSwept_total h ext radius i hi)
  obtain ⟨fv, hfv⟩ := seq_pass_total queryFV (sh.fvRowSwept ext V0 V1 F radius)
    (fun i hi => fvRowSwept_total h ext radius i hi)
  have hEV : ∀ p, p ∈ ev ↔ queryEV = true ∧ ExhaustiveEV ext V0 V1 E radius p ∧
      SharesCell sh p.2 (sh.edgeStartInd + p.1) := by
    intro p
    rw [seq_pass_mem_iff hev]
    constructor
    · rintro ⟨hq, i, hi, l, hl, hpl⟩
      obtain ⟨r, hr, hiff⟩ := SpatialHash.evRowSwept_iff hl
      obtain ⟨hp2, hp1, hex⟩ := (hiff p).mp hpl
      subst hp2
      exact ⟨hq, hex, ((mem_queryPointForEdges_shares h hi hr p.1).mp hp1).2⟩
    · rintro ⟨hq, hex, hsh⟩
      have hex2 := hex
      obtain ⟨e, p0, _, _, _, _, _, he, _, ⟨hp0, _⟩, _⟩ := hex2
      have hi : p.2 < V0.length := (List.getElem?_eq_some.mp hp0).1
      have hle : p.1 < E.length := (List.getElem?_eq_some.mp he).1
      obtain ⟨l, hl⟩ := evRowSwept_total h ext radius p.2 hi
      obtain ⟨r, hr, hiff⟩ := SpatialHash.evRowSwept_iff hl
      exact ⟨hq, p.2, hi, l, hl, (hiff p).mpr
        ⟨rfl, (mem_queryPointForEdges_shares h hi hr p.1).mpr ⟨hle, hsh⟩, hex⟩⟩
  have hEE : ∀ p, p ∈ ee ↔ queryEE = true ∧ ExhaustiveEE ext V0 V1 E radius p ∧
      SharesCell sh (sh.edgeStartInd + p.1) (sh.edgeStartInd + p.2) := by
    intro p
    rw [seq_pass_mem_iff hee]
    constructor
    · rintro ⟨hq, i, hi, l, hl, hpl⟩
      obtain ⟨r, hr, hiff⟩ := SpatialHash.eeRowSwept_iff hl
      obtain ⟨hp1, hp2, hex⟩ := (hiff p).mp hpl
      subst hp1
      exact ⟨hq, hex, ((mem_queryEdgeForEdges_shares h hi hr p.2).mp hp2).2.2⟩
    · rintro ⟨hq, hex, hsh⟩
      have hex2 := hex
      obtain ⟨hlt, ea, eb, _, _, _, _, _, _, _, _, ⟨hea, heb⟩, _⟩ := hex2
      have hi : p.1 < E.length := (List.getElem?_eq_some.mp hea).1
      have hle : p.2 < E.length := (List.getElem?_eq_some.mp heb).1
      obtain ⟨l, hl⟩ := eeRowSwept_total h ext radius p.1 hi
      obtain ⟨r, hr, hiff⟩ := SpatialHash.eeRowSwept_iff hl
      exact ⟨hq, p.1, hi, l, hl, (hiff p).mpr
        ⟨rfl, (mem_queryEdgeForEdges_shares h hi hr p.2).mpr ⟨hlt, hle, hsh⟩, hex⟩⟩
  have hFV : ∀ p, p ∈ fv ↔ queryFV = true ∧ ExhaustiveFV ext V0 V1 F radius p ∧
      SharesCell sh p.2 (sh.triStartInd + p.1) := by
    intro p
    rw [seq_pass_mem_iff hfv]
    constructor
    · rintro ⟨hq, i, hi, l, hl, hpl⟩
      obtain ⟨r, hr, hiff⟩ := SpatialHash.fvRowSwept_iff hl
      obtain ⟨hp2, hp1, hex⟩ := (hiff p).mp hpl
      subst hp2
      exact ⟨hq, hex, ((mem_queryPointForTriangles_shares h hi hr p.1).mp hp1).2⟩
    · rintro ⟨hq, hex, hsh⟩
      have hex2 := hex
      obtain ⟨f, p0, _, _, _, _, _, _, _, hf, _, ⟨hp0, _⟩, _⟩ := hex2
      have hi : p.2 < V0.length := (List.getElem?_eq_some.mp hp0).1
      have hle : p.1 < F.length := (List.getElem?_eq_some.mp hf).1
      obtain ⟨l, hl⟩ := fvRowSwept_total h ext radius p.2 hi
      obtain ⟨r, hr, hiff⟩ := SpatialHash.fvRowSwept_iff hl
      exact ⟨hq, p.2, hi, l, hl, (hiff p).mpr
        ⟨rfl, (mem_queryPointForTriangles_shares h hi hr p.1).mpr ⟨hle, hsh⟩, hex⟩⟩
  refine ⟨ev, ee, fv, ?_, hEV, hEE, hFV, ⟨?_, ?_, ?_⟩, ?_⟩
  · unfold SpatialHash.queryMeshForCandidatesSwept
    rw [if_neg (by simpa using hlen), hev, hee, hfv]
    rfl
  · intro hc p
    rw [hEV p]
    exact ⟨fun hp => ⟨hp.1, hp.2.1⟩, fun hp => ⟨hp.1, hp.2, hc p hp.2⟩⟩
  · intro hc p
    rw [hEE p]
    exact ⟨fun hp => ⟨hp.1, hp.2.1⟩, fun hp => ⟨hp.1, hp.2, hc p hp.2⟩⟩
  · intro hc p
    rw [hFV p]
    exact ⟨fun hp => ⟨hp.1, hp.2.1⟩, fun hp => ⟨hp.1, hp.2, hc p hp.2⟩⟩
  · rintro ⟨hb1, hb2, hb3⟩
    refine ⟨?_, ?_, ?_⟩
    · rintro p ⟨e, p0, e00, e10, p1, e01, e11, he, _, ⟨hp0, he0, he1⟩, ⟨hp1, he0t, he1t⟩,
        hpred⟩
      exact shares_cell_vertex_edge h hp0 hp1 he he0 he1 he0t he1t (hb1 _ _ _ _ _ _ hpred)
    · rintro p ⟨_, ea, eb, a00, a10, b00, b10, a01, a11, b01, b11, ⟨hea, heb⟩, _,
        ⟨ha0, ha1, hb0, hb1'⟩, ⟨ha0t, ha1t, hb0t, hb1t⟩, hpred⟩
      exact shares_cell_edge_edge h hea heb ha0 ha1 ha0t ha1t hb0 hb1' hb0t hb1t
        (hb2 _ _ _ _ _ _ _ _ hpred)
    · rintro p ⟨f, p0, t00, t10, t20, p1, t01, t11, t21, hf, _, ⟨hp0, ht0, ht1, ht2⟩,
        ⟨hp1, ht0t, ht1t, ht2t⟩, hpred⟩
      exact shares_cell_vertex_face h hp0 hp1 hf ht0 ht1 ht2 ht0t ht1t ht2t
        (hb3 _ _ _ _ _ _ _ _ hpred)

/-- Witness of C31: the pierced triangle at rest with radius 0, where the AABB
predicates of the spec accept exactly the pairs whose uninflated boxes
intersect. -/
theorem candidate_soundness_witness :
    (buildSwept (specExternal 0 0) pierceV pierceV pierceE triF 2 = .ok pierceIndex ∧
      pierceIndex.queryMeshForCandidatesSwept (specExternal 0 0) pierceV pierceV pierceE triF
          ⟨[], [], []⟩ 0 true true true
        = .ok ⟨[(1, 0)], [(1, 3)], []⟩ ∧
      PredicatesWithinBoxes (specExternal 0 0) 0) ∧
    (∃ ev ee fv,
      pierceIndex.queryMeshForCandidatesSwept (specExternal 0 0) pierceV pierceV pierceE triF (⟨[], [], []⟩ : Candidates) 0 true true true
        = .ok ⟨(⟨[], [], []⟩ : Candidates).ev_candidates ++ ev, (⟨[], [], []⟩ : Candidates).ee_candidates ++ ee,
          (⟨[], [], []⟩ : Candidates).fv_candidates ++ fv⟩ ∧
      (∀ p, p ∈ ev ↔ true = true ∧ ExhaustiveEV (specExternal 0 0) pierceV pierceV pierceE 0 p ∧
        SharesCell pierceIndex p.2 (pierceIndex.edgeStartInd + p.1)) ∧
      (∀ p, p ∈ ee ↔ true = true ∧ ExhaustiveEE (specExternal 0 0) pierceV pierceV pierceE 0 p ∧
        SharesCell pierceIndex (pierceIndex.edgeStartInd + p.1) (pierceIndex.edgeStartInd + p.2)) ∧
      (∀ p, p ∈ fv ↔ true = true ∧ ExhaustiveFV (specExternal 0 0) pierceV pierceV triF 0 p ∧
        SharesCell pierceIndex p.2 (pierceIndex.triStartInd + p.1)) ∧
      (((∀ p, ExhaustiveEV (specExternal 0 0) pierceV pierceV pierceE 0 p →
            SharesCell pierceIndex p.2 (pierceIndex.edgeStartInd + p.1)) →
          ∀ p, p ∈ ev ↔ true = true ∧ ExhaustiveEV (specExternal 0 0) pierceV pierceV pierceE 0 p) ∧
        ((∀ p, ExhaustiveEE (specExternal 0 0) pierceV pierceV pierceE 0 p →
            SharesCell pierceIndex (pierceIndex.edgeStartInd + p.1) (pierceIndex.edgeStartInd + p.2)) →
          ∀ p, p ∈ ee ↔ true = true ∧ ExhaustiveEE (specExternal 0 0) pierceV pierceV pierceE 0 p) ∧
        ((∀ p, ExhaustiveFV (specExternal 0 0) pierceV pierceV triF 0 p →
            SharesCell pierceIndex p.2 (pierceIndex.triStartInd + p.1)) →
          ∀ p, p ∈ fv ↔ true = true ∧ ExhaustiveFV (specExternal 0 0) pierceV pierceV triF 0 p)) ∧
      (PredicatesWithinBoxes (specExternal 0 0) 0 →
        (∀ p, ExhaustiveEV (specExternal 0 0) pierceV pierceV pierceE 0 p →
          SharesCell pierceIndex p.2 (pierceIndex.edgeStartInd + p.1)) ∧
        (∀ p, ExhaustiveEE (specExternal 0 0) pierceV pierceV pierceE 0 p →
          SharesCell pierceIndex (pierceIndex.edgeStartInd + p.1) (pierceIndex.edgeStartInd + p.2)) ∧
        (∀ p, ExhaustiveFV (specExternal 0 0) pierceV pierceV triF 0 p →
          SharesCell pierceIndex p.2 (pierceIndex.triStartInd + p.1)))) :=
  ⟨⟨by decide!, by decide!,
      ⟨fun _ _ _ _ _ _ h => h, fun _ _ _ _ _ _ _ _ h => h, fun _ _ _ _ _ _ _ _ h => h⟩⟩,
    candidate_soundness (specExternal 0 0) pierceV pierceV pierceE triF 2 pierceIndex
      (by decide!) ⟨[], [], []⟩ 0 true true true⟩

/-! ## No repeated candidate -/

/-- Inserting into a set keeps it free of duplicates. -/
theorem setInsert_nodup {s : List Nat} (x : Nat) (h : s.Nodup) : (setInsert s x).Nodup := by
  unfold setInsert
  split
  · exact h
  · rename_i hx
    rw [List.nodup_append]
    refine ⟨h, List.nodup_singleton x, ?_⟩
    intro a ha hb
    rw [List.mem_singleton] at hb
    exact hx (hb ▸ ha)

namespace SpatialHash

/-- The output set of an index-keyed query holds no index twice. -/
theorem scanOccupancy_nodup (sh : SpatialHash) (keep : Nat → Option Nat) :
    ∀ (occ : List Int) (init r : List Nat), init.Nodup →
      sh.scanOccupancy keep occ init = .ok r → r.Nodup := by
  intro occ
  induction occ with
  | nil =>
    intro init r hi h
    simp only [scanOccupancy, Except.ok.injEq] at h
    exact h ▸ hi
  | cons c rest ih =>
    intro init r hi h
    unfold scanOccupancy at h
    cases hf : voxelFind sh.voxel c with
    | none => simp [hf] at h
    | some l =>
      simp only [hf] at h
      refine ih _ r ?_ h
      have : ∀ (l : List Nat) (s : List Nat), s.Nodup →
          (l.foldl (fun s indI =>
            match keep indI with
            | some j => setInsert s j
            | none => s) s).Nodup := by
        intro l
        induction l with
        | nil =>
          intro s hs
          exact hs
        | cons a as iha =>
          intro s hs
          rw [List.foldl_cons]
          apply iha
          cases keep a with
          | none => exact hs
          | some j => exact setInsert_nodup j hs
      exact this l init hi

theorem queryPointForEdges_nodup {sh : SpatialHash} {vi : Nat} {r : List Nat}
    (h : sh.queryPointForEdges vi = .ok r) : r.Nodup := by
  unfold queryPointForEdges at h
  cases ho : getE sh.pointAndEdgeOccupancy vi with
  | error e => simp [ho] at h
  | ok occ =>
    simp only [ho] at h
    exact sh.scanOccupancy_nodup _ occ [] r List.nodup_nil h

theorem queryPointForTriangles_nodup {sh : SpatialHash} {vi : Nat} {r : List Nat}
    (h : sh.queryPointForTriangles vi = .ok r) : r.Nodup := by
  unfold queryPointForTriangles at h
  cases ho : getE sh.pointAndEdgeOccupancy vi with
  | error e => simp [ho] at h
  | ok occ =>
    simp only [ho] at h
    exact sh.scanOccupancy_nodup _ occ [] r List.nodup_nil h

theorem queryEdgeForEdges_nodup {sh : SpatialHash} {eai : Nat} {r : List Nat}
    (h : sh.queryEdgeForEdges eai = .ok r) : r.Nodup := by
  unfold queryEdgeForEdges at h
  cases ho : getE sh.pointAndEdgeOccupancy (eai + sh.edgeStartInd) with
  | error e => simp [ho] at h
  | ok occ =>
    simp only [ho] at h
    exact sh.scanOccupancy_nodup _ occ [] r List.nodup_nil h

end SpatialHash

/-- An inner loop over a duplicate-free list whose emitted pair determines the
element it came from emits no pair twice. -/
theorem collectM_nodup {α β : Type} {f : α → Except Err (Option β)} (tag : β → α)
    (htag : ∀ x y, f x = .ok (some y) → tag y = x) :
    ∀ {xs : List α} {ys : List β}, xs.Nodup → collectM f xs = .ok ys → ys.Nodup := by
  intro xs
  induction xs with
  | nil =>
    intro ys _ h
    simp only [collectM, Except.ok.injEq] at h
    rw [← h]
    exact List.nodup_nil
  | cons a as ih =>
    intro ys hx h
    have hx2 := List.nodup_cons.mp hx
    unfold collectM at h
    cases hfa : f a with
    | error e => simp [hfa] at h
    | ok r =>
      cases hc : collectM f as with
      | error e => simp [hfa, hc] at h
      | ok bs =>
        have hbs := ih hx2.2 hc
        cases r with
        | none =>
          simp only [hfa, hc, Except.ok.injEq] at h
          exact h ▸ hbs
        | some b =>
          simp only [hfa, hc, Except.ok.injEq] at h
          rw [← h, List.nodup_cons]
          refine ⟨?_, hbs⟩
          intro hb
          obtain ⟨x, hxas, hfx⟩ := collectM_mem hc b hb
          have e1 := htag x b hfx
          have e2 := htag a b hfa
          exact hx2.1 (e2 ▸ e1 ▸ hxas)

namespace SpatialHash

/-- One iteration of the swept edge-vertex pass appends no pair twice. -/
theorem evRowSwept_nodup {sh : SpatialHash} {ext : External} {V0 V1 : List Vec3}
    {E : List (Nat × Nat)} {radius : ℚ} {vi : Nat} {l : List (Nat × Nat)}
    (h : sh.evRowSwept ext V0 V1 E radius vi = .ok l) : l.Nodup := by
  unfold evRowSwept at h
  cases hq : sh.queryPointForEdges vi with
  | error e => simp [hq] at h
  | ok edgeInds =>
    simp only [hq] at h
    refine collectM_nodup Prod.fst ?_ (queryPointForEdges_nodup hq) h
    intro ei y hf
    cases he : getE E ei with
    | error e => simp [he] at hf
    | ok e =>
      simp only [he] at hf
      split at hf
      · cases h0 : rows3 V0 vi e.1 e.2 with
        | error e => simp [h0] at hf
        | ok r0 =>
          cases h1 : rows3 V1 vi e.1 e.2 with
          | error e => simp [h0, h1] at hf
          | ok r1 =>
            simp only [h0, h1] at hf
            split at hf
            · simp only [Except.ok.injEq, Option.some.injEq] at hf
              rw [← hf]
            · simp at hf
      · simp at hf

/-- One iteration of the swept edge-edge pass appends no pair twice. -/
theorem eeRowSwept_nodup {sh : SpatialHash} {ext : External} {V0 V1 : List Vec3}
    {E : List (Nat × Nat)} {radius : ℚ} {eai : Nat} {l : List (Nat × Nat)}
    (h : sh.eeRowSwept ext V0 V1 E radius eai = .ok l) : l.Nodup := by
  unfold eeRowSwept at h
  cases hq : sh.queryEdgeForEdges eai with
  | error e => simp [hq] at h
  | ok edgeInds =>
    simp only [hq] at h
    refine collectM_nodup Prod.snd ?_ (queryEdgeForEdges_nodup hq) h
    intro ebi y hf
    cases hea : getE E eai with
    | error e => simp [hea] at hf
    | ok ea =>
      cases heb : getE E ebi with
      | error e => simp [hea, heb] at hf
      | ok eb =>
        simp only [hea, heb] at hf
        split at hf
        · cases h0 : rows4 V0 ea.1 ea.2 eb.1 eb.2 with
          | error e => simp [h0] at hf
          | ok r0 =>
            cases h1 : rows4 V1 ea.1 ea.2 eb.1 eb.2 with
            | error e => simp [h0, h1] at hf
            | ok r1 =>
              simp only [h0, h1] at hf
              split at hf
              · simp only [Except.ok.injEq, Option.some.injEq] at hf
                rw [← hf]
              · simp at hf
        · simp at hf

/-- One iteration of the swept face-vertex pass appends no pair twice. -/
theorem fvRowSwept_nodup {sh : SpatialHash} {ext : External} {V0 V1 : List Vec3}
    {F : List (Nat × Nat × Nat)} {radius : ℚ} {vi : Nat} {l : List (Nat × Nat)}
    (h : sh.fvRowSwept ext V0 V1 F radius vi = .ok l) : l.Nodup := by
  unfold fvRowSwept at h
  cases hq : sh.queryPointForTriangles vi with
  | error e => simp [hq] at h
  | ok triInds =>
    simp only [hq] at h
    refine collectM_nodup Prod.fst ?_ (queryPointForTriangles_nodup hq) h
    intro fi y hf
    cases he : getE F fi with
    | error e => simp [he] at hf
    | ok f =>
      simp only [he] at hf
      split at hf
      · cases h0 : rows4 V0 vi f.1 f.2.1 f.2.2 with
        | error e => simp [h0] at hf
        | ok r0 =>
          cases h1 : rows4 V1 vi f.1 f.2.1 f.2.2 with
          | error e => simp [h0, h1] at hf
          | ok r1 =>
            simp only [h0, h1] at hf
            split at hf
            · simp only [Except.ok.injEq, Option.some.injEq] at hf
              rw [← hf]
            · simp at hf
      · simp at hf

end SpatialHash

/-- A pass under a schedule fills the local buffers without repeating a pair,
when no iteration repeats a pair and every pair names its iteration. -/
theorem pass_nodup {flag : Bool} {row : Nat → Except Err (List (Nat × Nat))}
    (tag : Nat × Nat → Nat) {n : Nat} {workers : List Nat} {chunks : List Chunk}
    (hs : IsSchedule n workers chunks)
    (hrow : ∀ i l, row i = .ok l → l.Nodup ∧ ∀ p ∈ l, tag p = i)
    {outs : List (Nat × List (Nat × Nat))}
    (h : (if flag then parallelFor row chunks else .ok []) = .ok outs) :
    (workers.flatMap (localBuffer outs)).Nodup := by
  cases flag with
  | false =>
    simp only [Bool.false_eq_true, if_false, Except.ok.injEq] at h
    subst h
    have hnil : workers.flatMap (localBuffer []) = [] := by simp [localBuffer]
    rw [hnil]
    exact List.nodup_nil
  | true =>
    simp only [if_true] at h
    have hall : ∀ i, i < n → ∃ l, row i = .ok l := by
      intro i hi
      exact parallelFor_ok_inv h i (hs.2.2.symm.subset (List.mem_range.mpr hi))
    let g : Nat → List (Nat × Nat) := fun i =>
      match row i with
      | .ok l => l
      | .error _ => []
    have hg : ∀ i, i < n → row i = .ok (g i) := by
      intro i hi
      obtain ⟨l, hl⟩ := hall i hi
      simp only [g, hl]
    obtain ⟨outs2, hp2, hperm⟩ := parallel_pass_perm g hs hg
    rw [h] at hp2
    simp only [Except.ok.injEq] at hp2
    subst hp2
    rw [hperm.nodup_iff, List.nodup_flatMap]
    constructor
    · intro i hi
      exact (hrow i (g i) (hg i (List.mem_range.mp hi))).1
    · refine (List.nodup_range n).pairwise_of_forall_ne ?_
      intro a ha b hb hab p hpa hpb
      have e1 := (hrow a (g a) (hg a (List.mem_range.mp ha))).2 p hpa
      have e2 := (hrow b (g b) (hg b (List.mem_range.mp hb))).2 p hpb
      exact hab (e1.symm.trans e2)

/-- A pass under a schedule returns when every iteration returns. -/
theorem pass_total (flag : Bool) (row : Nat → Except Err (List (Nat × Nat))) {n : Nat}
    {workers : List Nat} {chunks : List Chunk} (hs : IsSchedule n workers chunks)
    (hall : ∀ i, i < n → ∃ l, row i = .ok l) :
    ∃ outs, (if flag then parallelFor row chunks else .ok []) = .ok outs := by
  cases flag with
  | false => exact ⟨[], rfl⟩
  | true =>
    simp only [if_true]
    let g : Nat → List (Nat × Nat) := fun i =>
      match row i with
      | .ok l => l
      | .error _ => []
    have hg : ∀ i, i < n → row i = .ok (g i) := by
      intro i hi
      obtain ⟨l, hl⟩ := hall i hi
      simp only [g, hl]
    obtain ⟨outs, hp, _⟩ := parallel_pass_perm g hs hg
    exact ⟨outs, hp⟩

/-- The sequential loops are the schedule with one worker and one chunk. -/
theorem isSchedule_single (n : Nat) : IsSchedule n [0] [⟨0, 0, n⟩] := by
  refine ⟨List.nodup_singleton 0, ?_, ?_⟩
  · intro c hc
    rw [List.mem_singleton] at hc
    subst hc
    exact List.mem_singleton_self 0
  · simp [Chunk.indices, List.range_eq_range']

/-- C34. No repeated candidate: started from empty `Candidates`, the swept
`queryMeshForCandidates`, sequential or under any schedule of its parallel loops,
returns lists in which no (edge, vertex), (edge, edge) or (face, vertex) pair
occurs twice, for every index, mesh, radius and external predicate; and after a
swept build it does return under every schedule. -/
theorem no_repeated_candidate (sh : SpatialHash) (ext : External) (V0 V1 : List Vec3)
    (E : List (Nat × Nat)) (F : List (Nat × Nat × Nat)) (radius : ℚ)
    (queryEV queryEE queryFV : Bool) (workers : List Nat)
    (evChunks eeChunks fvChunks : List Chunk)
    (hs : IsSchedule V0.length workers evChunks ∧ IsSchedule E.length workers eeChunks ∧
      IsSchedule V0.length workers fvChunks) :
    (∀ res, sh.queryMeshForCandidatesSweptPar ext V0 V1 E F ⟨[], [], []⟩ radius
        queryEV queryEE queryFV workers evChunks eeChunks fvChunks = .ok res →
      res.ev_candidates.Nodup ∧ res.ee_candidates.Nodup ∧ res.fv_candidates.Nodup) ∧
    (∀ res, sh.queryMeshForCandidatesSwept ext V0 V1 E F ⟨[], [], []⟩ radius
        queryEV queryEE queryFV = .ok res →
      res.ev_candidates.Nodup ∧ res.ee_candidates.Nodup ∧ res.fv_candidates.Nodup) ∧
    (∀ voxelSize, buildSwept ext V0 V1 E F voxelSize = .ok sh →
      ∃ res, sh.queryMeshForCandidatesSweptPar ext V0 V1 E F ⟨[], [], []⟩ radius
        queryEV queryEE queryFV workers evChunks eeChunks fvChunks = .ok res) := by
  have key : ∀ (ws : List Nat) (c1 c2 c3 : List Chunk),
      (IsSchedule V0.length ws c1 ∧ IsSchedule E.length ws c2 ∧ IsSchedule V0.length ws c3) →
      ∀ res, sh.queryMeshForCandidatesSweptPar ext V0 V1 E F ⟨[], [], []⟩ radius
        queryEV queryEE queryFV ws c1 c2 c3 = .ok res →
      res.ev_candidates.Nodup ∧ res.ee_candidates.Nodup ∧ res.fv_candidates.Nodup := by
    intro ws c1 c2 c3 hsch res h
    unfold SpatialHash.queryMeshForCandidatesSweptPar at h
    split at h
    · cases h
    · obtain ⟨ev, ee, fv, hev, hee, hfv, hres⟩ := threePasses_ok h
      rw [hres]
      simp only [List.nil_append]
      refine ⟨pass_nodup Prod.snd hsch.1 ?_ hev, pass_nodup Prod.fst hsch.2.1 ?_ hee,
        pass_nodup Prod.snd hsch.2.2 ?_ hfv⟩
      · intro i l hl
        exact ⟨SpatialHash.evRowSwept_nodup hl,
          fun p hp => (SpatialHash.evRowSwept_mem hl p hp).1⟩
      · intro i l hl
        exact ⟨SpatialHash.eeRowSwept_nodup hl,
          fun p hp => (SpatialHash.eeRowSwept_mem hl p hp).1⟩
      · intro i l hl
        exact ⟨SpatialHash.fvRowSwept_nodup hl,
          fun p hp => (SpatialHash.fvRowSwept_mem hl p hp).1⟩
  refine ⟨key workers evChunks eeChunks fvChunks hs, ?_, ?_⟩
  · intro res h
    rw [SpatialHash.queryMeshForCandidatesSwept_eq_par] at h
    exact key _ _ _ _ ⟨isSchedule_single _, isSchedule_single _, isSchedule_single _⟩ res h
  · intro voxelSize hb
    obtain ⟨_, _, hlen, _⟩ := buildSwept_shape hb
    obtain ⟨ev, hev⟩ := pass_total queryEV (sh.evRowSwept ext V0 V1 E radius) hs.1
      (fun i hi => evRowSwept_total hb ext radius i hi)
    obtain ⟨ee, hee⟩ := pass_total queryEE (sh.eeRowSwept ext V0 V1 E radius) hs.2.1
      (fun i hi => eeRowSwept_total hb ext radius i hi)
    obtain ⟨fv, hfv⟩ := pass_total queryFV (sh.fvRowSwept ext V0 V1 F radius) hs.2.2
      (fun i hi => fvRowSwept_total hb ext radius i hi)
    unfold SpatialHash.queryMeshForCandidatesSweptPar threePasses
    rw [if_neg (by simpa using hlen), hev, hee, hfv]
    exact ⟨_, rfl⟩

/-- Witness of C34: the pierced triangle with radius 1/16 under a schedule of two
workers. -/
theorem no_repeated_candidate_witness :
    ((IsSchedule pierceV.length [0, 1] [⟨0, 3, 5⟩, ⟨1, 0, 3⟩] ∧
        IsSchedule pierceE.length [0, 1] [⟨1, 2, 4⟩, ⟨0, 0, 2⟩] ∧
        IsSchedule pierceV.length [0, 1] [⟨1, 1, 5⟩, ⟨1, 0, 1⟩]) ∧
      pierceIndex.queryMeshForCandidatesSweptPar (specExternal 0 0) pierceV pierceV pierceE
          triF ⟨[], [], []⟩ (1 / 16) true true true [0, 1] [⟨0, 3, 5⟩, ⟨1, 0, 3⟩]
          [⟨1, 2, 4⟩, ⟨0, 0, 2⟩] [⟨1, 1, 5⟩, ⟨1, 0, 1⟩]
        = .ok ⟨[(1, 3), (1, 0)], [(1, 3)], [(0, 3)]⟩) ∧
    ((∀ res, pierceIndex.queryMeshForCandidatesSweptPar (specExternal 0 0) pierceV pierceV pierceE triF ⟨[], [], []⟩ (1 / 16)
        true true true [0, 1] [⟨0, 3, 5⟩, ⟨1, 0, 3⟩] [⟨1, 2, 4⟩, ⟨0, 0, 2⟩] [⟨1, 1, 5⟩, ⟨1, 0, 1⟩] = .ok res →
      res.ev_candidates.Nodup ∧ res.ee_candidates.Nodup ∧ res.fv_candidates.Nodup) ∧
    (∀ res, pierceIndex.queryMeshForCandidatesSwept (specExternal 0 0) pierceV pierceV pierceE triF ⟨[], [], []⟩ (1 / 16)
        true true true = .ok res →
      res.ev_candidates.Nodup ∧ res.ee_candidates.Nodup ∧ res.fv_candidates.Nodup) ∧
    (∀ voxelSize, buildSwept (specExternal 0 0) pierceV pierceV pierceE triF voxelSize = .ok pierceIndex →
      ∃ res, pierceIndex.queryMeshForCandidatesSweptPar (specExternal 0 0) pierceV pierceV pierceE triF ⟨[], [], []⟩ (1 / 16)
        true true true [0, 1] [⟨0, 3, 5⟩, ⟨1, 0, 3⟩] [⟨1, 2, 4⟩, ⟨0, 0, 2⟩] [⟨1, 1, 5⟩, ⟨1, 0, 1⟩] = .ok res)) :=
  ⟨⟨by decide, by decide!⟩,
    no_repeated_candidate pierceIndex (specExternal 0 0) pierceV pierceV pierceE triF
      (1 / 16) true true true [0, 1] [⟨0, 3, 5⟩, ⟨1, 0, 3⟩] [⟨1, 2, 4⟩, ⟨0, 0, 2⟩]
      [⟨1, 1, 5⟩, ⟨1, 0, 1⟩] (by decide)⟩

/-! ## The radius in the swept point queries -/

namespace SpatialHash

end SpatialHash

theorem wrap32_of_fits {z : Int} (h1 : INT_MIN ≤ z) (h2 : z ≤ INT_MAX) : wrap32 z = z := by
  unfold wrap32
  unfold INT_MIN at h1
  unfold INT_MAX at h2
  omega

theorem wrap32_bounds (z : Int) : INT_MIN ≤ wrap32 z ∧ wrap32 z ≤ INT_MAX := by
  unfold wrap32 INT_MIN INT_MAX
  omega

theorem wrap32_modEq (z : Int) : wrap32 z ≡ z [ZMOD 4294967296] := by
  unfold wrap32 Int.ModEq
  omega

theorem wrap32_congr {a b : Int} (h : a ≡ b [ZMOD 4294967296]) : wrap32 a = wrap32 b := by
  unfold Int.ModEq at h
  unfold wrap32
  omega

theorem wrap32_eq_iff (a b : Int) : wrap32 a = wrap32 b ↔ a ≡ b [ZMOD 4294967296] := by
  unfold Int.ModEq wrap32
  omega

theorem SpatialHash.linearIndex32_eq (sh : SpatialHash) (ix iy iz : Int) :
    sh.linearIndex32 ix iy iz =
      wrap32 (ix + iy * sh.voxelCount.x + iz * sh.voxelCount0x1) := by
  unfold SpatialHash.linearIndex32
  apply wrap32_congr
  exact ((wrap32_modEq _).trans (Int.ModEq.add_left _ (wrap32_modEq _))).add (wrap32_modEq _)

theorem inlineIndex32_eq (voxelCount : Idx3) (voxelCount0x1 ix iy iz : Int) :
    inlineIndex32 voxelCount voxelCount0x1 ix iy iz =
      wrap32 (ix + iy * voxelCount.x + iz * voxelCount0x1) := by
  unfold inlineIndex32
  apply wrap32_congr
  have h : wrap32 (wrap32 (iy * voxelCount.x) + wrap32 (iz * voxelCount0x1)) ≡
      iy * voxelCount.x + iz * voxelCount0x1 [ZMOD 4294967296] :=
    (wrap32_modEq _).trans ((wrap32_modEq _).add (wrap32_modEq _))
  have := Int.ModEq.add_left ix h
  rw [add_assoc]
  exact this

theorem wrap32_mul_wrap32 (a b : Int) : wrap32 (a * wrap32 b) = wrap32 (a * b) :=
  wrap32_congr (Int.ModEq.mul_left a (wrap32_modEq b))

theorem wrap32_add_mul_wrap32 (a b c : Int) :
    wrap32 (a + b * wrap32 c) = wrap32 (a + b * c) :=
  wrap32_congr (Int.ModEq.add_left a (Int.ModEq.mul_left b (wrap32_modEq c)))

theorem castInt_of_fits {z : Int} (h1 : INT_MIN ≤ z) (h2 : z ≤ INT_MAX) : castInt z = z := by
  unfold castInt
  rw [if_pos ⟨h1, h2⟩]

theorem castInt_le_zero_iff (z : Int) : castInt z ≤ 0 ↔ (z ≤ 0 ∨ INT_MAX < z) := by
  unfold castInt INT_MIN INT_MAX
  split_ifs with h
  · omega
  · constructor
    · intro _
      omega
    · intro _
      omega

theorem castInt_bounds (z : Int) : INT_MIN ≤ castInt z ∧ castInt z ≤ INT_MAX := by
  unfold castInt INT_MIN INT_MAX
  split_ifs with h
  · exact h
  · omega

theorem concatM_eq_flatMap {α β : Type} {f : α → Except Err (List β)} (g : α → List β) :
    ∀ {xs : List α} {l : List β}, concatM f xs = .ok l →
      (∀ x ∈ xs, ∀ y, f x = .ok y → y = g x) → l = xs.flatMap g := by
  intro xs l h hg
  have hall : ∀ x ∈ xs, f x = .ok (g x) := by
    intro x hx
    obtain ⟨y, hy⟩ := concatM_ok_inv h x hx
    rw [hy, hg x hx y hy]
  rw [concatM_ok_of_forall g xs hall] at h
  exact (Except.ok.inj h).symm

theorem cellLoop32_eq_of_lt (voxelCount : Idx3) (voxelCount0x1 : Int) (mins maxs : Idx3)
    (hx : maxs.x ≠ INT_MAX) (hy : maxs.y ≠ INT_MAX) (hz : maxs.z ≠ INT_MAX) :
    cellLoop32 voxelCount voxelCount0x1 mins maxs =
      .ok (cellList32 voxelCount voxelCount0x1 mins maxs) := by
  unfold cellLoop32 cellList32
  simp only [hx, hy, hz, if_false]
  apply concatM_ok_of_forall
  intro iz _
  apply concatM_ok_of_forall
  intro iy _
  simp only [inlineIndex32_eq]

theorem cellLoop32_ok {voxelCount : Idx3} {voxelCount0x1 : Int} {mins maxs : Idx3}
    {l : List Int} (h : cellLoop32 voxelCount voxelCount0x1 mins maxs = .ok l) :
    l = cellList32 voxelCount voxelCount0x1 mins maxs := by
  unfold cellLoop32 at h
  unfold cellList32
  by_cases hz : maxs.z = INT_MAX
  · simp [hz] at h
  · simp only [hz, if_false] at h
    refine concatM_eq_flatMap _ h ?_
    intro iz _ y hy
    by_cases hy' : maxs.y = INT_MAX
    · simp [hy'] at hy
    · simp only [hy', if_false] at hy
      refine concatM_eq_flatMap _ hy ?_
      intro iy _ y' hy''
      by_cases hx : maxs.x = INT_MAX
      · simp [hx] at hy''
      · simp only [hx, if_false, Except.ok.injEq] at hy''
        rw [← hy'']
        simp only [inlineIndex32_eq]

theorem mem_cellList32 (voxelCount : Idx3) (voxelCount0x1 : Int) (mins maxs : Idx3) (c : Int) :
    c ∈ cellList32 voxelCount voxelCount0x1 mins maxs ↔
      ∃ ix iy iz, InIdxBox mins maxs ix iy iz ∧
        c = wrap32 (ix + iy * voxelCount.x + iz * voxelCount0x1) := by
  unfold cellList32 InIdxBox
  simp only [List.mem_flatMap, List.mem_map, mem_rangeIncl]
  constructor
  · rintro ⟨iz, hz, iy, hy, ix, hx, hc⟩
    exact ⟨ix, iy, iz, ⟨hx, hy, hz⟩, hc.symm⟩
  · rintro ⟨ix, iy, iz, ⟨hx, hy, hz⟩, hc⟩
    exact ⟨iz, hz, iy, hy, ix, hx, hc.symm⟩

theorem castInt_pos {z : Int} (h : ¬ (z ≤ 0 ∨ INT_MAX < z)) : castInt z = z := by
  unfold INT_MAX at h
  exact castInt_of_fits (by unfold INT_MIN; omega) (by unfold INT_MAX; omega)

theorem castCeilCount_minCoeff (lb rt : Vec3) (s : ℚ) :
    (castCeilCount (rt.sub lb) s).minCoeff ≤ 0 ↔ FallbackTriggers32 lb rt s := by
  unfold castCeilCount FallbackTriggers32
  by_cases hs : s = 0
  · simp [hs, Idx3.minCoeff, INT_MIN]
  · simp only [hs, if_false, false_or]
    rw [minCoeff_le_zero_iff]
    simp only [Idx3.castInt, castInt_le_zero_iff]

theorem castCeilCount_eq {lb rt : Vec3} {s : ℚ} (h : ¬ FallbackTriggers32 lb rt s) :
    castCeilCount (rt.sub lb) s = ((rt.sub lb).scale (1 / s)).ceil := by
  unfold FallbackTriggers32 at h
  simp only [not_or] at h
  obtain ⟨hs, ⟨hx1, hx2⟩, ⟨hy1, hy2⟩, hz1, hz2⟩ := h
  unfold castCeilCount
  simp only [hs, if_false, Idx3.castInt]
  rw [castInt_pos (not_or.mpr ⟨hx1, hx2⟩), castInt_pos (not_or.mpr ⟨hy1, hy2⟩),
    castInt_pos (not_or.mpr ⟨hz1, hz2⟩)]

/-- What `sizeGrid32` stores when it returns. -/
theorem sizeGrid32_ok {lb rt : Vec3} {voxelSize : ℚ} {nV nE : Nat} {sh : SpatialHash}
    (h : sizeGrid32 lb rt voxelSize nV nE = .ok sh) :
    sh.leftBottomCorner = lb ∧ sh.rightTopCorner = rt ∧
    sh.edgeStartInd = nV ∧ sh.triStartInd = nV + nE ∧
    sh.voxel = [] ∧ sh.pointAndEdgeOccupancy = [] ∧
    GridRule32 sh voxelSize ∧
    (FallbackTriggers32 lb rt voxelSize → (rt.sub lb).maxCoeff ≠ 0) := by
  unfold sizeGrid32 fdiv at h
  simp only at h
  by_cases hc : (castCeilCount (rt.sub lb) voxelSize).minCoeff ≤ 0
  · have hf := (castCeilCount_minCoeff lb rt voxelSize).mp hc
    simp only [hc, if_true] at h
    by_cases hm : (rt.sub lb).maxCoeff * (101 / 100) = 0
    · simp [hm] at h
    · simp only [hm, if_false, Except.ok.injEq] at h
      subst h
      have hm' : (rt.sub lb).maxCoeff ≠ 0 := by
        intro h0
        exact hm (by rw [h0]; simp)
      refine ⟨rfl, rfl, rfl, rfl, rfl, rfl, ?_, fun _ => hm'⟩
      exact ⟨fun _ => ⟨rfl, rfl⟩, fun hn => absurd hf hn, rfl⟩
  · have hf : ¬ FallbackTriggers32 lb rt voxelSize :=
      fun hf => hc ((castCeilCount_minCoeff lb rt voxelSize).mpr hf)
    simp only [hc, if_false, Except.ok.injEq] at h
    subst h
    refine ⟨rfl, rfl, rfl, rfl, rfl, rfl, ?_, fun hh => absurd hh hf⟩
    exact ⟨fun hp => absurd hp hf, fun _ => ⟨castCeilCount_eq hf, rfl⟩, rfl⟩

theorem sizeGrid32_total (lb rt : Vec3) (voxelSize : ℚ) (nV nE : Nat)
    (hm : FallbackTriggers32 lb rt voxelSize → (rt.sub lb).maxCoeff ≠ 0) :
    ∃ g, sizeGrid32 lb rt voxelSize nV nE = .ok g := by
  unfold sizeGrid32 fdiv
  simp only
  by_cases hc : (castCeilCount (rt.sub lb) voxelSize).minCoeff ≤ 0
  · have hne : (rt.sub lb).maxCoeff * (101 / 100) ≠ 0 :=
      mul_ne_zero (hm ((castCeilCount_minCoeff lb rt voxelSize).mp hc)) (by norm_num)
    simp only [hc, if_true, hne, if_false]
    exact ⟨_, rfl⟩
  · simp only [hc, if_false]
    exact ⟨_, rfl⟩

/-- In a grid sized by `sizeGrid32` on ordered corners: the scale is positive,
the counts are positive `int`s, and every point of the box has, on each axis,
an index between `0` and the count that the cast to `int` leaves unchanged. -/
theorem sizeGrid32_box {lb rt : Vec3} {voxelSize : ℚ} {nV nE : Nat} {g : SpatialHash}
    (hg : sizeGrid32 lb rt voxelSize nV nE = .ok g)
    (hle : lb.x ≤ rt.x ∧ lb.y ≤ rt.y ∧ lb.z ≤ rt.z) :
    0 < g.one_div_voxelSize ∧
    (0 < g.voxelCount.x ∧ g.voxelCount.x ≤ INT_MAX) ∧
    (0 < g.voxelCount.y ∧ g.voxelCount.y ≤ INT_MAX) ∧
    (0 < g.voxelCount.z ∧ g.voxelCount.z ≤ INT_MAX) ∧
    ∀ p, InBox g p →
      g.locateVoxelAxisIndex32 p = g.locateVoxelAxisIndex p ∧
      (0 ≤ (g.locateVoxelAxisIndex p).x ∧ (g.locateVoxelAxisIndex p).x ≤ g.voxelCount.x) ∧
      (0 ≤ (g.locateVoxelAxisIndex p).y ∧ (g.locateVoxelAxisIndex p).y ≤ g.voxelCount.y) ∧
      (0 ≤ (g.locateVoxelAxisIndex p).z ∧ (g.locateVoxelAxisIndex p).z ≤ g.voxelCount.z) := by
  obtain ⟨h1, h2, _, _, _, _, hrule, hm⟩ := sizeGrid32_ok hg
  have hrange : 0 ≤ (rt.sub lb).maxCoeff := by
    have : 0 ≤ rt.x - lb.x := by linarith [hle.1]
    exact le_trans this (le_trans (le_max_left _ _) (le_max_left _ _))
  unfold GridRule32 at hrule
  rw [h1, h2] at hrule
  by_cases hf : FallbackTriggers32 lb rt voxelSize
  · obtain ⟨hcount, hinv⟩ := hrule.1 hf
    have hpos : 0 < (rt.sub lb).maxCoeff := lt_of_le_of_ne hrange (Ne.symm (hm hf))
    have hinvpos : 0 < g.one_div_voxelSize := by
      rw [hinv]
      positivity
    refine ⟨hinvpos, ?_, ?_, ?_, ?_⟩
    · rw [hcount]; unfold INT_MAX; decide
    · rw [hcount]; unfold INT_MAX; decide
    · rw [hcount]; unfold INT_MAX; decide
    · intro p hp
      have hz := locate_eq_zero_of_fallback g p (by rw [h1, h2]; exact hinv)
        (by rw [h1, h2]; exact hpos) hp
      have h32 : g.locateVoxelAxisIndex32 p = g.locateVoxelAxisIndex p := by
        have e : g.locateVoxelAxisIndex32 p = (g.locateVoxelAxisIndex p).castInt := rfl
        rw [e, hz]
        decide
      rw [h32, hz, hcount]
      simp
  · obtain ⟨hcount, hinv⟩ := hrule.2.1 hf
    unfold FallbackTriggers32 at hf
    simp only [not_or, not_le, not_lt] at hf
    obtain ⟨hs, ⟨hx1, hx2⟩, ⟨hy1, hy2⟩, hz1, hz2⟩ := hf
    have hspos : 0 < voxelSize := by
      rcases lt_or_gt_of_ne hs with hneg | hpos
      · exfalso
        have : ⌈(rt.x - lb.x) * (1 / voxelSize)⌉ ≤ 0 := by
          rw [Int.ceil_le]
          have h1 : 1 / voxelSize < 0 := one_div_neg.mpr hneg
          have h2 : 0 ≤ rt.x - lb.x := by linarith [hle.1]
          simpa using mul_nonpos_of_nonneg_of_nonpos h2 (le_of_lt h1)
        exact absurd hx1 (not_lt.mpr this)
      · exact hpos
    have hinvpos : 0 < g.one_div_voxelSize := by
      rw [hinv]
      positivity
    have hcx : g.voxelCount.x = ⌈(rt.x - lb.x) * (1 / voxelSize)⌉ := by rw [hcount]; rfl
    have hcy : g.voxelCount.y = ⌈(rt.y - lb.y) * (1 / voxelSize)⌉ := by rw [hcount]; rfl
    have hcz : g.voxelCount.z = ⌈(rt.z - lb.z) * (1 / voxelSize)⌉ := by rw [hcount]; rfl
    refine ⟨hinvpos, ⟨by rw [hcx]; exact hx1, by rw [hcx]; exact hx2⟩,
      ⟨by rw [hcy]; exact hy1, by rw [hcy]; exact hy2⟩,
      ⟨by rw [hcz]; exact hz1, by rw [hcz]; exact hz2⟩, ?_⟩
    intro p hp
    unfold InBox at hp
    rw [h1, h2] at hp
    have key : ∀ (a l r : ℚ), l ≤ a → a ≤ r →
        0 ≤ ⌊(a - l) * (1 / voxelSize)⌋ ∧
          ⌊(a - l) * (1 / voxelSize)⌋ ≤ ⌈(r - l) * (1 / voxelSize)⌉ := by
      intro a l r hl hr
      have hv : 0 ≤ 1 / voxelSize := le_of_lt (one_div_pos.mpr hspos)
      constructor
      · exact Int.floor_nonneg.mpr (mul_nonneg (by linarith) hv)
      · have h1 : (a - l) * (1 / voxelSize) ≤ (r - l) * (1 / voxelSize) :=
          mul_le_mul_of_nonneg_right (by linarith) hv
        have h2 : ((⌊(a - l) * (1 / voxelSize)⌋ : Int) : ℚ) ≤ (a - l) * (1 / voxelSize) :=
          Int.floor_le _
        have h3 : (r - l) * (1 / voxelSize) ≤ ((⌈(r - l) * (1 / voxelSize)⌉ : Int) : ℚ) :=
          Int.le_ceil _
        exact_mod_cast le_trans h2 (le_trans h1 h3)
    have hx := key p.x lb.x rt.x hp.1.1 hp.1.2
    have hy := key p.y lb.y rt.y hp.2.1.1 hp.2.1.2
    have hz := key p.z lb.z rt.z hp.2.2.1 hp.2.2.2
    have hfx : (g.locateVoxelAxisIndex p).x = ⌊(p.x - lb.x) * (1 / voxelSize)⌋ := by
      unfold SpatialHash.locateVoxelAxisIndex
      rw [h1, hinv]; rfl
    have hfy : (g.locateVoxelAxisIndex p).y = ⌊(p.y - lb.y) * (1 / voxelSize)⌋ := by
      unfold SpatialHash.locateVoxelAxisIndex
      rw [h1, hinv]; rfl
    have hfz : (g.locateVoxelAxisIndex p).z = ⌊(p.z - lb.z) * (1 / voxelSize)⌋ := by
      unfold SpatialHash.locateVoxelAxisIndex
      rw [h1, hinv]; rfl
    have hbx : 0 ≤ (g.locateVoxelAxisIndex p).x ∧ (g.locateVoxelAxisIndex p).x ≤ g.voxelCount.x := by
      rw [hfx, hcx]; exact hx
    have hby : 0 ≤ (g.locateVoxelAxisIndex p).y ∧ (g.locateVoxelAxisIndex p).y ≤ g.voxelCount.y := by
      rw [hfy, hcy]; exact hy
    have hbz : 0 ≤ (g.locateVoxelAxisIndex p).z ∧ (g.locateVoxelAxisIndex p).z ≤ g.voxelCount.z := by
      rw [hfz, hcz]; exact hz
    refine ⟨?_, hbx, hby, hbz⟩
    have e : g.locateVoxelAxisIndex32 p = (g.locateVoxelAxisIndex p).castInt := rfl
    rw [e]
    unfold Idx3.castInt
    have hmin : INT_MIN ≤ 0 := by unfold INT_MIN; decide
    rw [castInt_of_fits (le_trans hmin hbx.1) (le_trans hbx.2 (by rw [hcx]; exact hx2)),
      castInt_of_fits (le_trans hmin hby.1) (le_trans hby.2 (by rw [hcy]; exact hy2)),
      castInt_of_fits (le_trans hmin hbz.1) (le_trans hbz.2 (by rw [hcz]; exact hz2))]

/-- The steps of a static `build32` that returned. -/
theorem build32_ok {ext : External} {V : List Vec3} {E : List (Nat × Nat)}
    {F : List (Nat × Nat × Nat)} {voxelSize : ℚ} {sh : SpatialHash}
    (h : build32 ext V E F voxelSize = .ok sh) :
    ∃ lb rt g voxel0 voxelLoc_e voxelLoc_f,
      colwiseMinCoeff V = .ok lb ∧ colwiseMaxCoeff V = .ok rt ∧
      sizeGrid32 lb rt (if voxelSize ≤ 0 then suggestGoodVoxelSize ext V E F 0 else voxelSize)
        V.length E.length = .ok g ∧
      insertVertices32 g [] V 0 = .ok voxel0 ∧
      forEachM (staticEdgeCells32 g (V.map g.locateVoxelAxisIndex32)) E = .ok voxelLoc_e ∧
      forEachM (staticFaceCells32 g (V.map g.locateVoxelAxisIndex32)) F = .ok voxelLoc_f ∧
      sh = { g with
        voxel := insertLocs (insertLocs voxel0 voxelLoc_e g.edgeStartInd) voxelLoc_f
          g.triStartInd } := by
  unfold build32 at h
  simp only at h
  split at h
  · simp at h
  · rename_i lb hlb
    split at h
    · simp at h
    · rename_i rt hrt
      split at h
      · simp at h
      · rename_i g hg
        split at h
        · simp at h
        · rename_i voxel0 hv
          split at h
          · simp at h
          · rename_i le hle
            split at h
            · simp at h
            · rename_i lf hlf
              simp only [Except.ok.injEq] at h
              exact ⟨lb, rt, g, voxel0, le, lf, hlb, hrt, hg, hv, hle, hlf, h.symm⟩

/-- The steps of a swept `build32` that returned. -/
theorem buildSwept32_ok {ext : External} {V0 V1 : List Vec3} {E : List (Nat × Nat)}
    {F : List (Nat × Nat × Nat)} {voxelSize : ℚ} {sh : SpatialHash}
    (h : buildSwept32 ext V0 V1 E F voxelSize = .ok sh) :
    ∃ min0 min1 max0 max1 g occupancyV occupancyE voxelLoc_f,
      V0.length = V1.length ∧
      colwiseMinCoeff V0 = .ok min0 ∧ colwiseMinCoeff V1 = .ok min1 ∧
      colwiseMaxCoeff V0 = .ok max0 ∧ colwiseMaxCoeff V1 = .ok max1 ∧
      sizeGrid32 (min0.cmin min1) (max0.cmax max1)
        (if voxelSize ≤ 0 then suggestGoodVoxelSizeSwept ext V0 V1 E F 0 else voxelSize)
        V0.length E.length = .ok g ∧
      forEachM (sweptVertexCells32 g)
        (List.zip
          (List.zipWith (fun p0 p1 =>
            (g.locateVoxelAxisIndex32 p0).cmin (g.locateVoxelAxisIndex32 p1)) V0 V1)
          (List.zipWith (fun p0 p1 =>
            (g.locateVoxelAxisIndex32 p0).cmax (g.locateVoxelAxisIndex32 p1)) V0 V1))
        = .ok occupancyV ∧
      forEachM (sweptEdgeCells32 g
        (List.zipWith (fun p0 p1 =>
          (g.locateVoxelAxisIndex32 p0).cmin (g.locateVoxelAxisIndex32 p1)) V0 V1)
        (List.zipWith (fun p0 p1 =>
          (g.locateVoxelAxisIndex32 p0).cmax (g.locateVoxelAxisIndex32 p1)) V0 V1)) E
        = .ok occupancyE ∧
      forEachM (sweptFaceCells32 g
        (List.zipWith (fun p0 p1 =>
          (g.locateVoxelAxisIndex32 p0).cmin (g.locateVoxelAxisIndex32 p1)) V0 V1)
        (List.zipWith (fun p0 p1 =>
          (g.locateVoxelAxisIndex32 p0).cmax (g.locateVoxelAxisIndex32 p1)) V0 V1)) F
        = .ok voxelLoc_f ∧
      sh = { g with
        voxel := insertLocs (insertLocs [] (occupancyV ++ occupancyE) 0)
          voxelLoc_f g.triStartInd
        pointAndEdgeOccupancy := occupancyV ++ occupancyE } := by
  unfold buildSwept32 at h
  simp only at h
  split at h
  · simp at h
  · rename_i hlen
    split at h
    · simp at h
    · rename_i min0 hmin0
      split at h
      · simp at h
      · rename_i min1 hmin1
        split at h
        · simp at h
        · rename_i max0 hmax0
          split at h
          · simp at h
          · rename_i max1 hmax1
            split at h
            · simp at h
            · rename_i g hg
              split at h
              · simp at h
              · rename_i ov hov
                split at h
                · simp at h
                · rename_i oe hoe
                  split at h
                  · simp at h
                  · rename_i lf hlf
                    simp only [Except.ok.injEq] at h
                    exact ⟨min0, min1, max0, max1, g, ov, oe, lf, not_not.mp hlen, hmin0,
                      hmin1, hmax0, hmax1, hg, hov, hoe, hlf, h.symm⟩

theorem zipWith_congr_mem {α β γ : Type} {f g : α → β → γ} :
    ∀ (xs : List α) (ys : List β), (∀ x ∈ xs, ∀ y ∈ ys, f x y = g x y) →
      List.zipWith f xs ys = List.zipWith g xs ys := by
  intro xs
  induction xs with
  | nil =>
    intro ys _
    simp
  | cons x xs ih =>
    intro ys h
    cases ys with
    | nil => simp
    | cons y ys =>
      simp only [List.zipWith_cons_cons]
      rw [h x (List.mem_cons_self _ _) y (List.mem_cons_self _ _),
        ih ys (fun a ha b hb => h a (List.mem_cons_of_mem _ ha) b (List.mem_cons_of_mem _ hb))]

/-- On the vertices of a build the cast of `locateVoxelAxisIndex` is exact. -/
theorem sizeGrid32_locate {lb rt : Vec3} {voxelSize : ℚ} {nV nE : Nat} {g : SpatialHash}
    {P : List Vec3} (hg : sizeGrid32 lb rt voxelSize nV nE = .ok g)
    (hext : IsExtremes lb rt P) :
    ∀ p ∈ P, g.locateVoxelAxisIndex32 p = g.locateVoxelAxisIndex p := by
  obtain ⟨h1, h2, _⟩ := sizeGrid32_ok hg
  have hext' : IsExtremes g.leftBottomCorner g.rightTopCorner P := by rw [h1, h2]; exact hext
  intro p hp
  exact ((sizeGrid32_box hg (isExtremes_le hext)).2.2.2.2 p (isExtremes_inBox hext' p hp)).1

theorem sizeGrid32_vertexMinVAI {lb rt : Vec3} {voxelSize : ℚ} {nV nE : Nat}
    {g : SpatialHash} {V0 V1 : List Vec3} (hg : sizeGrid32 lb rt voxelSize nV nE = .ok g)
    (hext : IsExtremes lb rt (V0 ++ V1)) :
    List.zipWith (fun p0 p1 =>
      (g.locateVoxelAxisIndex32 p0).cmin (g.locateVoxelAxisIndex32 p1)) V0 V1
      = vertexMinVAI g V0 V1 := by
  unfold vertexMinVAI
  apply zipWith_congr_mem
  intro x hx y hy
  rw [sizeGrid32_locate hg hext x (List.mem_append_left _ hx),
    sizeGrid32_locate hg hext y (List.mem_append_right _ hy)]

theorem sizeGrid32_vertexMaxVAI {lb rt : Vec3} {voxelSize : ℚ} {nV nE : Nat}
    {g : SpatialHash} {V0 V1 : List Vec3} (hg : sizeGrid32 lb rt voxelSize nV nE = .ok g)
    (hext : IsExtremes lb rt (V0 ++ V1)) :
    List.zipWith (fun p0 p1 =>
      (g.locateVoxelAxisIndex32 p0).cmax (g.locateVoxelAxisIndex32 p1)) V0 V1
      = vertexMaxVAI g V0 V1 := by
  unfold vertexMaxVAI
  apply zipWith_congr_mem
  intro x hx y hy
  rw [sizeGrid32_locate hg hext x (List.mem_append_left _ hx),
    sizeGrid32_locate hg hext y (List.mem_append_right _ hy)]

/-- The parts of a swept `build32` that returned, read off the result. -/
theorem buildSwept32_shape {ext : External} {V0 V1 : List Vec3} {E : List (Nat × Nat)}
    {F : List (Nat × Nat × Nat)} {voxelSize : ℚ} {sh : SpatialHash}
    (h : buildSwept32 ext V0 V1 E F voxelSize = .ok sh) :
    ∃ occupancyV occupancyE voxelLoc_f,
      V0.length = V1.length ∧ sh.edgeStartInd = V0.length ∧
      sh.triStartInd = V0.length + E.length ∧
      IsExtremes sh.leftBottomCorner sh.rightTopCorner (V0 ++ V1) ∧
      GridRule32 sh
        (if voxelSize ≤ 0 then suggestGoodVoxelSizeSwept ext V0 V1 E F 0 else voxelSize) ∧
      0 < sh.one_div_voxelSize ∧
      forEachM (sweptVertexCells32 sh)
        (List.zip (vertexMinVAI sh V0 V1) (vertexMaxVAI sh V0 V1)) = .ok occupancyV ∧
      forEachM (sweptEdgeCells32 sh (vertexMinVAI sh V0 V1) (vertexMaxVAI sh V0 V1)) E
        = .ok occupancyE ∧
      forEachM (sweptFaceCells32 sh (vertexMinVAI sh V0 V1) (vertexMaxVAI sh V0 V1)) F
        = .ok voxelLoc_f ∧
      sh.pointAndEdgeOccupancy = occupancyV ++ occupancyE ∧
      sh.voxel = insertLocs (insertLocs [] (occupancyV ++ occupancyE) 0)
        voxelLoc_f sh.triStartInd := by
  obtain ⟨min0, min1, max0, max1, g, ov, oe, lf, hlen, hmin0, hmin1, hmax0, hmax1, hg, hov,
    hoe, hlf, hsh⟩ := buildSwept32_ok h
  have hext : IsExtremes (min0.cmin min1) (max0.cmax max1) (V0 ++ V1) :=
    isExtremes_append (colwise_isExtremes hmin0 hmax0) (colwise_isExtremes hmin1 hmax1)
  rw [sizeGrid32_vertexMinVAI hg hext, sizeGrid32_vertexMaxVAI hg hext] at hov hoe hlf
  obtain ⟨h1, h2, h3, h4, _, _, hrule, _⟩ := sizeGrid32_ok hg
  have hpos := (sizeGrid32_box hg (isExtremes_le hext)).1
  subst hsh
  refine ⟨ov, oe, lf, hlen, h3, h4, ?_, hrule, hpos, hov, hoe, hlf, rfl, rfl⟩
  show IsExtremes g.leftBottomCorner g.rightTopCorner (V0 ++ V1)
  rw [h1, h2]
  exact hext

theorem insertVertices32_congr (sh sh' : SpatialHash)
    (h : ∀ p, sh.locateVoxelIndex32 p = sh'.locateVoxelIndex32 p) :
    ∀ (ps : List Vec3) (m : VoxelMap) (vi : Nat),
      insertVertices32 sh m ps vi = insertVertices32 sh' m ps vi := by
  intro ps
  induction ps with
  | nil =>
    intro m vi
    rfl
  | cons p ps ih =>
    intro m vi
    simp only [insertVertices32, h p]
    cases sh'.locateVoxelIndex32 p with
    | error e => rfl
    | ok k => exact ih _ _

/-- The parts of a static `build32` that returned, read off the result. -/
theorem build32_shape {ext : External} {V : List Vec3} {E : List (Nat × Nat)}
    {F : List (Nat × Nat × Nat)} {voxelSize : ℚ} {sh : SpatialHash}
    (h : build32 ext V E F voxelSize = .ok sh) :
    ∃ voxel0 voxelLoc_e voxelLoc_f,
      sh.edgeStartInd = V.length ∧ sh.triStartInd = V.length + E.length ∧
      IsExtremes sh.leftBottomCorner sh.rightTopCorner V ∧
      GridRule32 sh (if voxelSize ≤ 0 then suggestGoodVoxelSize ext V E F 0 else voxelSize) ∧
      0 < sh.one_div_voxelSize ∧
      sh.pointAndEdgeOccupancy = [] ∧
      insertVertices32 sh [] V 0 = .ok voxel0 ∧
      forEachM (staticEdgeCells32 sh (V.map sh.locateVoxelAxisIndex)) E = .ok voxelLoc_e ∧
      forEachM (staticFaceCells32 sh (V.map sh.locateVoxelAxisIndex)) F = .ok voxelLoc_f ∧
      sh.voxel = insertLocs (insertLocs voxel0 voxelLoc_e sh.edgeStartInd) voxelLoc_f
        sh.triStartInd := by
  obtain ⟨lb, rt, g, voxel0, le, lf, hlb, hrt, hg, hv, hle, hlf, hsh⟩ := build32_ok h
  have hext : IsExtremes lb rt V := colwise_isExtremes hlb hrt
  have hmap : V.map g.locateVoxelAxisIndex32 = V.map g.locateVoxelAxisIndex :=
    List.map_congr_left (sizeGrid32_locate hg hext)
  rw [hmap] at hle hlf
  obtain ⟨h1, h2, h3, h4, _, h6, hrule, _⟩ := sizeGrid32_ok hg
  have hpos := (sizeGrid32_box hg (isExtremes_le hext)).1
  subst hsh
  refine ⟨voxel0, le, lf, h3, h4, ?_, hrule, hpos, h6, ?_, hle, hlf, rfl⟩
  · show IsExtremes g.leftBottomCorner g.rightTopCorner V
    rw [h1, h2]
    exact hext
  · rw [← hv]
    apply insertVertices32_congr
    intro p
    rfl

theorem loopEnds_cmax {a b : Idx3} (ha : LoopEnds a) (hb : LoopEnds b) :
    LoopEnds (a.cmax b) := by
  obtain ⟨hax, hay, haz⟩ := ha
  obtain ⟨hbx, hby, hbz⟩ := hb
  refine ⟨?_, ?_, ?_⟩
  · show max a.x b.x ≠ INT_MAX
    rcases max_choice a.x b.x with h | h <;> rw [h] <;> assumption
  · show max a.y b.y ≠ INT_MAX
    rcases max_choice a.y b.y with h | h <;> rw [h] <;> assumption
  · show max a.z b.z ≠ INT_MAX
    rcases max_choice a.z b.z with h | h <;> rw [h] <;> assumption

theorem cellLoop32_total (voxelCount : Idx3) (voxelCount0x1 : Int) (mins : Idx3)
    {maxs : Idx3} (h : LoopEnds maxs) :
    ∃ l, cellLoop32 voxelCount voxelCount0x1 mins maxs = .ok l :=
  ⟨_, cellLoop32_eq_of_lt voxelCount voxelCount0x1 mins maxs h.1 h.2.1 h.2.2⟩

theorem staticEdgeCells32_total (g : SpatialHash) {vvai : List Idx3} {e : Nat × Nat}
    (hends : ∀ a ∈ vvai, LoopEnds a)
    (h : e.1 < vvai.length ∧ e.2 < vvai.length) :
    ∃ y, staticEdgeCells32 g vvai e = .ok y := by
  obtain ⟨a0, h0⟩ := getE_total h.1
  obtain ⟨a1, h1⟩ := getE_total h.2
  unfold staticEdgeCells32
  simp only [h0, h1]
  exact cellLoop32_total _ _ _ (loopEnds_cmax (hends a0 (getE_mem h0)) (hends a1 (getE_mem h1)))

theorem staticFaceCells32_total (g : SpatialHash) {vvai : List Idx3} {f : Nat × Nat × Nat}
    (hends : ∀ a ∈ vvai, LoopEnds a)
    (h : f.1 < vvai.length ∧ f.2.1 < vvai.length) :
    ∃ y, staticFaceCells32 g vvai f = .ok y := by
  obtain ⟨a0, h0⟩ := getE_total h.1
  obtain ⟨a1, h1⟩ := getE_total h.2
  unfold staticFaceCells32
  simp only [h0, h1]
  exact cellLoop32_total _ _ _
    (loopEnds_cmax (loopEnds_cmax (hends a0 (getE_mem h0)) (hends a1 (getE_mem h1)))
      (hends a1 (getE_mem h1)))

theorem getVAI_snd_mem {mins maxs : List Idx3} {i : Nat} {a : Idx3 × Idx3}
    (h : getVAI mins maxs i = .ok a) : a.2 ∈ maxs := by
  unfold getVAI at h
  cases h0 : getE mins i with
  | error err => simp [h0] at h
  | ok mn =>
    cases h1 : getE maxs i with
    | error err => simp [h0, h1] at h
    | ok mx =>
      simp only [h0, h1, Except.ok.injEq] at h
      rw [← h]
      exact getE_mem h1

theorem sweptEdgeCells32_total (g : SpatialHash) {mins maxs : List Idx3} {e : Nat × Nat}
    (hends : ∀ a ∈ maxs, LoopEnds a)
    (h1 : e.1 < mins.length ∧ e.2 < mins.length) (h2 : e.1 < maxs.length ∧ e.2 < maxs.length) :
    ∃ y, sweptEdgeCells32 g mins maxs e = .ok y := by
  obtain ⟨a0, h0⟩ := getVAI_total h1.1 h2.1
  obtain ⟨a1, h1⟩ := getVAI_total h1.2 h2.2
  unfold sweptEdgeCells32
  simp only [h0, h1]
  exact cellLoop32_total _ _ _
    (loopEnds_cmax (hends _ (getVAI_snd_mem h0)) (hends _ (getVAI_snd_mem h1)))

theorem sweptFaceCells32_total (g : SpatialHash) {mins maxs : List Idx3} {f : Nat × Nat × Nat}
    (hends : ∀ a ∈ maxs, LoopEnds a)
    (h1 : f.1 < mins.length ∧ f.2.1 < mins.length ∧ f.2.2 < mins.length)
    (h2 : f.1 < maxs.length ∧ f.2.1 < maxs.length ∧ f.2.2 < maxs.length) :
    ∃ y, sweptFaceCells32 g mins maxs f = .ok y := by
  obtain ⟨a0, h0⟩ := getVAI_total h1.1 h2.1
  obtain ⟨a1, h1'⟩ := getVAI_total h1.2.1 h2.2.1
  obtain ⟨a2, h2'⟩ := getVAI_total h1.2.2 h2.2.2
  unfold sweptFaceCells32
  simp only [h0, h1', h2']
  exact cellLoop32_total _ _ _
    (loopEnds_cmax (loopEnds_cmax (hends _ (getVAI_snd_mem h0)) (hends _ (getVAI_snd_mem h1')))
      (hends _ (getVAI_snd_mem h2')))

theorem insertVertices32_total (sh : SpatialHash) :
    ∀ (ps : List Vec3) (voxel : VoxelMap) (vi : Nat),
      (∀ p ∈ ps, ∃ k, sh.locateVoxelIndex32 p = .ok k) →
      ∃ voxel', insertVertices32 sh voxel ps vi = .ok voxel' := by
  intro ps
  induction ps with
  | nil =>
    intro voxel vi _
    exact ⟨voxel, rfl⟩
  | cons p ps ih =>
    intro voxel vi h
    obtain ⟨k, hk⟩ := h p (List.mem_cons_self _ _)
    obtain ⟨v', hv'⟩ := ih (voxelEmplace voxel k vi) (vi + 1)
      (fun q hq => h q (List.mem_cons_of_mem _ hq))
    exact ⟨v', by simp [insertVertices32, hk, hv']⟩

/-- A vertex that passes the bounds assertion of a grid sized by `sizeGrid32`
has an index whose loops end. -/
theorem loopEnds_of_inGrid {lb rt : Vec3} {voxelSize : ℚ} {nV nE : Nat} {g : SpatialHash}
    (hg : sizeGrid32 lb rt voxelSize nV nE = .ok g)
    (hle : lb.x ≤ rt.x ∧ lb.y ≤ rt.y ∧ lb.z ≤ rt.z) {p : Vec3} {k : Int}
    (hk : g.locateVoxelIndex32 p = .ok k) : LoopEnds (g.locateVoxelAxisIndex32 p) := by
  obtain ⟨_, ⟨_, hx⟩, ⟨_, hy⟩, ⟨_, hz⟩, _⟩ := sizeGrid32_box hg hle
  unfold SpatialHash.locateVoxelIndex32 SpatialHash.voxelAxisIndex2VoxelIndex32 at hk
  simp only at hk
  split_ifs at hk with hin
  obtain ⟨_, _, _, h1, h2, h3⟩ := hin
  exact ⟨by omega, by omega, by omega⟩

/-- The static build in `int` arithmetic returns once the grid is sized, every
vertex passes the bounds assertion and the mesh is well-formed. -/
theorem build32_total {ext : External} {V : List Vec3} {E : List (Nat × Nat)}
    {F : List (Nat × Nat × Nat)} {voxelSize : ℚ} {lb rt : Vec3} {g : SpatialHash}
    (hlb : colwiseMinCoeff V = .ok lb) (hrt : colwiseMaxCoeff V = .ok rt)
    (hg : sizeGrid32 lb rt
      (if voxelSize ≤ 0 then suggestGoodVoxelSize ext V E F 0 else voxelSize)
      V.length E.length = .ok g)
    (hin : ∀ p ∈ V, ∃ k, g.locateVoxelIndex32 p = .ok k)
    (hmesh : MeshInRange V.length E F) :
    ∃ sh, build32 ext V E F voxelSize = .ok sh := by
  have hle := isExtremes_le (colwise_isExtremes hlb hrt)
  have hends : ∀ a ∈ V.map g.locateVoxelAxisIndex32, LoopEnds a := by
    intro a ha
    obtain ⟨p, hp, hpa⟩ := List.mem_map.mp ha
    obtain ⟨k, hk⟩ := hin p hp
    rw [← hpa]
    exact loopEnds_of_inGrid hg hle hk
  obtain ⟨voxel0, hv⟩ := insertVertices32_total g V [] 0 hin
  obtain ⟨le, hle'⟩ := forEachM_total (staticEdgeCells32 g (V.map g.locateVoxelAxisIndex32))
    E (fun e he => staticEdgeCells32_total g hends (by simpa using hmesh.1 e he))
  obtain ⟨lf, hlf⟩ := forEachM_total (staticFaceCells32 g (V.map g.locateVoxelAxisIndex32))
    F (fun f hf => staticFaceCells32_total g hends
      (by simpa using ⟨(hmesh.2 f hf).1, (hmesh.2 f hf).2.1⟩))
  unfold build32
  simp only [hlb, hrt, hg, hv, hle', hlf]
  exact ⟨_, rfl⟩

/-- The swept build in `int` arithmetic returns once the grid is sized with no
count equal to `INT_MAX` and the mesh is well-formed. -/
theorem buildSwept32_total {ext : External} {V0 V1 : List Vec3} {E : List (Nat × Nat)}
    {F : List (Nat × Nat × Nat)} {voxelSize : ℚ} {min0 min1 max0 max1 : Vec3}
    {g : SpatialHash} (hlen : V0.length = V1.length)
    (hmin0 : colwiseMinCoeff V0 = .ok min0) (hmin1 : colwiseMinCoeff V1 = .ok min1)
    (hmax0 : colwiseMaxCoeff V0 = .ok max0) (hmax1 : colwiseMaxCoeff V1 = .ok max1)
    (hg : sizeGrid32 (min0.cmin min1) (max0.cmax max1)
      (if voxelSize ≤ 0 then suggestGoodVoxelSizeSwept ext V0 V1 E F 0 else voxelSize)
      V0.length E.length = .ok g)
    (hcount : LoopEnds g.voxelCount)
    (hmesh : MeshInRange V0.length E F) :
    ∃ sh, buildSwept32 ext V0 V1 E F voxelSize = .ok sh := by
  have hext : IsExtremes (min0.cmin min1) (max0.cmax max1) (V0 ++ V1) :=
    isExtremes_append (colwise_isExtremes hmin0 hmax0) (colwise_isExtremes hmin1 hmax1)
  obtain ⟨h1, h2, _⟩ := sizeGrid32_ok hg
  have hext' : IsExtremes g.leftBottomCorner g.rightTopCorner (V0 ++ V1) := by
    rw [h1, h2]; exact hext
  obtain ⟨_, ⟨_, hx⟩, ⟨_, hy⟩, ⟨_, hz⟩, hbox⟩ := sizeGrid32_box hg (isExtremes_le hext)
  have hp : ∀ p ∈ V0 ++ V1, LoopEnds (g.locateVoxelAxisIndex p) := by
    intro p hp
    obtain ⟨_, ⟨_, bx⟩, ⟨_, by'⟩, _, bz⟩ := hbox p (isExtremes_inBox hext' p hp)
    obtain ⟨cx, cy, cz⟩ := hcount
    exact ⟨by omega, by omega, by omega⟩
  have hends : ∀ a ∈ vertexMaxVAI g V0 V1, LoopEnds a := by
    intro a ha
    obtain ⟨x, hx', y, hy', hxy⟩ := mem_zipWith_elim _ V0 V1 a ha
    rw [hxy]
    exact loopEnds_cmax (hp x (List.mem_append_left _ hx')) (hp y (List.mem_append_right _ hy'))
  have hlmin := length_vertexMinVAI g V0 V1 hlen
  have hlmax := length_vertexMaxVAI g V0 V1 hlen
  obtain ⟨ov, hov⟩ := forEachM_total (sweptVertexCells32 g)
    (List.zip (vertexMinVAI g V0 V1) (vertexMaxVAI g V0 V1))
    (fun a ha => cellLoop32_total _ _ _ (hends a.2 (List.of_mem_zip ha).2))
  obtain ⟨oe, hoe⟩ := forEachM_total
    (sweptEdgeCells32 g (vertexMinVAI g V0 V1) (vertexMaxVAI g V0 V1))
    E (fun e he => sweptEdgeCells32_total g hends
      (by rw [hlmin]; exact hmesh.1 e he) (by rw [hlmax]; exact hmesh.1 e he))
  obtain ⟨lf, hlf⟩ := forEachM_total
    (sweptFaceCells32 g (vertexMinVAI g V0 V1) (vertexMaxVAI g V0 V1))
    F (fun f hf => sweptFaceCells32_total g hends
      (by rw [hlmin]; exact hmesh.2 f hf) (by rw [hlmax]; exact hmesh.2 f hf))
  have hne : ¬ (V0.length ≠ V1.length) := not_not.mpr hlen
  unfold buildSwept32
  rw [if_neg hne]
  simp only [hmin0, hmin1, hmax0, hmax1, hg, sizeGrid32_vertexMinVAI hg hext,
    sizeGrid32_vertexMaxVAI hg hext, hov, hoe, hlf]
  exact ⟨_, rfl⟩

/-! ### The linear voxel index in `int` arithmetic -/

/-- In a grid with positive counts whose number of cells fits an `int`, the
`int` formula is exact on every cell. -/
theorem wrap32_linear_exact {nx ny nz ix iy iz : Int}
    (hfit : nx * ny * nz ≤ INT_MAX)
    (hx0 : 0 ≤ ix) (hx : ix < nx) (hy0 : 0 ≤ iy) (hy : iy < ny) (hz0 : 0 ≤ iz) (hz : iz < nz) :
    wrap32 (nx * ny) = nx * ny ∧
    wrap32 (ix + iy * nx + iz * (nx * ny)) = ix + iy * nx + iz * (nx * ny) ∧
    0 ≤ ix + iy * nx + iz * (nx * ny) ∧ ix + iy * nx + iz * (nx * ny) < nx * ny * nz := by
  obtain ⟨ha0, han⟩ := two_digits_lt hx0 hx hy0 hy
  obtain ⟨hk0, hkn⟩ := two_digits_lt ha0 han hz0 hz
  have hmin : INT_MIN ≤ 0 := by unfold INT_MIN; decide
  have hnxy : 0 < nx * ny := by nlinarith
  have hle : nx * ny ≤ nx * ny * nz := by nlinarith
  refine ⟨wrap32_of_fits (by linarith) (by linarith), ?_, hk0, hkn⟩
  exact wrap32_of_fits (by linarith) (by linarith)

/-- The grid a build in `int` arithmetic leaves: positive counts that fit an
`int`, their `int` product, and a positive scale. -/
theorem built32_grid {ext : External} {V V0 V1 : List Vec3} {E : List (Nat × Nat)}
    {F : List (Nat × Nat × Nat)} {voxelSize : ℚ} {sh : SpatialHash}
    (h : build32 ext V E F voxelSize = .ok sh ∨ buildSwept32 ext V0 V1 E F voxelSize = .ok sh) :
    sh.voxelCount0x1 = wrap32 (sh.voxelCount.x * sh.voxelCount.y) ∧
    (0 < sh.voxelCount.x ∧ sh.voxelCount.x ≤ INT_MAX) ∧
    (0 < sh.voxelCount.y ∧ sh.voxelCount.y ≤ INT_MAX) ∧
    (0 < sh.voxelCount.z ∧ sh.voxelCount.z ≤ INT_MAX) ∧
    0 < sh.one_div_voxelSize := by
  rcases h with h | h
  · obtain ⟨lb, rt, g, voxel0, le, lf, hlb, hrt, hg, _, _, _, hsh⟩ := build32_ok h
    obtain ⟨hpos, hx, hy, hz, _⟩ :=
      sizeGrid32_box hg (isExtremes_le (colwise_isExtremes hlb hrt))
    obtain ⟨_, _, _, _, _, _, hrule, _⟩ := sizeGrid32_ok hg
    subst hsh
    exact ⟨hrule.2.2, hx, hy, hz, hpos⟩
  · obtain ⟨min0, min1, max0, max1, g, ov, oe, lf, _, hmin0, hmin1, hmax0, hmax1, hg, _, _, _,
      hsh⟩ := buildSwept32_ok h
    obtain ⟨hpos, hx, hy, hz, _⟩ :=
      sizeGrid32_box hg (isExtremes_le
        (isExtremes_append (colwise_isExtremes hmin0 hmax0) (colwise_isExtremes hmin1 hmax1)))
    obtain ⟨_, _, _, _, _, _, hrule, _⟩ := sizeGrid32_ok hg
    subst hsh
    exact ⟨hrule.2.2, hx, hy, hz, hpos⟩

/-- C36, at a counterexample. The static build of `wideV` with voxel size 1 makes
a grid of `65536 x 65536 x 2` cells, all counts positive. The product
`nx * ny = 2^32` is `0` as an `int`, so the distinct in-grid cells `(0, 0, 0)`
and `(0, 0, 1)` both get the linear index `0`; and the in-grid cell
`(65535, 65535, 1)` gets the index `-1`, outside `[0, nx * ny * nz)`. -/
theorem distinct_cells_share_linear_index :
    build32 (specExternal 1 1) wideV [] [] 1 = .ok wideIndex ∧
    (0 < wideIndex.voxelCount.x ∧ 0 < wideIndex.voxelCount.y ∧ 0 < wideIndex.voxelCount.z) ∧
    (wideIndex.inGrid 0 0 0 ∧ wideIndex.inGrid 0 0 1) ∧
    wideIndex.voxelAxisIndex2VoxelIndex32 0 0 0 = .ok 0 ∧
    wideIndex.voxelAxisIndex2VoxelIndex32 0 0 1 = .ok 0 ∧
    wideIndex.inGrid 65535 65535 1 ∧
    wideIndex.voxelAxisIndex2VoxelIndex32 65535 65535 1 = .ok (-1) := by
  refine ⟨by decide!, by decide!, by decide!, by decide!, by decide!, by decide!, by decide!⟩

/-- C36, amended. The linear voxel index is injective on the grid when the
number of cells fits an `int`: in an index made by either build with
`nx * ny * nz <= INT_MAX`, `voxelAxisIndex2VoxelIndex` returns on every two
in-grid triples, its value is `ix + iy * nx + iz * nx * ny` and lies in
`[0, nx * ny * nz)`, and equal values come from equal triples. -/
theorem linear_index_injective (ext : External) (V V0 V1 : List Vec3)
    (E : List (Nat × Nat)) (F : List (Nat × Nat × Nat)) (voxelSize : ℚ) (sh : SpatialHash)
    (h : build32 ext V E F voxelSize = .ok sh ∨ buildSwept32 ext V0 V1 E F voxelSize = .ok sh)
    (hfit : sh.voxelCount.x * sh.voxelCount.y * sh.voxelCount.z ≤ INT_MAX)
    (ix iy iz jx jy jz : Int) (hi : sh.inGrid ix iy iz) (hj : sh.inGrid jx jy jz) :
    ∃ k l, sh.voxelAxisIndex2VoxelIndex32 ix iy iz = .ok k ∧
      sh.voxelAxisIndex2VoxelIndex32 jx jy jz = .ok l ∧
      k = ix + iy * sh.voxelCount.x + iz * sh.voxelCount.x * sh.voxelCount.y ∧
      0 ≤ k ∧ k < sh.voxelCount.x * sh.voxelCount.y * sh.voxelCount.z ∧
      (k = l → ix = jx ∧ iy = jy ∧ iz = jz) := by
  obtain ⟨hn, _⟩ := built32_grid h
  unfold SpatialHash.voxelAxisIndex2VoxelIndex32
  rw [if_pos hi, if_pos hj, SpatialHash.linearIndex32_eq, SpatialHash.linearIndex32_eq, hn]
  obtain ⟨hix, hiy, hiz, hixn, hiyn, hizn⟩ := hi
  obtain ⟨hjx, hjy, hjz, hjxn, hjyn, hjzn⟩ := hj
  obtain ⟨e0, e1, hk0, hkn⟩ := wrap32_linear_exact hfit hix hixn hiy hiyn hiz hizn
  obtain ⟨_, e2, _, _⟩ := wrap32_linear_exact hfit hjx hjxn hjy hjyn hjz hjzn
  obtain ⟨ha0, han⟩ := two_digits_lt hix hixn hiy hiyn
  obtain ⟨hb0, hbn⟩ := two_digits_lt hjx hjxn hjy hjyn
  rw [e0, e1, e2]
  refine ⟨_, _, rfl, rfl, by ring, hk0, hkn, ?_⟩
  intro hkl
  obtain ⟨hab, hz⟩ := two_digits_eq ha0 han hb0 hbn hkl
  obtain ⟨hx, hy⟩ := two_digits_eq hix hixn hjx hjxn hab
  exact ⟨hx, hy, hz⟩

/-- Witness of C36: the cells `(1, 0, 1)` and `(0, 1, 1)` of the `2 × 2 × 2` grid
of the stretched triangle. -/
theorem linear_index_injective_witness :
    ((build32 (specExternal 0 0) stretchV triE triF 2 = .ok stretchIndex ∨
        buildSwept32 (specExternal 0 0) stretchV stretchV triE triF 2 = .ok stretchIndex) ∧
      stretchIndex.voxelCount.x * stretchIndex.voxelCount.y * stretchIndex.voxelCount.z
        ≤ INT_MAX ∧
      stretchIndex.inGrid 1 0 1 ∧ stretchIndex.inGrid 0 1 1) ∧
    ∃ k l, stretchIndex.voxelAxisIndex2VoxelIndex32 1 0 1 = .ok k ∧
      stretchIndex.voxelAxisIndex2VoxelIndex32 0 1 1 = .ok l ∧
      k = 1 + 0 * stretchIndex.voxelCount.x
        + 1 * stretchIndex.voxelCount.x * stretchIndex.voxelCount.y ∧
      0 ≤ k ∧
      k < stretchIndex.voxelCount.x * stretchIndex.voxelCount.y * stretchIndex.voxelCount.z ∧
      (k = l → (1 : Int) = 0 ∧ (0 : Int) = 1 ∧ (1 : Int) = 1) :=
  ⟨⟨Or.inl (by decide!), by decide, by decide, by decide⟩,
    linear_index_injective (specExternal 0 0) stretchV stretchV stretchV triE triF 2
      stretchIndex (Or.inl (by decide!)) (by decide) 1 0 1 0 1 1 (by decide) (by decide)⟩

/-- C16, at a counterexample. In the index the static build makes of `wideV`
(a grid of `65536 x 65536 x 2` cells) the in-grid cell `(65535, 65535, 0)` has
`ix + iy * nx + iz * nx * ny = 4294967295`, while `voxelAxisIndex2VoxelIndex`
returns the `int` `-1`, and so does the inline enumeration. -/
theorem linear_index_wraps :
    build32 (specExternal 1 1) wideV [] [] 1 = .ok wideIndex ∧
    wideIndex.inGrid 65535 65535 0 ∧
    65535 + 65535 * wideIndex.voxelCount.x
      + 0 * wideIndex.voxelCount.x * wideIndex.voxelCount.y = 4294967295 ∧
    wideIndex.voxelAxisIndex2VoxelIndex32 65535 65535 0 = .ok (-1) ∧
    cellLoop32 wideIndex.voxelCount wideIndex.voxelCount0x1
      ⟨65535, 65535, 0⟩ ⟨65535, 65535, 0⟩ = .ok [-1] := by
  refine ⟨by decide!, by decide!, by decide!, by decide!, by decide!⟩

/-- C16, amended. Linear voxel index encoding in `int` arithmetic: in an index
made by either build, `voxelAxisIndex2VoxelIndex(ix, iy, iz)` returns
`ix + iy * voxel_count[0] + iz * voxel_count[0] * voxel_count[1]` reduced to a
32-bit `int` on every cell of the grid (and stops at its bounds assertion on
any other triple); the inline enumeration
`ix + (iy * voxel_count[0] + iz * voxelCount0x1)` of the builds lists, cell by
cell in loop order, the same reduced values whenever its loops end, which they
do when no upper bound is `INT_MAX`; the enumeration of a position-based query
always ends and lists the same reduced values over its clamped box; and when
`nx * ny * nz <= INT_MAX` the reduced value of an in-grid cell is the exact
one. -/
theorem linear_index_encoding (ext : External) (V V0 V1 : List Vec3)
    (E : List (Nat × Nat)) (F : List (Nat × Nat × Nat)) (voxelSize : ℚ) (sh : SpatialHash)
    (h : build32 ext V E F voxelSize = .ok sh ∨ buildSwept32 ext V0 V1 E F voxelSize = .ok sh) :
    (∀ ix iy iz : Int, sh.voxelAxisIndex2VoxelIndex32 ix iy iz =
      if sh.inGrid ix iy iz
      then .ok (wrap32 (ix + iy * sh.voxelCount.x + iz * sh.voxelCount.x * sh.voxelCount.y))
      else .error .assertion) ∧
    (∀ (mins maxs : Idx3) (l : List Int),
      cellLoop32 sh.voxelCount sh.voxelCount0x1 mins maxs = .ok l →
      l = (rangeIncl mins.z maxs.z).flatMap (fun iz =>
        (rangeIncl mins.y maxs.y).flatMap (fun iy =>
          (rangeIncl mins.x maxs.x).map (fun ix =>
            wrap32 (ix + iy * sh.voxelCount.x
              + iz * sh.voxelCount.x * sh.voxelCount.y))))) ∧
    (∀ mins maxs : Idx3, LoopEnds maxs →
      ∃ l, cellLoop32 sh.voxelCount sh.voxelCount0x1 mins maxs = .ok l) ∧
    (∀ leftBottom rightTop : Vec3,
      sh.lookups32 leftBottom rightTop = .ok
        ((rangeIncl (max (sh.locateVoxelAxisIndex32 leftBottom).z 0)
            (min (sh.locateVoxelAxisIndex32 rightTop).z (sh.voxelCount.z - 1))).flatMap
          (fun iz =>
            (rangeIncl (max (sh.locateVoxelAxisIndex32 leftBottom).y 0)
                (min (sh.locateVoxelAxisIndex32 rightTop).y (sh.voxelCount.y - 1))).flatMap
              (fun iy =>
                (rangeIncl (max (sh.locateVoxelAxisIndex32 leftBottom).x 0)
                    (min (sh.locateVoxelAxisIndex32 rightTop).x (sh.voxelCount.x - 1))).map
                  (fun ix =>
                    wrap32 (ix + iy * sh.voxelCount.x
                      + iz * sh.voxelCount.x * sh.voxelCount.y)))))) ∧
    (sh.voxelCount.x * sh.voxelCount.y * sh.voxelCount.z ≤ INT_MAX →
      ∀ ix iy iz : Int, sh.inGrid ix iy iz →
        wrap32 (ix + iy * sh.voxelCount.x + iz * sh.voxelCount.x * sh.voxelCount.y) =
          ix + iy * sh.voxelCount.x + iz * sh.voxelCount.x * sh.voxelCount.y) := by
  obtain ⟨hn, ⟨hx0, hx1⟩, ⟨hy0, hy1⟩, ⟨hz0, hz1⟩, _⟩ := built32_grid h
  have hkey : ∀ ix iy iz : Int,
      wrap32 (ix + iy * sh.voxelCount.x + iz * sh.voxelCount0x1) =
        wrap32 (ix + iy * sh.voxelCount.x + iz * sh.voxelCount.x * sh.voxelCount.y) := by
    intro ix iy iz
    rw [hn, wrap32_add_mul_wrap32, mul_assoc]
  have hlist : ∀ mins maxs : Idx3,
      cellList32 sh.voxelCount sh.voxelCount0x1 mins maxs =
        (rangeIncl mins.z maxs.z).flatMap (fun iz =>
          (rangeIncl mins.y maxs.y).flatMap (fun iy =>
            (rangeIncl mins.x maxs.x).map (fun ix =>
              wrap32 (ix + iy * sh.voxelCount.x
                + iz * sh.voxelCount.x * sh.voxelCount.y)))) := by
    intro mins maxs
    unfold cellList32
    simp only [hkey]
  refine ⟨?_, ?_, ?_, ?_, ?_⟩
  · intro ix iy iz
    unfold SpatialHash.voxelAxisIndex2VoxelIndex32
    rw [SpatialHash.linearIndex32_eq, hkey]
  · intro mins maxs l hl
    rw [cellLoop32_ok hl, hlist]
  · intro mins maxs hends
    exact cellLoop32_total _ _ _ hends
  · intro leftBottom rightTop
    have hwx : wrap32 (sh.voxelCount.x - 1) = sh.voxelCount.x - 1 :=
      wrap32_of_fits (by unfold INT_MIN; omega) (by omega)
    have hwy : wrap32 (sh.voxelCount.y - 1) = sh.voxelCount.y - 1 :=
      wrap32_of_fits (by unfold INT_MIN; omega) (by omega)
    have hwz : wrap32 (sh.voxelCount.z - 1) = sh.voxelCount.z - 1 :=
      wrap32_of_fits (by unfold INT_MIN; omega) (by omega)
    unfold SpatialHash.lookups32
    simp only [hwx, hwy, hwz]
    rw [cellLoop32_eq_of_lt, hlist]
    · rfl
    · show min (sh.locateVoxelAxisIndex32 rightTop).x (sh.voxelCount.x - 1) ≠ INT_MAX
      have := min_le_right (sh.locateVoxelAxisIndex32 rightTop).x (sh.voxelCount.x - 1)
      omega
    · show min (sh.locateVoxelAxisIndex32 rightTop).y (sh.voxelCount.y - 1) ≠ INT_MAX
      have := min_le_right (sh.locateVoxelAxisIndex32 rightTop).y (sh.voxelCount.y - 1)
      omega
    · show min (sh.locateVoxelAxisIndex32 rightTop).z (sh.voxelCount.z - 1) ≠ INT_MAX
      have := min_le_right (sh.locateVoxelAxisIndex32 rightTop).z (sh.voxelCount.z - 1)
      omega
  · intro hfit ix iy iz hi
    obtain ⟨hix, hiy, hiz, hixn, hiyn, hizn⟩ := hi
    obtain ⟨_, e1, _, _⟩ := wrap32_linear_exact hfit hix hixn hiy hiyn hiz hizn
    rw [mul_assoc]
    exact e1

/-- Witness of C16: the static build of the stretched triangle, a grid of
`2 × 2 × 2` cells. -/
theorem linear_index_encoding_witness :
    (build32 (specExternal 0 0) stretchV triE triF 2 = .ok stretchIndex ∨
      buildSwept32 (specExternal 0 0) stretchV stretchV triE triF 2 = .ok stretchIndex) ∧
    (∀ ix iy iz : Int, stretchIndex.voxelAxisIndex2VoxelIndex32 ix iy iz =
      if stretchIndex.inGrid ix iy iz
      then .ok (wrap32 (ix + iy * stretchIndex.voxelCount.x
        + iz * stretchIndex.voxelCount.x * stretchIndex.voxelCount.y))
      else .error .assertion) ∧
    (cellLoop32 stretchIndex.voxelCount stretchIndex.voxelCount0x1 ⟨0, 0, 0⟩ ⟨1, 1, 1⟩
        = .ok [0, 1, 2, 3, 4, 5, 6, 7] ∧
      [0, 1, 2, 3, 4, 5, 6, 7] =
        (rangeIncl (0 : Int) 1).flatMap (fun iz =>
          (rangeIncl (0 : Int) 1).flatMap (fun iy =>
            (rangeIncl (0 : Int) 1).map (fun ix =>
              wrap32 (ix + iy * stretchIndex.voxelCount.x
                + iz * stretchIndex.voxelCount.x * stretchIndex.voxelCount.y))))) ∧
    (LoopEnds ⟨1, 1, 1⟩ ∧
      ∃ l, cellLoop32 stretchIndex.voxelCount stretchIndex.voxelCount0x1
        ⟨0, 0, 0⟩ ⟨1, 1, 1⟩ = .ok l) ∧
    (stretchIndex.voxelCount.x * stretchIndex.voxelCount.y * stretchIndex.voxelCount.z
        ≤ INT_MAX ∧
      stretchIndex.inGrid 1 1 1 ∧
      wrap32 (1 + 1 * stretchIndex.voxelCount.x
        + 1 * stretchIndex.voxelCount.x * stretchIndex.voxelCount.y) =
        1 + 1 * stretchIndex.voxelCount.x
          + 1 * stretchIndex.voxelCount.x * stretchIndex.voxelCount.y) :=
  ⟨Or.inl (by decide!),
    (linear_index_encoding (specExternal 0 0) stretchV stretchV stretchV triE triF 2
      stretchIndex (Or.inl (by decide!))).1,
    ⟨by decide!,
      (linear_index_encoding (specExternal 0 0) stretchV stretchV stretchV triE triF 2
        stretchIndex (Or.inl (by decide!))).2.1 ⟨0, 0, 0⟩ ⟨1, 1, 1⟩ _ (by decide!)⟩,
    ⟨by decide,
      (linear_index_encoding (specExternal 0 0) stretchV stretchV stretchV triE triF 2
        stretchIndex (Or.inl (by decide!))).2.2.1 ⟨0, 0, 0⟩ ⟨1, 1, 1⟩ (by decide)⟩,
    ⟨by decide, by decide,
      (linear_index_encoding (specExternal 0 0) stretchV stretchV stretchV triE triF 2
        stretchIndex (Or.inl (by decide!))).2.2.2.2 (by decide) 1 1 1 (by decide)⟩⟩

/-! ### Grid sizing in `int` arithmetic -/

theorem build32_gridRule {ext : External} {V : List Vec3} {E : List (Nat × Nat)}
    {F : List (Nat × Nat × Nat)} {voxelSize : ℚ} {sh : SpatialHash}
    (h : build32 ext V E F voxelSize = .ok sh) :
    IsExtremes sh.leftBottomCorner sh.rightTopCorner V ∧
    GridRule32 sh (if voxelSize ≤ 0 then suggestGoodVoxelSize ext V E F 0 else voxelSize) := by
  obtain ⟨_, _, _, _, _, hext, hrule, _⟩ := build32_shape h
  exact ⟨hext, hrule⟩

theorem buildSwept32_gridRule {ext : External} {V0 V1 : List Vec3} {E : List (Nat × Nat)}
    {F : List (Nat × Nat × Nat)} {voxelSize : ℚ} {sh : SpatialHash}
    (h : buildSwept32 ext V0 V1 E F voxelSize = .ok sh) :
    IsExtremes sh.leftBottomCorner sh.rightTopCorner (V0 ++ V1) ∧
    GridRule32 sh
      (if voxelSize ≤ 0 then suggestGoodVoxelSizeSwept ext V0 V1 E F 0 else voxelSize) := by
  obtain ⟨_, _, _, _, _, _, hext, hrule, _⟩ := buildSwept32_shape h
  exact ⟨hext, hrule⟩

/-- The `int` product of two counts whose exact product fits is exact. -/
theorem nx_ny_exact {sh : SpatialHash}
    (hn : sh.voxelCount0x1 = wrap32 (sh.voxelCount.x * sh.voxelCount.y))
    (hx : 0 < sh.voxelCount.x) (hy : 0 < sh.voxelCount.y)
    (hfit : sh.voxelCount.x * sh.voxelCount.y ≤ INT_MAX) :
    sh.voxelCount0x1 = sh.voxelCount.x * sh.voxelCount.y := by
  rw [hn]
  have h0 : 0 < sh.voxelCount.x * sh.voxelCount.y := by nlinarith
  have hmin : INT_MIN ≤ 0 := by unfold INT_MIN; decide
  exact wrap32_of_fits (by linarith) hfit

/-- C9, at a counterexample. The static build of the edge `hugeV` with voxel
size 1 has the count `ceil(10^10 * (1/1)) = 10^10` on every axis, with no
component `<= 0`; the cast to `int` overflows, and the index holds the single
cell `(1, 1, 1)` and `inv_voxel_size = 1 / (10^10 * 1.01)` instead of the count
and `1/1`. And in the index built of `wideV` the counts are `65536` and `65536`
but `nx_ny` is `0`, not their product `4294967296`. -/
theorem grid_sizing_overflows :
    build32 (specExternal 1 1) hugeV [(0, 1)] [] 1 = .ok hugeIndex ∧
    ((hugeIndex.rightTopCorner.sub hugeIndex.leftBottomCorner).scale (1 / 1)).ceil
      = ⟨10000000000, 10000000000, 10000000000⟩ ∧
    hugeIndex.voxelCount = ⟨1, 1, 1⟩ ∧
    hugeIndex.one_div_voxelSize = 1 / 10100000000 ∧
    hugeIndex.one_div_voxelSize ≠ 1 / 1 ∧
    ¬ GridRule hugeIndex 1 ∧
    build32 (specExternal 1 1) wideV [] [] 1 = .ok wideIndex ∧
    wideIndex.voxelCount = ⟨65536, 65536, 2⟩ ∧
    wideIndex.voxelCount0x1 = 0 ∧
    wideIndex.voxelCount.x * wideIndex.voxelCount.y = 4294967296 ∧
    ¬ GridRule wideIndex 1 := by
  refine ⟨by decide!, by decide!, by decide!, by decide!, by decide!, ?_, by decide!,
    by decide!, by decide!, by decide!, ?_⟩
  · intro hr
    have := (hr.2.1 (by decide!)).2
    exact absurd this (by decide!)
  · intro hr
    exact absurd hr.2.2 (by decide!)

/-- C9, amended. Grid sizing rule in `int` arithmetic: a build that returns
holds as corners the componentwise extremes of all vertices (of `V`, resp. of
`V0` and `V1`), and for the voxel size `s` in force (the given one, or the
suggested one when the given one is `<= 0`) it holds `inv_voxel_size = 1/s` and
`voxel_count = ceil((right_top - left_bottom) * inv_voxel_size)`, except that
exactly when `s` is zero or some component of that count is `<= 0` or exceeds
`INT_MAX` (the cast to `int` overflows) it holds the count `(1,1,1)` and
`inv_voxel_size = 1 / (max(range) * 1.01)`; in both cases `nx_ny` is the
product `voxel_count[0] * voxel_count[1]` reduced to a 32-bit `int`, which is
the exact product when that is at most `INT_MAX`. The swept build does return
on every well-formed mesh with at least one vertex, provided `max(range)` is
not zero when the fallback triggers and no count equals `INT_MAX` when it does
not. -/
theorem grid_sizing_rule (ext : External) (V V0 V1 : List Vec3) (E : List (Nat × Nat))
    (F : List (Nat × Nat × Nat)) (voxelSize : ℚ) :
    (∀ sh, build32 ext V E F voxelSize = .ok sh →
      IsExtremes sh.leftBottomCorner sh.rightTopCorner V ∧
      GridRule32 sh (if voxelSize ≤ 0 then suggestGoodVoxelSize ext V E F 0 else voxelSize) ∧
      (sh.voxelCount.x * sh.voxelCount.y ≤ INT_MAX →
        sh.voxelCount0x1 = sh.voxelCount.x * sh.voxelCount.y)) ∧
    (∀ sh, buildSwept32 ext V0 V1 E F voxelSize = .ok sh →
      IsExtremes sh.leftBottomCorner sh.rightTopCorner (V0 ++ V1) ∧
      GridRule32 sh
        (if voxelSize ≤ 0 then suggestGoodVoxelSizeSwept ext V0 V1 E F 0 else voxelSize) ∧
      (sh.voxelCount.x * sh.voxelCount.y ≤ INT_MAX →
        sh.voxelCount0x1 = sh.voxelCount.x * sh.voxelCount.y)) ∧
    (∀ lb0 lb1 rt0 rt1, V0.length = V1.length →
      colwiseMinCoeff V0 = .ok lb0 → colwiseMinCoeff V1 = .ok lb1 →
      colwiseMaxCoeff V0 = .ok rt0 → colwiseMaxCoeff V1 = .ok rt1 →
      (FallbackTriggers32 (lb0.cmin lb1) (rt0.cmax rt1)
          (if voxelSize ≤ 0 then suggestGoodVoxelSizeSwept ext V0 V1 E F 0 else voxelSize) →
        ((rt0.cmax rt1).sub (lb0.cmin lb1)).maxCoeff ≠ 0) →
      (¬ FallbackTriggers32 (lb0.cmin lb1) (rt0.cmax rt1)
          (if voxelSize ≤ 0 then suggestGoodVoxelSizeSwept ext V0 V1 E F 0 else voxelSize) →
        LoopEnds ((((rt0.cmax rt1).sub (lb0.cmin lb1)).scale
          (1 / (if voxelSize ≤ 0 then suggestGoodVoxelSizeSwept ext V0 V1 E F 0
            else voxelSize))).ceil)) →
      MeshInRange V0.length E F →
      ∃ sh, buildSwept32 ext V0 V1 E F voxelSize = .ok sh) := by
  refine ⟨?_, ?_, ?_⟩
  · intro sh h
    obtain ⟨hext, hrule⟩ := build32_gridRule h
    obtain ⟨hn, ⟨hx, _⟩, ⟨hy, _⟩, _⟩ := built32_grid
      (Or.inl h : build32 ext V E F voxelSize = .ok sh ∨
        buildSwept32 ext V0 V1 E F voxelSize = .ok sh)
    exact ⟨hext, hrule, nx_ny_exact hn hx hy⟩
  · intro sh h
    obtain ⟨hext, hrule⟩ := buildSwept32_gridRule h
    obtain ⟨hn, ⟨hx, _⟩, ⟨hy, _⟩, _⟩ := built32_grid
      (Or.inr h : build32 ext V E F voxelSize = .ok sh ∨
        buildSwept32 ext V0 V1 E F voxelSize = .ok sh)
    exact ⟨hext, hrule, nx_ny_exact hn hx hy⟩
  · intro lb0 lb1 rt0 rt1 hlen hmin0 hmin1 hmax0 hmax1 hm hc hmesh
    obtain ⟨g, hg⟩ := sizeGrid32_total (lb0.cmin lb1) (rt0.cmax rt1)
      (if voxelSize ≤ 0 then suggestGoodVoxelSizeSwept ext V0 V1 E F 0 else voxelSize)
      V0.length E.length hm
    obtain ⟨h1, h2, _, _, _, _, hrule, _⟩ := sizeGrid32_ok hg
    unfold GridRule32 at hrule
    rw [h1, h2] at hrule
    have hends : LoopEnds g.voxelCount := by
      by_cases hf : FallbackTriggers32 (lb0.cmin lb1) (rt0.cmax rt1)
          (if voxelSize ≤ 0 then suggestGoodVoxelSizeSwept ext V0 V1 E F 0 else voxelSize)
      · rw [(hrule.1 hf).1]
        decide
      · rw [(hrule.2.1 hf).1]
        exact hc hf
    exact buildSwept32_total hlen hmin0 hmin1 hmax0 hmax1 hg hends hmesh

/-- Witness of C9: the static build of the edge `hugeV` with voxel size 1 (the
cast of the count overflows: fallback), the swept build of a flat segment with
voxel size 1 (a count is zero: fallback), and the auto-sized swept build of the
two-segment mesh at rest (no fallback), which returns. -/
theorem grid_sizing_rule_witness :
    (build32 (specExternal 1 1) hugeV [(0, 1)] [] 1 = .ok hugeIndex ∧
      IsExtremes hugeIndex.leftBottomCorner hugeIndex.rightTopCorner hugeV ∧
      GridRule32 hugeIndex
        (if (1 : ℚ) ≤ 0 then suggestGoodVoxelSize (specExternal 1 1) hugeV [(0, 1)] [] 0
          else 1) ∧
      hugeIndex.voxelCount.x * hugeIndex.voxelCount.y ≤ INT_MAX ∧
      hugeIndex.voxelCount0x1 = hugeIndex.voxelCount.x * hugeIndex.voxelCount.y) ∧
    (buildSwept32 (specExternal 0 0) [⟨0, 0, 0⟩, ⟨2, 0, 0⟩] [⟨0, 0, 0⟩, ⟨2, 0, 0⟩] [(0, 1)] [] 1
        = .ok flatIndex ∧
      IsExtremes flatIndex.leftBottomCorner flatIndex.rightTopCorner
        ([⟨0, 0, 0⟩, ⟨2, 0, 0⟩] ++ [⟨0, 0, 0⟩, ⟨2, 0, 0⟩]) ∧
      GridRule32 flatIndex
        (if (1 : ℚ) ≤ 0 then suggestGoodVoxelSizeSwept (specExternal 0 0)
          [⟨0, 0, 0⟩, ⟨2, 0, 0⟩] [⟨0, 0, 0⟩, ⟨2, 0, 0⟩] [(0, 1)] [] 0 else 1) ∧
      flatIndex.voxelCount.x * flatIndex.voxelCount.y ≤ INT_MAX ∧
      flatIndex.voxelCount0x1 = flatIndex.voxelCount.x * flatIndex.voxelCount.y) ∧
    (MeshInRange twoSegV.length twoSegE [] ∧
      ∃ sh, buildSwept32 (specExternal 2 0) twoSegV twoSegV twoSegE [] 0 = .ok sh) :=
  ⟨⟨by decide!,
      ((grid_sizing_rule (specExternal 1 1) hugeV [] [] [(0, 1)] [] 1).1 hugeIndex
        (by decide!)).1,
      ((grid_sizing_rule (specExternal 1 1) hugeV [] [] [(0, 1)] [] 1).1 hugeIndex
        (by decide!)).2.1,
      by decide,
      ((grid_sizing_rule (specExternal 1 1) hugeV [] [] [(0, 1)] [] 1).1 hugeIndex
        (by decide!)).2.2 (by decide)⟩,
    ⟨by decide!,
      ((grid_sizing_rule (specExternal 0 0) [] [⟨0, 0, 0⟩, ⟨2, 0, 0⟩] [⟨0, 0, 0⟩, ⟨2, 0, 0⟩]
        [(0, 1)] [] 1).2.1 flatIndex (by decide!)).1,
      ((grid_sizing_rule (specExternal 0 0) [] [⟨0, 0, 0⟩, ⟨2, 0, 0⟩] [⟨0, 0, 0⟩, ⟨2, 0, 0⟩]
        [(0, 1)] [] 1).2.1 flatIndex (by decide!)).2.1,
      by decide,
      ((grid_sizing_rule (specExternal 0 0) [] [⟨0, 0, 0⟩, ⟨2, 0, 0⟩] [⟨0, 0, 0⟩, ⟨2, 0, 0⟩]
        [(0, 1)] [] 1).2.1 flatIndex (by decide!)).2.2 (by decide)⟩,
    ⟨by decide!,
      (grid_sizing_rule (specExternal 2 0) [] twoSegV twoSegV twoSegE [] 0).2.2
        ⟨-1, -1, -1⟩ ⟨-1, -1, -1⟩ ⟨1, 1, 1⟩ ⟨1, 1, 1⟩ rfl (by decide!) (by decide!)
        (by decide!) (by decide!) (by decide!) (by decide!) (by decide!)⟩⟩

/-! ### Auto-sizing in `int` arithmetic -/

/-- C26, at a counterexample. The swept build of the flat triangle `(0,0,0)`,
`(2,0,0)`, `(0,2,0)` is called with the voxel size `1 > 0`; the count along `z`
is `ceil(0 * 1) = 0`, the fallback replaces `inv_voxel_size`, and the index holds
`50/101 = 1 / (2 * 1.01)`, not `1 / 1`. The static build of the edge `hugeV`,
called with the voxel size `1 > 0`, has no count `<= 0`, but its counts do not
fit an `int`: the index holds `1 / (10^10 * 1.01)`, not `1 / 1`. -/
theorem positive_voxel_size_replaced_by_fallback :
    buildSwept32 (specExternal 0 0) flatTriV flatTriV triE triF 1 = .ok flatTriIndex ∧
    (0 : ℚ) < 1 ∧
    flatTriIndex.one_div_voxelSize = 50 / 101 ∧
    flatTriIndex.one_div_voxelSize ≠ 1 / 1 ∧
    build32 (specExternal 1 1) hugeV [(0, 1)] [] 1 = .ok hugeIndex ∧
    ¬ FallbackTriggers hugeIndex.leftBottomCorner hugeIndex.rightTopCorner 1 ∧
    hugeIndex.one_div_voxelSize = 1 / 10100000000 ∧
    hugeIndex.one_div_voxelSize ≠ 1 / 1 := by
  refine ⟨by decide!, by decide!, by decide!, by decide!, by decide!, by decide!, by decide!,
    by decide!⟩

/-- C26, amended. Auto-sizing: the static suggestion is
`2 * average_edge_length(V, V, E) + r` and the swept one
`2 * max(average_edge_length(V0, V1, E), average_displacement_length(V1 - V0)) + r`;
a build called with `voxel_size <= 0` is the build called with that suggestion
for `r = 0`; and a build called with `voxel_size > 0` uses it unchanged: the
index holds `inv_voxel_size = 1 / voxel_size`, unless the single-cell fallback
of the grid sizing triggers (some axis has a count
`ceil(range * (1/voxel_size))` that is `<= 0` or exceeds `INT_MAX`) and
replaces it by `1 / (max(range) * 1.01)`. -/
theorem auto_sizing (ext : External) (V V0 V1 : List Vec3) (E : List (Nat × Nat))
    (F : List (Nat × Nat × Nat)) (voxelSize : ℚ) :
    (∀ r : ℚ, suggestGoodVoxelSize ext V E F r =
      2 * ext.average_edge_length V V E + r) ∧
    (∀ r : ℚ, suggestGoodVoxelSizeSwept ext V0 V1 E F r =
      2 * max (ext.average_edge_length V0 V1 E)
        (ext.average_displacement_length (List.zipWith Vec3.sub V1 V0)) + r) ∧
    (voxelSize ≤ 0 →
      build32 ext V E F voxelSize =
        build32 ext V E F (2 * ext.average_edge_length V V E + 0) ∧
      buildSwept32 ext V0 V1 E F voxelSize =
        buildSwept32 ext V0 V1 E F
          (2 * max (ext.average_edge_length V0 V1 E)
            (ext.average_displacement_length (List.zipWith Vec3.sub V1 V0)) + 0)) ∧
    (∀ sh s, (build32 ext V E F s = .ok sh ∨ buildSwept32 ext V0 V1 E F s = .ok sh) →
      0 < s →
      (¬ FallbackTriggers32 sh.leftBottomCorner sh.rightTopCorner s →
        sh.one_div_voxelSize = 1 / s) ∧
      (FallbackTriggers32 sh.leftBottomCorner sh.rightTopCorner s →
        sh.one_div_voxelSize =
          1 / ((sh.rightTopCorner.sub sh.leftBottomCorner).maxCoeff * (101 / 100)))) := by
  refine ⟨fun r => rfl, fun r => rfl, ?_, ?_⟩
  · intro hle
    constructor
    · have e : suggestGoodVoxelSize ext V E F 0 = 2 * ext.average_edge_length V V E + 0 := rfl
      rw [← e]
      unfold build32
      simp only [if_pos hle, ite_self]
    · have e : suggestGoodVoxelSizeSwept ext V0 V1 E F 0 =
          2 * max (ext.average_edge_length V0 V1 E)
            (ext.average_displacement_length (List.zipWith Vec3.sub V1 V0)) + 0 := rfl
      rw [← e]
      unfold buildSwept32
      simp only [if_pos hle, ite_self]
  · intro sh s h hs
    have hrule : GridRule32 sh s := by
      rcases h with h | h
      · have := (build32_gridRule h).2
        rwa [if_neg (not_le.mpr hs)] at this
      · have := (buildSwept32_gridRule h).2
        rwa [if_neg (not_le.mpr hs)] at this
    obtain ⟨h1, h2, _⟩ := hrule
    exact ⟨fun hn => (h2 hn).2, fun hf => (h1 hf).2⟩

/-- Witness of C26: the auto-sized static build of the two segments (average
edge length 2, voxel size 4), their auto-sized swept build (lengths 1 and 3,
voxel size 6), the stretched triangle built with voxel size 2 (no fallback), and
the edge `hugeV` built with voxel size 1 (fallback by overflow). -/
theorem auto_sizing_witness :
    (0 : ℚ) ≤ 0 ∧
    build32 (specExternal 2 0) twoSegV twoSegE [] 0 = .ok twoSegStaticIndex ∧
    buildSwept32 (specExternal 1 3) twoSegV crossV1 twoSegE [] 0 = .ok crossAutoIndex ∧
    (build32 (specExternal 2 0) twoSegV twoSegE [] 0 =
        build32 (specExternal 2 0) twoSegV twoSegE []
          (2 * (specExternal 2 0).average_edge_length twoSegV twoSegV twoSegE + 0) ∧
      buildSwept32 (specExternal 2 0) twoSegV crossV1 twoSegE [] 0 =
        buildSwept32 (specExternal 2 0) twoSegV crossV1 twoSegE []
          (2 * max ((specExternal 2 0).average_edge_length twoSegV crossV1 twoSegE)
            ((specExternal 2 0).average_displacement_length
              (List.zipWith Vec3.sub crossV1 twoSegV)) + 0)) ∧
    (build32 (specExternal 0 0) stretchV triE triF 2 = .ok stretchIndex ∨
      buildSwept32 (specExternal 0 0) stretchV stretchV triE triF 2 = .ok stretchIndex) ∧
    (0 : ℚ) < 2 ∧
    ¬ FallbackTriggers32 stretchIndex.leftBottomCorner stretchIndex.rightTopCorner 2 ∧
    stretchIndex.one_div_voxelSize = 1 / 2 ∧
    (build32 (specExternal 1 1) hugeV [(0, 1)] [] 1 = .ok hugeIndex ∨
      buildSwept32 (specExternal 1 1) hugeV hugeV [(0, 1)] [] 1 = .ok hugeIndex) ∧
    (0 : ℚ) < 1 ∧
    FallbackTriggers32 hugeIndex.leftBottomCorner hugeIndex.rightTopCorner 1 ∧
    hugeIndex.one_div_voxelSize =
      1 / ((hugeIndex.rightTopCorner.sub hugeIndex.leftBottomCorner).maxCoeff * (101 / 100)) :=
  ⟨le_refl 0, by decide!, by decide!,
    (auto_sizing (specExternal 2 0) twoSegV twoSegV crossV1 twoSegE [] 0).2.2.1 (le_refl 0),
    Or.inl (by decide!), by decide!, by decide!,
    ((auto_sizing (specExternal 0 0) stretchV stretchV stretchV triE triF 2).2.2.2
      stretchIndex 2 (Or.inl (by decide!)) (by decide!)).1 (by decide!),
    Or.inl (by decide!), by decide!, by decide!,
    ((auto_sizing (specExternal 1 1) hugeV hugeV hugeV [(0, 1)] [] 1).2.2.2
      hugeIndex 1 (Or.inl (by decide!)) (by decide!)).2 (by decide!)⟩

/-! ### Voxel coverage of the swept build in `int` arithmetic -/

/-- The cell list the swept build computes for an edge with endpoints `a`, `b`, in
`int` arithmetic: the loop over the index box of the swept AABB of the four
endpoint positions. -/
theorem sweptEdgeCells32_eq (sh : SpatialHash) (hv : 0 ≤ sh.one_div_voxelSize)
    {V0 V1 : List Vec3} {e : Nat × Nat} {a0 a1 b0 b1 : Vec3}
    (ha0 : V0[e.1]? = some a0) (ha1 : V0[e.2]? = some a1)
    (hb0 : V1[e.1]? = some b0) (hb1 : V1[e.2]? = some b1) :
    sweptEdgeCells32 sh (vertexMinVAI sh V0 V1) (vertexMaxVAI sh V0 V1) e =
      cellLoop32 sh.voxelCount sh.voxelCount0x1
        (sh.locateVoxelAxisIndex ((a0.cmin b0).cmin (a1.cmin b1)))
        (sh.locateVoxelAxisIndex ((a0.cmax b0).cmax (a1.cmax b1))) := by
  unfold sweptEdgeCells32
  rw [getVAI_swept sh hv ha0 hb0, getVAI_swept sh hv ha1 hb1]
  simp only [locate_cmin sh hv, locate_cmax sh hv]

/-- C12. Voxel coverage of the swept build, in `int` arithmetic: for every vertex
`i` the occupancy list holds exactly the linear indices (the `int` value of
`ix + iy * nx + iz * nx_ny`) of the cells `(ix, iy, iz)` between
`floor((lo - left_bottom) * inv_voxel_size)` and
`floor((hi - left_bottom) * inv_voxel_size)` on every axis, where `[lo, hi]` is
the componentwise min/max of the vertex's positions at `t0` and `t1`; for every
edge `j` (stored at `n + j`) the same holds with the min/max over the four
positions of its two endpoints. No other cell is listed. The linear index of a
cell is `ix + iy * nx + iz * (nx * ny)` reduced to a 32-bit `int`, and is that
number itself on every cell of a grid with `nx * ny * nz <= INT_MAX`. -/
theorem swept_voxel_coverage (ext : External) (V0 V1 : List Vec3)
    (E : List (Nat × Nat)) (F : List (Nat × Nat × Nat)) (voxelSize : ℚ) (sh : SpatialHash)
    (h : buildSwept32 ext V0 V1 E F voxelSize = .ok sh) :
    (∀ (i : Nat) (p0 p1 : Vec3), V0[i]? = some p0 → V1[i]? = some p1 →
      ∃ occ, sh.pointAndEdgeOccupancy[i]? = some occ ∧
        ∀ c, c ∈ occ ↔ ∃ ix iy iz,
          InIdxBox (sh.locateVoxelAxisIndex (p0.cmin p1))
            (sh.locateVoxelAxisIndex (p0.cmax p1)) ix iy iz ∧
          c = sh.linearIndex32 ix iy iz) ∧
    (∀ (j : Nat) (e : Nat × Nat) (a0 a1 b0 b1 : Vec3), E[j]? = some e →
      V0[e.1]? = some a0 → V0[e.2]? = some a1 → V1[e.1]? = some b0 → V1[e.2]? = some b1 →
      ∃ occ, sh.pointAndEdgeOccupancy[V0.length + j]? = some occ ∧
        ∀ c, c ∈ occ ↔ ∃ ix iy iz,
          InIdxBox (sh.locateVoxelAxisIndex ((a0.cmin b0).cmin (a1.cmin b1)))
            (sh.locateVoxelAxisIndex ((a0.cmax b0).cmax (a1.cmax b1))) ix iy iz ∧
          c = sh.linearIndex32 ix iy iz) ∧
    (∀ ix iy iz : Int, sh.linearIndex32 ix iy iz =
      wrap32 (ix + iy * sh.voxelCount.x + iz * (sh.voxelCount.x * sh.voxelCount.y))) ∧
    (sh.voxelCount.x * sh.voxelCount.y * sh.voxelCount.z ≤ INT_MAX →
      ∀ ix iy iz : Int, sh.inGrid ix iy iz →
        sh.linearIndex32 ix iy iz =
          ix + iy * sh.voxelCount.x + iz * (sh.voxelCount.x * sh.voxelCount.y)) := by
  obtain ⟨ov, oe, lf, hlen, _, _, _, hrule, hpos, hov, hoe, _, hocc, _⟩ :=
    buildSwept32_shape h
  have hn := hrule.2.2
  have hv : 0 ≤ sh.one_div_voxelSize := le_of_lt hpos
  have hlin : ∀ ix iy iz : Int, sh.linearIndex32 ix iy iz =
      wrap32 (ix + iy * sh.voxelCount.x + iz * (sh.voxelCount.x * sh.voxelCount.y)) := by
    intro ix iy iz
    rw [SpatialHash.linearIndex32_eq, hn, wrap32_add_mul_wrap32]
  have hmem : ∀ (mins maxs : Idx3) (c : Int),
      c ∈ cellList32 sh.voxelCount sh.voxelCount0x1 mins maxs ↔
        ∃ ix iy iz, InIdxBox mins maxs ix iy iz ∧ c = sh.linearIndex32 ix iy iz := by
    intro mins maxs c
    rw [mem_cellList32]
    simp only [SpatialHash.linearIndex32_eq]
  have hovl : ov.length = V0.length := by
    rw [forEachM_length hov, List.length_zip, length_vertexMinVAI sh V0 V1 hlen,
      length_vertexMaxVAI sh V0 V1 hlen]
    simp
  have hoel : oe.length = E.length := forEachM_length hoe
  refine ⟨?_, ?_, hlin, ?_⟩
  · intro i p0 p1 h0 h1
    have hi : i < V0.length := (List.getElem?_eq_some.mp h0).1
    have hi' : i < ov.length := by omega
    obtain ⟨x, hx, hy⟩ := (forEachM_getElem hov i (ov.get ⟨i, hi'⟩)).mp
      (List.getElem?_eq_getElem hi')
    have hx1 : x.1 = sh.locateVoxelAxisIndex (p0.cmin p1) := by
      have := (List.getElem?_zip_eq_some.mp hx).1
      rw [getElem?_vertexMinVAI sh hv h0 h1] at this
      exact (Option.some.inj this).symm
    have hx2 : x.2 = sh.locateVoxelAxisIndex (p0.cmax p1) := by
      have := (List.getElem?_zip_eq_some.mp hx).2
      rw [getElem?_vertexMaxVAI sh hv h0 h1] at this
      exact (Option.some.inj this).symm
    have hy' : cellLoop32 sh.voxelCount sh.voxelCount0x1 x.1 x.2 = .ok (ov.get ⟨i, hi'⟩) := hy
    rw [hx1, hx2] at hy'
    refine ⟨ov.get ⟨i, hi'⟩, ?_, ?_⟩
    · rw [hocc, List.getElem?_append_left hi']
      exact List.getElem?_eq_getElem hi'
    · intro c
      rw [cellLoop32_ok hy', hmem]
  · intro j e a0 a1 b0 b1 hj ha0 ha1 hb0 hb1
    have hj1 : j < E.length := (List.getElem?_eq_some.mp hj).1
    have hj' : j < oe.length := by omega
    obtain ⟨e', he', hy⟩ := (forEachM_getElem hoe j (oe.get ⟨j, hj'⟩)).mp
      (List.getElem?_eq_getElem hj')
    have hee : e' = e := by
      rw [hj] at he'
      exact (Option.some.inj he').symm
    rw [hee, sweptEdgeCells32_eq sh hv ha0 ha1 hb0 hb1] at hy
    refine ⟨oe.get ⟨j, hj'⟩, ?_, ?_⟩
    · rw [hocc, List.getElem?_append_right (by omega), hovl, Nat.add_sub_cancel_left]
      exact List.getElem?_eq_getElem hj'
    · intro c
      rw [cellLoop32_ok hy, hmem]
  · intro hfit ix iy iz hi
    obtain ⟨hix, hiy, hiz, hixn, hiyn, hizn⟩ := hi
    obtain ⟨_, e1, _, _⟩ := wrap32_linear_exact hfit hix hixn hiy hiyn hiz hizn
    rw [hlin]
    exact e1

/-- Witness of C12: the swept build of the two crossing segments of the
repository's test, where every vertex sweeps two cells and every edge four; and
the swept build of `wideV` at rest, where the far vertex lists the one key
`-1`. -/
theorem swept_voxel_coverage_witness :
    buildSwept32 (specExternal 0 0) twoSegV crossV1 twoSegE [] (3 / 2) = .ok crossIndex ∧
    ((∀ (i : Nat) (p0 p1 : Vec3), twoSegV[i]? = some p0 → crossV1[i]? = some p1 →
      ∃ occ, crossIndex.pointAndEdgeOccupancy[i]? = some occ ∧
        ∀ c, c ∈ occ ↔ ∃ ix iy iz,
          InIdxBox (crossIndex.locateVoxelAxisIndex (p0.cmin p1))
            (crossIndex.locateVoxelAxisIndex (p0.cmax p1)) ix iy iz ∧
          c = crossIndex.linearIndex32 ix iy iz) ∧
    (∀ (j : Nat) (e : Nat × Nat) (a0 a1 b0 b1 : Vec3), twoSegE[j]? = some e →
      twoSegV[e.1]? = some a0 → twoSegV[e.2]? = some a1 →
      crossV1[e.1]? = some b0 → crossV1[e.2]? = some b1 →
      ∃ occ, crossIndex.pointAndEdgeOccupancy[twoSegV.length + j]? = some occ ∧
        ∀ c, c ∈ occ ↔ ∃ ix iy iz,
          InIdxBox (crossIndex.locateVoxelAxisIndex ((a0.cmin b0).cmin (a1.cmin b1)))
            (crossIndex.locateVoxelAxisIndex ((a0.cmax b0).cmax (a1.cmax b1))) ix iy iz ∧
          c = crossIndex.linearIndex32 ix iy iz) ∧
    (∀ ix iy iz : Int, crossIndex.linearIndex32 ix iy iz =
      wrap32 (ix + iy * crossIndex.voxelCount.x
        + iz * (crossIndex.voxelCount.x * crossIndex.voxelCount.y))) ∧
    (crossIndex.voxelCount.x * crossIndex.voxelCount.y * crossIndex.voxelCount.z ≤ INT_MAX →
      ∀ ix iy iz : Int, crossIndex.inGrid ix iy iz →
        crossIndex.linearIndex32 ix iy iz =
          ix + iy * crossIndex.voxelCount.x
            + iz * (crossIndex.voxelCount.x * crossIndex.voxelCount.y))) ∧
    buildSwept32 (specExternal 1 1) wideV wideV [] [] 1 = .ok wideSweptIndex ∧
    wideSweptIndex.linearIndex32 65535 65535 1 = -1 ∧
    (∃ occ, wideSweptIndex.pointAndEdgeOccupancy[1]? = some occ ∧
      ∀ c, c ∈ occ ↔ ∃ ix iy iz,
        InIdxBox
          (wideSweptIndex.locateVoxelAxisIndex
            ((⟨131071 / 2, 131071 / 2, 3 / 2⟩ : Vec3).cmin ⟨131071 / 2, 131071 / 2, 3 / 2⟩))
          (wideSweptIndex.locateVoxelAxisIndex
            ((⟨131071 / 2, 131071 / 2, 3 / 2⟩ : Vec3).cmax ⟨131071 / 2, 131071 / 2, 3 / 2⟩))
          ix iy iz ∧
        c = wideSweptIndex.linearIndex32 ix iy iz) :=
  ⟨by decide!,
    swept_voxel_coverage (specExternal 0 0) twoSegV crossV1 twoSegE [] (3 / 2)
      crossIndex (by decide!),
    by decide!, by decide!,
    (swept_voxel_coverage (specExternal 1 1) wideV wideV [] [] 1 wideSweptIndex
      (by decide!)).1 1 ⟨131071 / 2, 131071 / 2, 3 / 2⟩ ⟨131071 / 2, 131071 / 2, 3 / 2⟩
      (by decide!) (by decide!)⟩

/-! ### The single-cell fallback in `int` arithmetic -/

theorem cellLoop32_zero (voxelCount : Idx3) (voxelCount0x1 : Int) :
    cellLoop32 voxelCount voxelCount0x1 ⟨0, 0, 0⟩ ⟨0, 0, 0⟩ = .ok [0] := by
  rw [cellLoop32_eq_of_lt _ _ _ _ (by decide) (by decide) (by decide)]
  have h : rangeIncl 0 0 = [0] := by decide
  have hw : wrap32 0 = 0 := by decide
  simp [cellList32, h, hw]

theorem insertVertices32_zero (sh : SpatialHash) :
    ∀ (ps : List Vec3) (l : List Nat) (vi : Nat),
      (∀ p ∈ ps, sh.locateVoxelIndex32 p = .ok 0) →
      insertVertices32 sh [(0, l)] ps vi = .ok [(0, l ++ List.range' vi ps.length)] := by
  intro ps
  induction ps with
  | nil =>
    intro l vi _
    simp [insertVertices32]
  | cons p ps ih =>
    intro l vi h
    have hp := h p (List.mem_cons_self _ _)
    simp only [insertVertices32, hp, voxelEmplace, if_true]
    rw [ih _ _ (fun q hq => h q (List.mem_cons_of_mem _ hq)), List.length_cons,
      List.range'_succ]
    simp

theorem insertVertices32_zero_nil (sh : SpatialHash) (V : List Vec3) (hV : V ≠ [])
    (h : ∀ p ∈ V, sh.locateVoxelIndex32 p = .ok 0) :
    insertVertices32 sh [] V 0 = .ok [(0, List.range V.length)] := by
  cases V with
  | nil => exact absurd rfl hV
  | cons p ps =>
    have hp := h p (List.mem_cons_self _ _)
    simp only [insertVertices32, hp, voxelEmplace]
    rw [insertVertices32_zero sh ps _ _ (fun q hq => h q (List.mem_cons_of_mem _ hq)),
      List.length_cons, List.range_eq_range', List.range'_succ]
    simp

theorem staticEdgeCells32_zero {g : SpatialHash} {vvai : List Idx3} {e : Nat × Nat}
    {y : List Int} (hz : ∀ a ∈ vvai, a = (⟨0, 0, 0⟩ : Idx3))
    (h : staticEdgeCells32 g vvai e = .ok y) : y = [0] := by
  unfold staticEdgeCells32 at h
  cases h0 : getE vvai e.1 with
  | error err => simp [h0] at h
  | ok a0 =>
    cases h1 : getE vvai e.2 with
    | error err => simp [h0, h1] at h
    | ok a1 =>
      simp only [h0, h1] at h
      rw [hz a0 (getE_mem h0), hz a1 (getE_mem h1)] at h
      have e : (⟨0, 0, 0⟩ : Idx3).cmin ⟨0, 0, 0⟩ = ⟨0, 0, 0⟩ := by decide
      have e' : (⟨0, 0, 0⟩ : Idx3).cmax ⟨0, 0, 0⟩ = ⟨0, 0, 0⟩ := by decide
      rw [e, e', cellLoop32_zero] at h
      exact (Except.ok.inj h).symm

theorem staticFaceCells32_zero {g : SpatialHash} {vvai : List Idx3} {f : Nat × Nat × Nat}
    {y : List Int} (hz : ∀ a ∈ vvai, a = (⟨0, 0, 0⟩ : Idx3))
    (h : staticFaceCells32 g vvai f = .ok y) : y = [0] := by
  unfold staticFaceCells32 at h
  cases h0 : getE vvai f.1 with
  | error err => simp [h0] at h
  | ok a0 =>
    cases h1 : getE vvai f.2.1 with
    | error err => simp [h0, h1] at h
    | ok a1 =>
      simp only [h0, h1] at h
      rw [hz a0 (getE_mem h0), hz a1 (getE_mem h1)] at h
      have e : (⟨0, 0, 0⟩ : Idx3).cmin ⟨0, 0, 0⟩ = ⟨0, 0, 0⟩ := by decide
      have e' : (⟨0, 0, 0⟩ : Idx3).cmax ⟨0, 0, 0⟩ = ⟨0, 0, 0⟩ := by decide
      rw [e, e', e, e', cellLoop32_zero] at h
      exact (Except.ok.inj h).symm

theorem sweptEdgeCells32_zero {g : SpatialHash} {mins maxs : List Idx3} {e : Nat × Nat}
    {y : List Int} (hmin : ∀ a ∈ mins, a = (⟨0, 0, 0⟩ : Idx3))
    (hmax : ∀ a ∈ maxs, a = (⟨0, 0, 0⟩ : Idx3))
    (h : sweptEdgeCells32 g mins maxs e = .ok y) : y = [0] := by
  unfold sweptEdgeCells32 at h
  cases h0 : getVAI mins maxs e.1 with
  | error err => simp [h0] at h
  | ok a0 =>
    cases h1 : getVAI mins maxs e.2 with
    | error err => simp [h0, h1] at h
    | ok a1 =>
      simp only [h0, h1] at h
      rw [getVAI_zero hmin hmax h0, getVAI_zero hmin hmax h1] at h
      have e : (⟨0, 0, 0⟩ : Idx3).cmin ⟨0, 0, 0⟩ = ⟨0, 0, 0⟩ := by decide
      have e' : (⟨0, 0, 0⟩ : Idx3).cmax ⟨0, 0, 0⟩ = ⟨0, 0, 0⟩ := by decide
      simp only [e, e', cellLoop32_zero] at h
      exact (Except.ok.inj h).symm

theorem sweptFaceCells32_zero {g : SpatialHash} {mins maxs : List Idx3} {f : Nat × Nat × Nat}
    {y : List Int} (hmin : ∀ a ∈ mins, a = (⟨0, 0, 0⟩ : Idx3))
    (hmax : ∀ a ∈ maxs, a = (⟨0, 0, 0⟩ : Idx3))
    (h : sweptFaceCells32 g mins maxs f = .ok y) : y = [0] := by
  unfold sweptFaceCells32 at h
  cases h0 : getVAI mins maxs f.1 with
  | error err => simp [h0] at h
  | ok a0 =>
    cases h1 : getVAI mins maxs f.2.1 with
    | error err => simp [h0, h1] at h
    | ok a1 =>
      cases h2 : getVAI mins maxs f.2.2 with
      | error err => simp [h0, h1, h2] at h
      | ok a2 =>
        simp only [h0, h1, h2] at h
        rw [getVAI_zero hmin hmax h0, getVAI_zero hmin hmax h1,
          getVAI_zero hmin hmax h2] at h
        have e : (⟨0, 0, 0⟩ : Idx3).cmin ⟨0, 0, 0⟩ = ⟨0, 0, 0⟩ := by decide
        have e' : (⟨0, 0, 0⟩ : Idx3).cmax ⟨0, 0, 0⟩ = ⟨0, 0, 0⟩ := by decide
        simp only [e, e', cellLoop32_zero] at h
        exact (Except.ok.inj h).symm

/-- In a grid where the fallback of `sizeGrid32` triggered, every point of the
box is located, also after the cast, in the cell `(0, 0, 0)`, which passes the
bounds assertion and has linear index 0. -/
theorem fallback32_locate {sh : SpatialHash} {s : ℚ} (hrule : GridRule32 sh s)
    (hf : FallbackTriggers32 sh.leftBottomCorner sh.rightTopCorner s)
    (hpos : 0 < (sh.rightTopCorner.sub sh.leftBottomCorner).maxCoeff)
    (p : Vec3) (hp : InBox sh p) :
    sh.locateVoxelAxisIndex p = ⟨0, 0, 0⟩ ∧ sh.locateVoxelAxisIndex32 p = ⟨0, 0, 0⟩ ∧
      sh.locateVoxelIndex32 p = .ok 0 := by
  obtain ⟨hcount, hinv⟩ := hrule.1 hf
  have hz := locate_eq_zero_of_fallback sh p hinv hpos hp
  have h32 : sh.locateVoxelAxisIndex32 p = ⟨0, 0, 0⟩ := by
    have e : sh.locateVoxelAxisIndex32 p = (sh.locateVoxelAxisIndex p).castInt := rfl
    rw [e, hz]
    decide
  refine ⟨hz, h32, ?_⟩
  unfold SpatialHash.locateVoxelIndex32 SpatialHash.voxelAxisIndex2VoxelIndex32
  simp only [h32]
  have hin : sh.inGrid 0 0 0 := by
    unfold SpatialHash.inGrid
    rw [hcount]
    decide
  rw [if_pos hin, SpatialHash.linearIndex32_eq]
  have hw : wrap32 0 = 0 := by decide
  simp [hw]

theorem fallback_of_build32_ok (ext : External) (V V0 V1 : List Vec3) (E : List (Nat × Nat))
    (F : List (Nat × Nat × Nat)) (voxelSize : ℚ) :
    (∀ sh, build32 ext V E F voxelSize = .ok sh →
      FallbackTriggers32 sh.leftBottomCorner sh.rightTopCorner
        (if voxelSize ≤ 0 then suggestGoodVoxelSize ext V E F 0 else voxelSize) →
      0 < (sh.rightTopCorner.sub sh.leftBottomCorner).maxCoeff →
      sh.voxelCount = ⟨1, 1, 1⟩ ∧
      (∀ p, InBox sh p → sh.locateVoxelAxisIndex32 p = ⟨0, 0, 0⟩) ∧
      (∀ v ∈ V, sh.locateVoxelAxisIndex32 v = ⟨0, 0, 0⟩ ∧ sh.locateVoxelIndex32 v = .ok 0) ∧
      sh.voxel = [(0, List.range (V.length + E.length + F.length))]) ∧
    (∀ sh, buildSwept32 ext V0 V1 E F voxelSize = .ok sh →
      FallbackTriggers32 sh.leftBottomCorner sh.rightTopCorner
        (if voxelSize ≤ 0 then suggestGoodVoxelSizeSwept ext V0 V1 E F 0 else voxelSize) →
      0 < (sh.rightTopCorner.sub sh.leftBottomCorner).maxCoeff →
      sh.voxelCount = ⟨1, 1, 1⟩ ∧
      (∀ p, InBox sh p → sh.locateVoxelAxisIndex32 p = ⟨0, 0, 0⟩) ∧
      (∀ v ∈ V0 ++ V1, sh.locateVoxelAxisIndex32 v = ⟨0, 0, 0⟩) ∧
      sh.pointAndEdgeOccupancy = List.replicate (V0.length + E.length) [0] ∧
      sh.voxel = [(0, List.range (V0.length + E.length + F.length))]) := by
  constructor
  · intro sh h hf hpos
    obtain ⟨voxel0, le, lf, h3, h4, hext, hrule, _, _, hv, hle, hlf, hvox⟩ := build32_shape h
    have hloc := fallback32_locate hrule hf hpos
    have hV : ∀ v ∈ V, InBox sh v := isExtremes_inBox hext
    refine ⟨(hrule.1 hf).1, fun p hp => (hloc p hp).2.1,
      fun v hv' => (hloc v (hV v hv')).2, ?_⟩
    have hz : ∀ a ∈ V.map sh.locateVoxelAxisIndex, a = (⟨0, 0, 0⟩ : Idx3) := by
      intro a ha
      obtain ⟨v, hv', hva⟩ := List.mem_map.mp ha
      rw [← hva]
      exact (hloc v (hV v hv')).1
    have hne : V ≠ [] := by
      intro hnil
      obtain ⟨_, ⟨⟨v, hv', _⟩, _⟩, _⟩ := hext
      rw [hnil] at hv'
      simp at hv'
    have hvox0 : voxel0 = [(0, List.range V.length)] := by
      rw [insertVertices32_zero_nil sh V hne (fun p hp => (hloc p (hV p hp)).2.2)] at hv
      exact (Except.ok.inj hv).symm
    have hle' := forEachM_const hle (fun x _ y hy => staticEdgeCells32_zero hz hy)
    have hlf' := forEachM_const hlf (fun x _ y hy => staticFaceCells32_zero hz hy)
    rw [hvox, hvox0, hle', hlf', h3, h4, insertLocs_zero, range_append_range',
      insertLocs_zero, range_append_range']
  · intro sh h hf hpos
    obtain ⟨ov, oe, lf, hlen, h3, h4, hext, hrule, _, hov, hoe, hlf, hocc, hvox⟩ :=
      buildSwept32_shape h
    have hloc := fallback32_locate hrule hf hpos
    have hV : ∀ v ∈ V0 ++ V1, InBox sh v := isExtremes_inBox hext
    refine ⟨(hrule.1 hf).1, fun p hp => (hloc p hp).2.1,
      fun v hv' => (hloc v (hV v hv')).2.1, ?_⟩
    have hmin : ∀ a ∈ vertexMinVAI sh V0 V1, a = (⟨0, 0, 0⟩ : Idx3) := by
      intro a ha
      obtain ⟨x, hx, y, hy, hxy⟩ := mem_zipWith_elim _ V0 V1 a ha
      rw [hxy, (hloc x (hV x (List.mem_append_left _ hx))).1,
        (hloc y (hV y (List.mem_append_right _ hy))).1]
      decide
    have hmax : ∀ a ∈ vertexMaxVAI sh V0 V1, a = (⟨0, 0, 0⟩ : Idx3) := by
      intro a ha
      obtain ⟨x, hx, y, hy, hxy⟩ := mem_zipWith_elim _ V0 V1 a ha
      rw [hxy, (hloc x (hV x (List.mem_append_left _ hx))).1,
        (hloc y (hV y (List.mem_append_right _ hy))).1]
      decide
    have hov' := forEachM_const hov (fun x hx y hy => by
      have h1 := hmin x.1 (List.of_mem_zip hx).1
      have h2 := hmax x.2 (List.of_mem_zip hx).2
      have hy' : cellLoop32 sh.voxelCount sh.voxelCount0x1 x.1 x.2 = .ok y := hy
      rw [h1, h2, cellLoop32_zero] at hy'
      exact (Except.ok.inj hy').symm)
    have hzl : (List.zip (vertexMinVAI sh V0 V1) (vertexMaxVAI sh V0 V1)).length
        = V0.length := by
      rw [List.length_zip, length_vertexMinVAI sh V0 V1 hlen,
        length_vertexMaxVAI sh V0 V1 hlen]
      simp
    rw [hzl] at hov'
    have hoe' := forEachM_const hoe (fun x _ y hy => sweptEdgeCells32_zero hmin hmax hy)
    have hlf' := forEachM_const hlf (fun x _ y hy => sweptFaceCells32_zero hmin hmax hy)
    have hocc' : sh.pointAndEdgeOccupancy = List.replicate (V0.length + E.length) [0] := by
      rw [hocc, hov', hoe', List.replicate_add]
    have hne : V0 ≠ [] := by
      intro hnil
      obtain ⟨_, ⟨⟨v, hv', _⟩, _⟩, _⟩ := hext
      rw [hnil] at hv' hlen
      have : V1 = [] := List.length_eq_zero.mp hlen.symm
      rw [this] at hv'
      simp at hv'
    obtain ⟨k, hk⟩ : ∃ k, V0.length + E.length = k + 1 := by
      cases V0 with
      | nil => exact absurd rfl hne
      | cons v vs => exact ⟨vs.length + E.length, by simp [List.length_cons]; omega⟩
    refine ⟨hocc', ?_⟩
    rw [hvox, ← hocc, hocc', hlf', h4, hk, insertLocs_zero_nil, insertLocs_zero,
      range_append_range']

/-- C10. The single-cell fallback preserves correctness, in `int` arithmetic.
For a well-formed mesh whose bounding corners are `lb`, `rt`: whenever the
fallback triggers (the test `voxelCount.minCoeff() <= 0` of the build succeeds
on the cast count) and the largest extent `max(range)` is positive, the build
(static or swept) returns an index with these corners and the single cell
`(1, 1, 1)`, in which every point of the box `[lb, rt]`, hence every input
vertex, has voxel-axis index `(0,0,0)` and linear index 0, and every vertex,
edge and face is stored in the one cell with linear index 0 (in the swept build
every occupancy list is `[0]`). The test succeeds exactly when the voxel size
in force is zero or the count `ceil(range * (1/s))` of some axis is `<= 0` or
exceeds `INT_MAX`, so that its cast to `int` overflows. -/
theorem single_cell_fallback (ext : External) (V V0 V1 : List Vec3) (E : List (Nat × Nat))
    (F : List (Nat × Nat × Nat)) (voxelSize : ℚ) :
    (∀ lb rt, colwiseMinCoeff V = .ok lb → colwiseMaxCoeff V = .ok rt →
      (castCeilCount (rt.sub lb)
        (if voxelSize ≤ 0 then suggestGoodVoxelSize ext V E F 0 else voxelSize)).minCoeff ≤ 0 →
      0 < (rt.sub lb).maxCoeff → MeshInRange V.length E F →
      ∃ sh, build32 ext V E F voxelSize = .ok sh ∧
        sh.leftBottomCorner = lb ∧ sh.rightTopCorner = rt ∧
        sh.voxelCount = ⟨1, 1, 1⟩ ∧
        (∀ p, InBox sh p → sh.locateVoxelAxisIndex32 p = ⟨0, 0, 0⟩) ∧
        (∀ v ∈ V, sh.locateVoxelAxisIndex32 v = ⟨0, 0, 0⟩ ∧
          sh.locateVoxelIndex32 v = .ok 0) ∧
        sh.voxel = [(0, List.range (V.length + E.length + F.length))]) ∧
    (∀ lb0 lb1 rt0 rt1, V0.length = V1.length →
      colwiseMinCoeff V0 = .ok lb0 → colwiseMinCoeff V1 = .ok lb1 →
      colwiseMaxCoeff V0 = .ok rt0 → colwiseMaxCoeff V1 = .ok rt1 →
      (castCeilCount ((rt0.cmax rt1).sub (lb0.cmin lb1))
        (if voxelSize ≤ 0 then suggestGoodVoxelSizeSwept ext V0 V1 E F 0
          else voxelSize)).minCoeff ≤ 0 →
      0 < ((rt0.cmax rt1).sub (lb0.cmin lb1)).maxCoeff → MeshInRange V0.length E F →
      ∃ sh, buildSwept32 ext V0 V1 E F voxelSize = .ok sh ∧
        sh.leftBottomCorner = lb0.cmin lb1 ∧ sh.rightTopCorner = rt0.cmax rt1 ∧
        sh.voxelCount = ⟨1, 1, 1⟩ ∧
        (∀ p, InBox sh p → sh.locateVoxelAxisIndex32 p = ⟨0, 0, 0⟩) ∧
        (∀ v ∈ V0 ++ V1, sh.locateVoxelAxisIndex32 v = ⟨0, 0, 0⟩) ∧
        sh.pointAndEdgeOccupancy = List.replicate (V0.length + E.length) [0] ∧
        sh.voxel = [(0, List.range (V0.length + E.length + F.length))]) ∧
    (∀ (lb rt : Vec3) (s : ℚ),
      (castCeilCount (rt.sub lb) s).minCoeff ≤ 0 ↔
        (s = 0 ∨
          (⌈(rt.x - lb.x) * (1 / s)⌉ ≤ 0 ∨ INT_MAX < ⌈(rt.x - lb.x) * (1 / s)⌉) ∨
          (⌈(rt.y - lb.y) * (1 / s)⌉ ≤ 0 ∨ INT_MAX < ⌈(rt.y - lb.y) * (1 / s)⌉) ∨
          (⌈(rt.z - lb.z) * (1 / s)⌉ ≤ 0 ∨ INT_MAX < ⌈(rt.z - lb.z) * (1 / s)⌉))) := by
  refine ⟨?_, ?_, fun lb rt s => castCeilCount_minCoeff lb rt s⟩
  · intro lb rt hlb hrt hc hpos hmesh
    have hf := (castCeilCount_minCoeff lb rt _).mp hc
    obtain ⟨g, hg⟩ := sizeGrid32_total lb rt _ V.length E.length (fun _ => ne_of_gt hpos)
    obtain ⟨h1, h2, _, _, _, _, hrule, _⟩ := sizeGrid32_ok hg
    have hext : IsExtremes g.leftBottomCorner g.rightTopCorner V := by
      rw [h1, h2]
      exact colwise_isExtremes hlb hrt
    have hidx : ∀ p ∈ V, ∃ k, g.locateVoxelIndex32 p = .ok k := fun p hp =>
      ⟨0, (fallback32_locate hrule (by rw [h1, h2]; exact hf) (by rw [h1, h2]; exact hpos) p
        (isExtremes_inBox hext p hp)).2.2⟩
    obtain ⟨sh, hsh⟩ := build32_total hlb hrt hg hidx hmesh
    obtain ⟨lb', rt', g', _, _, _, hlb', hrt', hg', _, _, _, hshg⟩ := build32_ok hsh
    have e1 : lb' = lb := by
      rw [hlb] at hlb'
      simpa using hlb'.symm
    have e2 : rt' = rt := by
      rw [hrt] at hrt'
      simpa using hrt'.symm
    subst e1
    subst e2
    obtain ⟨h1', h2', _⟩ := sizeGrid32_ok hg'
    have hl : sh.leftBottomCorner = lb' := by
      rw [hshg]
      exact h1'
    have hr : sh.rightTopCorner = rt' := by
      rw [hshg]
      exact h2'
    refine ⟨sh, hsh, hl, hr, ?_⟩
    exact (fallback_of_build32_ok ext V V0 V1 E F voxelSize).1 sh hsh
      (by rw [hl, hr]; exact hf) (by rw [hl, hr]; exact hpos)
  · intro lb0 lb1 rt0 rt1 hlen hlb0 hlb1 hrt0 hrt1 hc hpos hmesh
    have hf := (castCeilCount_minCoeff (lb0.cmin lb1) (rt0.cmax rt1) _).mp hc
    obtain ⟨g, hg⟩ := sizeGrid32_total (lb0.cmin lb1) (rt0.cmax rt1) _ V0.length E.length
      (fun _ => ne_of_gt hpos)
    obtain ⟨_, _, _, _, _, _, hrule, _⟩ := sizeGrid32_ok hg
    have hends : LoopEnds g.voxelCount := by
      have := (hrule.1 (by
        obtain ⟨h1, h2, _⟩ := sizeGrid32_ok hg
        rw [h1, h2]
        exact hf)).1
      rw [this]
      decide
    obtain ⟨sh, hsh⟩ := buildSwept32_total hlen hlb0 hlb1 hrt0 hrt1 hg hends hmesh
    obtain ⟨a0, a1, b0, b1, g', _, _, _, _, ha0, ha1, hb0, hb1, hg', _, _, _, hshg⟩ :=
      buildSwept32_ok hsh
    have e1 : a0 = lb0 := by
      rw [hlb0] at ha0
      simpa using ha0.symm
    have e2 : a1 = lb1 := by
      rw [hlb1] at ha1
      simpa using ha1.symm
    have e3 : b0 = rt0 := by
      rw [hrt0] at hb0
      simpa using hb0.symm
    have e4 : b1 = rt1 := by
      rw [hrt1] at hb1
      simpa using hb1.symm
    subst e1
    subst e2
    subst e3
    subst e4
    obtain ⟨h1, h2, _⟩ := sizeGrid32_ok hg'
    have hl : sh.leftBottomCorner = a0.cmin a1 := by
      rw [hshg]
      exact h1
    have hr : sh.rightTopCorner = b0.cmax b1 := by
      rw [hshg]
      exact h2
    refine ⟨sh, hsh, hl, hr, ?_⟩
    exact (fallback_of_build32_ok ext V V0 V1 E F voxelSize).2 sh hsh
      (by rw [hl, hr]; exact hf) (by rw [hl, hr]; exact hpos)

/-- Witness of C10: the static build of the edge `hugeV` with voxel size 1, where
the fallback triggers because the count `10^10` overflows the cast to `int`; and
the swept build of the flat triangle at rest, where it triggers because the
count along `z` is zero. -/
theorem single_cell_fallback_witness :
    ((castCeilCount
        ((⟨10000000000, 10000000000, 10000000000⟩ : Vec3).sub ⟨0, 0, 0⟩) 1).minCoeff ≤ 0 ∧
      ¬ FallbackTriggers ⟨0, 0, 0⟩ ⟨10000000000, 10000000000, 10000000000⟩ 1 ∧
      MeshInRange hugeV.length [(0, 1)] [] ∧
      ∃ sh, build32 (specExternal 1 1) hugeV [(0, 1)] [] 1 = .ok sh ∧
        sh.leftBottomCorner = ⟨0, 0, 0⟩ ∧
        sh.rightTopCorner = ⟨10000000000, 10000000000, 10000000000⟩ ∧
        sh.voxelCount = ⟨1, 1, 1⟩ ∧
        (∀ p, InBox sh p → sh.locateVoxelAxisIndex32 p = ⟨0, 0, 0⟩) ∧
        (∀ v ∈ hugeV, sh.locateVoxelAxisIndex32 v = ⟨0, 0, 0⟩ ∧
          sh.locateVoxelIndex32 v = .ok 0) ∧
        sh.voxel = [(0, List.range (hugeV.length + [((0 : Nat), (1 : Nat))].length
          + ([] : List (Nat × Nat × Nat)).length))]) ∧
    (buildSwept32 (specExternal 0 0) flatTriV flatTriV triE triF 1 = .ok flatTriIndex ∧
      ∃ sh, buildSwept32 (specExternal 0 0) flatTriV flatTriV triE triF 1 = .ok sh ∧
        sh.leftBottomCorner = (⟨0, 0, 0⟩ : Vec3).cmin ⟨0, 0, 0⟩ ∧
        sh.rightTopCorner = (⟨2, 2, 0⟩ : Vec3).cmax ⟨2, 2, 0⟩ ∧
        sh.voxelCount = ⟨1, 1, 1⟩ ∧
        (∀ p, InBox sh p → sh.locateVoxelAxisIndex32 p = ⟨0, 0, 0⟩) ∧
        (∀ v ∈ flatTriV ++ flatTriV, sh.locateVoxelAxisIndex32 v = ⟨0, 0, 0⟩) ∧
        sh.pointAndEdgeOccupancy = List.replicate (flatTriV.length + triE.length) [0] ∧
        sh.voxel = [(0, List.range (flatTriV.length + triE.length + triF.length))]) :=
  ⟨⟨by decide!, by decide!, by decide!,
      (single_cell_fallback (specExternal 1 1) hugeV [] [] [(0, 1)] [] 1).1
        ⟨0, 0, 0⟩ ⟨10000000000, 10000000000, 10000000000⟩ (by decide!) (by decide!)
        (by decide!) (by decide!) (by decide!)⟩,
    ⟨by decide!,
      (single_cell_fallback (specExternal 0 0) [] flatTriV flatTriV triE triF 1).2.1
        ⟨0, 0, 0⟩ ⟨0, 0, 0⟩ ⟨2, 2, 0⟩ ⟨2, 2, 0⟩ rfl (by decide!) (by decide!) (by decide!)
        (by decide!) (by decide!) (by decide!) (by decide!)⟩⟩

end ipc
